import Mathlib

/-!
The AWS resource suppliers of driftctl.

A shallow embedding of the supplier pipeline of `pkg/remote/aws`: the
classification of listing errors (`aws_error_handler.go`) and the `Resources()`
method of the suppliers, together with theorems about what they return, which
alerts they send and which calls they make.

Conventions of the embedding.

* A Go `error` is an `Option GoError` (`none` is `nil`).
* A Go slice whose nil-ness is observable (the result of `Resources()`) is an
  `Option (List _)`: `none` is the nil slice, `some []` the empty non-nil one.
* Mutable collaborators (alert sink, runner queue) are threaded through an
  explicit `State`; every remote call, `Wait()` and `Deserialize` is also
  written to `State.trace` together with what it answered.
* Remote clients, state reader, deserializer and the runner's `Wait()` are
  parameters of a supplier (its struct fields).
-/

namespace Driftctl

/-! ## Errors -/

/-- Error values a supplier can meet. `requestFailure` is a value implementing
`awserr.RequestFailure` (as built by `awserr.NewRequestFailure`), `awsError` an
`awserr.Error` that carries no HTTP status, `plain` any other Go error. -/
inductive GoError where
  | requestFailure (code message : String) (statusCode : Int) (requestID : String)
  | awsError (code message : String)
  | plain (message : String)
  deriving DecidableEq, Repr

/-- Go `error` interface value; `none` is `nil`. -/
abbrev error := Option GoError

/-- The type assertion `err.(awserr.RequestFailure)` followed by `StatusCode()`:
the status code when the assertion succeeds, `none` when it does not. -/
def RequestFailure.StatusCode : error → Option Int
  | some (.requestFailure _ _ statusCode _) => some statusCode
  | _ => none

/-! ## Alert sink -/

/-- Alert as declared by package `alerter` and used by the handler and the tests:
`alerter.Alert{Message, ShouldIgnoreResource}`. -/
structure Alert where
  Message : String
  ShouldIgnoreResource : Bool
  deriving DecidableEq, Repr

/-- Modelled from the spec: the alert sink of package `alerter`, whose source is
not part of the files at hand. Its state is "a mapping from resource type to an
ordered sequence of alerts"; a type without entry maps to the empty sequence. -/
structure Alerter where
  alerts : String → List Alert

/-- Modelled from the spec: `alerter.NewAlerter()`, a sink without any entry. -/
def NewAlerter : Alerter := ⟨fun _ => []⟩

/-- Modelled from the spec: `SendAlert(resourceType, Alert)` is append-only, without
deduplication; within one type the append order is the call order. -/
def Alerter.SendAlert (a : Alerter) (key : String) (alert : Alert) : Alerter :=
  ⟨fun k => if k = key then a.alerts k ++ [alert] else a.alerts k⟩

/-- Modelled from the spec: `Retrieve()` returns the mapping from resource type to
the alerts sent for it. -/
def Alerter.Retrieve (a : Alerter) : String → List Alert := a.alerts

/-! ## Listing error handler (`aws_error_handler.go`) -/

/-- The function `handleListAwsErrorWithMessage`. Returns `handled` and the alert
sink after the call. `fmt.Sprintf` with `%s` verbs on strings is concatenation;
the debug log line has no effect on the state modelled here. -/
def handleListAwsErrorWithMessage (err : error) (typ : String) (alertr : Alerter)
    (forbiddenTyp : String) : Bool × Alerter :=
  match RequestFailure.StatusCode err with
  | some statusCode =>
    if statusCode = 403 then
      let message := "Ignoring " ++ typ ++ " from drift calculation: Listing " ++ typ ++ " is forbidden."
      let message :=
        if forbiddenTyp ≠ "" then
          "Ignoring " ++ typ ++ " from drift calculation. Listing " ++ forbiddenTyp ++ " is forbidden."
        else message
      (true, alertr.SendAlert typ { Message := message, ShouldIgnoreResource := true })
    else (false, alertr)
  | none => (false, alertr)

/-- The function `handleListAwsError`. -/
def handleListAwsError (err : error) (typ : String) (alertr : Alerter) : Bool × Alerter :=
  handleListAwsErrorWithMessage err typ alertr ""

/-- An error is "forbidden" when it is an `awserr.RequestFailure` with status 403. -/
def isForbidden (err : error) : Bool :=
  match err with
  | some (.requestFailure _ _ statusCode _) => statusCode == 403
  | _ => false

/-- The alert message the handler builds for `typ` and `forbiddenTyp`. -/
def forbiddenMessage (typ forbiddenTyp : String) : String :=
  if forbiddenTyp = "" then
    "Ignoring " ++ typ ++ " from drift calculation: Listing " ++ typ ++ " is forbidden."
  else
    "Ignoring " ++ typ ++ " from drift calculation. Listing " ++ forbiddenTyp ++ " is forbidden."

/-- The alert the handler sends for `typ` and `forbiddenTyp`. -/
def forbiddenAlert (typ forbiddenTyp : String) : Alert :=
  { Message := forbiddenMessage typ forbiddenTyp, ShouldIgnoreResource := true }

/-! ## Resource types

The constants of package `pkg/resource/aws`; their values are the ones the tests
of the suppliers expect as alert keys. -/

def AwsDbSubnetGroupResourceType : String := "aws_db_subnet_group"
def AwsIamUserResourceType : String := "aws_iam_user"
def AwsIamUserPolicyResourceType : String := "aws_iam_user_policy"
def AwsIamUserPolicyAttachmentResourceType : String := "aws_iam_user_policy_attachment"
def AwsLambdaFunctionResourceType : String := "aws_lambda_function"
def AwsRoute53RecordResourceType : String := "aws_route53_record"
def AwsRoute53ZoneResourceType : String := "aws_route53_zone"
def AwsS3BucketResourceType : String := "aws_s3_bucket"
def AwsS3BucketAnalyticsConfigurationResourceType : String := "aws_s3_bucket_analytics_configuration"
def AwsS3BucketInventoryResourceType : String := "aws_s3_bucket_inventory"
def AwsS3BucketMetricResourceType : String := "aws_s3_bucket_metric"

/-! ## Values, state reader, deserializer, runner -/

/-- The normalized value `cty.Value` returned by the state reader. The suppliers
never look inside a value, so only the zero value `cty.NilVal` is told apart from
a value carrying attributes. -/
inductive CtyValue where
  | NilVal
  | object (attrs : List (String × String))
  deriving DecidableEq, Repr

/-- The struct `terraform.ReadResourceArgs`; the `Attributes` map is kept as the
list of its entries in the order the source writes them. -/
structure ReadResourceArgs where
  Ty : String
  ID : String
  Attributes : List (String × String)
  deriving DecidableEq, Repr

/-- The interface `terraform.ResourceReader`: `ReadResource` answers with a value
or with an error. -/
structure ResourceReader where
  ReadResource : ReadResourceArgs → Except GoError CtyValue

/-- One entry of the `LambdaFunction`, `Queue` or `Topic` list of a bucket
notification. -/
structure NotificationTarget where
  Id : String
  Arn : String
  deriving DecidableEq, Repr

/-- The resource `aws.AwsS3BucketNotification`, with the three optional lists the
notification supplier inspects. -/
structure AwsS3BucketNotification where
  Id : String
  LambdaFunction : Option (List NotificationTarget)
  Queue : Option (List NotificationTarget)
  Topic : Option (List NotificationTarget)
  deriving DecidableEq, Repr

/-- A value of interface `resource.Resource`: a bucket notification or a resource
of any other concrete type, of which only type tag and identifier are kept. -/
inductive Resource where
  | s3BucketNotification (res : AwsS3BucketNotification)
  | other (typ id : String)
  deriving DecidableEq, Repr

/-- What `Resources()` returns: the resource slice (`none` is the nil slice) and
the error. -/
abbrev Result := Option (List Resource) × error

/-- The interface `deserializer.CTYDeserializer`. -/
structure CTYDeserializer where
  Deserialize : List CtyValue → Result

/-- A task handed to the runner: the closure `func() (cty.Value, error)`. -/
abbrev Task := Unit → CtyValue × error

/-- The runner `terraform.ParallelResourceReader` as a supplier sees it: `Wait()`
answers for the tasks submitted so far with the collected values and an error.
How it schedules the tasks is left open. -/
structure ParallelResourceReader where
  Wait : List Task → List CtyValue × error

/-- Modelled from the spec: a runner that runs the submitted tasks one after the
other in submission order and returns "either the full collected set of values or
the first hard error encountered". -/
def sequentialWait : List Task → List CtyValue × error
  | [] => ([], none)
  | task :: rest =>
    match task () with
    | (_, some err) => ([], some err)
    | (val, none) =>
      match sequentialWait rest with
      | (_, some err) => ([], some err)
      | (vals, none) => (val :: vals, none)

/-- Modelled from the spec: the runner built by `terraform.NewParallelResourceReader`
with the sequential schedule of `sequentialWait`. -/
def NewParallelResourceReader : ParallelResourceReader := ⟨sequentialWait⟩

/-! ## Trace and state -/

/-- The remote API calls the suppliers make, with the part of the input that
varies. `ListHostedZones` stands for the call made by `listAwsRoute53Zones` and
`GetBucketLocation` for the one made by `readBucketRegion`. -/
inductive RemoteCall where
  | DescribeDBSubnetGroupsPages
  | ListUsersPages
  | ListUserPoliciesPages (userName : String)
  | ListAttachedUserPoliciesPages (userName : String)
  | ListFunctionsPages
  | ListHostedZones
  | ListResourceRecordSetsPages (hostedZoneId : String)
  | ListBuckets
  | GetBucketLocation (bucket : String)
  | ListBucketAnalyticsConfigurations (region bucket : String) (continuationToken : Option String)
  | ListBucketInventoryConfigurations (region bucket : String) (continuationToken : Option String)
  | ListBucketMetricsConfigurations (region bucket : String) (continuationToken : Option String)
  deriving DecidableEq, Repr

/-- What one `Resources()` invocation did, in order: remote calls with the error
they returned, `Wait()` with its answer, `Deserialize` with input and answer. -/
inductive Event where
  | call (c : RemoteCall) (err : error)
  | wait (values : List CtyValue) (err : error)
  | deserialize (values : List CtyValue) (res : Result)
  deriving DecidableEq, Repr

/-- The mutable surroundings of a supplier: the alert sink, the tasks submitted to
its runner with `Run` (in submission order) and the trace. -/
structure State where
  alerter : Alerter
  tasks : List Task
  trace : List Event

/-- A fresh alert sink, a fresh runner, an empty trace. -/
def State.fresh : State := ⟨NewAlerter, [], []⟩

/-- Record a remote call and the error it returned. -/
def State.call (st : State) (c : RemoteCall) (err : error) : State :=
  { st with trace := st.trace ++ [Event.call c err] }

/-- The call `s.runner.Run(task)`. -/
def State.Run (st : State) (task : Task) : State :=
  { st with tasks := st.tasks ++ [task] }

/-- The call `s.runner.Wait()`. -/
def State.Wait (st : State) (runner : ParallelResourceReader) : (List CtyValue × error) × State :=
  let r := runner.Wait st.tasks
  (r, { st with trace := st.trace ++ [Event.wait r.1 r.2] })

/-- The call `s.deserializer.Deserialize(values)`. -/
def State.Deserialize (st : State) (d : CTYDeserializer) (values : List CtyValue) : Result × State :=
  let r := d.Deserialize values
  (r, { st with trace := st.trace ++ [Event.deserialize values r] })

/-- The call `handleListAwsErrorWithMessage(err, typ, s.alerter, forbiddenTyp)` on
the sink of the state. -/
def State.handleWithMessage (st : State) (err : error) (typ forbiddenTyp : String) : Bool × State :=
  let r := handleListAwsErrorWithMessage err typ st.alerter forbiddenTyp
  (r.1, { st with alerter := r.2 })

/-- The call `handleListAwsError(err, typ, s.alerter)` on the sink of the state. -/
def State.handle (st : State) (err : error) (typ : String) : Bool × State :=
  let r := handleListAwsError err typ st.alerter
  (r.1, { st with alerter := r.2 })

/-! ## Paginated listing

The `...Pages` methods of the AWS SDK hand every page to a callback together with
a `lastPage` flag, stop when the callback answers `false`, and return an
error. -/

/-- What a client answers to one `...Pages` call: the pages it delivers, each with
the `lastPage` flag it passes, and the error it returns at the end. -/
structure Pager (α : Type) where
  pages : List (List α × Bool)
  err : error

/-- Deliver pages to the callback `fn` (which updates the variable it closes over
and answers whether to continue) until it answers `false`. -/
def Pager.deliver {α σ : Type} (fn : σ → List α → Bool → σ × Bool) : List (List α × Bool) → σ → σ
  | [], acc => acc
  | (page, lastPage) :: rest, acc =>
    match fn acc page lastPage with
    | (acc, true) => Pager.deliver fn rest acc
    | (acc, false) => acc

/-- One `...Pages` call: the final value of the callback's variable and the error. -/
def Pager.Pages {α σ : Type} (p : Pager α) (fn : σ → List α → Bool → σ × Bool) (init : σ) : σ × error :=
  (Pager.deliver fn p.pages init, p.err)

/-- How a loop body leaves the loop: `done r` is a `return r` out of
`Resources()`, `next a` falls through to the code after the loop with the loop's
variable `a`. -/
inductive Flow (α : Type) where
  | done (r : Result)
  | next (a : α)

/-! ## DBSubnetGroupSupplier (`db_subnet_group_supplier.go`) -/

/-- The struct `rds.DBSubnetGroup`, reduced to the field the supplier reads. -/
structure DBSubnetGroup where
  DBSubnetGroupName : String
  deriving DecidableEq, Repr

/-- The part of `rdsiface.RDSAPI` the supplier calls. -/
structure RDSAPI where
  DescribeDBSubnetGroupsPages : Pager DBSubnetGroup

/-- The struct `DBSubnetGroupSupplier`; its `alerter` lives in the `State`. -/
structure DBSubnetGroupSupplier where
  reader : ResourceReader
  deserializer : CTYDeserializer
  client : RDSAPI
  runner : ParallelResourceReader

/-- The method `DBSubnetGroupSupplier.readSubnetGroup`. -/
def DBSubnetGroupSupplier.readSubnetGroup (s : DBSubnetGroupSupplier) (subnetGroup : DBSubnetGroup) :
    CtyValue × error :=
  match s.reader.ReadResource
      { ID := subnetGroup.DBSubnetGroupName, Ty := AwsDbSubnetGroupResourceType, Attributes := [] } with
  | .error err => (CtyValue.NilVal, some err)
  | .ok val => (val, none)

/-- The method `DBSubnetGroupSupplier.Resources`. -/
def DBSubnetGroupSupplier.Resources (s : DBSubnetGroupSupplier) (st : State) : Result × State :=
  match s.client.DescribeDBSubnetGroupsPages.Pages
      (fun subnetGroups resp lastPage => (subnetGroups ++ resp, !lastPage)) [] with
  | (subnetGroups, err) =>
    let st := st.call RemoteCall.DescribeDBSubnetGroupsPages err
    if err ≠ none then
      match st.handle err AwsDbSubnetGroupResourceType with
      | (handled, st) => if !handled then ((none, err), st) else ((some [], none), st)
    else
      let st := subnetGroups.foldl (fun st sub => st.Run (fun _ => s.readSubnetGroup sub)) st
      match st.Wait s.runner with
      | ((ctyValues, err), st) =>
        if err ≠ none then ((none, err), st) else st.Deserialize s.deserializer ctyValues

/-! ## IAM suppliers -/

/-- The struct `iam.User`, reduced to the field the suppliers read. -/
structure User where
  UserName : String
  deriving DecidableEq, Repr

/-- The struct `iam.AttachedPolicy`. -/
structure AttachedPolicy where
  PolicyName : String
  PolicyArn : String
  deriving DecidableEq, Repr

/-- The struct `attachedUserPolicy`: an `iam.AttachedPolicy` with the user it was
listed for. -/
structure attachedUserPolicy extends AttachedPolicy where
  Username : String
  deriving DecidableEq, Repr

/-- The part of `iamiface.IAMAPI` the suppliers call; the per-user listings are
keyed by the `UserName` of their input. -/
structure IAMAPI where
  ListUsersPages : Pager User
  ListUserPoliciesPages : String → Pager String
  ListAttachedUserPoliciesPages : String → Pager AttachedPolicy

/-- The function `listIamUsers`. -/
def listIamUsers (client : IAMAPI) : List User × error :=
  match client.ListUsersPages.Pages (fun resources res lastPage => (resources ++ res, !lastPage)) [] with
  | (resources, err) => if err ≠ none then ([], err) else (resources, none)

/-- The function `listIamUserPolicies`. -/
def listIamUserPolicies (username : String) (client : IAMAPI) : List String × error :=
  match (client.ListUserPoliciesPages username).Pages
      (fun policyNames res lastPage => (policyNames ++ res, !lastPage)) [] with
  | (policyNames, err) => if err ≠ none then ([], err) else (policyNames, none)

/-- The function `listIamUserPoliciesAttachment`. -/
def listIamUserPoliciesAttachment (username : String) (client : IAMAPI) :
    List attachedUserPolicy × error :=
  match (client.ListAttachedUserPoliciesPages username).Pages
      (fun attachedUserPolicies res lastPage =>
        (res.foldl (fun acc policy => acc ++ [{ toAttachedPolicy := policy, Username := username }])
          attachedUserPolicies, !lastPage)) [] with
  | (attachedUserPolicies, err) => if err ≠ none then ([], err) else (attachedUserPolicies, none)

/-- The struct `IamUserSupplier`; its `alerter` lives in the `State`. -/
structure IamUserSupplier where
  reader : ResourceReader
  deserializer : CTYDeserializer
  client : IAMAPI
  runner : ParallelResourceReader

/-- The method `IamUserSupplier.readRes`. -/
def IamUserSupplier.readRes (s : IamUserSupplier) (user : User) : CtyValue × error :=
  match s.reader.ReadResource
      { Ty := AwsIamUserResourceType, ID := user.UserName, Attributes := [] } with
  | .error err => (CtyValue.NilVal, some err)
  | .ok res => (res, none)

/-- The method `IamUserSupplier.Resources`. -/
def IamUserSupplier.Resources (s : IamUserSupplier) (st : State) : Result × State :=
  match listIamUsers s.client with
  | (users, err) =>
    let st := st.call RemoteCall.ListUsersPages err
    if err ≠ none then
      match st.handle err AwsIamUserResourceType with
      | (handled, st) => if !handled then ((none, err), st) else ((some [], none), st)
    else
      let results : List CtyValue := []
      if users.length > 0 then
        let st := users.foldl (fun st u => st.Run (fun _ => s.readRes u)) st
        match st.Wait s.runner with
        | ((results, err), st) =>
          if err ≠ none then ((none, err), st) else st.Deserialize s.deserializer results
      else st.Deserialize s.deserializer results

/-- The struct `IamUserPolicySupplier`; its `alerter` lives in the `State`. -/
structure IamUserPolicySupplier where
  reader : ResourceReader
  deserializer : CTYDeserializer
  client : IAMAPI
  runner : ParallelResourceReader

/-- The method `IamUserPolicySupplier.readRes`. -/
def IamUserPolicySupplier.readRes (s : IamUserPolicySupplier) (policyName : String) : CtyValue × error :=
  match s.reader.ReadResource
      { Ty := AwsIamUserPolicyResourceType, ID := policyName, Attributes := [] } with
  | .error err => (CtyValue.NilVal, some err)
  | .ok res => (res, none)

/-- The first loop of `IamUserPolicySupplier.Resources`: for each user, list the
policy names and append `userName:polName` to `policies`. -/
def IamUserPolicySupplier.listPolicies (s : IamUserPolicySupplier) :
    List User → List String → State → Flow (List String) × State
  | [], policies, st => (Flow.next policies, st)
  | user :: users, policies, st =>
    let userName := user.UserName
    match listIamUserPolicies userName s.client with
    | (policyList, err) =>
      let st := st.call (RemoteCall.ListUserPoliciesPages userName) err
      if err ≠ none then
        match st.handle err AwsIamUserPolicyResourceType with
        | (handled, st) =>
          if !handled then (Flow.done (none, err), st) else (Flow.done (some [], none), st)
      else
        IamUserPolicySupplier.listPolicies s users
          (policyList.foldl (fun policies polName => policies ++ [userName ++ ":" ++ polName]) policies) st

/-- The method `IamUserPolicySupplier.Resources`. -/
def IamUserPolicySupplier.Resources (s : IamUserPolicySupplier) (st : State) : Result × State :=
  match listIamUsers s.client with
  | (users, err) =>
    let st := st.call RemoteCall.ListUsersPages err
    if err ≠ none then
      match st.handleWithMessage err AwsIamUserPolicyResourceType AwsIamUserResourceType with
      | (handled, st) => if !handled then ((none, err), st) else ((some [], none), st)
    else
      let results : List CtyValue := []
      if users.length > 0 then
        match s.listPolicies users [] st with
        | (Flow.done r, st) => (r, st)
        | (Flow.next policies, st) =>
          let st := policies.foldl (fun st polName => st.Run (fun _ => s.readRes polName)) st
          match st.Wait s.runner with
          | ((results, err), st) =>
            if err ≠ none then ((none, err), st) else st.Deserialize s.deserializer results
      else st.Deserialize s.deserializer results

/-- The struct `IamUserPolicyAttachmentSupplier`; its `alerter` lives in the
`State`. -/
structure IamUserPolicyAttachmentSupplier where
  reader : ResourceReader
  deserializer : CTYDeserializer
  client : IAMAPI
  runner : ParallelResourceReader

/-- The method `IamUserPolicyAttachmentSupplier.readRes`. -/
def IamUserPolicyAttachmentSupplier.readRes (s : IamUserPolicyAttachmentSupplier)
    (attachedPol : attachedUserPolicy) : CtyValue × error :=
  match s.reader.ReadResource
      { Ty := AwsIamUserPolicyAttachmentResourceType,
        ID := attachedPol.PolicyName,
        Attributes := [("user", attachedPol.Username), ("policy_arn", attachedPol.PolicyArn)] } with
  | .error err => (CtyValue.NilVal, some err)
  | .ok res => (res, none)

/-- The first loop of `IamUserPolicyAttachmentSupplier.Resources`: for each user,
list the attached policies and append them to `attachedPolicies`. -/
def IamUserPolicyAttachmentSupplier.listAttachments (s : IamUserPolicyAttachmentSupplier) :
    List User → List attachedUserPolicy → State → Flow (List attachedUserPolicy) × State
  | [], attachedPolicies, st => (Flow.next attachedPolicies, st)
  | user :: users, attachedPolicies, st =>
    let userName := user.UserName
    match listIamUserPoliciesAttachment userName s.client with
    | (policyAttachmentList, err) =>
      let st := st.call (RemoteCall.ListAttachedUserPoliciesPages userName) err
      if err ≠ none then
        match st.handle err AwsIamUserPolicyAttachmentResourceType with
        | (handled, st) =>
          if !handled then (Flow.done (none, err), st)
          else
            IamUserPolicyAttachmentSupplier.listAttachments s users
              (attachedPolicies ++ policyAttachmentList) st
      else
        IamUserPolicyAttachmentSupplier.listAttachments s users
          (attachedPolicies ++ policyAttachmentList) st

/-- The method `IamUserPolicyAttachmentSupplier.Resources`. -/
def IamUserPolicyAttachmentSupplier.Resources (s : IamUserPolicyAttachmentSupplier) (st : State) :
    Result × State :=
  match listIamUsers s.client with
  | (users, err) =>
    let st := st.call RemoteCall.ListUsersPages err
    if err ≠ none then
      match st.handleWithMessage err AwsIamUserPolicyAttachmentResourceType AwsIamUserResourceType with
      | (handled, st) => if !handled then ((none, err), st) else ((some [], none), st)
    else
      let results : List CtyValue := []
      if users.length > 0 then
        match s.listAttachments users [] st with
        | (Flow.done r, st) => (r, st)
        | (Flow.next attachedPolicies, st) =>
          let st := attachedPolicies.foldl (fun st attached => st.Run (fun _ => s.readRes attached)) st
          match st.Wait s.runner with
          | ((results, err), st) =>
            if err ≠ none then ((none, err), st) else st.Deserialize s.deserializer results
      else st.Deserialize s.deserializer results

/-! ## LambdaFunctionSupplier (`lambda_function_supplier.go`) -/

/-- The struct `lambda.FunctionConfiguration`, reduced to the field the supplier
reads. -/
structure FunctionConfiguration where
  FunctionName : String
  deriving DecidableEq, Repr

/-- The part of `lambdaiface.LambdaAPI` the supplier calls. -/
structure LambdaAPI where
  ListFunctionsPages : Pager FunctionConfiguration

/-- The function `listLambdaFunctions`. -/
def listLambdaFunctions (client : LambdaAPI) : List FunctionConfiguration × error :=
  match client.ListFunctionsPages.Pages (fun functions res lastPage => (functions ++ res, !lastPage)) [] with
  | (functions, err) => if err ≠ none then ([], err) else (functions, none)

/-- The struct `LambdaFunctionSupplier`; its `alerter` lives in the `State`. -/
structure LambdaFunctionSupplier where
  reader : ResourceReader
  deserializer : CTYDeserializer
  client : LambdaAPI
  runner : ParallelResourceReader

/-- The method `LambdaFunctionSupplier.readLambda`. -/
def LambdaFunctionSupplier.readLambda (s : LambdaFunctionSupplier) (function : FunctionConfiguration) :
    CtyValue × error :=
  let name := function.FunctionName
  match s.reader.ReadResource
      { Ty := AwsLambdaFunctionResourceType, ID := name, Attributes := [("function_name", name)] } with
  | .error err => (CtyValue.NilVal, some err)
  | .ok resFunction => (resFunction, none)

/-- The method `LambdaFunctionSupplier.Resources`. -/
def LambdaFunctionSupplier.Resources (s : LambdaFunctionSupplier) (st : State) : Result × State :=
  match listLambdaFunctions s.client with
  | (functions, err) =>
    let st := st.call RemoteCall.ListFunctionsPages err
    if err ≠ none then
      match st.handle err AwsLambdaFunctionResourceType with
      | (handled, st) => if !handled then ((none, err), st) else ((some [], none), st)
    else
      let results : List CtyValue := []
      if functions.length > 0 then
        let st := functions.foldl (fun st fn => st.Run (fun _ => s.readLambda fn)) st
        match st.Wait s.runner with
        | ((results, err), st) =>
          if err ≠ none then ((none, err), st) else st.Deserialize s.deserializer results
      else st.Deserialize s.deserializer results

/-! ## Route53RecordSupplier (`route53_record_supplier.go`) -/

namespace unicode

/-- Go `unicode.ToLower`: an ASCII rune is mapped in the function itself, a capital
letter to the letter 32 code points further and every other one to itself; a rune
beyond ASCII goes through `To(LowerCase, r)`, which reads the table `CaseRanges`
of the Go library: that lookup is the parameter `toLowerCase`. -/
def ToLower (toLowerCase : Char → Char) (r : Char) : Char :=
  if r.toNat ≤ 0x7F then
    if 'A'.toNat ≤ r.toNat ∧ r.toNat ≤ 'Z'.toNat then Char.ofNat (r.toNat + ('a'.toNat - 'A'.toNat))
    else r
  else toLowerCase r

end unicode

namespace strings

/-- Go `strings.TrimPrefix`: `s` without the leading `pre` when it starts with it. -/
def TrimPrefix (s pre : String) : String :=
  if pre.data.isPrefixOf s.data then String.mk (s.data.drop pre.data.length) else s

/-- Go `strings.TrimSuffix`: `s` without the trailing `suf` when it ends with it. -/
def TrimSuffix (s suf : String) : String :=
  if suf.data.isSuffixOf s.data then String.mk (s.data.take (s.data.length - suf.data.length)) else s

/-- Go `strings.ToLower`: every rune of `s` mapped through `unicode.ToLower` (the
ASCII fast path of the Go function computes the same string). -/
def ToLower (toLowerCase : Char → Char) (s : String) : String :=
  String.mk (s.data.map (unicode.ToLower toLowerCase))

/-- Go `strings.Join`. -/
def Join (elems : List String) (sep : String) : String := sep.intercalate elems

end strings

/-- The struct `route53.HostedZone`, reduced to the fields the supplier reads. -/
structure HostedZone where
  Id : String
  Name : String
  deriving DecidableEq, Repr

/-- The struct `route53.ResourceRecordSet`, reduced to the fields the supplier
reads (`Type_` is its field `Type`); `SetIdentifier` is a pointer that may be nil. -/
structure ResourceRecordSet where
  Name : String
  Type_ : String
  SetIdentifier : Option String
  deriving DecidableEq, Repr

/-- The part of `route53iface.Route53API` the supplier calls. `ListHostedZones` is
what `listAwsRoute53Zones(client)`, a function of another file of the package,
returns; the record listing is keyed by the `HostedZoneId` of its input. -/
structure Route53API where
  ListHostedZones : List HostedZone × error
  ListResourceRecordSetsPages : String → Pager ResourceRecordSet

/-- The function `listAwsRoute53Records`. -/
def listAwsRoute53Records (client : Route53API) (zoneId : String) : List ResourceRecordSet × error :=
  match (client.ListResourceRecordSetsPages zoneId).Pages
      (fun results res lastPage => (results ++ res, !lastPage)) [] with
  | (results, err) => if err ≠ none then ([], err) else (results, none)

/-- The struct `Route53RecordSupplier`; its `alerter` lives in the `State`. The
field `toLowerCase` is no field of the Go struct: it is the lookup
`unicode.To(unicode.LowerCase, r)` of the Go library that `strings.ToLower` makes
for a rune beyond ASCII, carried here because its table is not part of the
repository. -/
structure Route53RecordSupplier where
  reader : ResourceReader
  deserializer : CTYDeserializer
  client : Route53API
  runner : ParallelResourceReader
  toLowerCase : Char → Char

/-- The method `Route53RecordSupplier.listZones`; a zone is the pair of its
trimmed id and its name. -/
def Route53RecordSupplier.listZones (s : Route53RecordSupplier) : List (String × String) × error :=
  match s.client.ListHostedZones with
  | (zones, err) =>
    if err ≠ none then ([], err)
    else
      (zones.foldl
        (fun results hostedZone =>
          results ++ [(strings.TrimPrefix hostedZone.Id "/hostedzone/", hostedZone.Name)]) [],
        none)

/-- The identifier the read task of a record asks for: the `vars` joined by `_`. -/
def Route53RecordSupplier.recordId (toLowerCase : Char → Char) (zoneId : String)
    (raw : ResourceRecordSet) : String :=
  let rawType := raw.Type_
  let rawName := raw.Name
  let rawSetIdentifier := raw.SetIdentifier
  let vars := [zoneId, strings.ToLower toLowerCase (strings.TrimSuffix rawName "."), rawType]
  let vars :=
    match rawSetIdentifier with
    | some setIdentifier => vars ++ [setIdentifier]
    | none => vars
  strings.Join vars "_"

/-- The closure `listRecordsForZone` submits for one record. -/
def Route53RecordSupplier.readRecord (s : Route53RecordSupplier) (zoneId : String)
    (raw : ResourceRecordSet) : CtyValue × error :=
  match s.reader.ReadResource
      { Ty := AwsRoute53RecordResourceType,
        ID := Route53RecordSupplier.recordId s.toLowerCase zoneId raw,
        Attributes := [] } with
  | .error err => (CtyValue.NilVal, some err)
  | .ok record => (record, none)

/-- The method `Route53RecordSupplier.listRecordsForZone`. -/
def Route53RecordSupplier.listRecordsForZone (s : Route53RecordSupplier) (zoneId _zoneName : String)
    (st : State) : error × State :=
  match listAwsRoute53Records s.client zoneId with
  | (records, err) =>
    let st := st.call (RemoteCall.ListResourceRecordSetsPages zoneId) err
    if err ≠ none then (err, st)
    else
      (none, records.foldl (fun st raw => st.Run (fun _ => s.readRecord zoneId raw)) st)

/-- The loop over the zones of `Route53RecordSupplier.Resources`. -/
def Route53RecordSupplier.listRecords (s : Route53RecordSupplier) :
    List (String × String) → State → Flow Unit × State
  | [], st => (Flow.next (), st)
  | zone :: zones, st =>
    match s.listRecordsForZone zone.1 zone.2 st with
    | (err, st) =>
      if err ≠ none then
        match st.handle err AwsRoute53RecordResourceType with
        | (handled, st) =>
          if !handled then (Flow.done (none, err), st)
          else Route53RecordSupplier.listRecords s zones st
      else Route53RecordSupplier.listRecords s zones st

/-- The method `Route53RecordSupplier.Resources`. -/
def Route53RecordSupplier.Resources (s : Route53RecordSupplier) (st : State) : Result × State :=
  match s.listZones with
  | (zones, err) =>
    let st := st.call RemoteCall.ListHostedZones err
    if err ≠ none then
      match st.handleWithMessage err AwsRoute53RecordResourceType AwsRoute53ZoneResourceType with
      | (handled, st) => if !handled then ((none, err), st) else ((some [], none), st)
    else
      match s.listRecords zones st with
      | (Flow.done r, st) => (r, st)
      | (Flow.next _, st) =>
        match st.Wait s.runner with
        | ((results, err), st) =>
          if err ≠ none then ((none, err), st) else st.Deserialize s.deserializer results

/-! ## S3 suppliers -/

/-- The struct `s3.Bucket`, reduced to the field the suppliers read. -/
structure Bucket where
  Name : String
  deriving DecidableEq, Repr

/-- One configuration of a listing (`s3.AnalyticsConfiguration`,
`s3.InventoryConfiguration`, `s3.MetricsConfiguration`), reduced to its `Id`. -/
structure Configuration where
  Id : String
  deriving DecidableEq, Repr

/-- The input of the three configuration listings. -/
structure ListConfigurationsInput where
  Bucket : String
  ContinuationToken : Option String
  deriving DecidableEq, Repr

/-- The output of the three configuration listings; `IsTruncated` and
`NextContinuationToken` are pointers that may be nil. -/
structure ListConfigurationsOutput where
  ConfigurationList : List Configuration
  IsTruncated : Option Bool
  NextContinuationToken : Option String
  deriving DecidableEq, Repr

/-- What the S3 clients handed out by the `AwsClientFactoryInterface` answer.
`readBucketRegion` is the function of that name of another file of the package,
applied to the default client; the configuration listings take the region of the
client they are sent through as first argument. -/
structure S3API where
  ListBuckets : List Bucket × error
  readBucketRegion : String → String × error
  ListBucketAnalyticsConfigurations : String → ListConfigurationsInput → Except GoError ListConfigurationsOutput
  ListBucketInventoryConfigurations : String → ListConfigurationsInput → Except GoError ListConfigurationsOutput
  ListBucketMetricsConfigurations : String → ListConfigurationsInput → Except GoError ListConfigurationsOutput

/-- Which of the three configuration suppliers: `s3_bucket_analytic_supplier.go`,
`s3_bucket_inventory_supplier.go` and `s3_bucket_metrics_supplier.go` are the same
text up to the resource type, the listing call and the names of their variables. -/
inductive S3ConfigKind where
  | analytic
  | inventory
  | metric
  deriving DecidableEq, Repr

/-- The resource type of a configuration supplier. -/
def S3ConfigKind.resourceType : S3ConfigKind → String
  | .analytic => AwsS3BucketAnalyticsConfigurationResourceType
  | .inventory => AwsS3BucketInventoryResourceType
  | .metric => AwsS3BucketMetricResourceType

/-- The listing a configuration supplier sends through the client of a region. -/
def S3ConfigKind.list (k : S3ConfigKind) (client : S3API) :
    String → ListConfigurationsInput → Except GoError ListConfigurationsOutput :=
  match k with
  | .analytic => client.ListBucketAnalyticsConfigurations
  | .inventory => client.ListBucketInventoryConfigurations
  | .metric => client.ListBucketMetricsConfigurations

/-- The trace entry of the listing of a configuration supplier. -/
def S3ConfigKind.remoteCall (k : S3ConfigKind) (region : String) (request : ListConfigurationsInput) :
    RemoteCall :=
  match k with
  | .analytic => RemoteCall.ListBucketAnalyticsConfigurations region request.Bucket request.ContinuationToken
  | .inventory => RemoteCall.ListBucketInventoryConfigurations region request.Bucket request.ContinuationToken
  | .metric => RemoteCall.ListBucketMetricsConfigurations region request.Bucket request.ContinuationToken

/-- The structs `S3BucketAnalyticSupplier`, `S3BucketInventorySupplier` and
`S3BucketMetricSupplier`; the `alerter` lives in the `State`. -/
structure S3BucketConfigSupplier where
  reader : ResourceReader
  deserializer : CTYDeserializer
  factory : S3API
  runner : ParallelResourceReader

/-- The `for` loop of `listBucket...Configuration`: request pages until one is not
truncated. The loop has no bound of its own, so the embedding counts requests down
from `fuel` and answers `none` when it runs out. -/
def S3BucketConfigSupplier.fetch (k : S3ConfigKind) (s : S3BucketConfigSupplier) (region : String) :
    Nat → ListConfigurationsInput → List Configuration → State →
      Option (Except GoError (List Configuration) × State)
  | 0, _, _, _ => none
  | fuel + 1, request, configurationList, st =>
    match k.list s.factory region request with
    | .error err => some (.error err, st.call (k.remoteCall region request) (some err))
    | .ok configurations =>
      let st := st.call (k.remoteCall region request) none
      let configurationList := configurationList ++ configurations.ConfigurationList
      if configurations.IsTruncated = some true then
        S3BucketConfigSupplier.fetch k s region fuel
          { request with ContinuationToken := configurations.NextContinuationToken }
          configurationList st
      else some (.ok configurationList, st)

/-- The closure `listBucket...Configuration` submits for one configuration. -/
def S3BucketConfigSupplier.readConfiguration (k : S3ConfigKind) (s : S3BucketConfigSupplier)
    (id region : String) : CtyValue × error :=
  match s.reader.ReadResource
      { Ty := k.resourceType, ID := id, Attributes := [("aws_region", region)] } with
  | .error err => (CtyValue.NilVal, some err)
  | .ok val => (val, none)

/-- The methods `listBucketAnalyticConfiguration`, `listBucketInventoryConfiguration`
and `listBucketMetricConfiguration`. -/
def S3BucketConfigSupplier.listBucketConfiguration (k : S3ConfigKind) (s : S3BucketConfigSupplier)
    (fuel : Nat) (name region : String) (st : State) : Option (error × State) :=
  match S3BucketConfigSupplier.fetch k s region fuel { Bucket := name, ContinuationToken := none } [] st with
  | none => none
  | some (.error err, st) => some (some err, st)
  | some (.ok configurationList, st) =>
    some (none,
      configurationList.foldl
        (fun st config =>
          let id := name ++ ":" ++ config.Id
          st.Run (fun _ => S3BucketConfigSupplier.readConfiguration k s id region)) st)

/-- The loop over the buckets of `Resources()` of a configuration supplier. -/
def S3BucketConfigSupplier.visitBuckets (k : S3ConfigKind) (s : S3BucketConfigSupplier) (fuel : Nat) :
    List Bucket → State → Option (Flow Unit × State)
  | [], st => some (Flow.next (), st)
  | bucket :: buckets, st =>
    let name := bucket.Name
    match s.factory.readBucketRegion name with
    | (region, err) =>
      let st := st.call (RemoteCall.GetBucketLocation name) err
      if err ≠ none then some (Flow.done (none, err), st)
      else if region = "" then S3BucketConfigSupplier.visitBuckets k s fuel buckets st
      else
        match S3BucketConfigSupplier.listBucketConfiguration k s fuel bucket.Name region st with
        | none => none
        | some (err, st) =>
          if err ≠ none then
            match st.handle err k.resourceType with
            | (handled, st) =>
              if !handled then some (Flow.done (none, err), st)
              else some (Flow.done (some [], none), st)
          else S3BucketConfigSupplier.visitBuckets k s fuel buckets st

/-- The method `Resources()` of a configuration supplier. -/
def S3BucketConfigSupplier.Resources (k : S3ConfigKind) (s : S3BucketConfigSupplier) (fuel : Nat)
    (st : State) : Option (Result × State) :=
  match s.factory.ListBuckets with
  | (buckets, err) =>
    let st := st.call RemoteCall.ListBuckets err
    if err ≠ none then
      match st.handleWithMessage err k.resourceType AwsS3BucketResourceType with
      | (handled, st) => if !handled then some ((none, err), st) else some ((some [], none), st)
    else
      match S3BucketConfigSupplier.visitBuckets k s fuel buckets st with
      | none => none
      | some (Flow.done r, st) => some (r, st)
      | some (Flow.next _, st) =>
        match st.Wait s.runner with
        | ((ctyVals, err), st) =>
          if err ≠ none then some ((none, err), st)
          else some (st.Deserialize s.deserializer ctyVals)

/-- The method `S3BucketAnalyticSupplier.Resources`. -/
def S3BucketAnalyticSupplier.Resources : S3BucketConfigSupplier → Nat → State → Option (Result × State) :=
  S3BucketConfigSupplier.Resources S3ConfigKind.analytic

/-- The method `S3BucketInventorySupplier.Resources`. -/
def S3BucketInventorySupplier.Resources : S3BucketConfigSupplier → Nat → State → Option (Result × State) :=
  S3BucketConfigSupplier.Resources S3ConfigKind.inventory

/-- The method `S3BucketMetricSupplier.Resources`. -/
def S3BucketMetricSupplier.Resources : S3BucketConfigSupplier → Nat → State → Option (Result × State) :=
  S3BucketConfigSupplier.Resources S3ConfigKind.metric

/-- The struct `S3BucketNotificationSupplier`; the `alerter` lives in the `State`.
The constant `aws.AwsS3BucketNotificationResourceType` is declared in a package
whose source is not at hand and no test shows its value, so it is a field. -/
structure S3BucketNotificationSupplier where
  reader : ResourceReader
  deserializer : CTYDeserializer
  factory : S3API
  runner : ParallelResourceReader
  AwsS3BucketNotificationResourceType : String

/-- The closure `listBucketNotificationConfiguration` submits. -/
def S3BucketNotificationSupplier.readNotification (s : S3BucketNotificationSupplier)
    (name region : String) : CtyValue × error :=
  match s.reader.ReadResource
      { Ty := s.AwsS3BucketNotificationResourceType, ID := name,
        Attributes := [("aws_region", region)] } with
  | .error err => (CtyValue.NilVal, some err)
  | .ok s3BucketPolicy => (s3BucketPolicy, none)

/-- The method `S3BucketNotificationSupplier.listBucketNotificationConfiguration`. -/
def S3BucketNotificationSupplier.listBucketNotificationConfiguration
    (s : S3BucketNotificationSupplier) (name region : String) (st : State) : State :=
  st.Run (fun _ => s.readNotification name region)

/-- The loop over the buckets of `S3BucketNotificationSupplier.Resources`. -/
def S3BucketNotificationSupplier.visitBuckets (s : S3BucketNotificationSupplier) :
    List Bucket → State → Flow Unit × State
  | [], st => (Flow.next (), st)
  | bucket :: buckets, st =>
    let name := bucket.Name
    match s.factory.readBucketRegion name with
    | (region, err) =>
      let st := st.call (RemoteCall.GetBucketLocation name) err
      if err ≠ none then (Flow.done (none, err), st)
      else if region = "" then S3BucketNotificationSupplier.visitBuckets s buckets st
      else
        S3BucketNotificationSupplier.visitBuckets s buckets
          (s.listBucketNotificationConfiguration bucket.Name region st)

/-- The last loop of `S3BucketNotificationSupplier.Resources`: keep the bucket
notifications that have a non-empty `LambdaFunction`, `Queue` or `Topic`. -/
def S3BucketNotificationSupplier.keepConfigured (deserializedValues : List Resource) : List Resource :=
  deserializedValues.foldl
    (fun results val =>
      match val with
      | Resource.s3BucketNotification res =>
        if (res.LambdaFunction ≠ none ∧ (res.LambdaFunction.getD []).length > 0) ∨
            (res.Queue ≠ none ∧ (res.Queue.getD []).length > 0) ∨
            (res.Topic ≠ none ∧ (res.Topic.getD []).length > 0) then
          results ++ [Resource.s3BucketNotification res]
        else results
      | _ => results) []

/-- The method `S3BucketNotificationSupplier.Resources`. -/
def S3BucketNotificationSupplier.Resources (s : S3BucketNotificationSupplier) (st : State) :
    Result × State :=
  match s.factory.ListBuckets with
  | (buckets, err) =>
    let st := st.call RemoteCall.ListBuckets err
    if err ≠ none then
      match st.handleWithMessage err s.AwsS3BucketNotificationResourceType AwsS3BucketResourceType with
      | (handled, st) => if !handled then ((none, err), st) else ((some [], none), st)
    else
      match s.visitBuckets buckets st with
      | (Flow.done r, st) => (r, st)
      | (Flow.next _, st) =>
        match st.Wait s.runner with
        | ((ctyVals, err), st) =>
          if err ≠ none then ((none, err), st)
          else
            match st.Deserialize s.deserializer ctyVals with
            | ((deserializedValues, err), st) =>
              if err ≠ none then ((deserializedValues, err), st)
              else
                ((some (S3BucketNotificationSupplier.keepConfigured (deserializedValues.getD [])), none), st)

/-! ## All suppliers -/

/-- Any of the ten suppliers. -/
inductive Supplier where
  | dbSubnetGroup (s : DBSubnetGroupSupplier)
  | iamUser (s : IamUserSupplier)
  | iamUserPolicy (s : IamUserPolicySupplier)
  | iamUserPolicyAttachment (s : IamUserPolicyAttachmentSupplier)
  | lambdaFunction (s : LambdaFunctionSupplier)
  | route53Record (s : Route53RecordSupplier)
  | s3BucketAnalytic (s : S3BucketConfigSupplier)
  | s3BucketInventory (s : S3BucketConfigSupplier)
  | s3BucketMetric (s : S3BucketConfigSupplier)
  | s3BucketNotification (s : S3BucketNotificationSupplier)

/-- The resource type a supplier enumerates: the key of its alerts. -/
def Supplier.resourceType : Supplier → String
  | .dbSubnetGroup _ => AwsDbSubnetGroupResourceType
  | .iamUser _ => AwsIamUserResourceType
  | .iamUserPolicy _ => AwsIamUserPolicyResourceType
  | .iamUserPolicyAttachment _ => AwsIamUserPolicyAttachmentResourceType
  | .lambdaFunction _ => AwsLambdaFunctionResourceType
  | .route53Record _ => AwsRoute53RecordResourceType
  | .s3BucketAnalytic _ => AwsS3BucketAnalyticsConfigurationResourceType
  | .s3BucketInventory _ => AwsS3BucketInventoryResourceType
  | .s3BucketMetric _ => AwsS3BucketMetricResourceType
  | .s3BucketNotification s => s.AwsS3BucketNotificationResourceType

/-- The method `Resources()` of a supplier. `fuel` bounds the number of requests of
one configuration listing of the S3 configuration suppliers, the only unbounded
loop; `none` means that a listing ran out of it. -/
def Supplier.Resources : Supplier → Nat → State → Option (Result × State)
  | .dbSubnetGroup s, _, st => some (s.Resources st)
  | .iamUser s, _, st => some (s.Resources st)
  | .iamUserPolicy s, _, st => some (s.Resources st)
  | .iamUserPolicyAttachment s, _, st => some (s.Resources st)
  | .lambdaFunction s, _, st => some (s.Resources st)
  | .route53Record s, _, st => some (s.Resources st)
  | .s3BucketAnalytic s, fuel, st => S3BucketAnalyticSupplier.Resources s fuel st
  | .s3BucketInventory s, fuel, st => S3BucketInventorySupplier.Resources s fuel st
  | .s3BucketMetric s, fuel, st => S3BucketMetricSupplier.Resources s fuel st
  | .s3BucketNotification s, _, st => some (s.Resources st)

/-- The error the top-level listing of a supplier returns: the first remote call of
`Resources()`. -/
def Supplier.listError : Supplier → error
  | .dbSubnetGroup s => s.client.DescribeDBSubnetGroupsPages.err
  | .iamUser s => s.client.ListUsersPages.err
  | .iamUserPolicy s => s.client.ListUsersPages.err
  | .iamUserPolicyAttachment s => s.client.ListUsersPages.err
  | .lambdaFunction s => s.client.ListFunctionsPages.err
  | .route53Record s => s.client.ListHostedZones.2
  | .s3BucketAnalytic s => s.factory.ListBuckets.2
  | .s3BucketInventory s => s.factory.ListBuckets.2
  | .s3BucketMetric s => s.factory.ListBuckets.2
  | .s3BucketNotification s => s.factory.ListBuckets.2

/-- The remote call of the top-level listing of a supplier. -/
def Supplier.listCall : Supplier → RemoteCall
  | .dbSubnetGroup _ => RemoteCall.DescribeDBSubnetGroupsPages
  | .iamUser _ => RemoteCall.ListUsersPages
  | .iamUserPolicy _ => RemoteCall.ListUsersPages
  | .iamUserPolicyAttachment _ => RemoteCall.ListUsersPages
  | .lambdaFunction _ => RemoteCall.ListFunctionsPages
  | .route53Record _ => RemoteCall.ListHostedZones
  | .s3BucketAnalytic _ => RemoteCall.ListBuckets
  | .s3BucketInventory _ => RemoteCall.ListBuckets
  | .s3BucketMetric _ => RemoteCall.ListBuckets
  | .s3BucketNotification _ => RemoteCall.ListBuckets

/-- The type a supplier names as forbidden when its top-level listing is denied:
empty when it is its own type (`handleListAwsError`). -/
def Supplier.forbiddenType : Supplier → String
  | .dbSubnetGroup _ => ""
  | .iamUser _ => ""
  | .iamUserPolicy _ => AwsIamUserResourceType
  | .iamUserPolicyAttachment _ => AwsIamUserResourceType
  | .lambdaFunction _ => ""
  | .route53Record _ => AwsRoute53ZoneResourceType
  | .s3BucketAnalytic _ => AwsS3BucketResourceType
  | .s3BucketInventory _ => AwsS3BucketResourceType
  | .s3BucketMetric _ => AwsS3BucketResourceType
  | .s3BucketNotification _ => AwsS3BucketResourceType

/-- The supplier with another state reader. -/
def Supplier.withReader (reader : ResourceReader) : Supplier → Supplier
  | .dbSubnetGroup s => .dbSubnetGroup { s with reader := reader }
  | .iamUser s => .iamUser { s with reader := reader }
  | .iamUserPolicy s => .iamUserPolicy { s with reader := reader }
  | .iamUserPolicyAttachment s => .iamUserPolicyAttachment { s with reader := reader }
  | .lambdaFunction s => .lambdaFunction { s with reader := reader }
  | .route53Record s => .route53Record { s with reader := reader }
  | .s3BucketAnalytic s => .s3BucketAnalytic { s with reader := reader }
  | .s3BucketInventory s => .s3BucketInventory { s with reader := reader }
  | .s3BucketMetric s => .s3BucketMetric { s with reader := reader }
  | .s3BucketNotification s => .s3BucketNotification { s with reader := reader }

/-- The supplier with another deserializer. -/
def Supplier.withDeserializer (d : CTYDeserializer) : Supplier → Supplier
  | .dbSubnetGroup s => .dbSubnetGroup { s with deserializer := d }
  | .iamUser s => .iamUser { s with deserializer := d }
  | .iamUserPolicy s => .iamUserPolicy { s with deserializer := d }
  | .iamUserPolicyAttachment s => .iamUserPolicyAttachment { s with deserializer := d }
  | .lambdaFunction s => .lambdaFunction { s with deserializer := d }
  | .route53Record s => .route53Record { s with deserializer := d }
  | .s3BucketAnalytic s => .s3BucketAnalytic { s with deserializer := d }
  | .s3BucketInventory s => .s3BucketInventory { s with deserializer := d }
  | .s3BucketMetric s => .s3BucketMetric { s with deserializer := d }
  | .s3BucketNotification s => .s3BucketNotification { s with deserializer := d }

/-- The supplier with another runner. -/
def Supplier.withRunner (runner : ParallelResourceReader) : Supplier → Supplier
  | .dbSubnetGroup s => .dbSubnetGroup { s with runner := runner }
  | .iamUser s => .iamUser { s with runner := runner }
  | .iamUserPolicy s => .iamUserPolicy { s with runner := runner }
  | .iamUserPolicyAttachment s => .iamUserPolicyAttachment { s with runner := runner }
  | .lambdaFunction s => .lambdaFunction { s with runner := runner }
  | .route53Record s => .route53Record { s with runner := runner }
  | .s3BucketAnalytic s => .s3BucketAnalytic { s with runner := runner }
  | .s3BucketInventory s => .s3BucketInventory { s with runner := runner }
  | .s3BucketMetric s => .s3BucketMetric { s with runner := runner }
  | .s3BucketNotification s => .s3BucketNotification { s with runner := runner }

/-- The deserializer of a supplier (its struct field). -/
def Supplier.deserializer : Supplier → CTYDeserializer
  | .dbSubnetGroup s => s.deserializer
  | .iamUser s => s.deserializer
  | .iamUserPolicy s => s.deserializer
  | .iamUserPolicyAttachment s => s.deserializer
  | .lambdaFunction s => s.deserializer
  | .route53Record s => s.deserializer
  | .s3BucketAnalytic s => s.deserializer
  | .s3BucketInventory s => s.deserializer
  | .s3BucketMetric s => s.deserializer
  | .s3BucketNotification s => s.deserializer

/-- The runner of a supplier (its struct field). -/
def Supplier.runner : Supplier → ParallelResourceReader
  | .dbSubnetGroup s => s.runner
  | .iamUser s => s.runner
  | .iamUserPolicy s => s.runner
  | .iamUserPolicyAttachment s => s.runner
  | .lambdaFunction s => s.runner
  | .route53Record s => s.runner
  | .s3BucketAnalytic s => s.runner
  | .s3BucketInventory s => s.runner
  | .s3BucketMetric s => s.runner
  | .s3BucketNotification s => s.runner

/-- The state reader of a supplier (its struct field). -/
def Supplier.reader : Supplier → ResourceReader
  | .dbSubnetGroup s => s.reader
  | .iamUser s => s.reader
  | .iamUserPolicy s => s.reader
  | .iamUserPolicyAttachment s => s.reader
  | .lambdaFunction s => s.reader
  | .route53Record s => s.reader
  | .s3BucketAnalytic s => s.reader
  | .s3BucketInventory s => s.reader
  | .s3BucketMetric s => s.reader
  | .s3BucketNotification s => s.reader

/-! ## Shape of an invocation

The events of one `Resources()` invocation and its result, as a relation the
theorems below establish for every supplier. -/

/-- Remote calls that list: every call but the bucket-region lookup. -/
def RemoteCall.isListing : RemoteCall → Bool
  | .GetBucketLocation _ => false
  | _ => true

/-- The two suppliers whose loop has no `return` after a per-user or per-zone
listing the handler took care of. -/
def Supplier.keepsGoing : Supplier → Bool
  | .iamUserPolicyAttachment _ => true
  | .route53Record _ => true
  | _ => false

/-- What `Resources()` makes of the deserializer's answer: the notification
supplier filters a successful answer, the others return the answer as it is. -/
def Supplier.finish : Supplier → Result → Result
  | .s3BucketNotification _, r =>
    if r.2 ≠ none then r
    else (some (S3BucketNotificationSupplier.keepConfigured (r.1.getD [])), none)
  | _, r => r

/-- The error is a 403 request failure returned by a listing call: the case in
which the suppliers call the handler and get `true`. -/
def deniedListing (c : RemoteCall) (err : error) : Bool := isForbidden err && c.isListing

/-- An event after which `Resources()` goes on: a remote call that returned no
error or, for the two suppliers that keep going, a per-user or per-zone listing
denied with 403. -/
def Event.passed (s : Supplier) : Event → Bool
  | .call c err => err == none || (s.keepsGoing && deniedListing c err && c != s.listCall)
  | _ => false

/-- The alert a supplier sends for a denied listing call. -/
def Supplier.alertFor (s : Supplier) (c : RemoteCall) : Alert :=
  forbiddenAlert s.resourceType (if c = s.listCall then s.forbiddenType else "")

/-- The alerts that go with a sequence of events: one for each denied listing. -/
def Supplier.alertsOf (s : Supplier) (evs : List Event) : List Alert :=
  evs.filterMap (fun ev =>
    match ev with
    | .call c err => if deniedListing c err then some (s.alertFor c) else none
    | _ => none)

/-- Send the alerts, in order, under the key `typ`. -/
def Alerter.sendAll (a : Alerter) (typ : String) (alerts : List Alert) : Alerter :=
  alerts.foldl (fun a alert => a.SendAlert typ alert) a

/-- The events `evs` lead from `st` to `st2`: the trace grows by `evs` and the sink
by the alerts of the denied listings among them, under the supplier's type. -/
structure Effect (s : Supplier) (st st2 : State) (evs : List Event) : Prop where
  trace : st2.trace = st.trace ++ evs
  alerter : st2.alerter = st.alerter.sendAll s.resourceType (s.alertsOf evs)

/-- The events of an invocation that has not returned yet. -/
def Ongoing (s : Supplier) (evs : List Event) : Prop := ∀ ev ∈ evs, ev.passed s = true

/-- The ways an invocation ends, with its events and its result: on a denied
listing, on a remote call that failed otherwise, on a failed `Wait()`, after
`Wait()` and `Deserialize`, or (guard `len(...) > 0`) after `Deserialize` alone;
the answer recorded for `Deserialize` is the one of the supplier's deserializer. -/
inductive Finished (s : Supplier) : List Event → Result → Prop where
  | denied (pre : List Event) (c : RemoteCall) (err : error) :
      Ongoing s pre → deniedListing c err = true → (Event.call c err).passed s = false →
      Finished s (pre ++ [Event.call c err]) (some [], none)
  | failed (pre : List Event) (c : RemoteCall) (err : error) :
      Ongoing s pre → err ≠ none → deniedListing c err = false →
      Finished s (pre ++ [Event.call c err]) (none, err)
  | waitFailed (pre : List Event) (values : List CtyValue) (err : error) :
      Ongoing s pre → err ≠ none →
      Finished s (pre ++ [Event.wait values err]) (none, err)
  | deserialized (pre : List Event) (values : List CtyValue) (r : Result) :
      Ongoing s pre → r = s.deserializer.Deserialize values →
      Finished s (pre ++ [Event.wait values none, Event.deserialize values r]) (s.finish r)
  | empty (pre : List Event) (r : Result) :
      Ongoing s pre → r = s.deserializer.Deserialize [] →
      Finished s (pre ++ [Event.deserialize [] r]) (s.finish r)

/-- The events of a loop that left with `flow`: the invocation has ended when the
loop returned out of `Resources()` and goes on when it fell through. -/
def Flow.Shape {α : Type} (s : Supplier) (evs : List Event) : Flow α → Prop
  | .next _ => Ongoing s evs
  | .done r => Finished s evs r

/-- The configuration supplier of a kind, among all suppliers. -/
def S3ConfigKind.supplier (k : S3ConfigKind) (s : S3BucketConfigSupplier) : Supplier :=
  match k with
  | .analytic => Supplier.s3BucketAnalytic s
  | .inventory => Supplier.s3BucketInventory s
  | .metric => Supplier.s3BucketMetric s

/-! ## Walks

What a listing walk is expected to see, stated apart from the code that walks. -/

/-- The pages a callback receives when it asks for more exactly on the pages that
are not flagged as last: all pages up to and including the first flagged one. -/
def Pager.received {α : Type} : List (List α × Bool) → List (List α)
  | [] => []
  | (page, lastPage) :: rest => page :: (if lastPage then [] else Pager.received rest)

/-- The flags of the pages are the ones of a complete listing: `lastPage` is true on
the last page and on no other. -/
def Pager.lastFlagged {α : Type} : List (List α × Bool) → Bool
  | [] => true
  | [(_, lastPage)] => lastPage
  | (_, lastPage) :: rest => !lastPage && Pager.lastFlagged rest

/-- The task that reads `args` with `reader`: the closure every supplier submits,
`ReadResource(args)` followed by `cty.NilVal, err` on an error and `*val, nil`
otherwise. -/
def readTask (reader : ResourceReader) (args : ReadResourceArgs) : Task :=
  fun _ =>
    match reader.ReadResource args with
    | .error err => (CtyValue.NilVal, some err)
    | .ok val => (val, none)

/-- The answers of the S3 client along one walk of the configurations of bucket
`name`, started with continuation token `token`: the responses `truncated`, each
with `IsTruncated = true` and each asked for with the `NextContinuationToken` of
the one before, and then `final`, an error or a response whose `IsTruncated` is nil
or false. -/
def S3BucketConfigSupplier.Answers (k : S3ConfigKind) (s : S3BucketConfigSupplier)
    (region name : String) :
    Option String → List ListConfigurationsOutput → Except GoError ListConfigurationsOutput → Prop
  | token, [], final =>
    k.list s.factory region { Bucket := name, ContinuationToken := token } = final ∧
      (∀ r, final = .ok r → r.IsTruncated ≠ some true)
  | token, r :: rest, final =>
    k.list s.factory region { Bucket := name, ContinuationToken := token } = .ok r ∧
      r.IsTruncated = some true ∧
      S3BucketConfigSupplier.Answers k s region name r.NextContinuationToken rest final

/-- The error of an answer of the S3 client, `nil` for a response. -/
def answerError : Except GoError ListConfigurationsOutput → error
  | .ok _ => none
  | .error err => some err

/-- The requests of such a walk as trace events: one per response of `truncated`,
without error, then the last one with the error `err` of the final answer. -/
def S3ConfigKind.walkEvents (k : S3ConfigKind) (region name : String) :
    Option String → List ListConfigurationsOutput → error → List Event
  | token, [], err =>
    [Event.call (k.remoteCall region { Bucket := name, ContinuationToken := token }) err]
  | token, r :: rest, err =>
    Event.call (k.remoteCall region { Bucket := name, ContinuationToken := token }) none ::
      S3ConfigKind.walkEvents k region name r.NextContinuationToken rest err

/-- The number of items the top-level listing of a supplier returns: subnet groups,
users, functions, hosted zones or buckets. -/
def Supplier.listed : Supplier → Nat
  | .dbSubnetGroup s => (Pager.received s.client.DescribeDBSubnetGroupsPages.pages).flatten.length
  | .iamUser s => (listIamUsers s.client).1.length
  | .iamUserPolicy s => (listIamUsers s.client).1.length
  | .iamUserPolicyAttachment s => (listIamUsers s.client).1.length
  | .lambdaFunction s => (listLambdaFunctions s.client).1.length
  | .route53Record s => s.client.ListHostedZones.1.length
  | .s3BucketAnalytic s => s.factory.ListBuckets.1.length
  | .s3BucketInventory s => s.factory.ListBuckets.1.length
  | .s3BucketMetric s => s.factory.ListBuckets.1.length
  | .s3BucketNotification s => s.factory.ListBuckets.1.length

/-- The test of the last loop of `S3BucketNotificationSupplier.Resources`: the value
is a bucket notification and one of `LambdaFunction`, `Queue`, `Topic` is non-nil
with at least one entry. -/
def Resource.isConfiguredNotification : Resource → Bool
  | .s3BucketNotification res =>
    decide ((res.LambdaFunction ≠ none ∧ (res.LambdaFunction.getD []).length > 0) ∨
      (res.Queue ≠ none ∧ (res.Queue.getD []).length > 0) ∨
      (res.Topic ≠ none ∧ (res.Topic.getD []).length > 0))
  | _ => false

/-- The four suppliers that wrap the fan-out in `if len(...) > 0`: the user, user
policy, user policy attachment and lambda function suppliers. -/
def Supplier.guardsFanOut : Supplier → Bool
  | .iamUser _ => true
  | .iamUserPolicy _ => true
  | .iamUserPolicyAttachment _ => true
  | .lambdaFunction _ => true
  | _ => false

/-- The visits a supplier has to make after its top-level listing: for every listed
user, hosted zone or bucket, in listing order, the remote call that opens its
visit. The subnet group, user and lambda function suppliers make none. -/
def Supplier.visits : Supplier → List RemoteCall
  | .iamUserPolicy s =>
    (listIamUsers s.client).1.map (fun user => RemoteCall.ListUserPoliciesPages user.UserName)
  | .iamUserPolicyAttachment s =>
    (listIamUsers s.client).1.map (fun user => RemoteCall.ListAttachedUserPoliciesPages user.UserName)
  | .route53Record s =>
    s.listZones.1.map (fun zone => RemoteCall.ListResourceRecordSetsPages zone.1)
  | .s3BucketAnalytic s =>
    s.factory.ListBuckets.1.map (fun bucket => RemoteCall.GetBucketLocation bucket.Name)
  | .s3BucketInventory s =>
    s.factory.ListBuckets.1.map (fun bucket => RemoteCall.GetBucketLocation bucket.Name)
  | .s3BucketMetric s =>
    s.factory.ListBuckets.1.map (fun bucket => RemoteCall.GetBucketLocation bucket.Name)
  | .s3BucketNotification s =>
    s.factory.ListBuckets.1.map (fun bucket => RemoteCall.GetBucketLocation bucket.Name)
  | _ => []

/-- The events of the visit that the call `start` opens: that call and, when it is
the region lookup of a bucket, the requests of the configuration listing of that
bucket. -/
def Visit (start : RemoteCall) (evs : List Event) : Prop :=
  ∃ (err : error) (rest : List Event), evs = Event.call start err :: rest ∧
    ∀ ev ∈ rest, ∃ (k : S3ConfigKind) (region : String) (request : ListConfigurationsInput)
      (e : error),
      ev = Event.call (k.remoteCall region request) e ∧
        start = RemoteCall.GetBucketLocation request.Bucket

/-- From `st` to `st2` a loop made visits of `plan`, each at most once and in the
order of `plan`, stopping anywhere: the trace grows by the events of the visits of
a prefix of `plan`, and the runner by tasks that read with `reader`. -/
def Visited (reader : ResourceReader) (plan : List RemoteCall) (st st2 : State) : Prop :=
  ∃ (visits : List (RemoteCall × List Event)) (new : List Task),
    st2.trace = st.trace ++ visits.flatMap (fun v => v.2) ∧
    visits.map (fun v => v.1) <+: plan ∧
    (∀ v ∈ visits, Visit v.1 v.2) ∧
    st2.tasks = st.tasks ++ new ∧
    ∀ task ∈ new, ∃ args, task = readTask reader args

/-- One invocation from `st` to `st2` without retry: the top-level listing once,
then visits of the listed parents, each at most once and in order, then events that
are no remote call; every submitted task reads once with the supplier's reader. -/
def Supplier.Plan (s : Supplier) (st st2 : State) : Prop :=
  ∃ (visits : List (RemoteCall × List Event)) (tail : List Event) (new : List Task),
    st2.trace =
      st.trace ++ Event.call s.listCall s.listError :: (visits.flatMap (fun v => v.2) ++ tail) ∧
    visits.map (fun v => v.1) <+: s.visits ∧
    (∀ v ∈ visits, Visit v.1 v.2) ∧
    (∀ c e, Event.call c e ∉ tail) ∧
    st2.tasks = st.tasks ++ new ∧
    ∀ task ∈ new, ∃ args, task = readTask s.reader args

/-- The remote call of an event, `none` for `Wait()` and `Deserialize`. -/
def Event.remoteCall : Event → Option RemoteCall
  | .call c _ => some c
  | _ => none

/-- Every configuration listing a configuration supplier can start comes to an end
within `fuel` requests: for each listed bucket whose region is not empty, the
answers of the S3 client along the walk of that bucket are the responses
`truncated` followed by an answer `final`, and `fuel` allows the
`truncated.length + 1` requests of that walk. -/
def S3BucketConfigSupplier.WalksEnd (k : S3ConfigKind) (s : S3BucketConfigSupplier)
    (fuel : Nat) : Prop :=
  ∀ bucket ∈ s.factory.ListBuckets.1, (s.factory.readBucketRegion bucket.Name).1 ≠ "" →
    ∃ (truncated : List ListConfigurationsOutput)
      (final : Except GoError ListConfigurationsOutput),
      S3BucketConfigSupplier.Answers k s (s.factory.readBucketRegion bucket.Name).1 bucket.Name
        none truncated final ∧
      truncated.length + 1 ≤ fuel

/-- The unbounded loops of a supplier end within `fuel` rounds: a condition on the
S3 client of the three configuration suppliers, the only ones with such a loop. -/
def Supplier.WalksEnd : Supplier → Nat → Prop
  | .s3BucketAnalytic s, fuel => S3BucketConfigSupplier.WalksEnd S3ConfigKind.analytic s fuel
  | .s3BucketInventory s, fuel => S3BucketConfigSupplier.WalksEnd S3ConfigKind.inventory s fuel
  | .s3BucketMetric s, fuel => S3BucketConfigSupplier.WalksEnd S3ConfigKind.metric s fuel
  | _, _ => True

/-- Every remote call a configuration supplier makes before `Wait()` succeeds:
`ListBuckets`, the region lookup of each listed bucket and, for each bucket whose
region is not empty, every request of the configuration listing, which ends with a
response that is not truncated within `fuel` requests. -/
def S3BucketConfigSupplier.ListingsSucceed (k : S3ConfigKind) (s : S3BucketConfigSupplier)
    (fuel : Nat) : Prop :=
  s.factory.ListBuckets.2 = none ∧
  ∀ bucket ∈ s.factory.ListBuckets.1,
    (s.factory.readBucketRegion bucket.Name).2 = none ∧
    ((s.factory.readBucketRegion bucket.Name).1 ≠ "" →
      ∃ (truncated : List ListConfigurationsOutput) (last : ListConfigurationsOutput),
        S3BucketConfigSupplier.Answers k s (s.factory.readBucketRegion bucket.Name).1 bucket.Name
          none truncated (.ok last) ∧
        truncated.length + 1 ≤ fuel)

/-- Every listing of a supplier succeeds, and so does every other remote call it
makes before `Wait()`: the top-level listing returns no error, nor does the listing
made for each listed user or hosted zone, nor the region lookup and the
configuration listing made for each listed bucket. -/
def Supplier.ListingsSucceed : Supplier → Nat → Prop
  | .dbSubnetGroup s, _ => s.client.DescribeDBSubnetGroupsPages.err = none
  | .iamUser s, _ => s.client.ListUsersPages.err = none
  | .iamUserPolicy s, _ =>
    s.client.ListUsersPages.err = none ∧
      ∀ user ∈ (listIamUsers s.client).1, (s.client.ListUserPoliciesPages user.UserName).err = none
  | .iamUserPolicyAttachment s, _ =>
    s.client.ListUsersPages.err = none ∧
      ∀ user ∈ (listIamUsers s.client).1,
        (s.client.ListAttachedUserPoliciesPages user.UserName).err = none
  | .lambdaFunction s, _ => s.client.ListFunctionsPages.err = none
  | .route53Record s, _ =>
    s.client.ListHostedZones.2 = none ∧
      ∀ hostedZone ∈ s.client.ListHostedZones.1,
        (s.client.ListResourceRecordSetsPages
          (strings.TrimPrefix hostedZone.Id "/hostedzone/")).err = none
  | .s3BucketAnalytic s, fuel => S3BucketConfigSupplier.ListingsSucceed S3ConfigKind.analytic s fuel
  | .s3BucketInventory s, fuel => S3BucketConfigSupplier.ListingsSucceed S3ConfigKind.inventory s fuel
  | .s3BucketMetric s, fuel => S3BucketConfigSupplier.ListingsSucceed S3ConfigKind.metric s fuel
  | .s3BucketNotification s, _ =>
    s.factory.ListBuckets.2 = none ∧
      ∀ bucket ∈ s.factory.ListBuckets.1, (s.factory.readBucketRegion bucket.Name).2 = none

/-! ## Concrete collaborators

Inputs on which the definitions above are evaluated. -/

/-- The lookup `unicode.To(unicode.LowerCase, r)` on the Latin-1 letters: the
capital letters `À` to `Þ`, the sign `×` apart, go to the letter 32 code points
further; every other rune is left as it is. -/
def latin1LowerCase (r : Char) : Char :=
  if 0xC0 ≤ r.toNat ∧ r.toNat ≤ 0xDE ∧ r.toNat ≠ 0xD7 then Char.ofNat (r.toNat + 32) else r

/-- The error the tests build with `awserr.NewRequestFailure(nil, 403, "")`. -/
def forbidden403 : GoError := GoError.requestFailure "" "" 403 ""

/-- A state reader that answers every read with a value holding type and id. -/
def echoReader : ResourceReader :=
  ⟨fun args => .ok (CtyValue.object [("type", args.Ty), ("id", args.ID)])⟩

/-- A deserializer that turns every value of `echoReader` into a resource with its
type and id. -/
def echoDeserializer : CTYDeserializer :=
  ⟨fun values =>
    (some (values.map (fun v =>
      match v with
      | CtyValue.object [("type", typ), ("id", id)] => Resource.other typ id
      | _ => Resource.other "" "")), none)⟩

/-- A pager that delivers the given pages, the last one flagged as last, and
returns no error. -/
def Pager.ofPages {α : Type} (pages : List (List α)) : Pager α :=
  ⟨pages.enum.map (fun p => (p.2, p.1 + 1 == pages.length)), none⟩

/-- A pager that delivers nothing and returns the error. -/
def Pager.failing {α : Type} (err : GoError) : Pager α := ⟨[], some err⟩

/-- An IAM supplier whose `ListUsersPages` is denied with status 403. -/
def usersForbidden : Supplier :=
  Supplier.iamUserPolicy
    { reader := echoReader, deserializer := echoDeserializer, runner := NewParallelResourceReader,
      client :=
        { ListUsersPages := Pager.failing forbidden403,
          ListUserPoliciesPages := fun _ => Pager.ofPages [],
          ListAttachedUserPoliciesPages := fun _ => Pager.ofPages [] } }

/-- The IAM client of the examples: users `alice` and `bob` on one page, and the
given answers to the per-user listings. -/
def twoUsers (policies : String → Pager String) (attached : String → Pager AttachedPolicy) : IAMAPI :=
  { ListUsersPages := Pager.ofPages [[{ UserName := "alice" }, { UserName := "bob" }]],
    ListUserPoliciesPages := policies,
    ListAttachedUserPoliciesPages := attached }

/-- An attachment supplier: the listing for `alice` is denied with status 403,
the one for `bob` fails with another error. -/
def attachmentsDeniedThenBroken : Supplier :=
  Supplier.iamUserPolicyAttachment
    { reader := echoReader, deserializer := echoDeserializer, runner := NewParallelResourceReader,
      client := twoUsers (fun _ => Pager.ofPages [])
        (fun userName =>
          if userName = "alice" then Pager.failing forbidden403
          else Pager.failing (GoError.plain "connection reset")) }

/-- A lambda supplier whose listing fails with an error that is no request
failure. -/
def functionsBroken : Supplier :=
  Supplier.lambdaFunction
    { reader := echoReader, deserializer := echoDeserializer, runner := NewParallelResourceReader,
      client := { ListFunctionsPages := Pager.failing (GoError.plain "connection reset") } }

/-- An attachment supplier: the listing for `alice` is denied with status 403,
the one for `bob` returns one attached policy. -/
def attachmentsPartlyDenied : Supplier :=
  Supplier.iamUserPolicyAttachment
    { reader := echoReader, deserializer := echoDeserializer, runner := NewParallelResourceReader,
      client := twoUsers (fun _ => Pager.ofPages [])
        (fun userName =>
          if userName = "alice" then Pager.failing forbidden403
          else Pager.ofPages [[{ PolicyName := "ReadOnly", PolicyArn := "arn:aws:iam::aws:policy/ReadOnly" }]]) }

/-- A record supplier with two zones: the record listing of the first is denied
with status 403, the second has one record. -/
def recordsPartlyDenied : Supplier :=
  Supplier.route53Record
    { reader := echoReader, deserializer := echoDeserializer, runner := NewParallelResourceReader,
      client :=
        { ListHostedZones :=
            ([{ Id := "/hostedzone/Z1", Name := "one.example." },
              { Id := "/hostedzone/Z2", Name := "two.example." }], none),
          ListResourceRecordSetsPages := fun zoneId =>
            if zoneId = "Z1" then Pager.failing forbidden403
            else Pager.ofPages [[{ Name := "www.two.example.", Type_ := "A", SetIdentifier := none }]] },
      toLowerCase := latin1LowerCase }

/-- An attachment supplier whose per-user listing is denied with status 403 for
both users. -/
def attachmentsAllDenied : Supplier :=
  Supplier.iamUserPolicyAttachment
    { reader := echoReader, deserializer := echoDeserializer, runner := NewParallelResourceReader,
      client := twoUsers (fun _ => Pager.ofPages []) (fun _ => Pager.failing forbidden403) }

/-- A record supplier with two zones whose record listings are both denied with
status 403. -/
def recordsAllDenied : Supplier :=
  Supplier.route53Record
    { reader := echoReader, deserializer := echoDeserializer, runner := NewParallelResourceReader,
      client :=
        { ListHostedZones :=
            ([{ Id := "/hostedzone/Z1", Name := "one.example." },
              { Id := "/hostedzone/Z2", Name := "two.example." }], none),
          ListResourceRecordSetsPages := fun _ => Pager.failing forbidden403 },
      toLowerCase := latin1LowerCase }

/-- A state reader that denies every read with status 403. -/
def denyingReader : ResourceReader := ⟨fun _ => .error forbidden403⟩

/-- A user supplier that lists `alice` and `bob` and whose state reader denies
every read with status 403. -/
def userReadDeniedSupplier : IamUserSupplier :=
  { reader := denyingReader, deserializer := echoDeserializer, runner := NewParallelResourceReader,
    client := twoUsers (fun _ => Pager.ofPages []) (fun _ => Pager.ofPages []) }

/-- The supplier `userReadDeniedSupplier` among all suppliers. -/
def userReadDenied : Supplier := Supplier.iamUser userReadDeniedSupplier

/-- An S3 client with the given buckets, region lookup and analytics listing; the
other two listings answer with an empty page. -/
def analyticsClient (buckets : List Bucket) (region : String → String × error)
    (analytics : String → ListConfigurationsInput → Except GoError ListConfigurationsOutput) : S3API :=
  { ListBuckets := (buckets, none),
    readBucketRegion := region,
    ListBucketAnalyticsConfigurations := analytics,
    ListBucketInventoryConfigurations := fun _ _ =>
      .ok { ConfigurationList := [], IsTruncated := none, NextContinuationToken := none },
    ListBucketMetricsConfigurations := fun _ _ =>
      .ok { ConfigurationList := [], IsTruncated := none, NextContinuationToken := none } }

/-- An analytics supplier with one bucket whose region lookup is denied with status
403. -/
def regionLookupDenied : Supplier :=
  Supplier.s3BucketAnalytic
    { reader := echoReader, deserializer := echoDeserializer, runner := NewParallelResourceReader,
      factory := analyticsClient [{ Name := "logs" }] (fun _ => ("", some forbidden403))
        (fun _ _ => .ok { ConfigurationList := [], IsTruncated := none, NextContinuationToken := none }) }

/-- A user-policy supplier with the users `alice`, `bob` and `carol`: `alice` has
two policies, the policy listing of `bob` is denied with status 403. -/
def policiesDeniedForBob : IamUserPolicySupplier :=
  { reader := echoReader, deserializer := echoDeserializer, runner := NewParallelResourceReader,
    client :=
      { ListUsersPages :=
          Pager.ofPages [[{ UserName := "alice" }, { UserName := "bob" }], [{ UserName := "carol" }]],
        ListUserPoliciesPages := fun userName =>
          if userName = "bob" then Pager.failing forbidden403
          else Pager.ofPages [["admin", "billing"]],
        ListAttachedUserPoliciesPages := fun _ => Pager.ofPages [] } }

/-- An analytics supplier with the buckets `logs`, `media` and `backup`: `logs`
has two configurations on two pages, the configuration listing of `media` is
denied with status 403. -/
def analyticsDeniedForMedia : S3BucketConfigSupplier :=
  { reader := echoReader, deserializer := echoDeserializer, runner := NewParallelResourceReader,
    factory := analyticsClient [{ Name := "logs" }, { Name := "media" }, { Name := "backup" }]
      (fun name =>
        if name = "logs" then ("eu-west-1", none)
        else if name = "media" then ("eu-west-3", none)
        else ("ap-northeast-1", none))
      (fun _ request =>
        if request.Bucket = "media" then .error forbidden403
        else if request.Bucket = "logs" then
          if request.ContinuationToken = none then
            .ok { ConfigurationList := [{ Id := "Analytics_Bucket1" }], IsTruncated := some true,
                  NextContinuationToken := some "page2" }
          else
            .ok { ConfigurationList := [{ Id := "Analytics2_Bucket1" }], IsTruncated := some false,
                  NextContinuationToken := none }
        else .ok { ConfigurationList := [], IsTruncated := none, NextContinuationToken := none }) }

/-- The state `analyticsDeniedForMedia` is in after `ListBuckets` and the visit of
`logs`, started from a fresh state with fuel 5. -/
def analyticsAfterLogs : State :=
  match S3BucketConfigSupplier.visitBuckets S3ConfigKind.analytic analyticsDeniedForMedia 5
      [{ Name := "logs" }] (State.fresh.call RemoteCall.ListBuckets none) with
  | some (_, st) => st
  | none => State.fresh

/-- The state `analyticsDeniedForMedia` is in after the configuration listing of
`media`. -/
def analyticsAfterMedia : State :=
  match S3BucketConfigSupplier.listBucketConfiguration S3ConfigKind.analytic analyticsDeniedForMedia 5
      "media" "eu-west-3" (analyticsAfterLogs.call (RemoteCall.GetBucketLocation "media") none) with
  | some (_, st) => st
  | none => State.fresh

/-- The first page `analyticsDeniedForMedia` answers for bucket `logs`. -/
def logsFirstPage : ListConfigurationsOutput :=
  { ConfigurationList := [{ Id := "Analytics_Bucket1" }], IsTruncated := some true,
    NextContinuationToken := some "page2" }

/-- The second and last page `analyticsDeniedForMedia` answers for bucket `logs`. -/
def logsLastPage : ListConfigurationsOutput :=
  { ConfigurationList := [{ Id := "Analytics2_Bucket1" }], IsTruncated := some false,
    NextContinuationToken := none }

/-- An IAM client whose user listing delivers one page with `alice` and then
fails; the per-user listings deliver a page and fail as well. -/
def usersThenBroken : IAMAPI :=
  { ListUsersPages := ⟨[([{ UserName := "alice" }], false)], some (GoError.plain "connection reset")⟩,
    ListUserPoliciesPages := fun _ => ⟨[(["admin"], false)], some (GoError.plain "connection reset")⟩,
    ListAttachedUserPoliciesPages := fun _ =>
      ⟨[([{ PolicyName := "ReadOnly", PolicyArn := "arn:aws:iam::aws:policy/ReadOnly" }], false)],
        some (GoError.plain "connection reset")⟩ }

/-- An analytics supplier whose configuration listing answers the first request
with the truncated page `logsFirstPage` and fails on the second. -/
def analyticsSecondPageBroken : S3BucketConfigSupplier :=
  { reader := echoReader, deserializer := echoDeserializer, runner := NewParallelResourceReader,
    factory := analyticsClient [{ Name := "logs" }] (fun _ => ("eu-west-1", none))
      (fun _ request =>
        if request.ContinuationToken = none then .ok logsFirstPage
        else .error (GoError.plain "connection reset")) }

/-- The user supplier of the test "iam multiples users": a page with two users,
not flagged as last, and a last page with one user. -/
def threeUsers : IamUserSupplier :=
  { reader := echoReader, deserializer := echoDeserializer, runner := NewParallelResourceReader,
    client :=
      { ListUsersPages :=
          ⟨[([{ UserName := "test-driftctl-0" }, { UserName := "test-driftctl-1" }], false),
            ([{ UserName := "test-driftctl-2" }], true)], none⟩,
        ListUserPoliciesPages := fun _ => Pager.ofPages [],
        ListAttachedUserPoliciesPages := fun _ => Pager.ofPages [] } }

/-- The values `echoReader` answers for the three users of `threeUsers`. -/
def threeUserValues : List CtyValue :=
  [CtyValue.object [("type", "aws_iam_user"), ("id", "test-driftctl-0")],
   CtyValue.object [("type", "aws_iam_user"), ("id", "test-driftctl-1")],
   CtyValue.object [("type", "aws_iam_user"), ("id", "test-driftctl-2")]]

/-- A lambda supplier whose listing succeeds with no function at all. -/
def noFunctions : Supplier :=
  Supplier.lambdaFunction
    { reader := echoReader, deserializer := echoDeserializer, runner := NewParallelResourceReader,
      client := { ListFunctionsPages := Pager.ofPages [] } }

/-- A record supplier with one zone of two records, the second one with a
`SetIdentifier`. -/
def weightedRecords : Route53RecordSupplier :=
  { reader := echoReader, deserializer := echoDeserializer, runner := NewParallelResourceReader,
    client :=
      { ListHostedZones := ([{ Id := "/hostedzone/Z0806", Name := "example.com." }], none),
        ListResourceRecordSetsPages := fun _ =>
          Pager.ofPages
            [[{ Name := "Foo-0.Example.COM.", Type_ := "TXT", SetIdentifier := none },
              { Name := "www.example.com.", Type_ := "A", SetIdentifier := some "live" }]] },
    toLowerCase := latin1LowerCase }

/-- The policy supplier of the test "iam multiples users multiple policies": three
users on two pages, and for each of them four policy names on two pages. -/
def threeUsersFourPolicies : IamUserPolicySupplier :=
  { reader := echoReader, deserializer := echoDeserializer, runner := NewParallelResourceReader,
    client :=
      { ListUsersPages :=
          ⟨[([{ UserName := "loadbalancer" }, { UserName := "loadbalancer2" }], false),
            ([{ UserName := "loadbalancer3" }], true)], none⟩,
        ListUserPoliciesPages := fun username =>
          if username = "loadbalancer" then
            ⟨[(["test", "test2", "test3"], false), (["test4"], true)], none⟩
          else if username = "loadbalancer2" then
            ⟨[(["test2", "test22", "test23"], false), (["test24"], true)], none⟩
          else ⟨[(["test3", "test32", "test33"], false), (["test34"], true)], none⟩,
        ListAttachedUserPoliciesPages := fun _ => Pager.ofPages [] } }

/-- A reader that answers the type, the id and the attributes it was asked for. -/
def attributesReader : ResourceReader :=
  ⟨fun args => .ok (CtyValue.object ([("type", args.Ty), ("id", args.ID)] ++ args.Attributes))⟩

/-- An attachment supplier with the users `alice` and `bob`, both with the policy
`ReadOnly` attached. -/
def sharedAttachment : IamUserPolicyAttachmentSupplier :=
  { reader := attributesReader, deserializer := echoDeserializer, runner := NewParallelResourceReader,
    client := twoUsers (fun _ => Pager.ofPages [])
      (fun _ => Pager.ofPages [[{ PolicyName := "ReadOnly", PolicyArn := "arn:aws:iam::aws:policy/ReadOnly" }]]) }

/-- A deserializer that answers three bucket notifications, the second one with no
sub-configuration at all (a nil list and two empty ones). -/
def notificationsDeserializer : CTYDeserializer :=
  ⟨fun _ =>
    (some
      [Resource.s3BucketNotification
        { Id := "logs", LambdaFunction := some [{ Id := "onPut", Arn := "arn:aws:lambda:fn" }],
          Queue := none, Topic := none },
       Resource.s3BucketNotification
        { Id := "media", LambdaFunction := none, Queue := some [], Topic := some [] },
       Resource.s3BucketNotification
        { Id := "backup", LambdaFunction := none, Queue := none,
          Topic := some [{ Id := "onDelete", Arn := "arn:aws:sns:topic" }] }], none)⟩

/-- A notification supplier with the three buckets of `notificationsDeserializer`. -/
def threeNotifications : S3BucketNotificationSupplier :=
  { reader := echoReader, deserializer := notificationsDeserializer,
    runner := NewParallelResourceReader,
    factory := analyticsClient [{ Name := "logs" }, { Name := "media" }, { Name := "backup" }]
      (fun _ => ("eu-west-3", none))
      (fun _ _ => .ok { ConfigurationList := [], IsTruncated := none, NextContinuationToken := none }),
    AwsS3BucketNotificationResourceType := "aws_s3_bucket_notification" }

/-- The user policy supplier of the test "no iam user (no policy)": no user is
listed, the per-user listings fail and every read is denied. -/
def noUsers : Supplier :=
  Supplier.iamUserPolicy
    { reader := denyingReader, deserializer := echoDeserializer, runner := NewParallelResourceReader,
      client :=
        { ListUsersPages := Pager.ofPages [],
          ListUserPoliciesPages := fun _ =>
            Pager.failing (GoError.plain "ListUsersPoliciesPages should not be called when there is no user"),
          ListAttachedUserPoliciesPages := fun _ => Pager.ofPages [] } }

/-- The values `echoReader` answers for the three buckets of
`threeNotifications`. -/
def threeNotificationValues : List CtyValue :=
  [CtyValue.object [("type", "aws_s3_bucket_notification"), ("id", "logs")],
   CtyValue.object [("type", "aws_s3_bucket_notification"), ("id", "media")],
   CtyValue.object [("type", "aws_s3_bucket_notification"), ("id", "backup")]]

/-- A deserializer that answers a list of two bucket notifications, the second
one without sub-configuration, together with an error. -/
def brokenNotificationsDeserializer : CTYDeserializer :=
  ⟨fun _ =>
    (some
      [Resource.s3BucketNotification
        { Id := "logs", LambdaFunction := some [{ Id := "onPut", Arn := "arn:aws:lambda:fn" }],
          Queue := none, Topic := none },
       Resource.s3BucketNotification
        { Id := "media", LambdaFunction := none, Queue := some [], Topic := some [] }],
      some (GoError.plain "unsupported attribute"))⟩

/-- A notification supplier with three buckets, the second one without region, and
the deserializer `brokenNotificationsDeserializer`. -/
def brokenNotifications : S3BucketNotificationSupplier :=
  { reader := attributesReader, deserializer := brokenNotificationsDeserializer,
    runner := NewParallelResourceReader,
    factory := analyticsClient [{ Name := "logs" }, { Name := "media" }, { Name := "backup" }]
      (fun name => if name = "media" then ("", none) else ("eu-west-3", none))
      (fun _ _ => .ok { ConfigurationList := [], IsTruncated := none, NextContinuationToken := none }),
    AwsS3BucketNotificationResourceType := "aws_s3_bucket_notification" }

/-- An S3 client with three buckets: `logs` has no region, the region lookup of
`media` is denied with status 403, and `backup` is in `eu-west-3`. -/
def regionDeniedAfterSkipClient : S3API :=
  analyticsClient [{ Name := "logs" }, { Name := "media" }, { Name := "backup" }]
    (fun name =>
      if name = "logs" then ("", none)
      else if name = "media" then ("", some forbidden403) else ("eu-west-3", none))
    (fun _ _ =>
      .ok { ConfigurationList := [{ Id := "all" }], IsTruncated := none, NextContinuationToken := none })

/-- A configuration supplier on `regionDeniedAfterSkipClient`. -/
def regionDeniedAfterSkip : S3BucketConfigSupplier :=
  { reader := echoReader, deserializer := echoDeserializer, runner := NewParallelResourceReader,
    factory := regionDeniedAfterSkipClient }

/-- A notification supplier on `regionDeniedAfterSkipClient`. -/
def notificationRegionDeniedAfterSkip : S3BucketNotificationSupplier :=
  { reader := echoReader, deserializer := echoDeserializer, runner := NewParallelResourceReader,
    factory := regionDeniedAfterSkipClient,
    AwsS3BucketNotificationResourceType := "aws_s3_bucket_notification" }

/-- The state of these two suppliers after the bucket `logs`. -/
def afterLogsSkipped : State :=
  { alerter := NewAlerter, tasks := [],
    trace := [Event.call RemoteCall.ListBuckets none,
      Event.call (RemoteCall.GetBucketLocation "logs") none] }

/-- An attachment supplier with the users `alice` and `bob`: the listing for
`alice` is denied with status 403, `bob` has the policy `ReadOnly` attached. -/
def attachmentsDeniedForAlice : IamUserPolicyAttachmentSupplier :=
  { reader := echoReader, deserializer := echoDeserializer, runner := NewParallelResourceReader,
    client := twoUsers (fun _ => Pager.ofPages [])
      (fun userName =>
        if userName = "alice" then Pager.failing forbidden403
        else Pager.ofPages [[{ PolicyName := "ReadOnly", PolicyArn := "arn:aws:iam::aws:policy/ReadOnly" }]]) }

/-- A record supplier with the zones `Z1` and `Z2`: the record listing of `Z1` is
denied with status 403, `Z2` has one record. -/
def recordsDeniedForFirstZone : Route53RecordSupplier :=
  { reader := echoReader, deserializer := echoDeserializer, runner := NewParallelResourceReader,
    client :=
      { ListHostedZones :=
          ([{ Id := "/hostedzone/Z1", Name := "one.example." },
            { Id := "/hostedzone/Z2", Name := "two.example." }], none),
        ListResourceRecordSetsPages := fun zoneId =>
          if zoneId = "Z1" then Pager.failing forbidden403
          else Pager.ofPages [[{ Name := "www.two.example.", Type_ := "A", SetIdentifier := none }]] },
    toLowerCase := latin1LowerCase }

/-- An analytics supplier all of whose remote calls succeed: the bucket `logs` has
two configurations on two pages, the bucket `global` has an empty region and the
bucket `backup` has no configuration. -/
def analyticsOfLogs : S3BucketConfigSupplier :=
  { reader := echoReader, deserializer := echoDeserializer, runner := NewParallelResourceReader,
    factory := analyticsClient [{ Name := "logs" }, { Name := "global" }, { Name := "backup" }]
      (fun name =>
        if name = "logs" then ("eu-west-1", none)
        else if name = "global" then ("", none)
        else ("ap-northeast-1", none))
      (fun _ request =>
        if request.Bucket = "logs" then
          if request.ContinuationToken = none then
            .ok { ConfigurationList := [{ Id := "Analytics_Bucket1" }], IsTruncated := some true,
                  NextContinuationToken := some "page2" }
          else
            .ok { ConfigurationList := [{ Id := "Analytics2_Bucket1" }], IsTruncated := some false,
                  NextContinuationToken := none }
        else .ok { ConfigurationList := [], IsTruncated := none, NextContinuationToken := none }) }

/-- A deserializer that fails on every input. -/
def failingDeserializer : CTYDeserializer :=
  ⟨fun _ => (none, some (GoError.plain "unsupported attribute"))⟩

/-- The values `echoReader` answers for the two configurations of `analyticsOfLogs`. -/
def logsAnalyticsValues : List CtyValue :=
  [CtyValue.object [("type", "aws_s3_bucket_analytics_configuration"), ("id", "logs:Analytics_Bucket1")],
   CtyValue.object [("type", "aws_s3_bucket_analytics_configuration"), ("id", "logs:Analytics2_Bucket1")]]

/-- The supplier `analyticsOfLogs` with a deserializer that fails. -/
def analyticsOfLogsBroken : S3BucketConfigSupplier :=
  { analyticsOfLogs with deserializer := failingDeserializer }

/-- A record supplier with the zones `Z1` and `Z2`: the record listing of `Z1` is
denied with status 403, the one of `Z2` fails with another error. -/
def recordsDeniedThenBroken : Supplier :=
  Supplier.route53Record
    { reader := echoReader, deserializer := echoDeserializer, runner := NewParallelResourceReader,
      client :=
        { ListHostedZones :=
            ([{ Id := "/hostedzone/Z1", Name := "one.example." },
              { Id := "/hostedzone/Z2", Name := "two.example." }], none),
          ListResourceRecordSetsPages := fun zoneId =>
            if zoneId = "Z1" then Pager.failing forbidden403
            else Pager.failing (GoError.plain "connection reset") },
      toLowerCase := latin1LowerCase }

/-! ## Theorems -/

theorem handle_eq (err : error) (typ : String) (a : Alerter) (ft : String) :
    handleListAwsErrorWithMessage err typ a ft =
      if isForbidden err then (true, a.SendAlert typ (forbiddenAlert typ ft)) else (false, a) := by
  unfold handleListAwsErrorWithMessage isForbidden RequestFailure.StatusCode forbiddenAlert
    forbiddenMessage
  rcases err with _ | e
  · simp
  · cases e with
    | requestFailure c m sc r =>
      by_cases h : sc = 403 <;> by_cases h2 : ft = "" <;> simp [h, h2]
    | awsError c m => simp
    | plain m => simp

/-! ### The handler on a state -/

theorem State.handleWithMessage_eq (st : State) (err : error) (typ ft : String) :
    st.handleWithMessage err typ ft =
      if isForbidden err then
        (true, { st with alerter := st.alerter.SendAlert typ (forbiddenAlert typ ft) })
      else (false, st) := by
  unfold State.handleWithMessage
  rw [handle_eq]
  by_cases h : isForbidden err = true <;> simp [h]

theorem State.handle_forbidden_eq (st : State) (err : error) (typ : String) :
    st.handle err typ =
      if isForbidden err then
        (true, { st with alerter := st.alerter.SendAlert typ (forbiddenAlert typ "") })
      else (false, st) := by
  unfold State.handle handleListAwsError
  rw [Driftctl.handle_eq]
  by_cases h : isForbidden err = true <;> simp [h]

theorem isForbidden_requestFailure (code message requestID : String) :
    isForbidden (some (GoError.requestFailure code message 403 requestID)) = true := by
  simp [isForbidden]

theorem isForbidden_iff (err : error) :
    isForbidden err = true ↔
      ∃ code message requestID, err = some (GoError.requestFailure code message 403 requestID) := by
  rcases err with _ | e
  · simp [isForbidden]
  · cases e with
    | requestFailure c m sc r =>
      by_cases h : sc = 403
      · subst h
        simp [isForbidden]
      · simp [isForbidden, h]
    | awsError c m => simp [isForbidden]
    | plain m => simp [isForbidden]

theorem isForbidden_ne_none {err : error} (h : isForbidden err = true) : err ≠ none := by
  rintro rfl
  simp [isForbidden] at h

theorem SendAlert_Retrieve_self (a : Alerter) (typ : String) (alert : Alert) :
    (a.SendAlert typ alert).Retrieve typ = a.Retrieve typ ++ [alert] := by
  simp [Alerter.SendAlert, Alerter.Retrieve]

theorem SendAlert_Retrieve_other (a : Alerter) (typ key : String) (alert : Alert) (h : key ≠ typ) :
    (a.SendAlert typ alert).Retrieve key = a.Retrieve key := by
  simp [Alerter.SendAlert, Alerter.Retrieve, h]

/-! ### Effects of the steps of a supplier -/

theorem Alerter.sendAll_append (a : Alerter) (typ : String) (xs ys : List Alert) :
    a.sendAll typ (xs ++ ys) = (a.sendAll typ xs).sendAll typ ys := by
  simp [Alerter.sendAll, List.foldl_append]

theorem Supplier.alertsOf_append (s : Supplier) (xs ys : List Event) :
    s.alertsOf (xs ++ ys) = s.alertsOf xs ++ s.alertsOf ys := by
  simp [Supplier.alertsOf, List.filterMap_append]

theorem Effect.refl (s : Supplier) (st : State) : Effect s st st [] :=
  ⟨by simp, by simp [Supplier.alertsOf, Alerter.sendAll]⟩

theorem Effect.trans {s : Supplier} {st st1 st2 : State} {e1 e2 : List Event}
    (h1 : Effect s st st1 e1) (h2 : Effect s st1 st2 e2) : Effect s st st2 (e1 ++ e2) :=
  ⟨by rw [h2.trace, h1.trace, List.append_assoc],
   by rw [h2.alerter, h1.alerter, Supplier.alertsOf_append, Alerter.sendAll_append]⟩

theorem Effect.of_eq {s : Supplier} {st st1 st2 : State} {evs : List Event}
    (h : Effect s st st1 evs) (ht : st2.trace = st1.trace) (ha : st2.alerter = st1.alerter) :
    Effect s st st2 evs :=
  ⟨by rw [ht, h.trace], by rw [ha, h.alerter]⟩

theorem Effect.call_passed (s : Supplier) (st : State) (c : RemoteCall) (err : error)
    (h : deniedListing c err = false) : Effect s st (st.call c err) [Event.call c err] :=
  ⟨by simp [State.call], by simp [State.call, Supplier.alertsOf, Alerter.sendAll, h]⟩

theorem Effect.call_handled (s : Supplier) (st : State) (c : RemoteCall) (err : error) (ft : String)
    (h : deniedListing c err = true) (hft : ft = if c = s.listCall then s.forbiddenType else "") :
    Effect s st ((st.call c err).handleWithMessage err s.resourceType ft).2 [Event.call c err] := by
  have hf : isForbidden err = true := by
    simp [deniedListing] at h
    exact h.1
  rw [State.handleWithMessage_eq]
  simp only [hf, if_true]
  exact ⟨by simp [State.call],
    by simp [State.call, Supplier.alertsOf, Alerter.sendAll, h, Supplier.alertFor, hft]⟩

theorem State.handle_eq_handleWithMessage (st : State) (err : error) (typ : String) :
    st.handle err typ = st.handleWithMessage err typ "" := rfl

theorem State.handleWithMessage_fst (st : State) (err : error) (typ ft : String) :
    (st.handleWithMessage err typ ft).1 = isForbidden err := by
  rw [State.handleWithMessage_eq]
  by_cases h : isForbidden err = true <;> simp [h]

theorem State.handleWithMessage_not (st : State) (err : error) (typ ft : String)
    (h : isForbidden err = false) : (st.handleWithMessage err typ ft).2 = st := by
  rw [State.handleWithMessage_eq]
  simp [h]

theorem State.handleWithMessage_tasks (st : State) (err : error) (typ ft : String) :
    (st.handleWithMessage err typ ft).2.tasks = st.tasks := by
  rw [State.handleWithMessage_eq]
  by_cases h : isForbidden err = true <;> simp [h]

theorem State.foldl_Run {α : Type} (f : α → Task) (l : List α) (st : State) :
    l.foldl (fun st x => st.Run (f x)) st = { st with tasks := st.tasks ++ l.map f } := by
  induction l generalizing st with
  | nil => simp
  | cons x xs ih =>
    rw [List.foldl_cons, ih]
    simp [State.Run]

theorem Effect.wait (s : Supplier) (st : State) (runner : ParallelResourceReader) :
    Effect s st (st.Wait runner).2 [Event.wait (st.Wait runner).1.1 (st.Wait runner).1.2] :=
  ⟨by simp [State.Wait], by simp [State.Wait, Supplier.alertsOf, Alerter.sendAll]⟩

theorem Effect.deserialize (s : Supplier) (st : State) (d : CTYDeserializer) (values : List CtyValue) :
    Effect s st (st.Deserialize d values).2
      [Event.deserialize values (st.Deserialize d values).1] :=
  ⟨by simp [State.Deserialize], by simp [State.Deserialize, Supplier.alertsOf, Alerter.sendAll]⟩

theorem Ongoing.nil (s : Supplier) : Ongoing s [] := by
  intro ev h
  simp at h

theorem Ongoing.append {s : Supplier} {xs ys : List Event} (hx : Ongoing s xs) (hy : Ongoing s ys) :
    Ongoing s (xs ++ ys) := by
  intro ev h
  rcases List.mem_append.mp h with h | h
  · exact hx ev h
  · exact hy ev h

theorem Ongoing.single {s : Supplier} {ev : Event} (h : ev.passed s = true) : Ongoing s [ev] := by
  intro e he
  simp at he
  subst he
  exact h

theorem Finished.prepend {s : Supplier} {xs ys : List Event} {r : Result} (hx : Ongoing s xs)
    (hy : Finished s ys r) : Finished s (xs ++ ys) r := by
  cases hy with
  | denied pre c err h1 h2 h3 =>
    rw [← List.append_assoc]
    exact Finished.denied _ c err (hx.append h1) h2 h3
  | failed pre c err h1 h2 h3 =>
    rw [← List.append_assoc]
    exact Finished.failed _ c err (hx.append h1) h2 h3
  | waitFailed pre values err h1 h2 =>
    rw [← List.append_assoc]
    exact Finished.waitFailed _ values err (hx.append h1) h2
  | deserialized pre values r h1 h2 =>
    rw [← List.append_assoc]
    exact Finished.deserialized _ values r (hx.append h1) h2
  | empty pre r h1 h2 =>
    rw [← List.append_assoc]
    exact Finished.empty _ r (hx.append h1) h2

/-! ### Shape of the invocations, supplier by supplier -/

/-- The common end of `Resources()`: `Wait()`, then `Deserialize` unless `Wait()`
failed. -/
theorem summary_wait_deserialize (s : Supplier) (hs : ∀ r, s.finish r = r)
    (d : CTYDeserializer) (hdes : d = s.deserializer) (st st1 : State)
    (pre : List Event) (runner : ParallelResourceReader)
    (he : Effect s st st1 pre) (ho : Ongoing s pre) :
    ∃ evs,
      Effect s st
        (match st1.Wait runner with
          | ((values, err), st2) =>
            if err ≠ none then ((none, err), st2) else st2.Deserialize d values).2 evs ∧
      Finished s evs
        (match st1.Wait runner with
          | ((values, err), st2) =>
            if err ≠ none then ((none, err), st2) else st2.Deserialize d values).1 := by
  have hout : (match st1.Wait runner with
      | ((values, err), st2) =>
        if err ≠ none then ((none, err), st2) else st2.Deserialize d values) =
      if (runner.Wait st1.tasks).2 ≠ none then
        ((none, (runner.Wait st1.tasks).2), (st1.Wait runner).2)
      else (st1.Wait runner).2.Deserialize d (runner.Wait st1.tasks).1 := rfl
  have hw := Effect.wait s st1 runner
  have hw1 : (st1.Wait runner).1 = runner.Wait st1.tasks := rfl
  rw [hw1] at hw
  by_cases h : (runner.Wait st1.tasks).2 = none
  · have hd := Effect.deserialize s (st1.Wait runner).2 d (runner.Wait st1.tasks).1
    rw [h] at hw
    refine ⟨pre ++ ([Event.wait (runner.Wait st1.tasks).1 none] ++
      [Event.deserialize (runner.Wait st1.tasks).1
        ((st1.Wait runner).2.Deserialize d (runner.Wait st1.tasks).1).1]), ?_, ?_⟩
    · rw [hout]
      simp only [h, ne_eq, not_true_eq_false, if_false]
      exact he.trans (hw.trans hd)
    · rw [hout]
      simp only [h, ne_eq, not_true_eq_false, if_false]
      have := @Finished.deserialized s pre (runner.Wait st1.tasks).1
        ((st1.Wait runner).2.Deserialize d (runner.Wait st1.tasks).1).1 ho (by rw [hdes]; rfl)
      rw [hs] at this
      exact this
  · refine ⟨pre ++ [Event.wait (runner.Wait st1.tasks).1 (runner.Wait st1.tasks).2], ?_, ?_⟩
    · rw [hout]
      simp only [h, ne_eq, not_false_eq_true, if_true]
      exact he.trans hw
    · rw [hout]
      simp only [h, ne_eq, not_false_eq_true, if_true]
      exact Finished.waitFailed pre _ _ ho h


/-- A listing that failed, followed by the handler: `Resources()` returns the empty
list when the handler took care of the error and the error otherwise. -/
theorem summary_list_failed (s : Supplier) (st st1 : State) (pre : List Event)
    (c : RemoteCall) (err : error) (ft : String)
    (hc : c.isListing = true) (herr : err ≠ none)
    (hft : ft = if c = s.listCall then s.forbiddenType else "")
    (hpass : (Event.call c err).passed s = false)
    (he : Effect s st st1 pre) (ho : Ongoing s pre) (out : Result × State)
    (hout : out =
      if !((st1.call c err).handleWithMessage err s.resourceType ft).1 then
        ((none, err), ((st1.call c err).handleWithMessage err s.resourceType ft).2)
      else ((some [], none), ((st1.call c err).handleWithMessage err s.resourceType ft).2)) :
    ∃ evs, Effect s st out.2 evs ∧ Finished s evs out.1 := by
  refine ⟨pre ++ [Event.call c err], ?_, ?_⟩
  · by_cases hf : isForbidden err = true
    · have hd : deniedListing c err = true := by simp [deniedListing, hf, hc]
      rw [hout]
      simp only [State.handleWithMessage_fst, hf, Bool.not_true, Bool.false_eq_true, if_false]
      exact he.trans (Effect.call_handled s st1 c err ft hd hft)
    · have hf2 : isForbidden err = false := by simpa using hf
      have hd : deniedListing c err = false := by simp [deniedListing, hf2]
      rw [hout]
      simp only [State.handleWithMessage_fst, hf2, Bool.not_false, if_true,
        State.handleWithMessage_not _ _ _ _ hf2]
      exact he.trans (Effect.call_passed s st1 c err hd)
  · by_cases hf : isForbidden err = true
    · have hd : deniedListing c err = true := by simp [deniedListing, hf, hc]
      rw [hout]
      simp only [State.handleWithMessage_fst, hf, Bool.not_true, Bool.false_eq_true, if_false]
      exact Finished.denied pre c err ho hd hpass
    · have hf2 : isForbidden err = false := by simpa using hf
      have hd : deniedListing c err = false := by simp [deniedListing, hf2]
      rw [hout]
      simp only [State.handleWithMessage_fst, hf2, Bool.not_false, if_true]
      exact Finished.failed pre c err ho herr hd

theorem Event.call_none_passed (s : Supplier) (c : RemoteCall) :
    (Event.call c none).passed s = true := by
  simp [Event.passed]

theorem Event.call_top_not_passed (s : Supplier) (err : error) (herr : err ≠ none) :
    (Event.call s.listCall err).passed s = false := by
  simp [Event.passed, herr]

theorem Effect.call_none (s : Supplier) (st : State) (c : RemoteCall) :
    Effect s st (st.call c none) [Event.call c none] :=
  Effect.call_passed s st c none (by simp [deniedListing, isForbidden])

theorem DBSubnetGroupSupplier.dbSubnetGroup_summary (s : DBSubnetGroupSupplier) (st : State) :
    ∃ evs, Effect (Supplier.dbSubnetGroup s) st (s.Resources st).2 evs ∧
      Finished (Supplier.dbSubnetGroup s) evs (s.Resources st).1 := by
  unfold DBSubnetGroupSupplier.Resources
  simp only [Pager.Pages]
  by_cases herr : s.client.DescribeDBSubnetGroupsPages.err = none
  · simp only [herr, ne_eq, not_true_eq_false, if_false, State.foldl_Run]
    exact summary_wait_deserialize (Supplier.dbSubnetGroup s) (fun r => rfl) s.deserializer rfl st _
      [Event.call RemoteCall.DescribeDBSubnetGroupsPages none] s.runner
      (by exact (Effect.call_none _ st _).of_eq rfl rfl)
      (Ongoing.single (Event.call_none_passed _ _))
  · simp only [herr, ne_eq, not_false_eq_true, if_true, State.handle_eq_handleWithMessage]
    have := summary_list_failed (Supplier.dbSubnetGroup s) st st [] RemoteCall.DescribeDBSubnetGroupsPages
      s.client.DescribeDBSubnetGroupsPages.err "" rfl herr rfl
      (Event.call_top_not_passed (Supplier.dbSubnetGroup s) _ herr) (Effect.refl _ _) (Ongoing.nil _) _ rfl
    simpa using this

theorem summary_list_failed_core (s : Supplier) (st st1 : State) (pre : List Event)
    (c : RemoteCall) (err : error) (ft : String)
    (hc : c.isListing = true) (herr : err ≠ none)
    (hft : ft = if c = s.listCall then s.forbiddenType else "")
    (he : Effect s st st1 pre) (ho : Ongoing s pre) :
    Effect s st ((st1.call c err).handleWithMessage err s.resourceType ft).2
        (pre ++ [Event.call c err]) ∧
      (isForbidden err = false → Finished s (pre ++ [Event.call c err]) (none, err)) ∧
      (isForbidden err = true → (Event.call c err).passed s = false →
        Finished s (pre ++ [Event.call c err]) (some [], none)) ∧
      (isForbidden err = true → (Event.call c err).passed s = true →
        Ongoing s (pre ++ [Event.call c err])) := by
  refine ⟨?_, ?_, ?_, ?_⟩
  · by_cases hf : isForbidden err = true
    · have hd : deniedListing c err = true := by simp [deniedListing, hf, hc]
      exact he.trans (Effect.call_handled s st1 c err ft hd hft)
    · have hf2 : isForbidden err = false := by simpa using hf
      have hd : deniedListing c err = false := by simp [deniedListing, hf2]
      rw [State.handleWithMessage_not _ _ _ _ hf2]
      exact he.trans (Effect.call_passed s st1 c err hd)
  · intro hf2
    have hd : deniedListing c err = false := by simp [deniedListing, hf2]
    exact Finished.failed pre c err ho herr hd
  · intro hf hpass
    have hd : deniedListing c err = true := by simp [deniedListing, hf, hc]
    exact Finished.denied pre c err ho hd hpass
  · intro _ hpass
    exact ho.append (Ongoing.single hpass)

theorem listIamUsers_snd (client : IAMAPI) : (listIamUsers client).2 = client.ListUsersPages.err := by
  unfold listIamUsers Pager.Pages
  by_cases h : client.ListUsersPages.err = none <;> simp [h]

theorem IamUserSupplier.iamUser_summary (s : IamUserSupplier) (st : State) :
    ∃ evs, Effect (Supplier.iamUser s) st (s.Resources st).2 evs ∧
      Finished (Supplier.iamUser s) evs (s.Resources st).1 := by
  unfold IamUserSupplier.Resources
  rcases h : listIamUsers s.client with ⟨users, err⟩
  simp only []
  by_cases herr : err = none
  · subst herr
    simp only [ne_eq, not_true_eq_false, if_false]
    by_cases hlen : users.length > 0
    · simp only [hlen, if_true]
      exact summary_wait_deserialize (Supplier.iamUser s) (fun r => rfl) s.deserializer rfl st _
        [Event.call RemoteCall.ListUsersPages none] s.runner
        (by exact (Effect.call_none _ st _).of_eq (by simp [State.foldl_Run]) (by simp [State.foldl_Run]))
        (Ongoing.single (Event.call_none_passed _ _))
    · simp only [hlen, if_false]
      exact ⟨_, (Effect.call_none _ st _).trans (Effect.deserialize _ _ _ _),
        Finished.empty [Event.call RemoteCall.ListUsersPages none] _
          (Ongoing.single (Event.call_none_passed _ _)) rfl⟩
  · simp only [herr, ne_eq, not_false_eq_true, if_true, State.handle_eq_handleWithMessage]
    have := summary_list_failed (Supplier.iamUser s) st st [] RemoteCall.ListUsersPages
      err "" rfl herr rfl
      (Event.call_top_not_passed (Supplier.iamUser s) _ herr) (Effect.refl _ _) (Ongoing.nil _) _ rfl
    simpa using this

theorem LambdaFunctionSupplier.lambdaFunction_summary (s : LambdaFunctionSupplier) (st : State) :
    ∃ evs, Effect (Supplier.lambdaFunction s) st (s.Resources st).2 evs ∧
      Finished (Supplier.lambdaFunction s) evs (s.Resources st).1 := by
  unfold LambdaFunctionSupplier.Resources
  rcases h : listLambdaFunctions s.client with ⟨functions, err⟩
  simp only []
  by_cases herr : err = none
  · subst herr
    simp only [ne_eq, not_true_eq_false, if_false]
    by_cases hlen : functions.length > 0
    · simp only [hlen, if_true]
      exact summary_wait_deserialize (Supplier.lambdaFunction s) (fun r => rfl) s.deserializer rfl st _
        [Event.call RemoteCall.ListFunctionsPages none] s.runner
        (by exact (Effect.call_none _ st _).of_eq (by simp [State.foldl_Run]) (by simp [State.foldl_Run]))
        (Ongoing.single (Event.call_none_passed _ _))
    · simp only [hlen, if_false]
      exact ⟨_, (Effect.call_none _ st _).trans (Effect.deserialize _ _ _ _),
        Finished.empty [Event.call RemoteCall.ListFunctionsPages none] _
          (Ongoing.single (Event.call_none_passed _ _)) rfl⟩
  · simp only [herr, ne_eq, not_false_eq_true, if_true, State.handle_eq_handleWithMessage]
    have := summary_list_failed (Supplier.lambdaFunction s) st st [] RemoteCall.ListFunctionsPages
      err "" rfl herr rfl
      (Event.call_top_not_passed (Supplier.lambdaFunction s) _ herr) (Effect.refl _ _) (Ongoing.nil _) _ rfl
    simpa using this


theorem IamUserPolicySupplier.listPolicies_summary (s : IamUserPolicySupplier) (users : List User)
    (policies : List String) (st : State) :
    ∃ evs, Effect (Supplier.iamUserPolicy s) st (s.listPolicies users policies st).2 evs ∧
      (s.listPolicies users policies st).1.Shape (Supplier.iamUserPolicy s) evs := by
  induction users generalizing policies st with
  | nil => exact ⟨[], Effect.refl _ _, Ongoing.nil _⟩
  | cons user users ih =>
    unfold IamUserPolicySupplier.listPolicies
    rcases h : listIamUserPolicies user.UserName s.client with ⟨policyList, err⟩
    simp only [h]
    by_cases herr : err = none
    · subst herr
      simp only [ne_eq, not_true_eq_false, if_false]
      obtain ⟨evs, he, hs⟩ := ih
        (policyList.foldl (fun policies polName => policies ++ [user.UserName ++ ":" ++ polName]) policies)
        (st.call (RemoteCall.ListUserPoliciesPages user.UserName) none)
      refine ⟨[Event.call (RemoteCall.ListUserPoliciesPages user.UserName) none] ++ evs,
        (Effect.call_none _ st _).trans he, ?_⟩
      revert hs
      cases (s.listPolicies users _ _).1 with
      | next a => exact fun hs => (Ongoing.single (Event.call_none_passed _ _)).append hs
      | done r => exact fun hs => Finished.prepend (Ongoing.single (Event.call_none_passed _ _)) hs
    · simp only [herr, ne_eq, not_false_eq_true, if_true, State.handle_eq_handleWithMessage]
      obtain ⟨h1, h2, h3, -⟩ := summary_list_failed_core (Supplier.iamUserPolicy s) st st []
        (RemoteCall.ListUserPoliciesPages user.UserName) err "" rfl herr rfl (Effect.refl _ _)
        (Ongoing.nil _)
      have hnp : (Event.call (RemoteCall.ListUserPoliciesPages user.UserName) err).passed
          (Supplier.iamUserPolicy s) = false := by
        simp [Event.passed, herr, Supplier.keepsGoing]
      refine ⟨[Event.call (RemoteCall.ListUserPoliciesPages user.UserName) err], ?_, ?_⟩
      · by_cases hf : isForbidden err = true <;>
          simp only [State.handleWithMessage_fst, hf, Bool.not_true, Bool.not_false,
            Bool.false_eq_true, if_true, if_false] <;> simpa using h1
      · by_cases hf : isForbidden err = true
        · simp only [State.handleWithMessage_fst, hf, Bool.not_true, Bool.false_eq_true, if_false]
          simpa using h3 hf hnp
        · have hf2 : isForbidden err = false := by simpa using hf
          simp only [State.handleWithMessage_fst, hf2, Bool.not_false, if_true]
          simpa using h2 hf2

theorem IamUserPolicySupplier.iamUserPolicy_summary (s : IamUserPolicySupplier) (st : State) :
    ∃ evs, Effect (Supplier.iamUserPolicy s) st (s.Resources st).2 evs ∧
      Finished (Supplier.iamUserPolicy s) evs (s.Resources st).1 := by
  unfold IamUserPolicySupplier.Resources
  rcases h : listIamUsers s.client with ⟨users, err⟩
  simp only []
  by_cases herr : err = none
  · subst herr
    simp only [ne_eq, not_true_eq_false, if_false]
    by_cases hlen : users.length > 0
    · simp only [hlen, if_true]
      obtain ⟨evs, he, hs⟩ := s.listPolicies_summary users []
        (st.call RemoteCall.ListUsersPages none)
      have he0 := (Effect.call_none (Supplier.iamUserPolicy s) st RemoteCall.ListUsersPages).trans he
      rcases hl : s.listPolicies users [] (st.call RemoteCall.ListUsersPages none) with ⟨flow, st1⟩
      rw [hl] at he0 hs
      cases flow with
      | done r =>
        exact ⟨_, he0, Finished.prepend (Ongoing.single (Event.call_none_passed _ _)) hs⟩
      | next policies =>
        exact summary_wait_deserialize (Supplier.iamUserPolicy s) (fun r => rfl) s.deserializer rfl st _ _
          s.runner
          (by exact he0.of_eq (by simp [State.foldl_Run]) (by simp [State.foldl_Run]))
          ((Ongoing.single (Event.call_none_passed _ _)).append hs)
    · simp only [hlen, if_false]
      exact ⟨_, (Effect.call_none _ st _).trans (Effect.deserialize _ _ _ _),
        Finished.empty [Event.call RemoteCall.ListUsersPages none] _
          (Ongoing.single (Event.call_none_passed _ _)) rfl⟩
  · simp only [herr, ne_eq, not_false_eq_true, if_true]
    have := summary_list_failed (Supplier.iamUserPolicy s) st st [] RemoteCall.ListUsersPages
      err AwsIamUserResourceType rfl herr rfl
      (Event.call_top_not_passed (Supplier.iamUserPolicy s) _ herr) (Effect.refl _ _) (Ongoing.nil _) _ rfl
    simpa using this

theorem IamUserPolicyAttachmentSupplier.listAttachments_summary (s : IamUserPolicyAttachmentSupplier)
    (users : List User) (attachedPolicies : List attachedUserPolicy) (st : State) :
    ∃ evs, Effect (Supplier.iamUserPolicyAttachment s) st
        (s.listAttachments users attachedPolicies st).2 evs ∧
      (s.listAttachments users attachedPolicies st).1.Shape (Supplier.iamUserPolicyAttachment s) evs := by
  induction users generalizing attachedPolicies st with
  | nil => exact ⟨[], Effect.refl _ _, Ongoing.nil _⟩
  | cons user users ih =>
    unfold IamUserPolicyAttachmentSupplier.listAttachments
    rcases h : listIamUserPoliciesAttachment user.UserName s.client with ⟨policyAttachmentList, err⟩
    simp only [h]
    by_cases herr : err = none
    · subst herr
      simp only [ne_eq, not_true_eq_false, if_false]
      obtain ⟨evs, he, hs⟩ := ih (attachedPolicies ++ policyAttachmentList)
        (st.call (RemoteCall.ListAttachedUserPoliciesPages user.UserName) none)
      refine ⟨[Event.call (RemoteCall.ListAttachedUserPoliciesPages user.UserName) none] ++ evs,
        (Effect.call_none _ st _).trans he, ?_⟩
      revert hs
      cases (s.listAttachments users _ _).1 with
      | next a => exact fun hs => (Ongoing.single (Event.call_none_passed _ _)).append hs
      | done r => exact fun hs => Finished.prepend (Ongoing.single (Event.call_none_passed _ _)) hs
    · simp only [herr, ne_eq, not_false_eq_true, if_true, State.handle_eq_handleWithMessage]
      obtain ⟨h1, h2, -, h4⟩ := summary_list_failed_core (Supplier.iamUserPolicyAttachment s) st st []
        (RemoteCall.ListAttachedUserPoliciesPages user.UserName) err "" rfl herr rfl (Effect.refl _ _)
        (Ongoing.nil _)
      by_cases hf : isForbidden err = true
      · simp only [State.handleWithMessage_fst, hf, Bool.not_true, Bool.false_eq_true, if_false]
        have hp : (Event.call (RemoteCall.ListAttachedUserPoliciesPages user.UserName) err).passed
            (Supplier.iamUserPolicyAttachment s) = true := by
          simp [Event.passed, Supplier.keepsGoing, deniedListing, hf, RemoteCall.isListing,
            Supplier.listCall]
        obtain ⟨evs, he, hs⟩ := ih (attachedPolicies ++ policyAttachmentList)
          ((st.call (RemoteCall.ListAttachedUserPoliciesPages user.UserName) err).handleWithMessage err
            AwsIamUserPolicyAttachmentResourceType "").2
        have h1b : Effect (Supplier.iamUserPolicyAttachment s) st
            ((st.call (RemoteCall.ListAttachedUserPoliciesPages user.UserName) err).handleWithMessage err
              AwsIamUserPolicyAttachmentResourceType "").2
            [Event.call (RemoteCall.ListAttachedUserPoliciesPages user.UserName) err] := h1
        refine ⟨[Event.call (RemoteCall.ListAttachedUserPoliciesPages user.UserName) err] ++ evs,
          h1b.trans he, ?_⟩
        revert hs
        cases (s.listAttachments users _ _).1 with
        | next a => exact fun hs => (Ongoing.single hp).append hs
        | done r => exact fun hs => Finished.prepend (Ongoing.single hp) hs
      · have hf2 : isForbidden err = false := by simpa using hf
        simp only [State.handleWithMessage_fst, hf2, Bool.not_false, if_true]
        exact ⟨[Event.call (RemoteCall.ListAttachedUserPoliciesPages user.UserName) err],
          by simpa using h1, by simpa using h2 hf2⟩

theorem IamUserPolicyAttachmentSupplier.iamUserPolicyAttachment_summary (s : IamUserPolicyAttachmentSupplier)
    (st : State) :
    ∃ evs, Effect (Supplier.iamUserPolicyAttachment s) st (s.Resources st).2 evs ∧
      Finished (Supplier.iamUserPolicyAttachment s) evs (s.Resources st).1 := by
  unfold IamUserPolicyAttachmentSupplier.Resources
  rcases h : listIamUsers s.client with ⟨users, err⟩
  simp only []
  by_cases herr : err = none
  · subst herr
    simp only [ne_eq, not_true_eq_false, if_false]
    by_cases hlen : users.length > 0
    · simp only [hlen, if_true]
      obtain ⟨evs, he, hs⟩ := s.listAttachments_summary users []
        (st.call RemoteCall.ListUsersPages none)
      have he0 := (Effect.call_none (Supplier.iamUserPolicyAttachment s) st
        RemoteCall.ListUsersPages).trans he
      rcases hl : s.listAttachments users [] (st.call RemoteCall.ListUsersPages none) with ⟨flow, st1⟩
      rw [hl] at he0 hs
      cases flow with
      | done r =>
        exact ⟨_, he0, Finished.prepend (Ongoing.single (Event.call_none_passed _ _)) hs⟩
      | next policies =>
        exact summary_wait_deserialize (Supplier.iamUserPolicyAttachment s) (fun r => rfl) s.deserializer rfl st _ _
          s.runner
          (by exact he0.of_eq (by simp [State.foldl_Run]) (by simp [State.foldl_Run]))
          ((Ongoing.single (Event.call_none_passed _ _)).append hs)
    · simp only [hlen, if_false]
      exact ⟨_, (Effect.call_none _ st _).trans (Effect.deserialize _ _ _ _),
        Finished.empty [Event.call RemoteCall.ListUsersPages none] _
          (Ongoing.single (Event.call_none_passed _ _)) rfl⟩
  · simp only [herr, ne_eq, not_false_eq_true, if_true]
    have := summary_list_failed (Supplier.iamUserPolicyAttachment s) st st []
      RemoteCall.ListUsersPages err AwsIamUserResourceType rfl herr rfl
      (Event.call_top_not_passed (Supplier.iamUserPolicyAttachment s) _ herr) (Effect.refl _ _)
      (Ongoing.nil _) _ rfl
    simpa using this


theorem Route53RecordSupplier.listZones_snd (s : Route53RecordSupplier) :
    s.listZones.2 = s.client.ListHostedZones.2 := by
  unfold Route53RecordSupplier.listZones
  by_cases h : s.client.ListHostedZones.2 = none <;> simp [h]

theorem Route53RecordSupplier.listRecords_summary (s : Route53RecordSupplier)
    (zones : List (String × String)) (st : State) :
    ∃ evs, Effect (Supplier.route53Record s) st (s.listRecords zones st).2 evs ∧
      (s.listRecords zones st).1.Shape (Supplier.route53Record s) evs := by
  induction zones generalizing st with
  | nil => exact ⟨[], Effect.refl _ _, Ongoing.nil _⟩
  | cons zone zones ih =>
    unfold Route53RecordSupplier.listRecords Route53RecordSupplier.listRecordsForZone
    rcases h : listAwsRoute53Records s.client zone.1 with ⟨records, err⟩
    simp only [h]
    by_cases herr : err = none
    · subst herr
      simp only [ne_eq, not_true_eq_false, if_false]
      obtain ⟨evs, he, hs⟩ := ih
        (records.foldl (fun st raw => st.Run (fun _ => s.readRecord zone.1 raw))
          (st.call (RemoteCall.ListResourceRecordSetsPages zone.1) none))
      have he1 : Effect (Supplier.route53Record s) st
          (records.foldl (fun st raw => st.Run (fun _ => s.readRecord zone.1 raw))
            (st.call (RemoteCall.ListResourceRecordSetsPages zone.1) none))
          [Event.call (RemoteCall.ListResourceRecordSetsPages zone.1) none] :=
        (Effect.call_none _ st _).of_eq (by simp [State.foldl_Run]) (by simp [State.foldl_Run])
      refine ⟨[Event.call (RemoteCall.ListResourceRecordSetsPages zone.1) none] ++ evs,
        he1.trans he, ?_⟩
      revert hs
      cases (s.listRecords zones _).1 with
      | next a => exact fun hs => (Ongoing.single (Event.call_none_passed _ _)).append hs
      | done r => exact fun hs => Finished.prepend (Ongoing.single (Event.call_none_passed _ _)) hs
    · simp only [herr, ne_eq, not_false_eq_true, if_true, State.handle_eq_handleWithMessage]
      obtain ⟨h1, h2, -, h4⟩ := summary_list_failed_core (Supplier.route53Record s) st st []
        (RemoteCall.ListResourceRecordSetsPages zone.1) err "" rfl herr rfl (Effect.refl _ _)
        (Ongoing.nil _)
      have h1b : Effect (Supplier.route53Record s) st
          ((st.call (RemoteCall.ListResourceRecordSetsPages zone.1) err).handleWithMessage err
            AwsRoute53RecordResourceType "").2
          [Event.call (RemoteCall.ListResourceRecordSetsPages zone.1) err] := h1
      by_cases hf : isForbidden err = true
      · simp only [State.handleWithMessage_fst, hf, Bool.not_true, Bool.false_eq_true, if_false]
        have hp : (Event.call (RemoteCall.ListResourceRecordSetsPages zone.1) err).passed
            (Supplier.route53Record s) = true := by
          simp [Event.passed, Supplier.keepsGoing, deniedListing, hf, RemoteCall.isListing,
            Supplier.listCall]
        obtain ⟨evs, he, hs⟩ := ih
          ((st.call (RemoteCall.ListResourceRecordSetsPages zone.1) err).handleWithMessage err
            AwsRoute53RecordResourceType "").2
        refine ⟨[Event.call (RemoteCall.ListResourceRecordSetsPages zone.1) err] ++ evs,
          h1b.trans he, ?_⟩
        revert hs
        cases (s.listRecords zones _).1 with
        | next a => exact fun hs => (Ongoing.single hp).append hs
        | done r => exact fun hs => Finished.prepend (Ongoing.single hp) hs
      · have hf2 : isForbidden err = false := by simpa using hf
        simp only [State.handleWithMessage_fst, hf2, Bool.not_false, if_true]
        exact ⟨[Event.call (RemoteCall.ListResourceRecordSetsPages zone.1) err],
          h1b, by simpa using h2 hf2⟩

theorem Route53RecordSupplier.route53Record_summary (s : Route53RecordSupplier) (st : State) :
    ∃ evs, Effect (Supplier.route53Record s) st (s.Resources st).2 evs ∧
      Finished (Supplier.route53Record s) evs (s.Resources st).1 := by
  unfold Route53RecordSupplier.Resources
  rcases h : s.listZones with ⟨zones, err⟩
  simp only []
  by_cases herr : err = none
  · subst herr
    simp only [ne_eq, not_true_eq_false, if_false]
    obtain ⟨evs, he, hs⟩ := s.listRecords_summary zones (st.call RemoteCall.ListHostedZones none)
    have he0 := (Effect.call_none (Supplier.route53Record s) st RemoteCall.ListHostedZones).trans he
    rcases hl : s.listRecords zones (st.call RemoteCall.ListHostedZones none) with ⟨flow, st1⟩
    rw [hl] at he0 hs
    cases flow with
    | done r =>
      exact ⟨_, he0, Finished.prepend (Ongoing.single (Event.call_none_passed _ _)) hs⟩
    | next u =>
      exact summary_wait_deserialize (Supplier.route53Record s) (fun r => rfl) s.deserializer rfl st _ _
        s.runner he0
        ((Ongoing.single (Event.call_none_passed _ _)).append hs)
  · simp only [herr, ne_eq, not_false_eq_true, if_true]
    have := summary_list_failed (Supplier.route53Record s) st st []
      RemoteCall.ListHostedZones err AwsRoute53ZoneResourceType rfl herr rfl
      (Event.call_top_not_passed (Supplier.route53Record s) _ herr) (Effect.refl _ _)
      (Ongoing.nil _) _ rfl
    simpa using this


theorem S3ConfigKind.supplier_resourceType (k : S3ConfigKind) (s : S3BucketConfigSupplier) :
    (k.supplier s).resourceType = k.resourceType := by
  cases k <;> rfl

theorem S3ConfigKind.supplier_listCall (k : S3ConfigKind) (s : S3BucketConfigSupplier) :
    (k.supplier s).listCall = RemoteCall.ListBuckets := by
  cases k <;> rfl

theorem S3ConfigKind.supplier_forbiddenType (k : S3ConfigKind) (s : S3BucketConfigSupplier) :
    (k.supplier s).forbiddenType = AwsS3BucketResourceType := by
  cases k <;> rfl

theorem S3ConfigKind.supplier_keepsGoing (k : S3ConfigKind) (s : S3BucketConfigSupplier) :
    (k.supplier s).keepsGoing = false := by
  cases k <;> rfl

theorem S3ConfigKind.supplier_deserializer (k : S3ConfigKind) (s : S3BucketConfigSupplier) :
    (k.supplier s).deserializer = s.deserializer := by
  cases k <;> rfl

theorem S3ConfigKind.supplier_finish (k : S3ConfigKind) (s : S3BucketConfigSupplier) (r : Result) :
    (k.supplier s).finish r = r := by
  cases k <;> rfl

theorem S3ConfigKind.remoteCall_isListing (k : S3ConfigKind) (region : String)
    (request : ListConfigurationsInput) : (k.remoteCall region request).isListing = true := by
  cases k <;> rfl

theorem S3ConfigKind.remoteCall_ne (k : S3ConfigKind) (region : String)
    (request : ListConfigurationsInput) : k.remoteCall region request ≠ RemoteCall.ListBuckets := by
  cases k <;> simp [S3ConfigKind.remoteCall]

theorem Supplier.alertsOf_ongoing (s : Supplier) (hk : s.keepsGoing = false) (evs : List Event)
    (h : Ongoing s evs) : s.alertsOf evs = [] := by
  induction evs with
  | nil => rfl
  | cons ev evs ih =>
    have h1 := h ev (List.mem_cons_self _ _)
    have h2 : Ongoing s evs := fun e he => h e (List.mem_cons_of_mem _ he)
    have ih2 := ih h2
    unfold Supplier.alertsOf at ih2 ⊢
    cases ev with
    | call c err =>
      simp only [Event.passed, hk, Bool.false_and, Bool.or_false, beq_iff_eq] at h1
      subst h1
      rw [List.filterMap_cons, ih2]
      simp [deniedListing, isForbidden]
    | wait values err => simp [Event.passed] at h1
    | deserialize values r => simp [Event.passed] at h1

theorem S3BucketConfigSupplier.fetch_trace (k : S3ConfigKind) (s : S3BucketConfigSupplier)
    (region : String) (fuel : Nat) :
    ∀ (request : ListConfigurationsInput) (acc : List Configuration) (st : State)
      (out : Except GoError (List Configuration)) (st2 : State),
      S3BucketConfigSupplier.fetch k s region fuel request acc st = some (out, st2) →
      st2.alerter = st.alerter ∧ st2.tasks = st.tasks ∧
      ∃ pre, Ongoing (k.supplier s) pre ∧
        match out with
        | .ok _ => st2.trace = st.trace ++ pre
        | .error err =>
          ∃ request2, st2.trace =
            st.trace ++ pre ++ [Event.call (k.remoteCall region request2) (some err)] := by
  induction fuel with
  | zero =>
    intro request acc st out st2 h
    simp [S3BucketConfigSupplier.fetch] at h
  | succ fuel ih =>
    intro request acc st out st2 h
    unfold S3BucketConfigSupplier.fetch at h
    cases hl : k.list s.factory region request with
    | error err =>
      simp only [hl, Option.some.injEq, Prod.mk.injEq] at h
      obtain ⟨h1, h2⟩ := h
      subst h1 h2
      exact ⟨rfl, rfl, [], Ongoing.nil _, request, by simp [State.call]⟩
    | ok configurations =>
      simp only [hl] at h
      by_cases ht : configurations.IsTruncated = some true
      · simp only [ht, if_true] at h
        obtain ⟨ha, htk, pre, hpre, hm⟩ := ih _ _ _ _ _ h
        refine ⟨by simpa [State.call] using ha, by simpa [State.call] using htk,
          [Event.call (k.remoteCall region request) none] ++ pre,
          (Ongoing.single (Event.call_none_passed _ _)).append hpre, ?_⟩
        cases out with
        | ok l => simpa [State.call] using hm
        | error err =>
          obtain ⟨request2, hm⟩ := hm
          exact ⟨request2, by simpa [State.call] using hm⟩
      · simp only [ht, if_false, Option.some.injEq, Prod.mk.injEq] at h
        obtain ⟨h1, h2⟩ := h
        subst h1 h2
        exact ⟨rfl, rfl, [Event.call (k.remoteCall region request) none],
          Ongoing.single (Event.call_none_passed _ _), by simp [State.call]⟩

theorem Effect.handled_after {s : Supplier} {st st1 st2 : State} {pre : List Event}
    {c : RemoteCall} {err : error} {ft : String}
    (hc : c.isListing = true) (herr : err ≠ none)
    (hft : ft = if c = s.listCall then s.forbiddenType else "")
    (he : Effect s st st1 pre) (ho : Ongoing s pre)
    (ht : st2.trace = st1.trace ++ [Event.call c err]) (ha : st2.alerter = st1.alerter) :
    Effect s st (st2.handleWithMessage err s.resourceType ft).2 (pre ++ [Event.call c err]) := by
  have core := (summary_list_failed_core s st st1 pre c err ft hc herr hft he ho).1
  refine core.of_eq ?_ ?_
  · rw [State.handleWithMessage_eq, State.handleWithMessage_eq]
    by_cases hf : isForbidden err = true <;> simp [hf, State.call, ht]
  · rw [State.handleWithMessage_eq, State.handleWithMessage_eq]
    by_cases hf : isForbidden err = true <;> simp [hf, State.call, ha]

theorem S3BucketConfigSupplier.listBucketConfiguration_trace (k : S3ConfigKind)
    (s : S3BucketConfigSupplier) (fuel : Nat) (name region : String) (st : State) (err : error)
    (st2 : State)
    (h : S3BucketConfigSupplier.listBucketConfiguration k s fuel name region st = some (err, st2)) :
    st2.alerter = st.alerter ∧
    ∃ pre, Ongoing (k.supplier s) pre ∧
      (err = none → st2.trace = st.trace ++ pre) ∧
      (err ≠ none → st2.tasks = st.tasks ∧
        ∃ request2, st2.trace = st.trace ++ pre ++ [Event.call (k.remoteCall region request2) err]) := by
  unfold S3BucketConfigSupplier.listBucketConfiguration at h
  rcases hf : S3BucketConfigSupplier.fetch k s region fuel { Bucket := name, ContinuationToken := none }
    [] st with _ | ⟨out, st1⟩
  · simp [hf] at h
  · obtain ⟨ha, htk, pre, hpre, hm⟩ := S3BucketConfigSupplier.fetch_trace k s region fuel _ _ _ _ _ hf
    cases out with
    | error e =>
      simp only [hf, Option.some.injEq, Prod.mk.injEq] at h
      obtain ⟨h1, h2⟩ := h
      subst h1 h2
      exact ⟨ha, pre, hpre, by simp, fun _ => ⟨htk, hm⟩⟩
    | ok l =>
      simp only [hf, Option.some.injEq, Prod.mk.injEq, State.foldl_Run] at h
      obtain ⟨h1, h2⟩ := h
      subst h1 h2
      exact ⟨ha, pre, hpre, fun _ => hm, by simp⟩

theorem S3BucketConfigSupplier.visitBuckets_summary (k : S3ConfigKind) (s : S3BucketConfigSupplier)
    (fuel : Nat) (buckets : List Bucket) :
    ∀ (st : State) (flow : Flow Unit) (st2 : State),
      S3BucketConfigSupplier.visitBuckets k s fuel buckets st = some (flow, st2) →
      ∃ evs, Effect (k.supplier s) st st2 evs ∧ flow.Shape (k.supplier s) evs := by
  induction buckets with
  | nil =>
    intro st flow st2 h
    simp only [S3BucketConfigSupplier.visitBuckets, Option.some.injEq, Prod.mk.injEq] at h
    obtain ⟨h1, h2⟩ := h
    subst h1 h2
    exact ⟨[], Effect.refl _ _, Ongoing.nil _⟩
  | cons bucket buckets ih =>
    intro st flow st2 h
    unfold S3BucketConfigSupplier.visitBuckets at h
    rcases hr : s.factory.readBucketRegion bucket.Name with ⟨region, err⟩
    simp only [hr] at h
    have hcall : ∀ e : error, deniedListing (RemoteCall.GetBucketLocation bucket.Name) e = false := by
      intro e
      simp [deniedListing, RemoteCall.isListing]
    by_cases herr : err = none
    · subst herr
      simp only [ne_eq, not_true_eq_false, if_false] at h
      have he0 : Effect (k.supplier s) st (st.call (RemoteCall.GetBucketLocation bucket.Name) none)
          [Event.call (RemoteCall.GetBucketLocation bucket.Name) none] := Effect.call_none _ _ _
      have ho0 : Ongoing (k.supplier s) [Event.call (RemoteCall.GetBucketLocation bucket.Name) none] :=
        Ongoing.single (Event.call_none_passed _ _)
      by_cases hreg : region = ""
      · simp only [hreg, if_true] at h
        obtain ⟨evs, he, hs⟩ := ih _ _ _ h
        refine ⟨_, he0.trans he, ?_⟩
        cases flow with
        | next a => exact ho0.append hs
        | done r => exact Finished.prepend ho0 hs
      · simp only [hreg, if_false] at h
        rcases hl : S3BucketConfigSupplier.listBucketConfiguration k s fuel bucket.Name region
          (st.call (RemoteCall.GetBucketLocation bucket.Name) none) with _ | ⟨err2, st3⟩
        · simp [hl] at h
        · simp only [hl] at h
          obtain ⟨ha, pre, hpre, hok, hko⟩ :=
            S3BucketConfigSupplier.listBucketConfiguration_trace k s fuel _ _ _ _ _ hl
          have hal : (k.supplier s).alertsOf pre = [] :=
            Supplier.alertsOf_ongoing _ (k.supplier_keepsGoing s) pre hpre
          by_cases herr2 : err2 = none
          · subst herr2
            simp only [ne_eq, not_true_eq_false, if_false] at h
            obtain ⟨evs, he, hs⟩ := ih _ _ _ h
            have he1 : Effect (k.supplier s) (st.call (RemoteCall.GetBucketLocation bucket.Name) none)
                st3 pre := ⟨hok rfl, by rw [ha, hal]; rfl⟩
            refine ⟨_, (he0.trans he1).trans he, ?_⟩
            cases flow with
            | next a => exact (ho0.append hpre).append hs
            | done r => exact Finished.prepend (ho0.append hpre) hs
          · simp only [herr2, ne_eq, not_false_eq_true, if_true,
              State.handle_eq_handleWithMessage] at h
            obtain ⟨-, request2, htr⟩ := hko herr2
            have he1 : Effect (k.supplier s) (st.call (RemoteCall.GetBucketLocation bucket.Name) none)
                { st3 with trace := (st.call (RemoteCall.GetBucketLocation bucket.Name) none).trace ++ pre }
                pre := ⟨rfl, by simp only [ha, hal]; rfl⟩
            have hE := @Effect.handled_after (k.supplier s) st _ st3 _
              (k.remoteCall region request2) err2 ""
              (k.remoteCall_isListing region request2) herr2
              (by rw [k.supplier_listCall, if_neg (k.remoteCall_ne region request2)])
              (he0.trans he1) (ho0.append hpre) htr rfl
            rw [k.supplier_resourceType] at hE
            have hnp : (Event.call (k.remoteCall region request2) err2).passed (k.supplier s) = false := by
              simp [Event.passed, herr2, k.supplier_keepsGoing]
            by_cases hf : isForbidden err2 = true
            · simp only [State.handleWithMessage_fst, hf, Bool.not_true, Bool.false_eq_true,
                if_false, Option.some.injEq, Prod.mk.injEq] at h
              obtain ⟨h1, h2⟩ := h
              subst h1 h2
              exact ⟨_, hE, Finished.denied _ _ _ (ho0.append hpre)
                (by simp [deniedListing, hf, k.remoteCall_isListing]) hnp⟩
            · have hf2 : isForbidden err2 = false := by simpa using hf
              simp only [State.handleWithMessage_fst, hf2, Bool.not_false, if_true,
                Option.some.injEq, Prod.mk.injEq] at h
              obtain ⟨h1, h2⟩ := h
              subst h1 h2
              exact ⟨_, hE, Finished.failed _ _ _ (ho0.append hpre) herr2
                (by simp [deniedListing, hf2])⟩
    · simp only [herr, ne_eq, not_false_eq_true, if_true, Option.some.injEq, Prod.mk.injEq] at h
      obtain ⟨h1, h2⟩ := h
      subst h1 h2
      exact ⟨[Event.call (RemoteCall.GetBucketLocation bucket.Name) err],
        Effect.call_passed _ _ _ _ (hcall err),
        Finished.failed [] _ _ (Ongoing.nil _) herr (hcall err)⟩

theorem S3BucketConfigSupplier.s3BucketConfig_summary (k : S3ConfigKind) (s : S3BucketConfigSupplier)
    (fuel : Nat) (st : State) (res : Result) (st2 : State)
    (h : S3BucketConfigSupplier.Resources k s fuel st = some (res, st2)) :
    ∃ evs, Effect (k.supplier s) st st2 evs ∧ Finished (k.supplier s) evs res := by
  unfold S3BucketConfigSupplier.Resources at h
  rcases hb : s.factory.ListBuckets with ⟨buckets, err⟩
  simp only [hb] at h
  by_cases herr : err = none
  · subst herr
    simp only [ne_eq, not_true_eq_false, if_false] at h
    have he0 : Effect (k.supplier s) st (st.call RemoteCall.ListBuckets none)
        [Event.call RemoteCall.ListBuckets none] := Effect.call_none _ _ _
    have ho0 : Ongoing (k.supplier s) [Event.call RemoteCall.ListBuckets none] :=
      Ongoing.single (Event.call_none_passed _ _)
    rcases hv : S3BucketConfigSupplier.visitBuckets k s fuel buckets
      (st.call RemoteCall.ListBuckets none) with _ | ⟨flow, st1⟩
    · simp [hv] at h
    · obtain ⟨evs, he, hs⟩ := S3BucketConfigSupplier.visitBuckets_summary k s fuel buckets _ _ _ hv
      simp only [hv] at h
      cases flow with
      | done r =>
        simp only [Option.some.injEq, Prod.mk.injEq] at h
        obtain ⟨h1, h2⟩ := h
        subst h1 h2
        exact ⟨_, he0.trans he, Finished.prepend ho0 hs⟩
      | next u =>
        obtain ⟨evs2, he2, hf2⟩ := summary_wait_deserialize (k.supplier s) (k.supplier_finish s)
          s.deserializer (k.supplier_deserializer s).symm st st1 _ s.runner (he0.trans he) (ho0.append hs)
        have hout : some (res, st2) = some
            (match st1.Wait s.runner with
            | ((values, err), st2) =>
              if err ≠ none then ((none, err), st2) else st2.Deserialize s.deserializer values) := by
          rw [← h]
          by_cases hw : (st1.Wait s.runner).1.2 = none <;> simp [hw]
        simp only [Option.some.injEq] at hout
        have key : ∀ out : Result × State,
            out = (match st1.Wait s.runner with
              | ((values, err), st2) =>
                if err ≠ none then ((none, err), st2) else st2.Deserialize s.deserializer values) →
            ∃ evs, Effect (k.supplier s) st out.2 evs ∧ Finished (k.supplier s) evs out.1 := by
          intro out ho
          subst ho
          exact ⟨evs2, he2, hf2⟩
        exact key (res, st2) hout
  · simp only [herr, ne_eq, not_false_eq_true, if_true] at h
    have := summary_list_failed (k.supplier s) st st [] RemoteCall.ListBuckets err
      AwsS3BucketResourceType rfl herr
      (by rw [k.supplier_listCall, if_pos rfl, k.supplier_forbiddenType])
      (by simp [Event.passed, herr, k.supplier_keepsGoing]) (Effect.refl _ _) (Ongoing.nil _)
      (res, st2)
      (by
        rw [k.supplier_resourceType]
        by_cases hf : ((st.call RemoteCall.ListBuckets err).handleWithMessage err k.resourceType
            AwsS3BucketResourceType).1 = true
        · simp only [hf, Bool.not_true, Bool.false_eq_true, if_false, Option.some.injEq] at h ⊢
          exact h.symm
        · simp only [hf, Bool.not_false, Bool.not_eq_true] at h
          simp only [Bool.not_eq_true] at hf
          simp only [hf, Bool.not_false, if_true, Option.some.injEq] at h ⊢
          exact h.symm)
    simpa using this


theorem S3BucketNotificationSupplier.visitBuckets_notification_summary (s : S3BucketNotificationSupplier)
    (buckets : List Bucket) (st : State) :
    ∃ evs, Effect (Supplier.s3BucketNotification s) st (s.visitBuckets buckets st).2 evs ∧
      (s.visitBuckets buckets st).1.Shape (Supplier.s3BucketNotification s) evs := by
  induction buckets generalizing st with
  | nil => exact ⟨[], Effect.refl _ _, Ongoing.nil _⟩
  | cons bucket buckets ih =>
    unfold S3BucketNotificationSupplier.visitBuckets
    rcases hr : s.factory.readBucketRegion bucket.Name with ⟨region, err⟩
    simp only [hr]
    have hcall : ∀ e : error, deniedListing (RemoteCall.GetBucketLocation bucket.Name) e = false := by
      intro e
      simp [deniedListing, RemoteCall.isListing]
    have ho0 : Ongoing (Supplier.s3BucketNotification s)
        [Event.call (RemoteCall.GetBucketLocation bucket.Name) none] :=
      Ongoing.single (Event.call_none_passed _ _)
    by_cases herr : err = none
    · subst herr
      simp only [ne_eq, not_true_eq_false, if_false]
      by_cases hreg : region = ""
      · simp only [hreg, if_true]
        obtain ⟨evs, he, hs⟩ := ih (st.call (RemoteCall.GetBucketLocation bucket.Name) none)
        refine ⟨_, (Effect.call_none _ st _).trans he, ?_⟩
        revert hs
        cases (s.visitBuckets buckets _).1 with
        | next a => exact fun hs => ho0.append hs
        | done r => exact fun hs => Finished.prepend ho0 hs
      · simp only [hreg, if_false]
        obtain ⟨evs, he, hs⟩ := ih (s.listBucketNotificationConfiguration bucket.Name region
          (st.call (RemoteCall.GetBucketLocation bucket.Name) none))
        have he1 : Effect (Supplier.s3BucketNotification s) st
            (s.listBucketNotificationConfiguration bucket.Name region
              (st.call (RemoteCall.GetBucketLocation bucket.Name) none))
            [Event.call (RemoteCall.GetBucketLocation bucket.Name) none] :=
          (Effect.call_none _ st _).of_eq rfl rfl
        refine ⟨_, he1.trans he, ?_⟩
        revert hs
        cases (s.visitBuckets buckets _).1 with
        | next a => exact fun hs => ho0.append hs
        | done r => exact fun hs => Finished.prepend ho0 hs
    · simp only [herr, ne_eq, not_false_eq_true, if_true]
      exact ⟨[Event.call (RemoteCall.GetBucketLocation bucket.Name) err],
        Effect.call_passed _ _ _ _ (hcall err),
        Finished.failed [] _ _ (Ongoing.nil _) herr (hcall err)⟩

theorem S3BucketNotificationSupplier.s3BucketNotification_summary (s : S3BucketNotificationSupplier) (st : State) :
    ∃ evs, Effect (Supplier.s3BucketNotification s) st (s.Resources st).2 evs ∧
      Finished (Supplier.s3BucketNotification s) evs (s.Resources st).1 := by
  unfold S3BucketNotificationSupplier.Resources
  rcases hb : s.factory.ListBuckets with ⟨buckets, err⟩
  simp only []
  by_cases herr : err = none
  · subst herr
    simp only [ne_eq, not_true_eq_false, if_false]
    obtain ⟨evs, he, hs⟩ := s.visitBuckets_notification_summary buckets (st.call RemoteCall.ListBuckets none)
    have he0 := (Effect.call_none (Supplier.s3BucketNotification s) st RemoteCall.ListBuckets).trans he
    have ho0 : Ongoing (Supplier.s3BucketNotification s) [Event.call RemoteCall.ListBuckets none] :=
      Ongoing.single (Event.call_none_passed _ _)
    rcases hl : s.visitBuckets buckets (st.call RemoteCall.ListBuckets none) with ⟨flow, st1⟩
    rw [hl] at he0 hs
    cases flow with
    | done r => exact ⟨_, he0, Finished.prepend ho0 hs⟩
    | next u =>
      simp only []
      have hw := Effect.wait (Supplier.s3BucketNotification s) st1 s.runner
      rcases hwr : st1.Wait s.runner with ⟨⟨ctyVals, werr⟩, st3⟩
      rw [hwr] at hw
      simp only []
      by_cases hwe : werr = none
      · subst hwe
        simp only [ne_eq, not_true_eq_false, if_false]
        have hd := Effect.deserialize (Supplier.s3BucketNotification s) st3 s.deserializer ctyVals
        rcases hdr : st3.Deserialize s.deserializer ctyVals with ⟨⟨deserializedValues, derr⟩, st4⟩
        rw [hdr] at hd
        simp only []
        have hfin := @Finished.deserialized (Supplier.s3BucketNotification s)
          ([Event.call RemoteCall.ListBuckets none] ++ evs) ctyVals (deserializedValues, derr)
          (ho0.append hs) (congrArg Prod.fst hdr).symm
        by_cases hde : derr = none
        · subst hde
          simp only [ne_eq, not_true_eq_false, if_false]
          exact ⟨_, he0.trans (hw.trans hd), by simpa [Supplier.finish] using hfin⟩
        · simp only [hde, ne_eq, not_false_eq_true, if_true]
          exact ⟨_, he0.trans (hw.trans hd), by simpa [Supplier.finish, hde] using hfin⟩
      · simp only [hwe, ne_eq, not_false_eq_true, if_true]
        exact ⟨_, he0.trans hw, Finished.waitFailed _ _ _ (ho0.append hs) hwe⟩
  · simp only [herr, ne_eq, not_false_eq_true, if_true]
    have := summary_list_failed (Supplier.s3BucketNotification s) st st []
      RemoteCall.ListBuckets err AwsS3BucketResourceType rfl herr rfl
      (Event.call_top_not_passed (Supplier.s3BucketNotification s) _ herr) (Effect.refl _ _)
      (Ongoing.nil _) _ rfl
    simpa using this

/-- Every invocation that returns has the shape of `Finished`, and its effect on
trace and sink is the one of its events. -/
theorem Supplier.Resources_summary (s : Supplier) (fuel : Nat) (st : State) (res : Result)
    (st2 : State) (h : s.Resources fuel st = some (res, st2)) :
    ∃ evs, Effect s st st2 evs ∧ Finished s evs res := by
  cases s with
  | dbSubnetGroup s =>
    simp only [Supplier.Resources, Option.some.injEq] at h
    have := s.dbSubnetGroup_summary st
    rwa [h] at this
  | iamUser s =>
    simp only [Supplier.Resources, Option.some.injEq] at h
    have := s.iamUser_summary st
    rwa [h] at this
  | iamUserPolicy s =>
    simp only [Supplier.Resources, Option.some.injEq] at h
    have := s.iamUserPolicy_summary st
    rwa [h] at this
  | iamUserPolicyAttachment s =>
    simp only [Supplier.Resources, Option.some.injEq] at h
    have := s.iamUserPolicyAttachment_summary st
    rwa [h] at this
  | lambdaFunction s =>
    simp only [Supplier.Resources, Option.some.injEq] at h
    have := s.lambdaFunction_summary st
    rwa [h] at this
  | route53Record s =>
    simp only [Supplier.Resources, Option.some.injEq] at h
    have := s.route53Record_summary st
    rwa [h] at this
  | s3BucketAnalytic s =>
    exact S3BucketConfigSupplier.s3BucketConfig_summary S3ConfigKind.analytic s fuel st res st2 h
  | s3BucketInventory s =>
    exact S3BucketConfigSupplier.s3BucketConfig_summary S3ConfigKind.inventory s fuel st res st2 h
  | s3BucketMetric s =>
    exact S3BucketConfigSupplier.s3BucketConfig_summary S3ConfigKind.metric s fuel st res st2 h
  | s3BucketNotification s =>
    simp only [Supplier.Resources, Option.some.injEq] at h
    have := s.s3BucketNotification_summary st
    rwa [h] at this


/-! ### More fuel does not change a result -/

theorem S3BucketConfigSupplier.fetch_mono (k : S3ConfigKind) (s : S3BucketConfigSupplier)
    (region : String) (fuel : Nat) :
    ∀ (fuel2 : Nat) (request : ListConfigurationsInput) (acc : List Configuration) (st : State)
      (r : Except GoError (List Configuration) × State),
      fuel ≤ fuel2 →
      S3BucketConfigSupplier.fetch k s region fuel request acc st = some r →
      S3BucketConfigSupplier.fetch k s region fuel2 request acc st = some r := by
  induction fuel with
  | zero =>
    intro fuel2 request acc st r _ h
    simp [S3BucketConfigSupplier.fetch] at h
  | succ fuel ih =>
    intro fuel2 request acc st r hle h
    obtain ⟨n, rfl⟩ : ∃ n, fuel2 = n + 1 := ⟨fuel2 - 1, by omega⟩
    unfold S3BucketConfigSupplier.fetch at h ⊢
    cases hl : k.list s.factory region request with
    | error err =>
      simp only [hl] at h ⊢
      exact h
    | ok configurations =>
      simp only [hl] at h ⊢
      by_cases ht : configurations.IsTruncated = some true
      · simp only [ht, if_true] at h ⊢
        exact ih n _ _ _ _ (by omega) h
      · simp only [ht, if_false] at h ⊢
        exact h

theorem S3BucketConfigSupplier.listBucketConfiguration_mono (k : S3ConfigKind)
    (s : S3BucketConfigSupplier) (fuel fuel2 : Nat) (name region : String) (st : State)
    (r : error × State) (hle : fuel ≤ fuel2)
    (h : S3BucketConfigSupplier.listBucketConfiguration k s fuel name region st = some r) :
    S3BucketConfigSupplier.listBucketConfiguration k s fuel2 name region st = some r := by
  unfold S3BucketConfigSupplier.listBucketConfiguration at h ⊢
  rcases hf : S3BucketConfigSupplier.fetch k s region fuel { Bucket := name, ContinuationToken := none }
    [] st with _ | r1
  · simp [hf] at h
  · rw [S3BucketConfigSupplier.fetch_mono k s region fuel fuel2 _ _ _ _ hle hf]
    rw [hf] at h
    exact h

theorem S3BucketConfigSupplier.visitBuckets_mono (k : S3ConfigKind) (s : S3BucketConfigSupplier)
    (fuel fuel2 : Nat) (hle : fuel ≤ fuel2) (buckets : List Bucket) :
    ∀ (st : State) (r : Flow Unit × State),
      S3BucketConfigSupplier.visitBuckets k s fuel buckets st = some r →
      S3BucketConfigSupplier.visitBuckets k s fuel2 buckets st = some r := by
  induction buckets with
  | nil =>
    intro st r h
    simpa [S3BucketConfigSupplier.visitBuckets] using h
  | cons bucket buckets ih =>
    intro st r h
    unfold S3BucketConfigSupplier.visitBuckets at h ⊢
    rcases hr : s.factory.readBucketRegion bucket.Name with ⟨region, err⟩
    simp only [hr] at h ⊢
    by_cases herr : err = none
    · subst herr
      simp only [ne_eq, not_true_eq_false, if_false] at h ⊢
      by_cases hreg : region = ""
      · simp only [hreg, if_true] at h ⊢
        exact ih _ _ h
      · simp only [hreg, if_false] at h ⊢
        rcases hl : S3BucketConfigSupplier.listBucketConfiguration k s fuel bucket.Name region
          (st.call (RemoteCall.GetBucketLocation bucket.Name) none) with _ | ⟨err2, st3⟩
        · simp [hl] at h
        · rw [S3BucketConfigSupplier.listBucketConfiguration_mono k s fuel fuel2 _ _ _ _ hle hl]
          rw [hl] at h
          by_cases herr2 : err2 = none
          · subst herr2
            simp only [ne_eq, not_true_eq_false, if_false] at h ⊢
            exact ih _ _ h
          · simp only [herr2, ne_eq, not_false_eq_true, if_true] at h ⊢
            exact h
    · simp only [herr, ne_eq, not_false_eq_true, if_true] at h ⊢
      exact h

theorem S3BucketConfigSupplier.s3BucketConfig_mono (k : S3ConfigKind) (s : S3BucketConfigSupplier)
    (fuel fuel2 : Nat) (hle : fuel ≤ fuel2) (st : State) (r : Result × State)
    (h : S3BucketConfigSupplier.Resources k s fuel st = some r) :
    S3BucketConfigSupplier.Resources k s fuel2 st = some r := by
  unfold S3BucketConfigSupplier.Resources at h ⊢
  rcases hb : s.factory.ListBuckets with ⟨buckets, err⟩
  simp only [hb] at h ⊢
  by_cases herr : err = none
  · subst herr
    simp only [ne_eq, not_true_eq_false, if_false] at h ⊢
    rcases hv : S3BucketConfigSupplier.visitBuckets k s fuel buckets
      (st.call RemoteCall.ListBuckets none) with _ | r1
    · simp [hv] at h
    · rw [S3BucketConfigSupplier.visitBuckets_mono k s fuel fuel2 hle buckets _ _ hv]
      rw [hv] at h
      exact h
  · simp only [herr, ne_eq, not_false_eq_true, if_true] at h ⊢
    exact h

/-- A result obtained with some fuel is the result with any larger fuel. -/
theorem Supplier.Resources_mono (s : Supplier) (fuel fuel2 : Nat) (hle : fuel ≤ fuel2) (st : State)
    (r : Result × State) (h : s.Resources fuel st = some r) : s.Resources fuel2 st = some r := by
  cases s with
  | s3BucketAnalytic s => exact S3BucketConfigSupplier.s3BucketConfig_mono _ s fuel fuel2 hle st r h
  | s3BucketInventory s => exact S3BucketConfigSupplier.s3BucketConfig_mono _ s fuel fuel2 hle st r h
  | s3BucketMetric s => exact S3BucketConfigSupplier.s3BucketConfig_mono _ s fuel fuel2 hle st r h
  | _ => exact h

theorem forbiddenMessage_suffix (typ ft : String) :
    "is forbidden.".data <:+ (forbiddenMessage typ ft).data := by
  have key : ∀ x : String, "is forbidden.".data <:+ (x ++ " is forbidden.").data := by
    intro x
    have h : (" is forbidden." : String).data = [' '] ++ "is forbidden.".data := by decide
    rw [String.data_append, h, ← List.append_assoc]
    exact List.suffix_append _ _
  unfold forbiddenMessage
  split
  · exact key _
  · exact key _

/-- C1: `handleListAwsErrorWithMessage` answers `true` exactly for an
`awserr.RequestFailure` with status code 403; for a request failure with another
status, for an error that is no request failure (whatever its text) and for `nil`
it answers `false`; `handleListAwsError` answers the same. -/
theorem handleListAwsErrorWithMessage_handled_iff (err : error) (typ : String) (alertr : Alerter)
    (forbiddenTyp : String) :
    ((handleListAwsErrorWithMessage err typ alertr forbiddenTyp).1 = true ↔
      ∃ code message requestID, err = some (GoError.requestFailure code message 403 requestID)) ∧
    (∀ code message statusCode requestID, statusCode ≠ 403 →
      (handleListAwsErrorWithMessage (some (GoError.requestFailure code message statusCode requestID))
        typ alertr forbiddenTyp).1 = false) ∧
    (∀ code message,
      (handleListAwsErrorWithMessage (some (GoError.awsError code message)) typ alertr forbiddenTyp).1
        = false) ∧
    (∀ message,
      (handleListAwsErrorWithMessage (some (GoError.plain message)) typ alertr forbiddenTyp).1 = false) ∧
    (handleListAwsErrorWithMessage none typ alertr forbiddenTyp).1 = false ∧
    (handleListAwsError err typ alertr).1 = (handleListAwsErrorWithMessage err typ alertr forbiddenTyp).1 := by
  refine ⟨?_, ?_, ?_, ?_, ?_, ?_⟩
  · rw [handle_eq]
    rcases err with _ | e
    · simp [isForbidden]
    · cases e with
      | requestFailure c m sc r =>
        by_cases h : sc = 403
        · subst h
          simp [isForbidden]
        · simp [isForbidden, h]
      | awsError c m => simp [isForbidden]
      | plain m => simp [isForbidden]
  · intro c m sc r h
    simp [handle_eq, isForbidden, h]
  · intro c m
    simp [handle_eq, isForbidden]
  · intro m
    simp [handle_eq, isForbidden]
  · simp [handle_eq, isForbidden]
  · unfold handleListAwsError
    rw [handle_eq, handle_eq]
    by_cases h : isForbidden err = true <;> simp [h]

/-- C2: when `handleListAwsErrorWithMessage` answers `true`, the sink after the call
is the sink before it with exactly one alert appended to the sequence of key `typ`;
that alert has `ShouldIgnoreResource = true`; the sequence of every other key, the
one of `forbiddenTyp` included when it differs from `typ`, is unchanged. -/
theorem handleListAwsErrorWithMessage_sends_one_alert (err : error) (typ : String) (alertr : Alerter)
    (forbiddenTyp : String)
    (h : (handleListAwsErrorWithMessage err typ alertr forbiddenTyp).1 = true) :
    ∃ alert : Alert, alert.ShouldIgnoreResource = true ∧
      (handleListAwsErrorWithMessage err typ alertr forbiddenTyp).2 = alertr.SendAlert typ alert ∧
      (handleListAwsErrorWithMessage err typ alertr forbiddenTyp).2.Retrieve typ
        = alertr.Retrieve typ ++ [alert] ∧
      (∀ key, key ≠ typ →
        (handleListAwsErrorWithMessage err typ alertr forbiddenTyp).2.Retrieve key
          = alertr.Retrieve key) ∧
      (forbiddenTyp ≠ typ →
        (handleListAwsErrorWithMessage err typ alertr forbiddenTyp).2.Retrieve forbiddenTyp
          = alertr.Retrieve forbiddenTyp) := by
  rw [handle_eq] at h ⊢
  by_cases hf : isForbidden err = true
  · refine ⟨forbiddenAlert typ forbiddenTyp, rfl, ?_, ?_, ?_, ?_⟩
    · simp [hf]
    · simp [hf, Alerter.SendAlert, Alerter.Retrieve]
    · intro key hk
      simp [hf, Alerter.SendAlert, Alerter.Retrieve, hk]
    · intro hk
      simp [hf, Alerter.SendAlert, Alerter.Retrieve, hk]
  · simp [hf] at h

theorem handleListAwsErrorWithMessage_sends_one_alert_witness :
    ∃ alert : Alert, alert.ShouldIgnoreResource = true ∧
      (handleListAwsErrorWithMessage (some (GoError.requestFailure "" "" 403 ""))
          "aws_route53_record" NewAlerter "aws_route53_zone").2
        = NewAlerter.SendAlert "aws_route53_record" alert ∧
      (handleListAwsErrorWithMessage (some (GoError.requestFailure "" "" 403 ""))
          "aws_route53_record" NewAlerter "aws_route53_zone").2.Retrieve "aws_route53_record"
        = NewAlerter.Retrieve "aws_route53_record" ++ [alert] ∧
      (∀ key, key ≠ "aws_route53_record" →
        (handleListAwsErrorWithMessage (some (GoError.requestFailure "" "" 403 ""))
            "aws_route53_record" NewAlerter "aws_route53_zone").2.Retrieve key
          = NewAlerter.Retrieve key) ∧
      ("aws_route53_zone" ≠ "aws_route53_record" →
        (handleListAwsErrorWithMessage (some (GoError.requestFailure "" "" 403 ""))
            "aws_route53_record" NewAlerter "aws_route53_zone").2.Retrieve "aws_route53_zone"
          = NewAlerter.Retrieve "aws_route53_zone") :=
  handleListAwsErrorWithMessage_sends_one_alert (some (GoError.requestFailure "" "" 403 ""))
    "aws_route53_record" NewAlerter "aws_route53_zone" (by decide)

/-- C3: on a 403 the alert sent by `handleListAwsErrorWithMessage` has the message
`Ignoring <typ> from drift calculation: Listing <typ> is forbidden.` when
`forbiddenTyp` is empty (which is what `handleListAwsError` passes) and
`Ignoring <typ> from drift calculation. Listing <forbiddenTyp> is forbidden.`
otherwise; the message ends with `is forbidden.` and is the same for every error
the handler answers `true` for. -/
theorem handleListAwsErrorWithMessage_message (err : error) (typ : String) (alertr : Alerter)
    (forbiddenTyp : String)
    (h : (handleListAwsErrorWithMessage err typ alertr forbiddenTyp).1 = true) :
    (forbiddenTyp = "" →
      (handleListAwsErrorWithMessage err typ alertr forbiddenTyp).2 =
        alertr.SendAlert typ
          { Message := "Ignoring " ++ typ ++ " from drift calculation: Listing " ++ typ ++ " is forbidden.",
            ShouldIgnoreResource := true }) ∧
    (forbiddenTyp ≠ "" →
      (handleListAwsErrorWithMessage err typ alertr forbiddenTyp).2 =
        alertr.SendAlert typ
          { Message :=
              "Ignoring " ++ typ ++ " from drift calculation. Listing " ++ forbiddenTyp ++ " is forbidden.",
            ShouldIgnoreResource := true }) ∧
    (handleListAwsError err typ alertr).2 =
      alertr.SendAlert typ
        { Message := "Ignoring " ++ typ ++ " from drift calculation: Listing " ++ typ ++ " is forbidden.",
          ShouldIgnoreResource := true } ∧
    (∃ message : String,
      (handleListAwsErrorWithMessage err typ alertr forbiddenTyp).2 =
        alertr.SendAlert typ { Message := message, ShouldIgnoreResource := true } ∧
      "is forbidden.".data <:+ message.data) ∧
    (∀ err2 : error, (handleListAwsErrorWithMessage err2 typ alertr forbiddenTyp).1 = true →
      (handleListAwsErrorWithMessage err2 typ alertr forbiddenTyp).2 =
        (handleListAwsErrorWithMessage err typ alertr forbiddenTyp).2) := by
  have hf : isForbidden err = true := by
    rw [handle_eq] at h
    by_cases hf : isForbidden err = true
    · exact hf
    · simp [hf] at h
  refine ⟨?_, ?_, ?_, ?_, ?_⟩
  · intro h0
    simp [handle_eq, hf, forbiddenAlert, forbiddenMessage, h0]
  · intro h0
    simp [handle_eq, hf, forbiddenAlert, forbiddenMessage, h0]
  · simp [handleListAwsError, handle_eq, hf, forbiddenAlert, forbiddenMessage]
  · refine ⟨forbiddenMessage typ forbiddenTyp, ?_, forbiddenMessage_suffix typ forbiddenTyp⟩
    simp [handle_eq, hf, forbiddenAlert]
  · intro err2 h2
    have hf2 : isForbidden err2 = true := by
      rw [handle_eq] at h2
      by_cases hf2 : isForbidden err2 = true
      · exact hf2
      · simp [hf2] at h2
    simp [handle_eq, hf, hf2]

theorem handleListAwsErrorWithMessage_message_witness :
    (handleListAwsErrorWithMessage (some forbidden403) "aws_db_subnet_group" NewAlerter "").1 = true ∧
    (handleListAwsError (some forbidden403) "aws_db_subnet_group" NewAlerter).2 =
      NewAlerter.SendAlert "aws_db_subnet_group"
        { Message := "Ignoring " ++ "aws_db_subnet_group" ++ " from drift calculation: Listing "
            ++ "aws_db_subnet_group" ++ " is forbidden.",
          ShouldIgnoreResource := true } :=
  ⟨by decide,
    (handleListAwsErrorWithMessage_message (some forbidden403) "aws_db_subnet_group" NewAlerter ""
      (by decide)).2.2.1⟩

/-- C4: for each of the ten suppliers, when the top-level listing fails with a
request failure of status 403, `Resources()` returns the empty non-nil list and a
nil error whatever the fuel; the sink is the one before the call with one alert
appended under the supplier's resource type, with `ShouldIgnoreResource = true`,
and unchanged under every other key; no task is submitted to the runner (so the
state reader, which only submitted tasks call, is not called); the only event of
the invocation is the listing call (no `Wait()`, no `Deserialize`); and the outcome
is the same with any other state reader, deserializer and runner. -/
theorem Supplier.Resources_list_forbidden (s : Supplier) (fuel : Nat) (st : State)
    (code message requestID : String)
    (h : s.listError = some (GoError.requestFailure code message 403 requestID)) :
    ∃ (st2 : State) (alert : Alert),
      s.Resources fuel st = some ((some [], none), st2) ∧
      alert.ShouldIgnoreResource = true ∧
      st2.alerter = st.alerter.SendAlert s.resourceType alert ∧
      st2.alerter.Retrieve s.resourceType = st.alerter.Retrieve s.resourceType ++ [alert] ∧
      (∀ key, key ≠ s.resourceType → st2.alerter.Retrieve key = st.alerter.Retrieve key) ∧
      st2.tasks = st.tasks ∧
      st2.trace = st.trace ++ [Event.call s.listCall s.listError] ∧
      (∀ (reader : ResourceReader) (d : CTYDeserializer) (runner : ParallelResourceReader),
        (((s.withReader reader).withDeserializer d).withRunner runner).Resources fuel st
          = some ((some [], none), st2)) := by
  have hf : isForbidden (some (GoError.requestFailure code message 403 requestID)) = true :=
    isForbidden_requestFailure code message requestID
  refine ⟨{ st with
      alerter := st.alerter.SendAlert s.resourceType (forbiddenAlert s.resourceType s.forbiddenType),
      trace := st.trace ++ [Event.call s.listCall s.listError] },
    forbiddenAlert s.resourceType s.forbiddenType, ?_, rfl, rfl, ?_, ?_, rfl, rfl, ?_⟩
  · cases s <;>
      simp [Supplier.listError] at h <;>
      simp [Supplier.Resources, Supplier.resourceType, Supplier.forbiddenType, Supplier.listCall,
        Supplier.listError, DBSubnetGroupSupplier.Resources, IamUserSupplier.Resources,
        IamUserPolicySupplier.Resources, IamUserPolicyAttachmentSupplier.Resources,
        LambdaFunctionSupplier.Resources, Route53RecordSupplier.Resources,
        S3BucketAnalyticSupplier.Resources, S3BucketInventorySupplier.Resources,
        S3BucketMetricSupplier.Resources, S3BucketConfigSupplier.Resources,
        S3BucketNotificationSupplier.Resources, S3ConfigKind.resourceType,
        listIamUsers, listLambdaFunctions, Route53RecordSupplier.listZones, Pager.Pages,
        State.handle_forbidden_eq, State.handleWithMessage_eq, State.call, h, hf]
  · exact SendAlert_Retrieve_self _ _ _
  · intro key hk
    exact SendAlert_Retrieve_other _ _ _ _ hk
  · intro reader d runner
    cases s <;>
      simp [Supplier.listError] at h <;>
      simp [Supplier.Resources, Supplier.resourceType, Supplier.forbiddenType, Supplier.listCall,
        Supplier.listError, Supplier.withReader, Supplier.withDeserializer, Supplier.withRunner,
        DBSubnetGroupSupplier.Resources, IamUserSupplier.Resources,
        IamUserPolicySupplier.Resources, IamUserPolicyAttachmentSupplier.Resources,
        LambdaFunctionSupplier.Resources, Route53RecordSupplier.Resources,
        S3BucketAnalyticSupplier.Resources, S3BucketInventorySupplier.Resources,
        S3BucketMetricSupplier.Resources, S3BucketConfigSupplier.Resources,
        S3BucketNotificationSupplier.Resources, S3ConfigKind.resourceType,
        listIamUsers, listLambdaFunctions, Route53RecordSupplier.listZones, Pager.Pages,
        State.handle_forbidden_eq, State.handleWithMessage_eq, State.call, h, hf]

theorem Supplier.Resources_list_forbidden_witness :
    ∃ (st2 : State) (alert : Alert),
      usersForbidden.Resources 0 State.fresh = some ((some [], none), st2) ∧
      alert.ShouldIgnoreResource = true ∧
      st2.alerter = State.fresh.alerter.SendAlert usersForbidden.resourceType alert ∧
      st2.alerter.Retrieve usersForbidden.resourceType
        = State.fresh.alerter.Retrieve usersForbidden.resourceType ++ [alert] ∧
      (∀ key, key ≠ usersForbidden.resourceType →
        st2.alerter.Retrieve key = State.fresh.alerter.Retrieve key) ∧
      st2.tasks = State.fresh.tasks ∧
      st2.trace = State.fresh.trace ++ [Event.call usersForbidden.listCall usersForbidden.listError] ∧
      (∀ (reader : ResourceReader) (d : CTYDeserializer) (runner : ParallelResourceReader),
        (((usersForbidden.withReader reader).withDeserializer d).withRunner runner).Resources 0
            State.fresh
          = some ((some [], none), st2)) :=
  Supplier.Resources_list_forbidden usersForbidden 0 State.fresh "" "" "" rfl

theorem Ongoing.call_mem {s : Supplier} {pre : List Event} (ho : Ongoing s pre) {c : RemoteCall}
    {e : GoError} (hm : Event.call c (some e) ∈ pre) :
    isForbidden (some e) = true ∧ s.keepsGoing = true ∧ c.isListing = true ∧ c ≠ s.listCall := by
  have h := ho _ hm
  simp only [Event.passed, deniedListing, Bool.or_eq_true, beq_iff_eq, Bool.and_eq_true,
    bne_iff_ne, ne_eq] at h
  rcases h with h | ⟨⟨h1, h2, h3⟩, h4⟩
  · simp at h
  · exact ⟨h2, h1, h3, h4⟩

theorem Ongoing.no_wait {s : Supplier} {pre : List Event} (ho : Ongoing s pre)
    (values : List CtyValue) (err : error) : Event.wait values err ∉ pre := by
  intro hm
  have h := ho _ hm
  simp [Event.passed] at h

theorem Ongoing.no_deserialize {s : Supplier} {pre : List Event} (ho : Ongoing s pre)
    (values : List CtyValue) (r : Result) : Event.deserialize values r ∉ pre := by
  intro hm
  have h := ho _ hm
  simp [Event.passed] at h

theorem Supplier.alertsOf_snoc_quiet (s : Supplier) (hk : s.keepsGoing = false) (pre : List Event)
    (ho : Ongoing s pre) (last : Event) (hl : s.alertsOf [last] = []) :
    s.alertsOf (pre ++ [last]) = [] := by
  rw [Supplier.alertsOf_append, Supplier.alertsOf_ongoing s hk pre ho, hl]
  rfl

/-- Errors other than a denied listing are returned as they are: take an invocation
of any supplier that returned, with events `evs`. If a
remote call of it failed with an error that is not a 403 request failure, or if
`Wait()` returned an error, then `Resources()` returns the nil list together with
that same error, `Deserialize` is not among the events, and for the eight suppliers
that return after a denied listing the sink is unchanged. The result is the same
with any larger fuel. -/
theorem Supplier.Resources_error_returned (s : Supplier) (fuel : Nat) (st st2 : State)
    (res : Result) (evs : List Event) (err : GoError)
    (h : s.Resources fuel st = some (res, st2))
    (ht : st2.trace = st.trace ++ evs)
    (hfail : (∃ c, Event.call c (some err) ∈ evs ∧ isForbidden (some err) = false) ∨
      (∃ values, Event.wait values (some err) ∈ evs)) :
    res = (none, some err) ∧
    (∀ values r, Event.deserialize values r ∉ evs) ∧
    (s.keepsGoing = false → st2.alerter = st.alerter) ∧
    (∀ fuel2, fuel ≤ fuel2 → s.Resources fuel2 st = some (res, st2)) := by
  obtain ⟨evs1, he, hfin⟩ := Supplier.Resources_summary s fuel st res st2 h
  have hevs : evs1 = evs := List.append_cancel_left (he.trace.symm.trans ht)
  subst hevs
  refine ⟨?_, ?_, ?_, fun fuel2 hle => Supplier.Resources_mono s fuel fuel2 hle st _ h⟩
  · cases hfin with
    | denied pre c e ho hd hp =>
      exfalso
      rcases hfail with ⟨c2, hm, hnf⟩ | ⟨values, hm⟩
      · rcases List.mem_append.mp hm with hm | hm
        · have := (ho.call_mem hm).1
          simp [hnf] at this
        · simp only [List.mem_singleton, Event.call.injEq] at hm
          obtain ⟨-, rfl⟩ := hm
          simp [deniedListing, hnf] at hd
      · rcases List.mem_append.mp hm with hm | hm
        · exact ho.no_wait _ _ hm
        · simp at hm
    | failed pre c e ho hne hd =>
      rcases hfail with ⟨c2, hm, hnf⟩ | ⟨values, hm⟩
      · rcases List.mem_append.mp hm with hm | hm
        · have := (ho.call_mem hm).1
          simp [hnf] at this
        · simp only [List.mem_singleton, Event.call.injEq] at hm
          obtain ⟨-, rfl⟩ := hm
          rfl
      · exfalso
        rcases List.mem_append.mp hm with hm | hm
        · exact ho.no_wait _ _ hm
        · simp at hm
    | waitFailed pre values e ho hne =>
      rcases hfail with ⟨c2, hm, hnf⟩ | ⟨values2, hm⟩
      · exfalso
        rcases List.mem_append.mp hm with hm | hm
        · have := (ho.call_mem hm).1
          simp [hnf] at this
        · simp at hm
      · rcases List.mem_append.mp hm with hm | hm
        · exact absurd hm (ho.no_wait _ _)
        · simp only [List.mem_singleton, Event.wait.injEq] at hm
          obtain ⟨-, rfl⟩ := hm
          rfl
    | deserialized pre values r ho =>
      exfalso
      rcases hfail with ⟨c2, hm, hnf⟩ | ⟨values2, hm⟩
      · rcases List.mem_append.mp hm with hm | hm
        · have := (ho.call_mem hm).1
          simp [hnf] at this
        · simp at hm
      · rcases List.mem_append.mp hm with hm | hm
        · exact ho.no_wait _ _ hm
        · simp at hm
    | empty pre r ho =>
      exfalso
      rcases hfail with ⟨c2, hm, hnf⟩ | ⟨values2, hm⟩
      · rcases List.mem_append.mp hm with hm | hm
        · have := (ho.call_mem hm).1
          simp [hnf] at this
        · simp at hm
      · rcases List.mem_append.mp hm with hm | hm
        · exact ho.no_wait _ _ hm
        · simp at hm
  · intro values r hm
    cases hfin with
    | denied pre c e ho hd hp =>
      rcases List.mem_append.mp hm with hm | hm
      · exact ho.no_deserialize _ _ hm
      · simp at hm
    | failed pre c e ho hne hd =>
      rcases List.mem_append.mp hm with hm | hm
      · exact ho.no_deserialize _ _ hm
      · simp at hm
    | waitFailed pre values e ho hne =>
      rcases List.mem_append.mp hm with hm | hm
      · exact ho.no_deserialize _ _ hm
      · simp at hm
    | deserialized pre values2 r2 ho =>
      rcases hfail with ⟨c2, hm2, hnf⟩ | ⟨values3, hm2⟩
      · rcases List.mem_append.mp hm2 with hm2 | hm2
        · have := (ho.call_mem hm2).1
          simp [hnf] at this
        · simp at hm2
      · rcases List.mem_append.mp hm2 with hm2 | hm2
        · exact ho.no_wait _ _ hm2
        · simp at hm2
    | empty pre r2 ho =>
      rcases hfail with ⟨c2, hm2, hnf⟩ | ⟨values3, hm2⟩
      · rcases List.mem_append.mp hm2 with hm2 | hm2
        · have := (ho.call_mem hm2).1
          simp [hnf] at this
        · simp at hm2
      · rcases List.mem_append.mp hm2 with hm2 | hm2
        · exact ho.no_wait _ _ hm2
        · simp at hm2
  · intro hk
    have hquiet : s.alertsOf evs1 = [] := by
      cases hfin with
      | denied pre c e ho hd hp =>
        exfalso
        rcases hfail with ⟨c2, hm, hnf⟩ | ⟨values, hm⟩
        · rcases List.mem_append.mp hm with hm | hm
          · have := (ho.call_mem hm).1
            simp [hnf] at this
          · simp only [List.mem_singleton, Event.call.injEq] at hm
            obtain ⟨-, rfl⟩ := hm
            simp [deniedListing, hnf] at hd
        · rcases List.mem_append.mp hm with hm | hm
          · exact ho.no_wait _ _ hm
          · simp at hm
      | failed pre c e ho hne hd =>
        exact Supplier.alertsOf_snoc_quiet s hk pre ho _ (by simp [Supplier.alertsOf, hd])
      | waitFailed pre values e ho hne =>
        exact Supplier.alertsOf_snoc_quiet s hk pre ho _ (by simp [Supplier.alertsOf])
      | deserialized pre values r ho =>
        rw [Supplier.alertsOf_append, Supplier.alertsOf_ongoing s hk pre ho]
        simp [Supplier.alertsOf]
      | empty pre r ho =>
        exact Supplier.alertsOf_snoc_quiet s hk pre ho _ (by simp [Supplier.alertsOf])
    rw [he.alerter, hquiet]
    rfl


theorem Supplier.Resources_error_returned_witness :
    (none, some (GoError.plain "connection reset")) = ((none, some (GoError.plain "connection reset")) : Result) ∧
    (∀ values r, Event.deserialize values r ∉
      [Event.call RemoteCall.ListFunctionsPages (some (GoError.plain "connection reset"))]) ∧
    (functionsBroken.keepsGoing = false →
      (State.mk NewAlerter []
        [Event.call RemoteCall.ListFunctionsPages (some (GoError.plain "connection reset"))]).alerter
        = State.fresh.alerter) ∧
    (∀ fuel2, 0 ≤ fuel2 →
      functionsBroken.Resources fuel2 State.fresh =
        some ((none, some (GoError.plain "connection reset")),
          State.mk NewAlerter []
            [Event.call RemoteCall.ListFunctionsPages (some (GoError.plain "connection reset"))])) :=
  Supplier.Resources_error_returned functionsBroken 0 State.fresh
    (State.mk NewAlerter [] [Event.call RemoteCall.ListFunctionsPages (some (GoError.plain "connection reset"))])
    (none, some (GoError.plain "connection reset"))
    [Event.call RemoteCall.ListFunctionsPages (some (GoError.plain "connection reset"))]
    (GoError.plain "connection reset") rfl rfl
    (Or.inl ⟨RemoteCall.ListFunctionsPages, by simp, by decide⟩)

/-- C5: "no alert is sent" when a listing fails with an error that is not a 403
request failure, evaluated on the two suppliers whose loop has no `return` after a
handled per-user or per-zone listing. The attachment supplier lists `alice` (denied
with 403, one alert is sent, the loop goes on) and then `bob`, whose listing fails
with an error that is not a 403 request failure; the record supplier does the same
with the zones `Z1` and `Z2`. `Resources()` returns the nil list with that error,
and the sink, empty before, holds an alert under the supplier's type. -/
theorem Supplier.Resources_error_after_alert :
    (attachmentsDeniedThenBroken.Resources 0 State.fresh).map
        (fun r => (r.1, r.2.trace, r.2.alerter.Retrieve "aws_iam_user_policy_attachment")) =
      some ((none, some (GoError.plain "connection reset")),
        [Event.call RemoteCall.ListUsersPages none,
         Event.call (RemoteCall.ListAttachedUserPoliciesPages "alice") (some forbidden403),
         Event.call (RemoteCall.ListAttachedUserPoliciesPages "bob")
           (some (GoError.plain "connection reset"))],
        [{ Message := "Ignoring aws_iam_user_policy_attachment from drift calculation: Listing aws_iam_user_policy_attachment is forbidden.",
           ShouldIgnoreResource := true }]) ∧
    (recordsDeniedThenBroken.Resources 0 State.fresh).map
        (fun r => (r.1, r.2.trace, r.2.alerter.Retrieve "aws_route53_record")) =
      some ((none, some (GoError.plain "connection reset")),
        [Event.call RemoteCall.ListHostedZones none,
         Event.call (RemoteCall.ListResourceRecordSetsPages "Z1") (some forbidden403),
         Event.call (RemoteCall.ListResourceRecordSetsPages "Z2")
           (some (GoError.plain "connection reset"))],
        [{ Message := "Ignoring aws_route53_record from drift calculation: Listing aws_route53_record is forbidden.",
           ShouldIgnoreResource := true }]) ∧
    State.fresh.alerter.Retrieve "aws_iam_user_policy_attachment" = [] ∧
    State.fresh.alerter.Retrieve "aws_route53_record" = [] ∧
    isForbidden (some (GoError.plain "connection reset")) = false := by
  refine ⟨?_, ?_, ?_, ?_, ?_⟩ <;> decide


/-- C6: the invariant "an alert with `ShouldIgnoreResource = true` goes with an empty
result" evaluated on the two suppliers whose loop has no `return` after a handled
per-user or per-zone listing. With the listing denied for `alice` (resp. zone `Z1`)
and successful for `bob` (resp. zone `Z2`), `Resources()` sends the alert and
returns the resource of the second parent. -/
theorem Supplier.Resources_partial_list_with_alert :
    (attachmentsPartlyDenied.Resources 0 State.fresh).map
        (fun r => (r.1, r.2.alerter.Retrieve "aws_iam_user_policy_attachment")) =
      some ((some [Resource.other "aws_iam_user_policy_attachment" "ReadOnly"], none),
        [{ Message := "Ignoring aws_iam_user_policy_attachment from drift calculation: Listing aws_iam_user_policy_attachment is forbidden.",
           ShouldIgnoreResource := true }]) ∧
    (recordsPartlyDenied.Resources 0 State.fresh).map
        (fun r => (r.1, r.2.alerter.Retrieve "aws_route53_record")) =
      some ((some [Resource.other "aws_route53_record" "Z2_www.two.example_A"], none),
        [{ Message := "Ignoring aws_route53_record from drift calculation: Listing aws_route53_record is forbidden.",
           ShouldIgnoreResource := true }]) := by
  decide

/-- C7: "at most one alert per invocation" evaluated on the same two suppliers.
With the per-user (resp. per-zone) listing denied for both parents, one invocation
appends two alerts under the supplier's type. -/
theorem Supplier.Resources_two_alerts :
    (attachmentsAllDenied.Resources 0 State.fresh).map
        (fun r => (r.1, r.2.alerter.Retrieve "aws_iam_user_policy_attachment")) =
      some ((some [], none),
        [{ Message := "Ignoring aws_iam_user_policy_attachment from drift calculation: Listing aws_iam_user_policy_attachment is forbidden.",
           ShouldIgnoreResource := true },
         { Message := "Ignoring aws_iam_user_policy_attachment from drift calculation: Listing aws_iam_user_policy_attachment is forbidden.",
           ShouldIgnoreResource := true }]) ∧
    (recordsAllDenied.Resources 0 State.fresh).map
        (fun r => (r.1, r.2.alerter.Retrieve "aws_route53_record")) =
      some ((some [], none),
        [{ Message := "Ignoring aws_route53_record from drift calculation: Listing aws_route53_record is forbidden.",
           ShouldIgnoreResource := true },
         { Message := "Ignoring aws_route53_record from drift calculation: Listing aws_route53_record is forbidden.",
           ShouldIgnoreResource := true }]) := by
  decide


theorem Finished.denied_result {s : Supplier} {evs : List Event} {res : Result}
    (hfin : Finished s evs res) {c : RemoteCall} {err : error} (hm : Event.call c err ∈ evs)
    (hd : deniedListing c err = true) (hs : s.keepsGoing = false ∨ c = s.listCall) :
    res = (some [], none) := by
  have hne : err ≠ none := by
    rintro rfl
    simp [deniedListing, isForbidden] at hd
  obtain ⟨e, rfl⟩ := Option.ne_none_iff_exists'.mp hne
  have hpre : ∀ pre, Ongoing s pre → Event.call c (some e) ∉ pre := by
    intro pre ho hm2
    obtain ⟨-, hk, -, hc⟩ := ho.call_mem hm2
    rcases hs with hs | hs
    · simp [hk] at hs
    · exact hc hs
  cases hfin with
  | denied pre c2 e2 ho hd2 hp => rfl
  | failed pre c2 e2 ho hne2 hd2 =>
    rcases List.mem_append.mp hm with hm | hm
    · exact absurd hm (hpre pre ho)
    · simp only [List.mem_singleton, Event.call.injEq] at hm
      obtain ⟨rfl, rfl⟩ := hm
      simp [hd] at hd2
  | waitFailed pre values e2 ho hne2 =>
    rcases List.mem_append.mp hm with hm | hm
    · exact absurd hm (hpre pre ho)
    · simp at hm
  | deserialized pre values r ho =>
    rcases List.mem_append.mp hm with hm | hm
    · exact absurd hm (hpre pre ho)
    · simp at hm
  | empty pre r ho =>
    rcases List.mem_append.mp hm with hm | hm
    · exact absurd hm (hpre pre ho)
    · simp at hm

theorem Finished.failed_result {s : Supplier} {evs : List Event} {res : Result}
    (hfin : Finished s evs res) {c : RemoteCall} {e : GoError} (hm : Event.call c (some e) ∈ evs)
    (hd : deniedListing c (some e) = false) : res = (none, some e) := by
  have hpre : ∀ pre, Ongoing s pre → Event.call c (some e) ∉ pre := by
    intro pre ho hm2
    obtain ⟨hf, -, hl, -⟩ := ho.call_mem hm2
    simp [deniedListing, hf, hl] at hd
  cases hfin with
  | denied pre c2 e2 ho hd2 hp =>
    rcases List.mem_append.mp hm with hm | hm
    · exact absurd hm (hpre pre ho)
    · simp only [List.mem_singleton, Event.call.injEq] at hm
      obtain ⟨rfl, rfl⟩ := hm
      simp [hd] at hd2
  | failed pre c2 e2 ho hne2 hd2 =>
    rcases List.mem_append.mp hm with hm | hm
    · exact absurd hm (hpre pre ho)
    · simp only [List.mem_singleton, Event.call.injEq] at hm
      obtain ⟨rfl, rfl⟩ := hm
      rfl
  | waitFailed pre values e2 ho hne2 =>
    rcases List.mem_append.mp hm with hm | hm
    · exact absurd hm (hpre pre ho)
    · simp at hm
  | deserialized pre values r ho =>
    rcases List.mem_append.mp hm with hm | hm
    · exact absurd hm (hpre pre ho)
    · simp at hm
  | empty pre r ho =>
    rcases List.mem_append.mp hm with hm | hm
    · exact absurd hm (hpre pre ho)
    · simp at hm

theorem Finished.wait_failed_result {s : Supplier} {evs : List Event} {res : Result}
    (hfin : Finished s evs res) {values : List CtyValue} {e : GoError}
    (hm : Event.wait values (some e) ∈ evs) : res = (none, some e) := by
  cases hfin with
  | denied pre c2 e2 ho hd2 hp =>
    rcases List.mem_append.mp hm with hm | hm
    · exact absurd hm (ho.no_wait _ _)
    · simp at hm
  | failed pre c2 e2 ho hne2 hd2 =>
    rcases List.mem_append.mp hm with hm | hm
    · exact absurd hm (ho.no_wait _ _)
    · simp at hm
  | waitFailed pre values2 e2 ho hne2 =>
    rcases List.mem_append.mp hm with hm | hm
    · exact absurd hm (ho.no_wait _ _)
    · simp only [List.mem_singleton, Event.wait.injEq] at hm
      obtain ⟨-, rfl⟩ := hm
      rfl
  | deserialized pre values2 r ho =>
    rcases List.mem_append.mp hm with hm | hm
    · exact absurd hm (ho.no_wait _ _)
    · simp at hm
  | empty pre r ho =>
    rcases List.mem_append.mp hm with hm | hm
    · exact absurd hm (ho.no_wait _ _)
    · simp at hm

theorem Supplier.finish_snd (s : Supplier) (r : Result) : (s.finish r).2 = r.2 := by
  cases s <;> simp [Supplier.finish]
  by_cases h : r.2 = none <;> simp [h]

theorem Finished.forbidden_error_source {s : Supplier} {evs : List Event} {res : Result}
    (hfin : Finished s evs res) {e : GoError} (hr : res.2 = some e)
    (hf : isForbidden (some e) = true) :
    (∃ bucket, Event.call (RemoteCall.GetBucketLocation bucket) (some e) ∈ evs) ∨
    (∃ values, Event.wait values (some e) ∈ evs) ∨
    (∃ values r, Event.deserialize values (r, some e) ∈ evs) := by
  cases hfin with
  | denied pre c2 e2 ho hd2 hp => simp at hr
  | failed pre c2 e2 ho hne2 hd2 =>
    simp only at hr
    subst hr
    left
    cases c2 with
    | GetBucketLocation bucket => exact ⟨bucket, by simp⟩
    | _ => simp [deniedListing, hf, RemoteCall.isListing] at hd2
  | waitFailed pre values2 e2 ho hne2 =>
    simp only at hr
    subst hr
    exact Or.inr (Or.inl ⟨values2, by simp⟩)
  | deserialized pre values2 r ho =>
    rw [Supplier.finish_snd] at hr
    refine Or.inr (Or.inr ⟨values2, r.1, ?_⟩)
    rw [← hr]
    simp
  | empty pre r ho =>
    rw [Supplier.finish_snd] at hr
    refine Or.inr (Or.inr ⟨[], r.1, ?_⟩)
    rw [← hr]
    simp

/-- C8, as stated, fails: a 403 request failure of a remote call other than a
listing is returned as the error of `Resources()`. The user supplier whose state
reader denies every read returns the 403 that came back through `Wait()`, and the
analytics supplier returns the 403 of the bucket-region lookup; neither sends an
alert. -/
theorem Supplier.Resources_forbidden_surfaced :
    (userReadDenied.Resources 0 State.fresh).map
        (fun r => (r.1, r.2.trace, r.2.alerter.Retrieve "aws_iam_user")) =
      some ((none, some forbidden403),
        [Event.call RemoteCall.ListUsersPages none,
         Event.wait [] (some forbidden403)], []) ∧
    (regionLookupDenied.Resources 0 State.fresh).map
        (fun r => (r.1, r.2.trace, r.2.alerter.Retrieve "aws_s3_bucket_analytics_configuration")) =
      some ((none, some forbidden403),
        [Event.call RemoteCall.ListBuckets none,
         Event.call (RemoteCall.GetBucketLocation "logs") (some forbidden403)],
        []) := by
  refine ⟨?_, ?_⟩
  · decide
  · decide


theorem listIamUserPolicies_snd (username : String) (client : IAMAPI) :
    (listIamUserPolicies username client).2 = (client.ListUserPoliciesPages username).err := by
  unfold listIamUserPolicies Pager.Pages
  by_cases h : (client.ListUserPoliciesPages username).err = none <;> simp [h]

theorem IamUserPolicySupplier.listPolicies_forbidden (s : IamUserPolicySupplier)
    (before after : List User) (user : User) (err : error)
    (hbefore : ∀ u ∈ before, (s.client.ListUserPoliciesPages u.UserName).err = none)
    (huser : (s.client.ListUserPoliciesPages user.UserName).err = err)
    (hf : isForbidden err = true) (policies : List String) (st : State) :
    s.listPolicies (before ++ user :: after) policies st =
      (Flow.done (some [], none),
        { alerter := st.alerter.SendAlert AwsIamUserPolicyResourceType
            (forbiddenAlert AwsIamUserPolicyResourceType ""),
          tasks := st.tasks,
          trace := st.trace ++
            (before.map (fun u => Event.call (RemoteCall.ListUserPoliciesPages u.UserName) none) ++
              [Event.call (RemoteCall.ListUserPoliciesPages user.UserName) err]) }) := by
  induction before generalizing policies st with
  | nil =>
    have hne : err ≠ none := isForbidden_ne_none hf
    have h2 := listIamUserPolicies_snd user.UserName s.client
    rw [huser] at h2
    rcases hl : listIamUserPolicies user.UserName s.client with ⟨policyList, e⟩
    rw [hl] at h2
    simp only at h2
    subst h2
    simp only [List.nil_append, IamUserPolicySupplier.listPolicies, hl, ne_eq, hne,
      not_false_eq_true, if_true, State.handle_forbidden_eq, hf, Bool.not_true, Bool.false_eq_true,
      if_false, State.call, List.map_nil]
  | cons u before ih =>
    have hu := hbefore u (List.mem_cons_self _ _)
    have h2 := listIamUserPolicies_snd u.UserName s.client
    rw [hu] at h2
    rcases hl : listIamUserPolicies u.UserName s.client with ⟨policyList, e⟩
    rw [hl] at h2
    simp only at h2
    subst h2
    simp only [List.cons_append, IamUserPolicySupplier.listPolicies, hl, ne_eq, not_true_eq_false,
      if_false, List.append_eq]
    rw [ih (fun v hv => hbefore v (List.mem_cons_of_mem _ hv))]
    simp [State.call]

/-- C9: `IamUserPolicySupplier.Resources()` with a successful, non-empty user
listing `before ++ user :: after`, the policy listings of the users in `before`
successful and the one of `user` denied with status 403: the result is the empty
non-nil list with a nil error; the sink gains exactly one alert, under
`aws_iam_user_policy`, with the message of `handleListAwsError`; the remote calls
are the user listing and the policy listings of `before` and of `user`, so no
policy of a user in `after` is listed; and no task is submitted, whatever policies
the users in `before` have. -/
theorem IamUserPolicySupplier.Resources_policy_listing_forbidden (s : IamUserPolicySupplier)
    (st : State) (before after : List User) (user : User) (code message requestID : String)
    (husers : listIamUsers s.client = (before ++ user :: after, none))
    (hbefore : ∀ u ∈ before, (s.client.ListUserPoliciesPages u.UserName).err = none)
    (huser : (s.client.ListUserPoliciesPages user.UserName).err =
      some (GoError.requestFailure code message 403 requestID)) :
    (s.Resources st).1 = (some [], none) ∧
    (s.Resources st).2.alerter =
      st.alerter.SendAlert "aws_iam_user_policy"
        { Message := "Ignoring aws_iam_user_policy from drift calculation: Listing aws_iam_user_policy is forbidden.",
          ShouldIgnoreResource := true } ∧
    (s.Resources st).2.alerter.Retrieve "aws_iam_user_policy" =
      st.alerter.Retrieve "aws_iam_user_policy" ++
        [{ Message := "Ignoring aws_iam_user_policy from drift calculation: Listing aws_iam_user_policy is forbidden.",
           ShouldIgnoreResource := true }] ∧
    (∀ key, key ≠ "aws_iam_user_policy" →
      (s.Resources st).2.alerter.Retrieve key = st.alerter.Retrieve key) ∧
    (s.Resources st).2.tasks = st.tasks ∧
    (s.Resources st).2.trace =
      st.trace ++ [Event.call RemoteCall.ListUsersPages none] ++
        before.map (fun u => Event.call (RemoteCall.ListUserPoliciesPages u.UserName) none) ++
        [Event.call (RemoteCall.ListUserPoliciesPages user.UserName)
          (some (GoError.requestFailure code message 403 requestID))] := by
  have hf := isForbidden_requestFailure code message requestID
  have hres : s.Resources st =
      ((some [], none),
        { alerter := st.alerter.SendAlert AwsIamUserPolicyResourceType
            (forbiddenAlert AwsIamUserPolicyResourceType ""),
          tasks := st.tasks,
          trace := st.trace ++ [Event.call RemoteCall.ListUsersPages none] ++
            (before.map (fun u => Event.call (RemoteCall.ListUserPoliciesPages u.UserName) none) ++
              [Event.call (RemoteCall.ListUserPoliciesPages user.UserName)
                (some (GoError.requestFailure code message 403 requestID))]) }) := by
    unfold IamUserPolicySupplier.Resources
    simp only [husers, ne_eq, not_true_eq_false, if_false, List.length_append, List.length_cons,
      gt_iff_lt]
    rw [if_pos (by omega),
      s.listPolicies_forbidden before after user _ hbefore huser hf]
    simp [State.call]
  have hmsg : forbiddenAlert AwsIamUserPolicyResourceType "" =
      { Message := "Ignoring aws_iam_user_policy from drift calculation: Listing aws_iam_user_policy is forbidden.",
        ShouldIgnoreResource := true } := by decide
  have htyp : AwsIamUserPolicyResourceType = "aws_iam_user_policy" := rfl
  rw [hres, hmsg, htyp]
  refine ⟨rfl, rfl, SendAlert_Retrieve_self _ _ _, ?_, rfl, ?_⟩
  · intro key hk
    exact SendAlert_Retrieve_other _ _ _ _ hk
  · simp


theorem IamUserPolicySupplier.Resources_policy_listing_forbidden_witness :
    (policiesDeniedForBob.Resources State.fresh).1 = (some [], none) ∧
    (policiesDeniedForBob.Resources State.fresh).2.alerter =
      State.fresh.alerter.SendAlert "aws_iam_user_policy"
        { Message := "Ignoring aws_iam_user_policy from drift calculation: Listing aws_iam_user_policy is forbidden.",
          ShouldIgnoreResource := true } ∧
    (policiesDeniedForBob.Resources State.fresh).2.alerter.Retrieve "aws_iam_user_policy" =
      State.fresh.alerter.Retrieve "aws_iam_user_policy" ++
        [{ Message := "Ignoring aws_iam_user_policy from drift calculation: Listing aws_iam_user_policy is forbidden.",
           ShouldIgnoreResource := true }] ∧
    (∀ key, key ≠ "aws_iam_user_policy" →
      (policiesDeniedForBob.Resources State.fresh).2.alerter.Retrieve key =
        State.fresh.alerter.Retrieve key) ∧
    (policiesDeniedForBob.Resources State.fresh).2.tasks = State.fresh.tasks ∧
    (policiesDeniedForBob.Resources State.fresh).2.trace =
      State.fresh.trace ++ [Event.call RemoteCall.ListUsersPages none] ++
        [({ UserName := "alice" } : User)].map
          (fun u => Event.call (RemoteCall.ListUserPoliciesPages u.UserName) none) ++
        [Event.call (RemoteCall.ListUserPoliciesPages ({ UserName := "bob" } : User).UserName)
          (some (GoError.requestFailure "" "" 403 ""))] :=
  IamUserPolicySupplier.Resources_policy_listing_forbidden policiesDeniedForBob State.fresh
    [{ UserName := "alice" }] [{ UserName := "carol" }] { UserName := "bob" } "" "" ""
    (by decide) (by decide) (by decide)


theorem S3BucketConfigSupplier.fetch_calls (k : S3ConfigKind) (s : S3BucketConfigSupplier)
    (region : String) (fuel : Nat) :
    ∀ (request : ListConfigurationsInput) (acc : List Configuration) (st : State)
      (out : Except GoError (List Configuration)) (st2 : State),
      S3BucketConfigSupplier.fetch k s region fuel request acc st = some (out, st2) →
      ∃ evs, st2.trace = st.trace ++ evs ∧
        ∀ ev ∈ evs, ∃ r e, ev = Event.call (k.remoteCall region r) e ∧ r.Bucket = request.Bucket := by
  induction fuel with
  | zero =>
    intro request acc st out st2 h
    simp [S3BucketConfigSupplier.fetch] at h
  | succ fuel ih =>
    intro request acc st out st2 h
    unfold S3BucketConfigSupplier.fetch at h
    cases hl : k.list s.factory region request with
    | error err =>
      simp only [hl, Option.some.injEq, Prod.mk.injEq] at h
      obtain ⟨h1, h2⟩ := h
      subst h1 h2
      refine ⟨[Event.call (k.remoteCall region request) (some err)], by simp [State.call], ?_⟩
      intro ev hev
      simp only [List.mem_singleton] at hev
      exact ⟨request, some err, hev, rfl⟩
    | ok configurations =>
      simp only [hl] at h
      by_cases ht : configurations.IsTruncated = some true
      · simp only [ht, if_true] at h
        obtain ⟨evs, htr, hev⟩ := ih _ _ _ _ _ h
        refine ⟨[Event.call (k.remoteCall region request) none] ++ evs,
          by simpa [State.call] using htr, ?_⟩
        intro ev hm
        rcases List.mem_append.mp hm with hm | hm
        · simp only [List.mem_singleton] at hm
          exact ⟨request, none, hm, rfl⟩
        · obtain ⟨r, e, h1, h2⟩ := hev ev hm
          exact ⟨r, e, h1, h2⟩
      · simp only [ht, if_false, Option.some.injEq, Prod.mk.injEq] at h
        obtain ⟨h1, h2⟩ := h
        subst h1 h2
        refine ⟨[Event.call (k.remoteCall region request) none], by simp [State.call], ?_⟩
        intro ev hev
        simp only [List.mem_singleton] at hev
        exact ⟨request, none, hev, rfl⟩

theorem S3BucketConfigSupplier.listBucketConfiguration_calls (k : S3ConfigKind)
    (s : S3BucketConfigSupplier) (fuel : Nat) (name region : String) (st : State) (err : error)
    (st2 : State)
    (h : S3BucketConfigSupplier.listBucketConfiguration k s fuel name region st = some (err, st2)) :
    ∃ evs, st2.trace = st.trace ++ evs ∧
      ∀ ev ∈ evs, ∃ r e, ev = Event.call (k.remoteCall region r) e ∧ r.Bucket = name := by
  unfold S3BucketConfigSupplier.listBucketConfiguration at h
  rcases hf : S3BucketConfigSupplier.fetch k s region fuel { Bucket := name, ContinuationToken := none }
    [] st with _ | ⟨out, st1⟩
  · simp [hf] at h
  · obtain ⟨evs, htr, hev⟩ := S3BucketConfigSupplier.fetch_calls k s region fuel _ _ _ _ _ hf
    cases out with
    | error e =>
      simp only [hf, Option.some.injEq, Prod.mk.injEq] at h
      obtain ⟨h1, h2⟩ := h
      subst h1 h2
      exact ⟨evs, htr, hev⟩
    | ok l =>
      simp only [hf, Option.some.injEq, Prod.mk.injEq, State.foldl_Run] at h
      obtain ⟨h1, h2⟩ := h
      subst h1 h2
      exact ⟨evs, htr, hev⟩

theorem S3BucketConfigSupplier.visitBuckets_append (k : S3ConfigKind) (s : S3BucketConfigSupplier)
    (fuel : Nat) (before rest : List Bucket) :
    ∀ (st st1 : State) (u : Unit),
      S3BucketConfigSupplier.visitBuckets k s fuel before st = some (Flow.next u, st1) →
      S3BucketConfigSupplier.visitBuckets k s fuel (before ++ rest) st =
        S3BucketConfigSupplier.visitBuckets k s fuel rest st1 := by
  induction before with
  | nil =>
    intro st st1 u h
    simp only [S3BucketConfigSupplier.visitBuckets, Option.some.injEq, Prod.mk.injEq] at h
    obtain ⟨-, h2⟩ := h
    subst h2
    rfl
  | cons bucket before ih =>
    intro st st1 u h
    rw [List.cons_append]
    unfold S3BucketConfigSupplier.visitBuckets at h
    conv_lhs => unfold S3BucketConfigSupplier.visitBuckets
    rcases hr : s.factory.readBucketRegion bucket.Name with ⟨region, err⟩
    simp only [hr] at h ⊢
    by_cases herr : err = none
    · subst herr
      simp only [ne_eq, not_true_eq_false, if_false] at h ⊢
      by_cases hreg : region = ""
      · simp only [hreg, if_true] at h ⊢
        exact ih _ _ u h
      · simp only [hreg, if_false] at h ⊢
        rcases hl : S3BucketConfigSupplier.listBucketConfiguration k s fuel bucket.Name region
          (st.call (RemoteCall.GetBucketLocation bucket.Name) none) with _ | ⟨err2, st3⟩
        · simp [hl] at h
        · simp only [hl] at h ⊢
          by_cases herr2 : err2 = none
          · subst herr2
            simp only [ne_eq, not_true_eq_false, if_false] at h ⊢
            exact ih _ _ u h
          · simp only [herr2, ne_eq, not_false_eq_true, if_true] at h
            by_cases hh : ((st3.handle err2 k.resourceType).1) = true
            · simp [hh] at h
            · simp [hh] at h
    · simp [herr] at h

theorem S3ConfigKind.remoteCall_bucket (k : S3ConfigKind) (region : String)
    (r1 r2 : ListConfigurationsInput) (h : k.remoteCall region r1 = k.remoteCall region r2) :
    r1.Bucket = r2.Bucket := by
  cases k <;> simp [S3ConfigKind.remoteCall] at h <;> exact h.1

theorem Ongoing.calls_ok {s : Supplier} (hk : s.keepsGoing = false) {evs : List Event}
    (ho : Ongoing s evs) : ∀ ev ∈ evs, ∃ c, ev = Event.call c none := by
  intro ev hm
  have h := ho ev hm
  cases ev with
  | call c err =>
    simp only [Event.passed, hk, Bool.false_and, Bool.or_false, beq_iff_eq] at h
    exact ⟨c, by rw [h]⟩
  | wait values err => simp [Event.passed] at h
  | deserialize values r => simp [Event.passed] at h

theorem S3ConfigKind.supplier_Resources (k : S3ConfigKind) (s : S3BucketConfigSupplier) (fuel : Nat)
    (st : State) : (k.supplier s).Resources fuel st = S3BucketConfigSupplier.Resources k s fuel st := by
  cases k <;> rfl

/-- C10: a configuration supplier (analytics, inventory, metrics) whose `ListBuckets`
succeeds with `before ++ bucket :: after`, whose loop gets through the buckets of
`before` (reaching state `st1`), and for which `bucket` has a non-empty region and a
configuration listing that fails with a 403 request failure. `Resources()` returns
the empty non-nil list and a nil error; the sink is the sink of the start with one
alert appended under the supplier's type, with the message of `handleListAwsError`;
the events of the invocation are remote calls only (`Wait()` and `Deserialize` are
not called): `ListBuckets`, the calls for the buckets of `before`, the region lookup
of `bucket` and the listing requests for `bucket`, the failed one last, so no bucket
of `after` is visited; the tasks submitted are those of the buckets of `before`, and
they have no part in the result. -/
theorem S3BucketConfigSupplier.Resources_configuration_listing_forbidden (k : S3ConfigKind)
    (s : S3BucketConfigSupplier) (fuel : Nat) (st st1 st2 : State) (before after : List Bucket)
    (bucket : Bucket) (region code message requestID : String)
    (hbuckets : s.factory.ListBuckets = (before ++ bucket :: after, none))
    (hbefore : S3BucketConfigSupplier.visitBuckets k s fuel before (st.call RemoteCall.ListBuckets none)
      = some (Flow.next (), st1))
    (hregion : s.factory.readBucketRegion bucket.Name = (region, none))
    (hne : region ≠ "")
    (hlisting : S3BucketConfigSupplier.listBucketConfiguration k s fuel bucket.Name region
        (st1.call (RemoteCall.GetBucketLocation bucket.Name) none)
      = some (some (GoError.requestFailure code message 403 requestID), st2)) :
    ∃ (evs0 evs : List Event) (request : ListConfigurationsInput),
      (k.supplier s).Resources fuel st =
        some ((some [], none),
          { alerter := st.alerter.SendAlert k.resourceType
              { Message := "Ignoring " ++ k.resourceType ++ " from drift calculation: Listing "
                  ++ k.resourceType ++ " is forbidden.",
                ShouldIgnoreResource := true },
            tasks := st1.tasks,
            trace := st.trace ++ [Event.call RemoteCall.ListBuckets none] ++ evs0 ++
              [Event.call (RemoteCall.GetBucketLocation bucket.Name) none] ++ evs ++
              [Event.call (k.remoteCall region request)
                (some (GoError.requestFailure code message 403 requestID))] }) ∧
      st1.trace = st.trace ++ [Event.call RemoteCall.ListBuckets none] ++ evs0 ∧
      (∀ ev ∈ evs0, ∃ c, ev = Event.call c none) ∧
      (∀ ev ∈ evs, ∃ r, ev = Event.call (k.remoteCall region r) none ∧ r.Bucket = bucket.Name) ∧
      request.Bucket = bucket.Name := by
  have hf := isForbidden_requestFailure code message requestID
  have hk := k.supplier_keepsGoing s
  -- the buckets before
  obtain ⟨evs0, he0, hs0⟩ := S3BucketConfigSupplier.visitBuckets_summary k s fuel before _ _ _ hbefore
  have ho0 : Ongoing (k.supplier s) evs0 := hs0
  have ha1 : st1.alerter = st.alerter := by
    rw [he0.alerter, Supplier.alertsOf_ongoing _ hk evs0 ho0]
    rfl
  have ht1 : st1.trace = st.trace ++ [Event.call RemoteCall.ListBuckets none] ++ evs0 := by
    rw [he0.trace]
    simp [State.call]
  -- the listing of the bucket
  obtain ⟨ha2, pre, hpre, -, hko⟩ :=
    S3BucketConfigSupplier.listBucketConfiguration_trace k s fuel _ _ _ _ _ hlisting
  obtain ⟨htk2, request, htr2⟩ := hko (by simp)
  obtain ⟨evsAll, htrAll, hAll⟩ :=
    S3BucketConfigSupplier.listBucketConfiguration_calls k s fuel _ _ _ _ _ hlisting
  have hsplit : evsAll = pre ++ [Event.call (k.remoteCall region request)
      (some (GoError.requestFailure code message 403 requestID))] := by
    have := htrAll.symm.trans htr2
    rw [List.append_assoc] at this
    exact List.append_cancel_left this
  have hpre2 : ∀ ev ∈ pre, ∃ r, ev = Event.call (k.remoteCall region r) none ∧ r.Bucket = bucket.Name := by
    intro ev hm
    obtain ⟨c, hc⟩ := hpre.calls_ok hk ev hm
    obtain ⟨r, e, h1, h2⟩ := hAll ev (by rw [hsplit]; exact List.mem_append_left _ hm)
    rw [hc] at h1
    simp only [Event.call.injEq] at h1
    exact ⟨r, by rw [hc, h1.1], h2⟩
  have hreq : request.Bucket = bucket.Name := by
    obtain ⟨r, e, h1, h2⟩ := hAll (Event.call (k.remoteCall region request)
      (some (GoError.requestFailure code message 403 requestID)))
      (by rw [hsplit]; exact List.mem_append_right _ (List.mem_singleton_self _))
    simp only [Event.call.injEq] at h1
    rw [k.remoteCall_bucket region _ _ h1.1, h2]
  refine ⟨evs0, pre, request, ?_, ht1, ho0.calls_ok hk, hpre2, hreq⟩
  rw [k.supplier_Resources]
  unfold S3BucketConfigSupplier.Resources
  simp only [hbuckets, ne_eq, not_true_eq_false, if_false]
  rw [S3BucketConfigSupplier.visitBuckets_append k s fuel before (bucket :: after) _ st1 () hbefore]
  unfold S3BucketConfigSupplier.visitBuckets
  simp only [hregion, ne_eq, not_true_eq_false, if_false, hne, hlisting, Option.some_ne_none,
    not_false_eq_true, if_true, State.handle_forbidden_eq, hf, Bool.not_true, Bool.false_eq_true,
    Option.some.injEq, Prod.mk.injEq, true_and]
  have hmsg : forbiddenAlert k.resourceType "" =
      { Message := "Ignoring " ++ k.resourceType ++ " from drift calculation: Listing "
          ++ k.resourceType ++ " is forbidden.",
        ShouldIgnoreResource := true } := by
    simp [forbiddenAlert, forbiddenMessage]
  rw [hmsg, ha2, htk2, htr2]
  simp [State.call, ha1, ht1]


theorem S3BucketConfigSupplier.Resources_configuration_listing_forbidden_witness :
    ∃ (evs0 evs : List Event) (request : ListConfigurationsInput),
      (S3ConfigKind.analytic.supplier analyticsDeniedForMedia).Resources 5 State.fresh =
        some ((some [], none),
          { alerter := State.fresh.alerter.SendAlert S3ConfigKind.analytic.resourceType
              { Message := "Ignoring " ++ S3ConfigKind.analytic.resourceType
                  ++ " from drift calculation: Listing "
                  ++ S3ConfigKind.analytic.resourceType ++ " is forbidden.",
                ShouldIgnoreResource := true },
            tasks := analyticsAfterLogs.tasks,
            trace := State.fresh.trace ++ [Event.call RemoteCall.ListBuckets none] ++ evs0 ++
              [Event.call (RemoteCall.GetBucketLocation ({ Name := "media" } : Bucket).Name) none] ++ evs ++
              [Event.call (S3ConfigKind.analytic.remoteCall "eu-west-3" request)
                (some (GoError.requestFailure "" "" 403 ""))] }) ∧
      analyticsAfterLogs.trace = State.fresh.trace ++ [Event.call RemoteCall.ListBuckets none] ++ evs0 ∧
      (∀ ev ∈ evs0, ∃ c, ev = Event.call c none) ∧
      (∀ ev ∈ evs, ∃ r, ev = Event.call (S3ConfigKind.analytic.remoteCall "eu-west-3" r) none ∧
        r.Bucket = ({ Name := "media" } : Bucket).Name) ∧
      request.Bucket = ({ Name := "media" } : Bucket).Name :=
  S3BucketConfigSupplier.Resources_configuration_listing_forbidden S3ConfigKind.analytic
    analyticsDeniedForMedia 5 State.fresh analyticsAfterLogs analyticsAfterMedia
    [{ Name := "logs" }] [{ Name := "backup" }] { Name := "media" } "eu-west-3" "" "" ""
    rfl rfl rfl (by decide) rfl


/-! ### Pagination -/

theorem Pager.deliver_collect {α β : Type} (f : List α → List β)
    (pages : List (List α × Bool)) (init : List β) :
    Pager.deliver (fun acc page lastPage => (acc ++ f page, !lastPage)) pages init =
      init ++ ((Pager.received pages).map f).flatten := by
  induction pages generalizing init with
  | nil => simp [Pager.deliver, Pager.received]
  | cons p rest ih =>
    obtain ⟨page, lastPage⟩ := p
    cases lastPage with
    | true => simp [Pager.deliver, Pager.received]
    | false => simp [Pager.deliver, Pager.received, ih]

theorem Pager.deliver_append {α : Type} (pages : List (List α × Bool)) (init : List α) :
    Pager.deliver (fun acc page lastPage => (acc ++ page, !lastPage)) pages init =
      init ++ (Pager.received pages).flatten := by
  have h := Pager.deliver_collect (fun page : List α => page) pages init
  simpa using h

theorem Pager.received_lastFlagged {α : Type} (pages : List (List α × Bool))
    (h : Pager.lastFlagged pages = true) : Pager.received pages = pages.map Prod.fst := by
  induction pages with
  | nil => rfl
  | cons p rest ih =>
    obtain ⟨page, lastPage⟩ := p
    cases rest with
    | nil => simp [Pager.received]
    | cons q rest2 =>
      simp only [Pager.lastFlagged, Bool.and_eq_true, Bool.not_eq_true'] at h
      rw [Pager.received, h.1, ih h.2]
      simp

theorem foldl_tag (username : String) (res : List AttachedPolicy) (acc : List attachedUserPolicy) :
    res.foldl (fun acc policy => acc ++ [({ toAttachedPolicy := policy, Username := username } :
        attachedUserPolicy)]) acc =
      acc ++ res.map (fun policy => { toAttachedPolicy := policy, Username := username }) := by
  induction res generalizing acc with
  | nil => simp
  | cons x xs ih => simp [ih]

theorem listIamUsers_ok (client : IAMAPI) (h : client.ListUsersPages.err = none) :
    listIamUsers client = ((Pager.received client.ListUsersPages.pages).flatten, none) := by
  simp [listIamUsers, Pager.Pages, h, Pager.deliver_append]

theorem listIamUserPolicies_ok (username : String) (client : IAMAPI)
    (h : (client.ListUserPoliciesPages username).err = none) :
    listIamUserPolicies username client =
      ((Pager.received (client.ListUserPoliciesPages username).pages).flatten, none) := by
  simp [listIamUserPolicies, Pager.Pages, h, Pager.deliver_append]

theorem listIamUserPoliciesAttachment_ok (username : String) (client : IAMAPI)
    (h : (client.ListAttachedUserPoliciesPages username).err = none) :
    listIamUserPoliciesAttachment username client =
      ((Pager.received (client.ListAttachedUserPoliciesPages username).pages).flatten.map
        (fun policy => { toAttachedPolicy := policy, Username := username }), none) := by
  have hd := Pager.deliver_collect
    (fun page : List AttachedPolicy =>
      page.map (fun policy => ({ toAttachedPolicy := policy, Username := username } : attachedUserPolicy)))
    (client.ListAttachedUserPoliciesPages username).pages []
  simp only [listIamUserPoliciesAttachment, Pager.Pages, h, foldl_tag, hd]
  simp [List.map_flatten]

theorem listLambdaFunctions_ok (client : LambdaAPI) (h : client.ListFunctionsPages.err = none) :
    listLambdaFunctions client = ((Pager.received client.ListFunctionsPages.pages).flatten, none) := by
  simp [listLambdaFunctions, Pager.Pages, h, Pager.deliver_append]

theorem listAwsRoute53Records_ok (client : Route53API) (zoneId : String)
    (h : (client.ListResourceRecordSetsPages zoneId).err = none) :
    listAwsRoute53Records client zoneId =
      ((Pager.received (client.ListResourceRecordSetsPages zoneId).pages).flatten, none) := by
  simp [listAwsRoute53Records, Pager.Pages, h, Pager.deliver_append]


theorem wait_deserialize_tasks (st1 : State) (d : CTYDeserializer) (runner : ParallelResourceReader) :
    (match st1.Wait runner with
      | ((values, err), st2) =>
        if err ≠ none then ((none, err), st2) else st2.Deserialize d values).2.tasks = st1.tasks := by
  have hout : (match st1.Wait runner with
      | ((values, err), st2) =>
        if err ≠ none then ((none, err), st2) else st2.Deserialize d values) =
      if (runner.Wait st1.tasks).2 ≠ none then
        ((none, (runner.Wait st1.tasks).2), (st1.Wait runner).2)
      else (st1.Wait runner).2.Deserialize d (runner.Wait st1.tasks).1 := rfl
  rw [hout]
  by_cases h : (runner.Wait st1.tasks).2 = none <;> simp [h, State.Wait, State.Deserialize]

/-- C11: the callback walkers return the concatenation, in page order, of the pages
they are handed up to and including the first page flagged `lastPage`: their
callback asks for the next page exactly when `lastPage` is false. This holds for
`listIamUsers`, `listIamUserPolicies`, `listIamUserPoliciesAttachment` (which tags
every item with the user name it was listed for), `listLambdaFunctions`,
`listAwsRoute53Records`, and for the callback of `DBSubnetGroupSupplier.Resources`,
whose accumulated groups are the ones the tasks are submitted for. When the flags
are those of a complete listing (true on the last page only), the pages received
are all the pages, so the `M` items of `K` pages are returned whatever the page
sizes. -/
theorem pagination_complete (iam : IAMAPI) (lam : LambdaAPI) (route53 : Route53API)
    (db : DBSubnetGroupSupplier) (st : State) (username zoneId : String) :
    (iam.ListUsersPages.err = none →
      listIamUsers iam = ((Pager.received iam.ListUsersPages.pages).flatten, none)) ∧
    ((iam.ListUserPoliciesPages username).err = none →
      listIamUserPolicies username iam =
        ((Pager.received (iam.ListUserPoliciesPages username).pages).flatten, none)) ∧
    ((iam.ListAttachedUserPoliciesPages username).err = none →
      listIamUserPoliciesAttachment username iam =
        ((Pager.received (iam.ListAttachedUserPoliciesPages username).pages).flatten.map
          (fun policy => { toAttachedPolicy := policy, Username := username }), none)) ∧
    (lam.ListFunctionsPages.err = none →
      listLambdaFunctions lam = ((Pager.received lam.ListFunctionsPages.pages).flatten, none)) ∧
    ((route53.ListResourceRecordSetsPages zoneId).err = none →
      listAwsRoute53Records route53 zoneId =
        ((Pager.received (route53.ListResourceRecordSetsPages zoneId).pages).flatten, none)) ∧
    (db.client.DescribeDBSubnetGroupsPages.err = none →
      (db.Resources st).2.tasks =
        st.tasks ++ (Pager.received db.client.DescribeDBSubnetGroupsPages.pages).flatten.map
          (fun sub _ => db.readSubnetGroup sub)) ∧
    (∀ (α : Type) (pages : List (List α × Bool)), Pager.lastFlagged pages = true →
      Pager.received pages = pages.map Prod.fst ∧
      (Pager.received pages).flatten.length = (pages.map (fun p => p.1.length)).sum) := by
  refine ⟨listIamUsers_ok iam, listIamUserPolicies_ok username iam,
    listIamUserPoliciesAttachment_ok username iam, listLambdaFunctions_ok lam,
    listAwsRoute53Records_ok route53 zoneId, ?_, ?_⟩
  · intro h
    unfold DBSubnetGroupSupplier.Resources
    simp only [Pager.Pages, h, ne_eq, not_true_eq_false, if_false]
    rw [wait_deserialize_tasks]
    simp [State.foldl_Run, Pager.deliver_append, State.call]
  · intro α pages h
    rw [Pager.received_lastFlagged pages h]
    refine ⟨rfl, ?_⟩
    simp [List.length_flatten, Function.comp_def]


/-! ### Continuation-token walk -/

theorem S3BucketConfigSupplier.fetch_answers (k : S3ConfigKind) (s : S3BucketConfigSupplier)
    (region name : String) (truncated : List ListConfigurationsOutput)
    (final : Except GoError ListConfigurationsOutput) :
    ∀ (fuel : Nat) (token : Option String) (acc : List Configuration) (st : State),
      S3BucketConfigSupplier.Answers k s region name token truncated final →
      truncated.length + 1 ≤ fuel →
      S3BucketConfigSupplier.fetch k s region fuel { Bucket := name, ContinuationToken := token } acc st =
        some
          ((match final with
            | .ok last =>
              .ok (acc ++ (truncated.map (fun r => r.ConfigurationList)).flatten
                ++ last.ConfigurationList)
            | .error err => .error err),
            { st with trace := st.trace ++
                k.walkEvents region name token truncated (answerError final) }) := by
  induction truncated with
  | nil =>
    intro fuel token acc st ha hf
    obtain ⟨n, rfl⟩ : ∃ n, fuel = n + 1 := ⟨fuel - 1, by omega⟩
    obtain ⟨h1, h2⟩ := ha
    unfold S3BucketConfigSupplier.fetch
    cases final with
    | error err => simp [h1, S3ConfigKind.walkEvents, State.call, answerError]
    | ok last =>
      have := h2 last rfl
      simp [h1, this, S3ConfigKind.walkEvents, State.call, answerError]
  | cons r rest ih =>
    intro fuel token acc st ha hf
    obtain ⟨n, rfl⟩ : ∃ n, fuel = n + 1 := ⟨fuel - 1, by simp at hf; omega⟩
    obtain ⟨h1, h2, h3⟩ := ha
    unfold S3BucketConfigSupplier.fetch
    simp only [h1, h2, if_true]
    rw [ih n r.NextContinuationToken _ _ h3 (by simp at hf ⊢; omega)]
    cases final with
    | error err => simp [S3ConfigKind.walkEvents, State.call, answerError]
    | ok last => simp [S3ConfigKind.walkEvents, State.call, answerError]


theorem S3ConfigKind.walkEvents_ok (k : S3ConfigKind) (region name : String)
    (truncated : List ListConfigurationsOutput) (token : Option String) :
    k.walkEvents region name token truncated none =
      (token :: truncated.map (fun r => r.NextContinuationToken)).map
        (fun token => Event.call (k.remoteCall region { Bucket := name, ContinuationToken := token })
          none) := by
  induction truncated generalizing token with
  | nil => rfl
  | cons r rest ih =>
    rw [S3ConfigKind.walkEvents, ih]
    rfl

theorem S3BucketConfigSupplier.readConfiguration_task (k : S3ConfigKind)
    (s : S3BucketConfigSupplier) (id region : String) :
    (fun _ => S3BucketConfigSupplier.readConfiguration k s id region) =
      readTask s.reader { Ty := k.resourceType, ID := id, Attributes := [("aws_region", region)] } :=
  rfl

/-- C12: the continuation-token walk of `listBucketAnalyticConfiguration`,
`listBucketInventoryConfiguration` and `listBucketMetricConfiguration`. When the
client answers the first `K - 1` requests with responses that have
`IsTruncated = true` and the `K`-th with a response whose `IsTruncated` is nil or
false, and the fuel allows `K` requests, the function returns nil; the trace grows
by exactly `K` requests without error, the first with a nil token and each further
one with the `NextContinuationToken` of the response before; and the tasks grow by
one task per configuration of the `K` pages, in page order, each reading
`<bucket>:<Id>` of the supplier's type with the attribute `aws_region`. -/
theorem S3BucketConfigSupplier.listBucketConfiguration_walk (k : S3ConfigKind)
    (s : S3BucketConfigSupplier) (fuel : Nat) (name region : String) (st : State)
    (truncated : List ListConfigurationsOutput) (last : ListConfigurationsOutput)
    (hanswers : S3BucketConfigSupplier.Answers k s region name none truncated (.ok last))
    (hfuel : truncated.length + 1 ≤ fuel) :
    S3BucketConfigSupplier.listBucketConfiguration k s fuel name region st =
      some (none,
        { st with
          tasks := st.tasks ++
            ((truncated ++ [last]).map (fun r => r.ConfigurationList)).flatten.map
              (fun config =>
                readTask s.reader
                  { Ty := k.resourceType, ID := name ++ ":" ++ config.Id,
                    Attributes := [("aws_region", region)] }),
          trace := st.trace ++
            (none :: truncated.map (fun r => r.NextContinuationToken)).map
              (fun token =>
                Event.call (k.remoteCall region { Bucket := name, ContinuationToken := token })
                  none) }) ∧
    (none :: truncated.map (fun r => r.NextContinuationToken)).length = truncated.length + 1 ∧
    (((truncated ++ [last]).map (fun r => r.ConfigurationList)).flatten.map
        (fun config =>
          readTask s.reader
            { Ty := k.resourceType, ID := name ++ ":" ++ config.Id,
              Attributes := [("aws_region", region)] })).length =
      ((truncated ++ [last]).map (fun r => r.ConfigurationList.length)).sum := by
  refine ⟨?_, by simp, ?_⟩
  · unfold S3BucketConfigSupplier.listBucketConfiguration
    rw [S3BucketConfigSupplier.fetch_answers k s region name truncated (.ok last) fuel none [] st
      hanswers hfuel]
    simp only [answerError, S3ConfigKind.walkEvents_ok, State.foldl_Run, List.nil_append,
      S3BucketConfigSupplier.readConfiguration_task]
    simp
  · simp [List.length_flatten, Function.comp_def]


theorem S3BucketConfigSupplier.listBucketConfiguration_walk_witness :
    S3BucketConfigSupplier.listBucketConfiguration S3ConfigKind.analytic analyticsDeniedForMedia 5
        "logs" "eu-west-1" State.fresh =
      some (none,
        { State.fresh with
          tasks := State.fresh.tasks ++
            (([logsFirstPage] ++ [logsLastPage]).map (fun r => r.ConfigurationList)).flatten.map
              (fun config =>
                readTask analyticsDeniedForMedia.reader
                  { Ty := S3ConfigKind.analytic.resourceType, ID := "logs" ++ ":" ++ config.Id,
                    Attributes := [("aws_region", "eu-west-1")] }),
          trace := State.fresh.trace ++
            (none :: [logsFirstPage].map (fun r => r.NextContinuationToken)).map
              (fun token =>
                Event.call
                  (S3ConfigKind.analytic.remoteCall "eu-west-1"
                    { Bucket := "logs", ContinuationToken := token })
                  none) }) ∧
    (none :: [logsFirstPage].map (fun r => r.NextContinuationToken)).length
      = [logsFirstPage].length + 1 ∧
    ((([logsFirstPage] ++ [logsLastPage]).map (fun r => r.ConfigurationList)).flatten.map
        (fun config =>
          readTask analyticsDeniedForMedia.reader
            { Ty := S3ConfigKind.analytic.resourceType, ID := "logs" ++ ":" ++ config.Id,
              Attributes := [("aws_region", "eu-west-1")] })).length =
      (([logsFirstPage] ++ [logsLastPage]).map (fun r => r.ConfigurationList.length)).sum :=
  S3BucketConfigSupplier.listBucketConfiguration_walk S3ConfigKind.analytic analyticsDeniedForMedia 5
    "logs" "eu-west-1" State.fresh [logsFirstPage] logsLastPage
    ⟨rfl, rfl, rfl, fun r h => by
      injection h with h
      subst h
      decide⟩
    (by decide)


theorem S3ConfigKind.walkEvents_failed (k : S3ConfigKind) (region name : String)
    (truncated : List ListConfigurationsOutput) (token : Option String) (err : error) :
    k.walkEvents region name token truncated err =
      (token :: truncated.map (fun r => r.NextContinuationToken)).dropLast.map
          (fun token =>
            Event.call (k.remoteCall region { Bucket := name, ContinuationToken := token }) none) ++
        [Event.call
          (k.remoteCall region
            { Bucket := name,
              ContinuationToken :=
                (token :: truncated.map (fun r => r.NextContinuationToken)).getLastD none })
          err] := by
  induction truncated generalizing token with
  | nil => rfl
  | cons r rest ih =>
    rw [S3ConfigKind.walkEvents, ih]
    simp [List.dropLast]

/-- C13: a listing that fails is failed as a whole. When the `...Pages` call of
`listIamUsers`, `listIamUserPolicies`, `listIamUserPoliciesAttachment`,
`listLambdaFunctions` or `listAwsRoute53Records` returns an error, the function
returns no item together with that error, whatever pages were delivered before
(the item list of the embedding does not tell nil from empty). When the client
answers the first `K - 1` requests of a configuration listing with truncated
responses and the `K`-th with an error, `listBucketAnalyticConfiguration`,
`listBucketInventoryConfiguration` and `listBucketMetricConfiguration` return that
error; the trace grows by these `K` requests, the failed one last, and no task is
submitted. -/
theorem listing_failed_atomic (iam : IAMAPI) (lam : LambdaAPI) (route53 : Route53API)
    (username zoneId : String) (err : GoError) (k : S3ConfigKind) (s : S3BucketConfigSupplier)
    (fuel : Nat) (name region : String) (st : State) (truncated : List ListConfigurationsOutput) :
    (iam.ListUsersPages.err = some err → listIamUsers iam = ([], some err)) ∧
    ((iam.ListUserPoliciesPages username).err = some err →
      listIamUserPolicies username iam = ([], some err)) ∧
    ((iam.ListAttachedUserPoliciesPages username).err = some err →
      listIamUserPoliciesAttachment username iam = ([], some err)) ∧
    (lam.ListFunctionsPages.err = some err → listLambdaFunctions lam = ([], some err)) ∧
    ((route53.ListResourceRecordSetsPages zoneId).err = some err →
      listAwsRoute53Records route53 zoneId = ([], some err)) ∧
    (S3BucketConfigSupplier.Answers k s region name none truncated (.error err) →
      truncated.length + 1 ≤ fuel →
      S3BucketConfigSupplier.listBucketConfiguration k s fuel name region st =
        some (some err,
          { st with
            trace := st.trace ++
              ((none :: truncated.map (fun r => r.NextContinuationToken)).dropLast.map
                  (fun token =>
                    Event.call (k.remoteCall region { Bucket := name, ContinuationToken := token })
                      none) ++
                [Event.call
                  (k.remoteCall region
                    { Bucket := name,
                      ContinuationToken :=
                        (none :: truncated.map (fun r => r.NextContinuationToken)).getLastD none })
                  (some err)]) })) := by
  refine ⟨?_, ?_, ?_, ?_, ?_, ?_⟩
  · intro h
    simp [listIamUsers, Pager.Pages, h]
  · intro h
    simp [listIamUserPolicies, Pager.Pages, h]
  · intro h
    simp [listIamUserPoliciesAttachment, Pager.Pages, h]
  · intro h
    simp [listLambdaFunctions, Pager.Pages, h]
  · intro h
    simp [listAwsRoute53Records, Pager.Pages, h]
  · intro ha hf
    unfold S3BucketConfigSupplier.listBucketConfiguration
    rw [S3BucketConfigSupplier.fetch_answers k s region name truncated (.error err) fuel none [] st
      ha hf]
    simp only [answerError, S3ConfigKind.walkEvents_failed]


theorem listing_failed_atomic_witness :
    listIamUsers usersThenBroken = ([], some (GoError.plain "connection reset")) ∧
    S3BucketConfigSupplier.listBucketConfiguration S3ConfigKind.analytic analyticsSecondPageBroken 2
        "logs" "eu-west-1" State.fresh =
      some (some (GoError.plain "connection reset"),
        { State.fresh with
          trace := State.fresh.trace ++
            ((none :: [logsFirstPage].map (fun r => r.NextContinuationToken)).dropLast.map
                (fun token =>
                  Event.call
                    (S3ConfigKind.analytic.remoteCall "eu-west-1"
                      { Bucket := "logs", ContinuationToken := token })
                    none) ++
              [Event.call
                (S3ConfigKind.analytic.remoteCall "eu-west-1"
                  { Bucket := "logs",
                    ContinuationToken :=
                      (none :: [logsFirstPage].map (fun r => r.NextContinuationToken)).getLastD none })
                (some (GoError.plain "connection reset"))]) }) :=
  ⟨(listing_failed_atomic usersThenBroken ⟨Pager.ofPages []⟩ ⟨([], none), fun _ => Pager.ofPages []⟩
      "alice" "Z1" (GoError.plain "connection reset") S3ConfigKind.analytic analyticsSecondPageBroken 2
      "logs" "eu-west-1" State.fresh [logsFirstPage]).1 rfl,
    (listing_failed_atomic usersThenBroken ⟨Pager.ofPages []⟩ ⟨([], none), fun _ => Pager.ofPages []⟩
      "alice" "Z1" (GoError.plain "connection reset") S3ConfigKind.analytic analyticsSecondPageBroken 2
      "logs" "eu-west-1" State.fresh [logsFirstPage]).2.2.2.2.2 ⟨rfl, rfl, rfl, fun r h => by
        cases h⟩ (by decide)⟩


/-! ### Fan-out -/

/-- C14: fan-out of `DBSubnetGroupSupplier`, `IamUserSupplier` and
`LambdaFunctionSupplier`. When the listing succeeds with the items `i_1 .. i_n`,
the tasks submitted by `Resources()` are, in order, one task per item, the `k`-th
one reading the supplier's type with the ID of the `k`-th item (`DBSubnetGroupName`,
`UserName`, `FunctionName`), and for the lambda supplier with the attribute
`function_name` equal to that ID; so exactly `n` tasks are submitted. -/
theorem Resources_fan_out (db : DBSubnetGroupSupplier) (iamUser : IamUserSupplier)
    (lam : LambdaFunctionSupplier) (st : State) (users : List User)
    (functions : List FunctionConfiguration) :
    (db.client.DescribeDBSubnetGroupsPages.err = none →
      (db.Resources st).2.tasks =
        st.tasks ++ (Pager.received db.client.DescribeDBSubnetGroupsPages.pages).flatten.map
          (fun subnetGroup =>
            readTask db.reader
              { ID := subnetGroup.DBSubnetGroupName, Ty := "aws_db_subnet_group", Attributes := [] }) ∧
      ((db.Resources st).2.tasks.length =
        st.tasks.length + (Pager.received db.client.DescribeDBSubnetGroupsPages.pages).flatten.length)) ∧
    (listIamUsers iamUser.client = (users, none) →
      (iamUser.Resources st).2.tasks =
        st.tasks ++ users.map
          (fun user =>
            readTask iamUser.reader { Ty := "aws_iam_user", ID := user.UserName, Attributes := [] }) ∧
      (iamUser.Resources st).2.tasks.length = st.tasks.length + users.length) ∧
    (listLambdaFunctions lam.client = (functions, none) →
      (lam.Resources st).2.tasks =
        st.tasks ++ functions.map
          (fun function =>
            readTask lam.reader
              { Ty := "aws_lambda_function", ID := function.FunctionName,
                Attributes := [("function_name", function.FunctionName)] }) ∧
      (lam.Resources st).2.tasks.length = st.tasks.length + functions.length) := by
  refine ⟨?_, ?_, ?_⟩
  · intro h
    have ht : (db.Resources st).2.tasks =
        st.tasks ++ (Pager.received db.client.DescribeDBSubnetGroupsPages.pages).flatten.map
          (fun subnetGroup =>
            readTask db.reader
              { ID := subnetGroup.DBSubnetGroupName, Ty := "aws_db_subnet_group", Attributes := [] }) := by
      unfold DBSubnetGroupSupplier.Resources
      simp only [Pager.Pages, h, ne_eq, not_true_eq_false, if_false]
      rw [wait_deserialize_tasks]
      simp only [State.foldl_Run, Pager.deliver_append, State.call, List.nil_append]
      rfl
    exact ⟨ht, by rw [ht, List.length_append, List.length_map]⟩
  · intro h
    have ht : (iamUser.Resources st).2.tasks =
        st.tasks ++ users.map
          (fun user =>
            readTask iamUser.reader { Ty := "aws_iam_user", ID := user.UserName, Attributes := [] }) := by
      unfold IamUserSupplier.Resources
      simp only [h, ne_eq, not_true_eq_false, if_false]
      by_cases hlen : users.length > 0
      · simp only [hlen, if_true]
        rw [wait_deserialize_tasks]
        simp only [State.foldl_Run, State.call]
        rfl
      · have hnil : users = [] := by
          cases users with
          | nil => rfl
          | cons u us => simp at hlen
        subst hnil
        simp [State.Deserialize, State.call]
    exact ⟨ht, by rw [ht]; simp⟩
  · intro h
    have ht : (lam.Resources st).2.tasks =
        st.tasks ++ functions.map
          (fun function =>
            readTask lam.reader
              { Ty := "aws_lambda_function", ID := function.FunctionName,
                Attributes := [("function_name", function.FunctionName)] }) := by
      unfold LambdaFunctionSupplier.Resources
      simp only [h, ne_eq, not_true_eq_false, if_false]
      by_cases hlen : functions.length > 0
      · simp only [hlen, if_true]
        rw [wait_deserialize_tasks]
        simp only [State.foldl_Run, State.call]
        rfl
      · have hnil : functions = [] := by
          cases functions with
          | nil => rfl
          | cons u us => simp at hlen
        subst hnil
        simp [State.Deserialize, State.call]
    exact ⟨ht, by rw [ht]; simp⟩

theorem Resources_fan_out_witness :
    (threeUsers.Resources State.fresh).2.tasks =
      State.fresh.tasks ++
        [({ UserName := "test-driftctl-0" } : User), { UserName := "test-driftctl-1" },
          { UserName := "test-driftctl-2" }].map
          (fun user =>
            readTask threeUsers.reader { Ty := "aws_iam_user", ID := user.UserName, Attributes := [] }) ∧
    (threeUsers.Resources State.fresh).2.tasks.length = State.fresh.tasks.length + 3 ∧
    (threeUsers.Resources State.fresh).1 =
      (some [Resource.other "aws_iam_user" "test-driftctl-0",
        Resource.other "aws_iam_user" "test-driftctl-1",
        Resource.other "aws_iam_user" "test-driftctl-2"], none) :=
  ⟨((Resources_fan_out ⟨echoReader, echoDeserializer, ⟨Pager.ofPages []⟩, NewParallelResourceReader⟩
      threeUsers ⟨echoReader, echoDeserializer, ⟨Pager.ofPages []⟩, NewParallelResourceReader⟩
      State.fresh
      [{ UserName := "test-driftctl-0" }, { UserName := "test-driftctl-1" },
        { UserName := "test-driftctl-2" }] []).2.1 (by decide)).1,
    ((Resources_fan_out ⟨echoReader, echoDeserializer, ⟨Pager.ofPages []⟩, NewParallelResourceReader⟩
      threeUsers ⟨echoReader, echoDeserializer, ⟨Pager.ofPages []⟩, NewParallelResourceReader⟩
      State.fresh
      [{ UserName := "test-driftctl-0" }, { UserName := "test-driftctl-1" },
        { UserName := "test-driftctl-2" }] []).2.1 (by decide)).2,
    by decide⟩


/-! ### Deserialization -/

theorem Supplier.finish_of_not_notification (s : Supplier)
    (hs : ∀ n, s ≠ Supplier.s3BucketNotification n) (r : Result) : s.finish r = r := by
  cases s with
  | s3BucketNotification n => exact absurd rfl (hs n)
  | _ => rfl

theorem Finished.deserialized_result {s : Supplier} {evs : List Event} {res : Result}
    (hfin : Finished s evs res) {values : List CtyValue} (hm : Event.wait values none ∈ evs) :
    res = s.finish (s.deserializer.Deserialize values) ∧
      Event.deserialize values (s.deserializer.Deserialize values) ∈ evs := by
  cases hfin with
  | denied pre c2 e2 ho hd2 hp =>
    rcases List.mem_append.mp hm with hm | hm
    · exact absurd hm (ho.no_wait _ _)
    · simp at hm
  | failed pre c2 e2 ho hne2 hd2 =>
    rcases List.mem_append.mp hm with hm | hm
    · exact absurd hm (ho.no_wait _ _)
    · simp at hm
  | waitFailed pre values2 e2 ho hne2 =>
    rcases List.mem_append.mp hm with hm | hm
    · exact absurd hm (ho.no_wait _ _)
    · simp only [List.mem_singleton, Event.wait.injEq] at hm
      exact absurd hm.2.symm hne2
  | deserialized pre values2 r ho hr =>
    rcases List.mem_append.mp hm with hm | hm
    · exact absurd hm (ho.no_wait _ _)
    · simp only [List.mem_cons, Event.wait.injEq, and_true, List.mem_singleton, reduceCtorEq,
        or_false, List.not_mem_nil] at hm
      subst hm
      subst hr
      exact ⟨rfl, by simp⟩
  | empty pre r ho hr =>
    rcases List.mem_append.mp hm with hm | hm
    · exact absurd hm (ho.no_wait _ _)
    · simp at hm

/-! ### Nothing to list -/

theorem listLambdaFunctions_snd (client : LambdaAPI) :
    (listLambdaFunctions client).2 = client.ListFunctionsPages.err := by
  unfold listLambdaFunctions Pager.Pages
  by_cases h : client.ListFunctionsPages.err = none <;> simp [h]

/-- C16: for each of the ten suppliers, when the top-level listing succeeds with
zero items, the runner has no submitted task and answers `Wait()` with no value and
no error, and the deserializer answers the empty list with an empty list and no
error, `Resources()` returns an empty list and a nil error whatever the fuel, and
leaves sink and runner as they were; a sink without entry stays without entry. -/
theorem Supplier.Resources_nothing_listed (s : Supplier) (fuel : Nat) (st : State)
    (out : Option (List Resource))
    (hlist : s.listError = none) (hzero : s.listed = 0) (htasks : st.tasks = [])
    (hwait : s.runner.Wait [] = ([], none))
    (hdes : s.deserializer.Deserialize [] = (out, none)) (hout : out.getD [] = []) :
    ∃ (res : Option (List Resource)) (st2 : State),
      s.Resources fuel st = some ((res, none), st2) ∧
      res.getD [] = [] ∧
      st2.alerter = st.alerter ∧
      st2.tasks = [] ∧
      ((∀ key, st.alerter.Retrieve key = []) → ∀ key, st2.alerter.Retrieve key = []) := by
  have key : ∃ (res : Option (List Resource)) (st2 : State),
      s.Resources fuel st = some ((res, none), st2) ∧ res.getD [] = [] ∧
      st2.alerter = st.alerter ∧ st2.tasks = [] := by
    cases s with
    | dbSubnetGroup s =>
      simp only [Supplier.listError, Supplier.listed, List.length_eq_zero, Supplier.runner,
        Supplier.deserializer] at hlist hzero hwait hdes
      refine ⟨out, ?_⟩
      apply Exists.intro
      refine ⟨?_, hout, ?_, ?_⟩
      simp only [Supplier.Resources, DBSubnetGroupSupplier.Resources, Pager.Pages, hlist, ne_eq,
        not_true_eq_false, if_false, Pager.deliver_append, hzero, List.nil_append,
        List.foldl_nil, State.Wait, State.call, htasks, hwait, State.Deserialize, hdes]
      rfl
      rfl
      rfl
    | iamUser s =>
      simp only [Supplier.listError, Supplier.listed, List.length_eq_zero, Supplier.runner,
        Supplier.deserializer] at hlist hzero hwait hdes
      have hl : listIamUsers s.client = ([], none) := by
        rw [← hzero, ← hlist, ← listIamUsers_snd]
      refine ⟨out, ?_⟩
      apply Exists.intro
      refine ⟨?_, hout, ?_, ?_⟩
      simp only [Supplier.Resources, IamUserSupplier.Resources, hl, ne_eq,
        not_true_eq_false, if_false, List.length_nil, gt_iff_lt, lt_self_iff_false,
        State.call, htasks, State.Deserialize, hdes]
      rfl
      rfl
      rfl
    | iamUserPolicy s =>
      simp only [Supplier.listError, Supplier.listed, List.length_eq_zero, Supplier.runner,
        Supplier.deserializer] at hlist hzero hwait hdes
      have hl : listIamUsers s.client = ([], none) := by
        rw [← hzero, ← hlist, ← listIamUsers_snd]
      refine ⟨out, ?_⟩
      apply Exists.intro
      refine ⟨?_, hout, ?_, ?_⟩
      simp only [Supplier.Resources, IamUserPolicySupplier.Resources, hl, ne_eq,
        not_true_eq_false, if_false, List.length_nil, gt_iff_lt, lt_self_iff_false,
        State.call, htasks, State.Deserialize, hdes]
      rfl
      rfl
      rfl
    | iamUserPolicyAttachment s =>
      simp only [Supplier.listError, Supplier.listed, List.length_eq_zero, Supplier.runner,
        Supplier.deserializer] at hlist hzero hwait hdes
      have hl : listIamUsers s.client = ([], none) := by
        rw [← hzero, ← hlist, ← listIamUsers_snd]
      refine ⟨out, ?_⟩
      apply Exists.intro
      refine ⟨?_, hout, ?_, ?_⟩
      simp only [Supplier.Resources, IamUserPolicyAttachmentSupplier.Resources, hl, ne_eq,
        not_true_eq_false, if_false, List.length_nil, gt_iff_lt, lt_self_iff_false,
        State.call, htasks, State.Deserialize, hdes]
      rfl
      rfl
      rfl
    | lambdaFunction s =>
      simp only [Supplier.listError, Supplier.listed, List.length_eq_zero, Supplier.runner,
        Supplier.deserializer] at hlist hzero hwait hdes
      have hl : listLambdaFunctions s.client = ([], none) := by
        rw [← hzero, ← hlist, ← listLambdaFunctions_snd]
      refine ⟨out, ?_⟩
      apply Exists.intro
      refine ⟨?_, hout, ?_, ?_⟩
      simp only [Supplier.Resources, LambdaFunctionSupplier.Resources, hl, ne_eq,
        not_true_eq_false, if_false, List.length_nil, gt_iff_lt, lt_self_iff_false,
        State.call, htasks, State.Deserialize, hdes]
      rfl
      rfl
      rfl
    | route53Record s =>
      simp only [Supplier.listError, Supplier.listed, List.length_eq_zero, Supplier.runner,
        Supplier.deserializer] at hlist hzero hwait hdes
      have hl : s.listZones = ([], none) := by
        unfold Route53RecordSupplier.listZones
        simp [hlist, hzero]
      refine ⟨out, ?_⟩
      apply Exists.intro
      refine ⟨?_, hout, ?_, ?_⟩
      simp only [Supplier.Resources, Route53RecordSupplier.Resources, hl, ne_eq,
        not_true_eq_false, if_false, Route53RecordSupplier.listRecords,
        State.Wait, State.call, htasks, hwait, State.Deserialize, hdes]
      rfl
      rfl
      rfl
    | s3BucketAnalytic s =>
      simp only [Supplier.listError, Supplier.listed, List.length_eq_zero, Supplier.runner,
        Supplier.deserializer] at hlist hzero hwait hdes
      have hl : s.factory.ListBuckets = ([], none) := by
        rw [← hzero, ← hlist]
      refine ⟨out, ?_⟩
      apply Exists.intro
      refine ⟨?_, hout, ?_, ?_⟩
      simp only [Supplier.Resources, S3BucketAnalyticSupplier.Resources,
        S3BucketConfigSupplier.Resources, hl, ne_eq,
        not_true_eq_false, if_false, S3BucketConfigSupplier.visitBuckets,
        State.Wait, State.call, htasks, hwait, State.Deserialize, hdes]
      rfl
      rfl
      rfl
    | s3BucketInventory s =>
      simp only [Supplier.listError, Supplier.listed, List.length_eq_zero, Supplier.runner,
        Supplier.deserializer] at hlist hzero hwait hdes
      have hl : s.factory.ListBuckets = ([], none) := by
        rw [← hzero, ← hlist]
      refine ⟨out, ?_⟩
      apply Exists.intro
      refine ⟨?_, hout, ?_, ?_⟩
      simp only [Supplier.Resources, S3BucketInventorySupplier.Resources,
        S3BucketConfigSupplier.Resources, hl, ne_eq,
        not_true_eq_false, if_false, S3BucketConfigSupplier.visitBuckets,
        State.Wait, State.call, htasks, hwait, State.Deserialize, hdes]
      rfl
      rfl
      rfl
    | s3BucketMetric s =>
      simp only [Supplier.listError, Supplier.listed, List.length_eq_zero, Supplier.runner,
        Supplier.deserializer] at hlist hzero hwait hdes
      have hl : s.factory.ListBuckets = ([], none) := by
        rw [← hzero, ← hlist]
      refine ⟨out, ?_⟩
      apply Exists.intro
      refine ⟨?_, hout, ?_, ?_⟩
      simp only [Supplier.Resources, S3BucketMetricSupplier.Resources,
        S3BucketConfigSupplier.Resources, hl, ne_eq,
        not_true_eq_false, if_false, S3BucketConfigSupplier.visitBuckets,
        State.Wait, State.call, htasks, hwait, State.Deserialize, hdes]
      rfl
      rfl
      rfl
    | s3BucketNotification s =>
      simp only [Supplier.listError, Supplier.listed, List.length_eq_zero, Supplier.runner,
        Supplier.deserializer] at hlist hzero hwait hdes
      have hl : s.factory.ListBuckets = ([], none) := by
        rw [← hzero, ← hlist]
      refine ⟨some [], ?_⟩
      apply Exists.intro
      refine ⟨?_, rfl, ?_, ?_⟩
      simp only [Supplier.Resources, S3BucketNotificationSupplier.Resources, hl, ne_eq,
        not_true_eq_false, if_false, S3BucketNotificationSupplier.visitBuckets,
        State.Wait, State.call, htasks, hwait, State.Deserialize, hdes, hout,
        S3BucketNotificationSupplier.keepConfigured, List.foldl_nil]
      rfl
      rfl
      rfl
  obtain ⟨res, st2, h1, h2, h3, h4⟩ := key
  exact ⟨res, st2, h1, h2, h3, h4, fun h k => by rw [h3]; exact h k⟩

theorem Supplier.Resources_nothing_listed_witness :
    ∃ (res : Option (List Resource)) (st2 : State),
      noFunctions.Resources 0 State.fresh = some ((res, none), st2) ∧
      res.getD [] = [] ∧
      st2.alerter = State.fresh.alerter ∧
      st2.tasks = [] ∧
      ((∀ key, State.fresh.alerter.Retrieve key = []) → ∀ key, st2.alerter.Retrieve key = []) :=
  Supplier.Resources_nothing_listed noFunctions 0 State.fresh (some []) rfl (by decide) rfl rfl rfl rfl

/-! ### Identifiers of the Route53 records -/

theorem listAwsRoute53Records_snd (client : Route53API) (zoneId : String) :
    (listAwsRoute53Records client zoneId).2 = (client.ListResourceRecordSetsPages zoneId).err := by
  unfold listAwsRoute53Records Pager.Pages
  by_cases h : (client.ListResourceRecordSetsPages zoneId).err = none <;> simp [h]

theorem Route53RecordSupplier.listZones_ok (s : Route53RecordSupplier) (zones : List HostedZone)
    (h : s.client.ListHostedZones = (zones, none)) :
    s.listZones =
      (zones.map (fun hostedZone => (strings.TrimPrefix hostedZone.Id "/hostedzone/", hostedZone.Name)),
        none) := by
  have hfold : ∀ (l : List HostedZone) (acc : List (String × String)),
      l.foldl (fun results hostedZone =>
        results ++ [(strings.TrimPrefix hostedZone.Id "/hostedzone/", hostedZone.Name)]) acc =
      acc ++ l.map (fun hostedZone => (strings.TrimPrefix hostedZone.Id "/hostedzone/", hostedZone.Name)) := by
    intro l
    induction l with
    | nil => simp
    | cons x xs ih => intro acc; simp [ih]
  simp [Route53RecordSupplier.listZones, h, hfold]

theorem Route53RecordSupplier.listRecords_tasks (s : Route53RecordSupplier)
    (zones : List (String × String)) (st : State)
    (h : ∀ zone ∈ zones, (s.client.ListResourceRecordSetsPages zone.1).err = none ∨
      isForbidden (s.client.ListResourceRecordSetsPages zone.1).err = true) :
    (s.listRecords zones st).1 = Flow.next () ∧
    (s.listRecords zones st).2.tasks =
      st.tasks ++ zones.flatMap (fun zone =>
        (listAwsRoute53Records s.client zone.1).1.map (fun raw =>
          readTask s.reader
            { Ty := AwsRoute53RecordResourceType,
              ID := Route53RecordSupplier.recordId s.toLowerCase zone.1 raw,
              Attributes := [] })) := by
  induction zones generalizing st with
  | nil => simp [Route53RecordSupplier.listRecords]
  | cons zone zones ih =>
    have hz := h zone (List.mem_cons_self _ _)
    have hrest : ∀ z ∈ zones, (s.client.ListResourceRecordSetsPages z.1).err = none ∨
        isForbidden (s.client.ListResourceRecordSetsPages z.1).err = true :=
      fun z hz => h z (List.mem_cons_of_mem _ hz)
    have hsnd := listAwsRoute53Records_snd s.client zone.1
    rcases hl : listAwsRoute53Records s.client zone.1 with ⟨records, err⟩
    rw [hl] at hsnd
    simp only at hsnd
    unfold Route53RecordSupplier.listRecords Route53RecordSupplier.listRecordsForZone
    simp only [hl]
    by_cases herr : err = none
    · subst herr
      simp only [ne_eq, not_true_eq_false, if_false]
      obtain ⟨h1, h2⟩ := ih
        (records.foldl (fun st raw => st.Run (fun _ => s.readRecord zone.1 raw))
          (st.call (RemoteCall.ListResourceRecordSetsPages zone.1) none)) hrest
      refine ⟨h1, ?_⟩
      rw [h2, State.foldl_Run]
      simp only [State.call, List.flatMap_cons, hl, List.append_assoc]
      rfl
    · have hf : isForbidden err = true := by
        rcases hz with hz | hz
        · exact absurd (hsnd.trans hz) herr
        · rw [hsnd]; exact hz
      have hrec : records = [] := by
        have := hl
        have hp : (s.client.ListResourceRecordSetsPages zone.1).err ≠ none := hsnd ▸ herr
        simp only [listAwsRoute53Records, Pager.Pages, ne_eq, hp, not_false_eq_true, if_true,
          Prod.mk.injEq] at this
        exact this.1.symm
      simp only [ne_eq, herr, not_false_eq_true, if_true, State.handle_forbidden_eq, hf,
        Bool.not_true, Bool.false_eq_true, if_false]
      obtain ⟨h1, h2⟩ := ih
        { st.call (RemoteCall.ListResourceRecordSetsPages zone.1) err with
          alerter := (st.call (RemoteCall.ListResourceRecordSetsPages zone.1) err).alerter.SendAlert
            AwsRoute53RecordResourceType (forbiddenAlert AwsRoute53RecordResourceType "") } hrest
      refine ⟨h1, ?_⟩
      rw [h2]
      simp [State.call, List.flatMap_cons, hl, hrec]

theorem strings.TrimPrefix_append (pre x : String) : strings.TrimPrefix (pre ++ x) pre = x := by
  unfold strings.TrimPrefix
  simp [String.data_append]

theorem strings.TrimSuffix_append (x suf : String) : strings.TrimSuffix (x ++ suf) suf = x := by
  unfold strings.TrimSuffix
  simp [String.data_append]

theorem unicode.ToLower_capital (toLowerCase : Char → Char) (r : Char)
    (h1 : 'A'.toNat ≤ r.toNat) (h2 : r.toNat ≤ 'Z'.toNat) :
    unicode.ToLower toLowerCase r = Char.ofNat (r.toNat + 32) ∧
      'a'.toNat ≤ (unicode.ToLower toLowerCase r).toNat ∧
      (unicode.ToLower toLowerCase r).toNat ≤ 'z'.toNat := by
  have hA : 'A'.toNat = 65 := by decide
  have hZ : 'Z'.toNat = 90 := by decide
  have ha : 'a'.toNat = 97 := by decide
  have hz : 'z'.toNat = 122 := by decide
  rw [hA] at h1
  rw [hZ] at h2
  have hr : unicode.ToLower toLowerCase r = Char.ofNat (r.toNat + 32) := by
    unfold unicode.ToLower
    rw [if_pos (by omega), if_pos (by rw [hA, hZ]; exact ⟨h1, h2⟩), hA, ha]
  have hofNat : ∀ n : Nat, n < 0xd800 → (Char.ofNat n).toNat = n := by
    intro n hn
    have hvalid : n.isValidChar := Or.inl hn
    simp only [Char.ofNat, hvalid, Char.toNat, Char.ofNatAux, Char.val, dif_pos]
    rfl
  have hv : (Char.ofNat (r.toNat + 32)).toNat = r.toNat + 32 := hofNat _ (by omega)
  rw [hr, hv, ha, hz]
  exact ⟨rfl, by omega, by omega⟩

/-- C17: identifiers and fan-out of `Route53RecordSupplier`. The ID of the read of
a record is `zoneId_name_type`, followed by `_setIdentifier` exactly when the
record has a `SetIdentifier`, where `name` is `ToLower(TrimSuffix(Name, "."))` and
the type is unchanged. `ToLower` keeps the length and the order of the runes and
maps each rune by `unicode.ToLower`: an ASCII capital letter goes to the small
letter 32 code points further (`A` to `a`, `Z` to `z`), every other ASCII rune
(small letters, digits, `.`, `-`, `_`) stays, and a rune beyond ASCII goes through
the lower-case lookup of the Go library. `TrimSuffix` removes one trailing `.` and
leaves a name without it alone; the zone id handed to the record listing is the
hosted zone `Id` without its leading `/hostedzone/`. When the zone listing succeeds
and every record listing succeeds or is denied with 403, the tasks submitted by
`Resources()` are, zone after zone and in listing order, one task per listed
record, reading `aws_route53_record` with that ID and no attribute. -/
theorem Route53RecordSupplier.Resources_record_identifiers (s : Route53RecordSupplier) (st : State)
    (zones : List HostedZone) :
    (∀ (zoneId : String) (raw : ResourceRecordSet),
      Route53RecordSupplier.recordId s.toLowerCase zoneId raw =
        match raw.SetIdentifier with
        | none =>
          zoneId ++ "_" ++ strings.ToLower s.toLowerCase (strings.TrimSuffix raw.Name ".") ++ "_" ++
            raw.Type_
        | some setIdentifier =>
          zoneId ++ "_" ++ strings.ToLower s.toLowerCase (strings.TrimSuffix raw.Name ".") ++ "_" ++
            raw.Type_ ++ "_" ++ setIdentifier) ∧
    ((∀ x : String,
        (strings.ToLower s.toLowerCase x).data = x.data.map (unicode.ToLower s.toLowerCase)) ∧
      (∀ r : Char, 'A'.toNat ≤ r.toNat → r.toNat ≤ 'Z'.toNat →
        unicode.ToLower s.toLowerCase r = Char.ofNat (r.toNat + 32) ∧
        'a'.toNat ≤ (unicode.ToLower s.toLowerCase r).toNat ∧
        (unicode.ToLower s.toLowerCase r).toNat ≤ 'z'.toNat) ∧
      unicode.ToLower s.toLowerCase 'A' = 'a' ∧ unicode.ToLower s.toLowerCase 'Z' = 'z' ∧
      (∀ r : Char, r.toNat ≤ 0x7F → ¬ ('A'.toNat ≤ r.toNat ∧ r.toNat ≤ 'Z'.toNat) →
        unicode.ToLower s.toLowerCase r = r) ∧
      (∀ r : Char, 0x7F < r.toNat → unicode.ToLower s.toLowerCase r = s.toLowerCase r)) ∧
    (∀ x : String, strings.TrimPrefix ("/hostedzone/" ++ x) "/hostedzone/" = x) ∧
    (∀ x : String, ¬ "/hostedzone/".data <+: x.data → strings.TrimPrefix x "/hostedzone/" = x) ∧
    (∀ x : String, strings.TrimSuffix (x ++ ".") "." = x) ∧
    (∀ x : String, ¬ ".".data <:+ x.data → strings.TrimSuffix x "." = x) ∧
    (s.client.ListHostedZones = (zones, none) →
      (∀ hostedZone ∈ zones,
        (s.client.ListResourceRecordSetsPages
          (strings.TrimPrefix hostedZone.Id "/hostedzone/")).err = none ∨
        isForbidden (s.client.ListResourceRecordSetsPages
          (strings.TrimPrefix hostedZone.Id "/hostedzone/")).err = true) →
      (s.Resources st).2.tasks =
        st.tasks ++ zones.flatMap (fun hostedZone =>
          (listAwsRoute53Records s.client (strings.TrimPrefix hostedZone.Id "/hostedzone/")).1.map
            (fun raw =>
              readTask s.reader
                { Ty := "aws_route53_record",
                  ID := Route53RecordSupplier.recordId s.toLowerCase
                    (strings.TrimPrefix hostedZone.Id "/hostedzone/") raw,
                  Attributes := [] }))) := by
  refine ⟨?_, ⟨?_, ?_, ?_, ?_, ?_, ?_⟩, ?_, ?_, ?_, ?_, ?_⟩
  · intro zoneId raw
    rcases h : raw.SetIdentifier with _ | setIdentifier <;>
      simp [Route53RecordSupplier.recordId, h, strings.Join, String.intercalate,
        String.intercalate.go]
  · intro x
    rfl
  · intro r h1 h2
    exact unicode.ToLower_capital s.toLowerCase r h1 h2
  · exact (unicode.ToLower_capital s.toLowerCase 'A' (by decide) (by decide)).1.trans (by decide)
  · exact (unicode.ToLower_capital s.toLowerCase 'Z' (by decide) (by decide)).1.trans (by decide)
  · intro r h1 h2
    unfold unicode.ToLower
    rw [if_pos h1, if_neg h2]
  · intro r h1
    unfold unicode.ToLower
    rw [if_neg (by omega)]
  · intro x
    exact strings.TrimPrefix_append _ _
  · intro x hx
    unfold strings.TrimPrefix
    rw [if_neg]
    simpa using hx
  · intro x
    exact strings.TrimSuffix_append _ _
  · intro x hx
    unfold strings.TrimSuffix
    rw [if_neg]
    simpa using hx
  · intro hz hrec
    have hzones := s.listZones_ok zones hz
    have hrec2 : ∀ zone ∈ zones.map
        (fun hostedZone => (strings.TrimPrefix hostedZone.Id "/hostedzone/", hostedZone.Name)),
        (s.client.ListResourceRecordSetsPages zone.1).err = none ∨
          isForbidden (s.client.ListResourceRecordSetsPages zone.1).err = true := by
      intro zone hzone
      obtain ⟨hostedZone, hmem, rfl⟩ := List.mem_map.1 hzone
      exact hrec hostedZone hmem
    obtain ⟨h1, h2⟩ := s.listRecords_tasks _ (st.call RemoteCall.ListHostedZones none) hrec2
    unfold Route53RecordSupplier.Resources
    simp only [hzones, ne_eq, not_true_eq_false, if_false]
    rcases hl : s.listRecords (zones.map
        (fun hostedZone => (strings.TrimPrefix hostedZone.Id "/hostedzone/", hostedZone.Name)))
        (st.call RemoteCall.ListHostedZones none) with ⟨flow, st1⟩
    rw [hl] at h1 h2
    simp only at h1 h2
    subst h1
    simp only [hl]
    have ht : (if ¬(st1.Wait s.runner).1.2 = none then
          ((none, (st1.Wait s.runner).1.2), (st1.Wait s.runner).2)
        else (st1.Wait s.runner).2.Deserialize s.deserializer (st1.Wait s.runner).1.1).2.tasks =
        st1.tasks := by
      by_cases hw : (s.runner.Wait st1.tasks).2 = none <;> simp [hw, State.Wait, State.Deserialize]
    rw [ht, h2]
    simp only [State.call, List.flatMap_map]
    rfl

theorem Route53RecordSupplier.Resources_record_identifiers_witness :
    (weightedRecords.Resources State.fresh).2.tasks =
      State.fresh.tasks ++
        [({ Id := "/hostedzone/Z0806", Name := "example.com." } : HostedZone)].flatMap
          (fun hostedZone =>
            (listAwsRoute53Records weightedRecords.client
              (strings.TrimPrefix hostedZone.Id "/hostedzone/")).1.map
              (fun raw =>
                readTask weightedRecords.reader
                  { Ty := "aws_route53_record",
                    ID := Route53RecordSupplier.recordId weightedRecords.toLowerCase
                      (strings.TrimPrefix hostedZone.Id "/hostedzone/") raw,
                    Attributes := [] })) ∧
    (weightedRecords.Resources State.fresh).1 =
      (some [Resource.other "aws_route53_record" "Z0806_foo-0.example.com_TXT",
        Resource.other "aws_route53_record" "Z0806_www.example.com_A_live"], none) ∧
    Route53RecordSupplier.recordId weightedRecords.toLowerCase "Z1"
        { Name := "ÉCOLE.Example.COM.", Type_ := "A", SetIdentifier := none } =
      "Z1_école.example.com_A" :=
  ⟨(Route53RecordSupplier.Resources_record_identifiers weightedRecords State.fresh
      [{ Id := "/hostedzone/Z0806", Name := "example.com." }]).2.2.2.2.2.2 rfl (by decide),
    by decide, by decide⟩

/-! ### Reads of the user policies -/

theorem IamUserPolicySupplier.foldl_policies (userName : String) (policyList policies : List String) :
    policyList.foldl (fun policies polName => policies ++ [userName ++ ":" ++ polName]) policies =
      policies ++ policyList.map (fun polName => userName ++ ":" ++ polName) := by
  induction policyList generalizing policies with
  | nil => simp
  | cons x xs ih => simp [ih]

theorem IamUserPolicySupplier.listPolicies_ok (s : IamUserPolicySupplier) (users : List User)
    (policies : List String) (st : State)
    (h : ∀ user ∈ users, (s.client.ListUserPoliciesPages user.UserName).err = none) :
    (s.listPolicies users policies st).1 =
      Flow.next (policies ++ users.flatMap (fun user =>
        (listIamUserPolicies user.UserName s.client).1.map
          (fun polName => user.UserName ++ ":" ++ polName))) ∧
    (s.listPolicies users policies st).2.tasks = st.tasks := by
  induction users generalizing policies st with
  | nil => simp [IamUserPolicySupplier.listPolicies]
  | cons user users ih =>
    have hu := h user (List.mem_cons_self _ _)
    have hrest : ∀ u ∈ users, (s.client.ListUserPoliciesPages u.UserName).err = none :=
      fun u hu => h u (List.mem_cons_of_mem _ hu)
    have hsnd := listIamUserPolicies_snd user.UserName s.client
    rcases hl : listIamUserPolicies user.UserName s.client with ⟨policyList, err⟩
    rw [hl, hu] at hsnd
    simp only at hsnd
    subst hsnd
    unfold IamUserPolicySupplier.listPolicies
    simp only [hl, ne_eq, not_true_eq_false, if_false]
    obtain ⟨h1, h2⟩ := ih
      (policyList.foldl (fun policies polName => policies ++ [user.UserName ++ ":" ++ polName]) policies)
      (st.call (RemoteCall.ListUserPoliciesPages user.UserName) none) hrest
    refine ⟨?_, ?_⟩
    · rw [h1, IamUserPolicySupplier.foldl_policies]
      simp [List.flatMap_cons, hl]
    · rw [h2]
      rfl

/-- C18: fan-out of `IamUserPolicySupplier`. When listing the users succeeds with
`users` and every per-user policy listing succeeds, the read tasks submitted by
`Resources()` are exactly one per (user, policy name) pair, user after user and,
within a user, in the order of the policy listing, each reading
`aws_iam_user_policy` with ID `userName:policyName` and no attribute; their number
is the sum over the users of the number of policies listed for that user; two
users with different names give different reads for the same policy name. -/
theorem IamUserPolicySupplier.Resources_policy_reads (s : IamUserPolicySupplier) (st : State)
    (users : List User)
    (husers : listIamUsers s.client = (users, none))
    (hpolicies : ∀ user ∈ users, (s.client.ListUserPoliciesPages user.UserName).err = none) :
    (s.Resources st).2.tasks =
      st.tasks ++ users.flatMap (fun user =>
        (listIamUserPolicies user.UserName s.client).1.map (fun polName =>
          readTask s.reader
            { Ty := "aws_iam_user_policy", ID := user.UserName ++ ":" ++ polName, Attributes := [] })) ∧
    (s.Resources st).2.tasks.length =
      st.tasks.length +
        (users.map (fun user => (listIamUserPolicies user.UserName s.client).1.length)).sum ∧
    (∀ (user1 user2 : User) (polName : String), user1.UserName ≠ user2.UserName →
      ({ Ty := "aws_iam_user_policy", ID := user1.UserName ++ ":" ++ polName, Attributes := [] } :
        ReadResourceArgs) ≠
      { Ty := "aws_iam_user_policy", ID := user2.UserName ++ ":" ++ polName, Attributes := [] }) := by
  have ht : (s.Resources st).2.tasks =
      st.tasks ++ users.flatMap (fun user =>
        (listIamUserPolicies user.UserName s.client).1.map (fun polName =>
          readTask s.reader
            { Ty := "aws_iam_user_policy", ID := user.UserName ++ ":" ++ polName, Attributes := [] })) := by
    unfold IamUserPolicySupplier.Resources
    simp only [husers, ne_eq, not_true_eq_false, if_false]
    by_cases hlen : users.length > 0
    · simp only [hlen, if_true]
      obtain ⟨h1, h2⟩ := s.listPolicies_ok users [] (st.call RemoteCall.ListUsersPages none) hpolicies
      rcases hl : s.listPolicies users [] (st.call RemoteCall.ListUsersPages none) with ⟨flow, st1⟩
      rw [hl] at h1 h2
      simp only [List.nil_append] at h1 h2
      subst h1
      simp only [hl]
      have hw : ∀ st2 : State, (if ¬(st2.Wait s.runner).1.2 = none then
            ((none, (st2.Wait s.runner).1.2), (st2.Wait s.runner).2)
          else (st2.Wait s.runner).2.Deserialize s.deserializer (st2.Wait s.runner).1.1).2.tasks =
          st2.tasks := by
        intro st2
        by_cases hw : (s.runner.Wait st2.tasks).2 = none <;>
          simp [hw, State.Wait, State.Deserialize]
      rw [hw, State.foldl_Run]
      simp only [h2, State.call, List.map_flatMap, List.map_map]
      rfl
    · have hnil : users = [] := by
        cases users with
        | nil => rfl
        | cons u us => simp at hlen
      subst hnil
      simp [State.Deserialize, State.call]
  refine ⟨ht, ?_, ?_⟩
  · rw [ht, List.length_append, List.length_flatMap]
    simp [Function.comp_def]
  · intro user1 user2 polName hne heq
    apply hne
    have h := congrArg String.data (congrArg ReadResourceArgs.ID heq)
    simp only [String.data_append] at h
    have h2 := List.append_cancel_right h
    have h3 := List.append_cancel_right h2
    exact String.ext h3

theorem IamUserPolicySupplier.Resources_policy_reads_witness :
    (threeUsersFourPolicies.Resources State.fresh).2.tasks.length = 12 ∧
    (threeUsersFourPolicies.Resources State.fresh).1 =
      (some [Resource.other "aws_iam_user_policy" "loadbalancer:test",
        Resource.other "aws_iam_user_policy" "loadbalancer:test2",
        Resource.other "aws_iam_user_policy" "loadbalancer:test3",
        Resource.other "aws_iam_user_policy" "loadbalancer:test4",
        Resource.other "aws_iam_user_policy" "loadbalancer2:test2",
        Resource.other "aws_iam_user_policy" "loadbalancer2:test22",
        Resource.other "aws_iam_user_policy" "loadbalancer2:test23",
        Resource.other "aws_iam_user_policy" "loadbalancer2:test24",
        Resource.other "aws_iam_user_policy" "loadbalancer3:test3",
        Resource.other "aws_iam_user_policy" "loadbalancer3:test32",
        Resource.other "aws_iam_user_policy" "loadbalancer3:test33",
        Resource.other "aws_iam_user_policy" "loadbalancer3:test34"], none) :=
  ⟨(IamUserPolicySupplier.Resources_policy_reads threeUsersFourPolicies State.fresh
      [{ UserName := "loadbalancer" }, { UserName := "loadbalancer2" },
        { UserName := "loadbalancer3" }] (by decide) (by decide)).2.1,
    by decide⟩

/-! ### Reads of the attached user policies -/

theorem listIamUserPoliciesAttachment_snd (username : String) (client : IAMAPI) :
    (listIamUserPoliciesAttachment username client).2 =
      (client.ListAttachedUserPoliciesPages username).err := by
  unfold listIamUserPoliciesAttachment Pager.Pages
  by_cases h : (client.ListAttachedUserPoliciesPages username).err = none <;> simp [h]

theorem listIamUserPoliciesAttachment_failed (username : String) (client : IAMAPI)
    (h : (client.ListAttachedUserPoliciesPages username).err ≠ none) :
    (listIamUserPoliciesAttachment username client).1 = [] := by
  simp [listIamUserPoliciesAttachment, Pager.Pages, h]

theorem listIamUserPoliciesAttachment_username (username : String) (client : IAMAPI)
    (attached : attachedUserPolicy)
    (h : attached ∈ (listIamUserPoliciesAttachment username client).1) :
    attached.Username = username := by
  by_cases herr : (client.ListAttachedUserPoliciesPages username).err = none
  · rw [listIamUserPoliciesAttachment_ok username client herr] at h
    obtain ⟨policy, _, rfl⟩ := List.mem_map.1 h
    rfl
  · rw [listIamUserPoliciesAttachment_failed username client herr] at h
    simp at h

theorem IamUserPolicyAttachmentSupplier.listAttachments_ok (s : IamUserPolicyAttachmentSupplier)
    (users : List User) (attachedPolicies : List attachedUserPolicy) (st : State)
    (h : ∀ user ∈ users, (s.client.ListAttachedUserPoliciesPages user.UserName).err = none ∨
      isForbidden (s.client.ListAttachedUserPoliciesPages user.UserName).err = true) :
    (s.listAttachments users attachedPolicies st).1 =
      Flow.next (attachedPolicies ++ users.flatMap (fun user =>
        (listIamUserPoliciesAttachment user.UserName s.client).1)) ∧
    (s.listAttachments users attachedPolicies st).2.tasks = st.tasks := by
  induction users generalizing attachedPolicies st with
  | nil => simp [IamUserPolicyAttachmentSupplier.listAttachments]
  | cons user users ih =>
    have hu := h user (List.mem_cons_self _ _)
    have hrest : ∀ u ∈ users, (s.client.ListAttachedUserPoliciesPages u.UserName).err = none ∨
        isForbidden (s.client.ListAttachedUserPoliciesPages u.UserName).err = true :=
      fun u hu => h u (List.mem_cons_of_mem _ hu)
    have hsnd := listIamUserPoliciesAttachment_snd user.UserName s.client
    rcases hl : listIamUserPoliciesAttachment user.UserName s.client with ⟨policyAttachmentList, err⟩
    rw [hl] at hsnd
    simp only at hsnd
    unfold IamUserPolicyAttachmentSupplier.listAttachments
    simp only [hl]
    by_cases herr : err = none
    · subst herr
      simp only [ne_eq, not_true_eq_false, if_false]
      obtain ⟨h1, h2⟩ := ih (attachedPolicies ++ policyAttachmentList)
        (st.call (RemoteCall.ListAttachedUserPoliciesPages user.UserName) none) hrest
      refine ⟨?_, ?_⟩
      · rw [h1]
        simp [List.flatMap_cons, hl]
      · rw [h2]
        rfl
    · have hf : isForbidden err = true := by
        rcases hu with hu | hu
        · exact absurd (hsnd.trans hu) herr
        · rw [hsnd]; exact hu
      simp only [ne_eq, herr, not_false_eq_true, if_true, State.handle_forbidden_eq, hf,
        Bool.not_true, Bool.false_eq_true, if_false]
      obtain ⟨h1, h2⟩ := ih (attachedPolicies ++ policyAttachmentList)
        { st.call (RemoteCall.ListAttachedUserPoliciesPages user.UserName) err with
          alerter := (st.call (RemoteCall.ListAttachedUserPoliciesPages user.UserName) err).alerter.SendAlert
            AwsIamUserPolicyAttachmentResourceType
            (forbiddenAlert AwsIamUserPolicyAttachmentResourceType "") } hrest
      refine ⟨?_, ?_⟩
      · rw [h1]
        simp [List.flatMap_cons, hl]
      · rw [h2]
        rfl

/-- C19: reads of `IamUserPolicyAttachmentSupplier`. When listing the users
succeeds with `users` and every per-user listing of the attached policies succeeds
or is denied with 403, the read tasks submitted by `Resources()` are exactly one per
attached policy listed for a user, user after user and in listing order, each
calling `ReadResource` with type `aws_iam_user_policy_attachment`, ID the
`PolicyName` of the policy, and the attributes `user` = the name of the user the
policy was listed for and `policy_arn` = its `PolicyArn`; the entries of a listing
carry the name of the user it was made for; and the same policy under two users
with different names gives reads that differ in the `user` attribute. -/
theorem IamUserPolicyAttachmentSupplier.Resources_attachment_reads
    (s : IamUserPolicyAttachmentSupplier) (st : State) (users : List User)
    (husers : listIamUsers s.client = (users, none))
    (hattached : ∀ user ∈ users,
      (s.client.ListAttachedUserPoliciesPages user.UserName).err = none ∨
      isForbidden (s.client.ListAttachedUserPoliciesPages user.UserName).err = true) :
    (s.Resources st).2.tasks =
      st.tasks ++ users.flatMap (fun user =>
        (listIamUserPoliciesAttachment user.UserName s.client).1.map (fun attached =>
          readTask s.reader
            { Ty := "aws_iam_user_policy_attachment",
              ID := attached.PolicyName,
              Attributes := [("user", user.UserName), ("policy_arn", attached.PolicyArn)] })) ∧
    (∀ (username : String) (attached : attachedUserPolicy),
      attached ∈ (listIamUserPoliciesAttachment username s.client).1 →
        attached.Username = username) ∧
    (∀ (user1 user2 : User) (policy : AttachedPolicy), user1.UserName ≠ user2.UserName →
      ({ Ty := "aws_iam_user_policy_attachment", ID := policy.PolicyName,
         Attributes := [("user", user1.UserName), ("policy_arn", policy.PolicyArn)] } :
        ReadResourceArgs) ≠
      { Ty := "aws_iam_user_policy_attachment", ID := policy.PolicyName,
        Attributes := [("user", user2.UserName), ("policy_arn", policy.PolicyArn)] }) := by
  refine ⟨?_, fun username attached h =>
    listIamUserPoliciesAttachment_username username s.client attached h, ?_⟩
  · have hcongr : users.flatMap (fun user =>
          (listIamUserPoliciesAttachment user.UserName s.client).1.map (fun attached =>
            readTask s.reader
              { Ty := "aws_iam_user_policy_attachment",
                ID := attached.PolicyName,
                Attributes := [("user", user.UserName), ("policy_arn", attached.PolicyArn)] })) =
        (users.flatMap (fun user => (listIamUserPoliciesAttachment user.UserName s.client).1)).map
          (fun attached => fun _ => s.readRes attached) := by
      rw [List.map_flatMap]
      congr 1
      funext user
      apply List.map_congr_left
      intro attached hmem
      have hname := listIamUserPoliciesAttachment_username user.UserName s.client attached hmem
      funext u
      simp only [readTask, IamUserPolicyAttachmentSupplier.readRes, hname]
      rfl
    rw [hcongr]
    unfold IamUserPolicyAttachmentSupplier.Resources
    simp only [husers, ne_eq, not_true_eq_false, if_false]
    by_cases hlen : users.length > 0
    · simp only [hlen, if_true]
      obtain ⟨h1, h2⟩ := s.listAttachments_ok users [] (st.call RemoteCall.ListUsersPages none) hattached
      rcases hl : s.listAttachments users [] (st.call RemoteCall.ListUsersPages none) with ⟨flow, st1⟩
      rw [hl] at h1 h2
      simp only [List.nil_append] at h1 h2
      subst h1
      simp only [hl]
      have hw : ∀ st2 : State, (if ¬(st2.Wait s.runner).1.2 = none then
            ((none, (st2.Wait s.runner).1.2), (st2.Wait s.runner).2)
          else (st2.Wait s.runner).2.Deserialize s.deserializer (st2.Wait s.runner).1.1).2.tasks =
          st2.tasks := by
        intro st2
        by_cases hw : (s.runner.Wait st2.tasks).2 = none <;>
          simp [hw, State.Wait, State.Deserialize]
      rw [hw, State.foldl_Run]
      simp only [h2, State.call]
    · have hnil : users = [] := by
        cases users with
        | nil => rfl
        | cons u us => simp at hlen
      subst hnil
      simp [State.Deserialize, State.call]
  · intro user1 user2 policy hne heq
    apply hne
    have h := congrArg ReadResourceArgs.Attributes heq
    simp only [List.cons.injEq, Prod.mk.injEq, true_and, and_true] at h
    exact h

theorem IamUserPolicyAttachmentSupplier.Resources_attachment_reads_witness :
    (sharedAttachment.Resources State.fresh).2.tasks =
      State.fresh.tasks ++
        [({ UserName := "alice" } : User), { UserName := "bob" }].flatMap (fun user =>
          (listIamUserPoliciesAttachment user.UserName sharedAttachment.client).1.map (fun attached =>
            readTask sharedAttachment.reader
              { Ty := "aws_iam_user_policy_attachment",
                ID := attached.PolicyName,
                Attributes := [("user", user.UserName), ("policy_arn", attached.PolicyArn)] })) ∧
    (sharedAttachment.Resources State.fresh).2.tasks.map (fun task => task ()) =
      [(CtyValue.object [("type", "aws_iam_user_policy_attachment"), ("id", "ReadOnly"),
          ("user", "alice"), ("policy_arn", "arn:aws:iam::aws:policy/ReadOnly")], none),
        (CtyValue.object [("type", "aws_iam_user_policy_attachment"), ("id", "ReadOnly"),
          ("user", "bob"), ("policy_arn", "arn:aws:iam::aws:policy/ReadOnly")], none)] :=
  ⟨(IamUserPolicyAttachmentSupplier.Resources_attachment_reads sharedAttachment State.fresh
      [{ UserName := "alice" }, { UserName := "bob" }] (by decide) (by decide)).1,
    by decide⟩

/-! ### Filter of the bucket notifications -/

theorem S3BucketNotificationSupplier.keepConfigured_eq_filter (deserializedValues : List Resource) :
    S3BucketNotificationSupplier.keepConfigured deserializedValues =
      deserializedValues.filter Resource.isConfiguredNotification := by
  have hfold : ∀ (l acc : List Resource),
      l.foldl
        (fun results val =>
          match val with
          | Resource.s3BucketNotification res =>
            if (res.LambdaFunction ≠ none ∧ (res.LambdaFunction.getD []).length > 0) ∨
                (res.Queue ≠ none ∧ (res.Queue.getD []).length > 0) ∨
                (res.Topic ≠ none ∧ (res.Topic.getD []).length > 0) then
              results ++ [Resource.s3BucketNotification res]
            else results
          | _ => results) acc =
        acc ++ l.filter Resource.isConfiguredNotification := by
    intro l
    induction l with
    | nil => simp
    | cons x xs ih =>
      intro acc
      rw [List.foldl_cons, ih]
      cases x with
      | other typ id => simp [Resource.isConfiguredNotification, List.filter_cons]
      | s3BucketNotification res =>
        by_cases hc : (res.LambdaFunction ≠ none ∧ (res.LambdaFunction.getD []).length > 0) ∨
            (res.Queue ≠ none ∧ (res.Queue.getD []).length > 0) ∨
            (res.Topic ≠ none ∧ (res.Topic.getD []).length > 0)
        · simp only [hc, if_true, List.filter_cons, Resource.isConfiguredNotification,
            decide_True, List.append_assoc, List.singleton_append]
        · simp only [hc, if_false, List.filter_cons, Resource.isConfiguredNotification,
            decide_False, Bool.false_eq_true]
  unfold S3BucketNotificationSupplier.keepConfigured
  rw [hfold]
  simp

theorem S3BucketNotificationSupplier.visitBuckets_done (s : S3BucketNotificationSupplier)
    (buckets : List Bucket) (st : State) (r : Result)
    (h : (s.visitBuckets buckets st).1 = Flow.done r) : r.2 ≠ none := by
  induction buckets generalizing st with
  | nil => simp [S3BucketNotificationSupplier.visitBuckets] at h
  | cons bucket buckets ih =>
    unfold S3BucketNotificationSupplier.visitBuckets at h
    rcases hr : s.factory.readBucketRegion bucket.Name with ⟨region, err⟩
    simp only [hr] at h
    by_cases herr : err = none
    · subst herr
      simp only [ne_eq, not_true_eq_false, if_false] at h
      by_cases hreg : region = ""
      · simp only [hreg, if_true] at h
        exact ih _ h
      · simp only [hreg, if_false] at h
        exact ih _ h
    · simp only [ne_eq, herr, not_false_eq_true, if_true, Flow.done.injEq] at h
      subst h
      exact herr

theorem S3BucketNotificationSupplier.Resources_result (s : S3BucketNotificationSupplier)
    (st : State) (herr : (s.Resources st).1.2 = none) :
    (s.Resources st).1.1 = some [] ∨
      ∃ (values : List CtyValue) (out : Option (List Resource)),
        s.deserializer.Deserialize values = (out, none) ∧
        (s.Resources st).1.1 = some ((out.getD []).filter Resource.isConfiguredNotification) := by
  unfold S3BucketNotificationSupplier.Resources at herr ⊢
  rcases hb : s.factory.ListBuckets with ⟨buckets, err⟩
  simp only [hb] at herr ⊢
  by_cases he : err = none
  · subst he
    simp only [ne_eq, not_true_eq_false, if_false] at herr ⊢
    have hdone := s.visitBuckets_done buckets (st.call RemoteCall.ListBuckets none)
    rcases hv : s.visitBuckets buckets (st.call RemoteCall.ListBuckets none) with ⟨flow, st1⟩
    rw [hv] at hdone
    simp only [hv] at herr ⊢
    cases flow with
    | done r =>
      simp only at herr
      exact absurd herr (hdone r rfl)
    | next u =>
      simp only at herr ⊢
      by_cases hw : (s.runner.Wait st1.tasks).2 = none
      · rcases hd : s.deserializer.Deserialize (s.runner.Wait st1.tasks).1 with ⟨out, derr⟩
        simp only [State.Wait, hw, ne_eq, not_true_eq_false, if_false, State.Deserialize, hd]
          at herr ⊢
        by_cases hde : derr = none
        · subst hde
          right
          refine ⟨_, out, hd, ?_⟩
          simp [S3BucketNotificationSupplier.keepConfigured_eq_filter]
        · simp [hde] at herr
      · simp [State.Wait, hw] at herr
  · simp only [ne_eq, he, not_false_eq_true, if_true, State.handleWithMessage_eq] at herr ⊢
    by_cases hf : isForbidden err = true
    · left
      simp [hf]
    · simp [hf] at herr
      exact absurd herr he

/-- C20: filter of `S3BucketNotificationSupplier.Resources()`. Whenever it returns a
nil error, every returned resource is an `AwsS3BucketNotification` with at least
one of `LambdaFunction`, `Queue`, `Topic` non-nil and non-empty; a notification
whose three lists are all nil or empty is not in the result; and the result is the
empty list or, for a list `out` the deserializer answered without error, the
entries of `out` that pass that test, in their order, wherever the others stand in
`out`. -/
theorem S3BucketNotificationSupplier.Resources_only_configured (s : S3BucketNotificationSupplier)
    (st : State) (herr : (s.Resources st).1.2 = none) :
    (∀ r ∈ (s.Resources st).1.1.getD [], ∃ res : AwsS3BucketNotification,
      r = Resource.s3BucketNotification res ∧
      ((res.LambdaFunction ≠ none ∧ (res.LambdaFunction.getD []).length > 0) ∨
        (res.Queue ≠ none ∧ (res.Queue.getD []).length > 0) ∨
        (res.Topic ≠ none ∧ (res.Topic.getD []).length > 0))) ∧
    (∀ res : AwsS3BucketNotification,
      (res.LambdaFunction = none ∨ res.LambdaFunction = some []) →
      (res.Queue = none ∨ res.Queue = some []) →
      (res.Topic = none ∨ res.Topic = some []) →
      Resource.s3BucketNotification res ∉ (s.Resources st).1.1.getD []) ∧
    ((s.Resources st).1.1 = some [] ∨
      ∃ (values : List CtyValue) (out : Option (List Resource)),
        s.deserializer.Deserialize values = (out, none) ∧
        (s.Resources st).1.1 = some ((out.getD []).filter Resource.isConfiguredNotification)) := by
  have hres := s.Resources_result st herr
  have hmem : ∀ r ∈ (s.Resources st).1.1.getD [], Resource.isConfiguredNotification r = true := by
    intro r hr
    rcases hres with h | ⟨values, out, _, h⟩
    · rw [h] at hr
      simp at hr
    · rw [h] at hr
      simp only [Option.getD_some, List.mem_filter] at hr
      exact hr.2
  refine ⟨?_, ?_, hres⟩
  · intro r hr
    have hc := hmem r hr
    cases r with
    | other typ id => simp [Resource.isConfiguredNotification] at hc
    | s3BucketNotification res =>
      exact ⟨res, rfl, by simpa [Resource.isConfiguredNotification] using hc⟩
  · intro res hl hq ht hin
    have hc := hmem _ hin
    simp only [Resource.isConfiguredNotification, decide_eq_true_eq] at hc
    rcases hc with ⟨h1, h2⟩ | ⟨h1, h2⟩ | ⟨h1, h2⟩
    · rcases hl with h | h
      · exact h1 h
      · rw [h] at h2; simp at h2
    · rcases hq with h | h
      · exact h1 h
      · rw [h] at h2; simp at h2
    · rcases ht with h | h
      · exact h1 h
      · rw [h] at h2; simp at h2

theorem S3BucketNotificationSupplier.Resources_only_configured_witness :
    (threeNotifications.Resources State.fresh).1.2 = none ∧
    (threeNotifications.Resources State.fresh).1.1 =
      some
        [Resource.s3BucketNotification
          { Id := "logs", LambdaFunction := some [{ Id := "onPut", Arn := "arn:aws:lambda:fn" }],
            Queue := none, Topic := none },
         Resource.s3BucketNotification
          { Id := "backup", LambdaFunction := none, Queue := none,
            Topic := some [{ Id := "onDelete", Arn := "arn:aws:sns:topic" }] }] ∧
    Resource.s3BucketNotification
      { Id := "media", LambdaFunction := none, Queue := some [], Topic := some [] } ∉
      (threeNotifications.Resources State.fresh).1.1.getD [] :=
  ⟨by decide, by decide,
    (S3BucketNotificationSupplier.Resources_only_configured threeNotifications State.fresh
      (by decide)).2.1 _ (Or.inl rfl) (Or.inr rfl) (Or.inr rfl)⟩

/-! ### The sink without a denied call -/

theorem Supplier.alertsOf_no_forbidden (s : Supplier) (evs : List Event)
    (h : ∀ c err, Event.call c err ∈ evs → isForbidden err = false) : s.alertsOf evs = [] := by
  unfold Supplier.alertsOf
  rw [List.filterMap_eq_nil_iff]
  intro ev hev
  cases ev with
  | call c err => simp [deniedListing, h c err hev]
  | wait values err => rfl
  | deserialize values r => rfl

/-- C21: take an invocation of any supplier that returned, with events `evs`. If no
remote call among them returned a 403 request failure, the alert sink after the
invocation is the sink before it, so a sink without entry stays without entry;
the handler leaves the sink it is given as it is whenever it answers false. The
invocation returns the same with any larger fuel. -/
theorem Supplier.Resources_sink_unchanged (s : Supplier) (fuel : Nat) (st st2 : State)
    (res : Result) (evs : List Event)
    (h : s.Resources fuel st = some (res, st2))
    (ht : st2.trace = st.trace ++ evs)
    (hno : ∀ c err, Event.call c err ∈ evs → isForbidden err = false) :
    st2.alerter = st.alerter ∧
    ((∀ key, st.alerter.Retrieve key = []) → ∀ key, st2.alerter.Retrieve key = []) ∧
    (∀ (err : error) (typ forbiddenTyp : String) (alertr : Alerter),
      (handleListAwsErrorWithMessage err typ alertr forbiddenTyp).1 = false →
      (handleListAwsErrorWithMessage err typ alertr forbiddenTyp).2 = alertr) ∧
    (∀ fuel2, fuel ≤ fuel2 → s.Resources fuel2 st = some (res, st2)) := by
  obtain ⟨evs1, he, -⟩ := Supplier.Resources_summary s fuel st res st2 h
  have hevs : evs1 = evs := List.append_cancel_left (he.trace.symm.trans ht)
  subst hevs
  have ha : st2.alerter = st.alerter := by
    rw [he.alerter, Supplier.alertsOf_no_forbidden s evs1 hno]
    rfl
  refine ⟨ha, fun hempty key => by rw [ha]; exact hempty key, ?_,
    fun fuel2 hle => Supplier.Resources_mono s fuel fuel2 hle st _ h⟩
  intro err typ forbiddenTyp alertr hfalse
  rw [handle_eq] at hfalse ⊢
  by_cases hf : isForbidden err = true
  · simp [hf] at hfalse
  · simp [hf]

theorem Supplier.Resources_sink_unchanged_witness :
    (threeUsers.Resources State.fresh).2.alerter = State.fresh.alerter ∧
    ((∀ key, State.fresh.alerter.Retrieve key = []) →
      ∀ key, (threeUsers.Resources State.fresh).2.alerter.Retrieve key = []) ∧
    (∀ (err : error) (typ forbiddenTyp : String) (alertr : Alerter),
      (handleListAwsErrorWithMessage err typ alertr forbiddenTyp).1 = false →
      (handleListAwsErrorWithMessage err typ alertr forbiddenTyp).2 = alertr) ∧
    (∀ fuel2, 0 ≤ fuel2 →
      (Supplier.iamUser threeUsers).Resources fuel2 State.fresh =
        some ((threeUsers.Resources State.fresh).1, (threeUsers.Resources State.fresh).2)) :=
  Supplier.Resources_sink_unchanged (Supplier.iamUser threeUsers) 0 State.fresh
    (threeUsers.Resources State.fresh).2 (threeUsers.Resources State.fresh).1
    [Event.call RemoteCall.ListUsersPages none, Event.wait threeUserValues none,
      Event.deserialize threeUserValues (echoDeserializer.Deserialize threeUserValues)]
    rfl (by decide)
    (by
      intro c err hm
      simp at hm
      obtain ⟨-, rfl⟩ := hm
      rfl)

/-! ### Fan-in of the runner -/

theorem sequentialWait_ok (tasks : List Task) (h : ∀ task ∈ tasks, (task ()).2 = none) :
    sequentialWait tasks = (tasks.map (fun task => (task ()).1), none) := by
  induction tasks with
  | nil => rfl
  | cons task rest ih =>
    have h1 := h task (List.mem_cons_self _ _)
    have h2 := ih (fun t ht => h t (List.mem_cons_of_mem _ ht))
    rcases ht : task () with ⟨val, err⟩
    rw [ht] at h1
    simp only at h1
    subst h1
    simp [sequentialWait, ht, h2]

theorem State.foldl_Run_tasks (tasks : List Task) (st : State) :
    (tasks.foldl (fun st task => st.Run task) st).tasks = st.tasks ++ tasks := by
  induction tasks generalizing st with
  | nil => simp
  | cons task rest ih =>
    rw [List.foldl_cons, ih]
    simp [State.Run]

/-- C23: fan-in of the runner built by `NewParallelResourceReader`. When `n` tasks
have been submitted with `Run` to a runner without task and none of them returns an
error, `Wait()` returns no error and exactly `n` values, the value of every task
once: the list of the values the tasks produce, here in submission order, which
is one of the orders the contract allows. -/
theorem NewParallelResourceReader_fan_in (tasks : List Task) (st : State)
    (hfresh : st.tasks = [])
    (hok : ∀ task ∈ tasks, (task ()).2 = none) :
    ((tasks.foldl (fun st task => st.Run task) st).Wait NewParallelResourceReader).1 =
      (tasks.map (fun task => (task ()).1), none) ∧
    ((tasks.foldl (fun st task => st.Run task) st).Wait NewParallelResourceReader).1.1.length =
      tasks.length ∧
    List.Perm ((tasks.foldl (fun st task => st.Run task) st).Wait NewParallelResourceReader).1.1
      (tasks.map (fun task => (task ()).1)) ∧
    ((tasks.foldl (fun st task => st.Run task) st).Wait NewParallelResourceReader).1.2 = none := by
  have h : ((tasks.foldl (fun st task => st.Run task) st).Wait NewParallelResourceReader).1 =
      (tasks.map (fun task => (task ()).1), none) := by
    simp only [State.Wait, State.foldl_Run_tasks, hfresh, List.nil_append,
      NewParallelResourceReader]
    exact sequentialWait_ok tasks hok
  refine ⟨h, ?_, ?_, ?_⟩
  · rw [h]; simp
  · rw [h]
  · rw [h]

theorem NewParallelResourceReader_fan_in_witness :
    (([readTask echoReader { Ty := "aws_iam_user", ID := "alice", Attributes := [] },
        readTask echoReader { Ty := "aws_iam_user", ID := "bob", Attributes := [] }].foldl
      (fun st task => st.Run task) State.fresh).Wait NewParallelResourceReader).1 =
      ([CtyValue.object [("type", "aws_iam_user"), ("id", "alice")],
        CtyValue.object [("type", "aws_iam_user"), ("id", "bob")]], none) :=
  (NewParallelResourceReader_fan_in
    [readTask echoReader { Ty := "aws_iam_user", ID := "alice", Attributes := [] },
      readTask echoReader { Ty := "aws_iam_user", ID := "bob", Attributes := [] }]
    State.fresh rfl (by decide)).1

/-! ### The guard on an empty listing -/

/-- C25: `IamUserSupplier`, `IamUserPolicySupplier`,
`IamUserPolicyAttachmentSupplier` and `LambdaFunctionSupplier`. When the top-level
listing succeeds with zero items, `Resources()` returns what the deserializer
answers for the empty list, and the state after it is the state before it with two
more events, the listing call and that `Deserialize`: no per-user listing is
called, no task is submitted, `Wait()` is not called; and the outcome is the same
with any other state reader and any other runner. -/
theorem Supplier.Resources_guard_empty (s : Supplier) (fuel : Nat) (st : State)
    (hs : s.guardsFanOut = true) (hlist : s.listError = none) (hzero : s.listed = 0) :
    s.Resources fuel st =
      some (s.deserializer.Deserialize [],
        { st with
          trace := st.trace ++
            [Event.call s.listCall none,
              Event.deserialize [] (s.deserializer.Deserialize [])] }) ∧
    (∀ (reader : ResourceReader) (runner : ParallelResourceReader),
      ((s.withReader reader).withRunner runner).Resources fuel st = s.Resources fuel st) := by
  cases s with
  | iamUser s =>
    simp only [Supplier.listError, Supplier.listed, List.length_eq_zero] at hlist hzero
    have hl : listIamUsers s.client = ([], none) := by
      rw [← hzero, ← hlist, ← listIamUsers_snd]
    have key : ∀ s2 : IamUserSupplier, s2.client = s.client → s2.deserializer = s.deserializer →
        s2.Resources st = (s.deserializer.Deserialize [],
          { st with
            trace := st.trace ++
              [Event.call RemoteCall.ListUsersPages none,
                Event.deserialize [] (s.deserializer.Deserialize [])] }) := by
      intro s2 hc hd
      simp [IamUserSupplier.Resources, hc, hd, hl, State.call, State.Deserialize]
    refine ⟨?_, fun reader runner => ?_⟩
    · simp only [Supplier.Resources, Supplier.deserializer, Supplier.listCall]
      rw [key s rfl rfl]
    · simp only [Supplier.Resources, Supplier.withReader, Supplier.withRunner]
      rw [key s rfl rfl]
      exact congrArg some (key _ rfl rfl)
  | iamUserPolicy s =>
    simp only [Supplier.listError, Supplier.listed, List.length_eq_zero] at hlist hzero
    have hl : listIamUsers s.client = ([], none) := by
      rw [← hzero, ← hlist, ← listIamUsers_snd]
    have key : ∀ s2 : IamUserPolicySupplier, s2.client = s.client →
        s2.deserializer = s.deserializer →
        s2.Resources st = (s.deserializer.Deserialize [],
          { st with
            trace := st.trace ++
              [Event.call RemoteCall.ListUsersPages none,
                Event.deserialize [] (s.deserializer.Deserialize [])] }) := by
      intro s2 hc hd
      simp [IamUserPolicySupplier.Resources, hc, hd, hl, State.call, State.Deserialize]
    refine ⟨?_, fun reader runner => ?_⟩
    · simp only [Supplier.Resources, Supplier.deserializer, Supplier.listCall]
      rw [key s rfl rfl]
    · simp only [Supplier.Resources, Supplier.withReader, Supplier.withRunner]
      rw [key s rfl rfl]
      exact congrArg some (key _ rfl rfl)
  | iamUserPolicyAttachment s =>
    simp only [Supplier.listError, Supplier.listed, List.length_eq_zero] at hlist hzero
    have hl : listIamUsers s.client = ([], none) := by
      rw [← hzero, ← hlist, ← listIamUsers_snd]
    have key : ∀ s2 : IamUserPolicyAttachmentSupplier, s2.client = s.client →
        s2.deserializer = s.deserializer →
        s2.Resources st = (s.deserializer.Deserialize [],
          { st with
            trace := st.trace ++
              [Event.call RemoteCall.ListUsersPages none,
                Event.deserialize [] (s.deserializer.Deserialize [])] }) := by
      intro s2 hc hd
      simp [IamUserPolicyAttachmentSupplier.Resources, hc, hd, hl, State.call, State.Deserialize]
    refine ⟨?_, fun reader runner => ?_⟩
    · simp only [Supplier.Resources, Supplier.deserializer, Supplier.listCall]
      rw [key s rfl rfl]
    · simp only [Supplier.Resources, Supplier.withReader, Supplier.withRunner]
      rw [key s rfl rfl]
      exact congrArg some (key _ rfl rfl)
  | lambdaFunction s =>
    simp only [Supplier.listError, Supplier.listed, List.length_eq_zero] at hlist hzero
    have hl : listLambdaFunctions s.client = ([], none) := by
      rw [← hzero, ← hlist, ← listLambdaFunctions_snd]
    have key : ∀ s2 : LambdaFunctionSupplier, s2.client = s.client →
        s2.deserializer = s.deserializer →
        s2.Resources st = (s.deserializer.Deserialize [],
          { st with
            trace := st.trace ++
              [Event.call RemoteCall.ListFunctionsPages none,
                Event.deserialize [] (s.deserializer.Deserialize [])] }) := by
      intro s2 hc hd
      simp [LambdaFunctionSupplier.Resources, hc, hd, hl, State.call, State.Deserialize]
    refine ⟨?_, fun reader runner => ?_⟩
    · simp only [Supplier.Resources, Supplier.deserializer, Supplier.listCall]
      rw [key s rfl rfl]
    · simp only [Supplier.Resources, Supplier.withReader, Supplier.withRunner]
      rw [key s rfl rfl]
      exact congrArg some (key _ rfl rfl)
  | dbSubnetGroup s => simp [Supplier.guardsFanOut] at hs
  | route53Record s => simp [Supplier.guardsFanOut] at hs
  | s3BucketAnalytic s => simp [Supplier.guardsFanOut] at hs
  | s3BucketInventory s => simp [Supplier.guardsFanOut] at hs
  | s3BucketMetric s => simp [Supplier.guardsFanOut] at hs
  | s3BucketNotification s => simp [Supplier.guardsFanOut] at hs

theorem Supplier.Resources_guard_empty_witness :
    noUsers.Resources 0 State.fresh =
      some (noUsers.deserializer.Deserialize [],
        { State.fresh with
          trace := State.fresh.trace ++
            [Event.call noUsers.listCall none,
              Event.deserialize [] (noUsers.deserializer.Deserialize [])] }) ∧
    (∀ (reader : ResourceReader) (runner : ParallelResourceReader),
      ((noUsers.withReader reader).withRunner runner).Resources 0 State.fresh =
        noUsers.Resources 0 State.fresh) :=
  Supplier.Resources_guard_empty noUsers 0 State.fresh rfl rfl (by decide)

/-! ### The notification filter as a function of the deserialized list -/

theorem Finished.deserialize_result {s : Supplier} {evs : List Event} {res : Result}
    (hfin : Finished s evs res) {values : List CtyValue} {r : Result}
    (hm : Event.deserialize values r ∈ evs) : res = s.finish r := by
  cases hfin with
  | denied pre c2 e2 ho hd2 hp =>
    rcases List.mem_append.mp hm with hm | hm
    · exact absurd hm (ho.no_deserialize _ _)
    · simp at hm
  | failed pre c2 e2 ho hne2 hd2 =>
    rcases List.mem_append.mp hm with hm | hm
    · exact absurd hm (ho.no_deserialize _ _)
    · simp at hm
  | waitFailed pre values2 e2 ho hne2 =>
    rcases List.mem_append.mp hm with hm | hm
    · exact absurd hm (ho.no_deserialize _ _)
    · simp at hm
  | deserialized pre values2 r2 ho hr =>
    rcases List.mem_append.mp hm with hm | hm
    · exact absurd hm (ho.no_deserialize _ _)
    · simp only [List.mem_cons, reduceCtorEq, Event.deserialize.injEq, List.mem_singleton,
        false_or, List.not_mem_nil, or_false] at hm
      rw [hm.2]
  | empty pre r2 ho hr =>
    rcases List.mem_append.mp hm with hm | hm
    · exact absurd hm (ho.no_deserialize _ _)
    · simp only [List.mem_singleton, Event.deserialize.injEq] at hm
      rw [hm.2]

/-- C28: `S3BucketNotificationSupplier.Resources()` after a successful
deserialization. If `Deserialize` is among the events of the invocation and
answered the list `out` without error, the result is, with a nil error, exactly
`out` filtered by "is an `AwsS3BucketNotification` with a non-empty
`LambdaFunction`, `Queue` or `Topic`": every entry of `out` that passes is in the
result, the result is a sublist of `out` (kept entries keep their order), it is not
longer than `out`, and filtering it again gives it back. -/
theorem S3BucketNotificationSupplier.Resources_filter (s : S3BucketNotificationSupplier)
    (st : State) (evs : List Event) (values : List CtyValue) (out : Option (List Resource))
    (ht : (s.Resources st).2.trace = st.trace ++ evs)
    (hd : Event.deserialize values (out, none) ∈ evs) :
    (s.Resources st).1 = (some ((out.getD []).filter Resource.isConfiguredNotification), none) ∧
    (∀ r ∈ out.getD [], Resource.isConfiguredNotification r = true →
      r ∈ (s.Resources st).1.1.getD []) ∧
    List.Sublist ((s.Resources st).1.1.getD []) (out.getD []) ∧
    ((s.Resources st).1.1.getD []).length ≤ (out.getD []).length ∧
    ((s.Resources st).1.1.getD []).filter Resource.isConfiguredNotification =
      (s.Resources st).1.1.getD [] := by
  obtain ⟨evs1, he, hfin⟩ := Supplier.Resources_summary (Supplier.s3BucketNotification s) 0 st
    (s.Resources st).1 (s.Resources st).2 rfl
  have hevs : evs1 = evs := List.append_cancel_left (he.trace.symm.trans ht)
  subst hevs
  have hres : (s.Resources st).1 =
      (some ((out.getD []).filter Resource.isConfiguredNotification), none) := by
    rw [hfin.deserialize_result hd]
    simp [Supplier.finish, S3BucketNotificationSupplier.keepConfigured_eq_filter]
  refine ⟨hres, ?_, ?_, ?_, ?_⟩
  · intro r hr hp
    rw [hres]
    simp only [Option.getD_some, List.mem_filter]
    exact ⟨hr, hp⟩
  · rw [hres]
    exact List.filter_sublist _
  · rw [hres]
    exact List.length_filter_le _ _
  · rw [hres]
    simp

theorem S3BucketNotificationSupplier.Resources_filter_witness :
    (threeNotifications.Resources State.fresh).1 =
      (some (((notificationsDeserializer.Deserialize threeNotificationValues).1.getD []).filter
        Resource.isConfiguredNotification), none) ∧
    ((threeNotifications.Resources State.fresh).1.1.getD []).length = 2 :=
  ⟨(S3BucketNotificationSupplier.Resources_filter threeNotifications State.fresh
      [Event.call RemoteCall.ListBuckets none,
        Event.call (RemoteCall.GetBucketLocation "logs") none,
        Event.call (RemoteCall.GetBucketLocation "media") none,
        Event.call (RemoteCall.GetBucketLocation "backup") none,
        Event.wait threeNotificationValues none,
        Event.deserialize threeNotificationValues
          (notificationsDeserializer.Deserialize threeNotificationValues)]
      threeNotificationValues (notificationsDeserializer.Deserialize threeNotificationValues).1
      (by decide) (by decide)).1,
    by decide⟩

/-! ### Injectivity of the record identifier -/

theorem append_cons_cancel_of_not_mem {α : Type} {c : α} :
    ∀ {a a2 x x2 : List α}, c ∉ a → c ∉ a2 → a ++ c :: x = a2 ++ c :: x2 → a = a2 ∧ x = x2 := by
  intro a
  induction a with
  | nil =>
    intro a2 x x2 _ h2 h
    cases a2 with
    | nil => simpa using h
    | cons b bs =>
      simp only [List.nil_append, List.cons_append, List.cons.injEq] at h
      exact absurd (h.1 ▸ List.mem_cons_self _ _) h2
  | cons b bs ih =>
    intro a2 x x2 h1 h2 h
    cases a2 with
    | nil =>
      simp only [List.nil_append, List.cons_append, List.cons.injEq] at h
      exact absurd (h.1 ▸ List.mem_cons_self _ _) h1
    | cons b2 bs2 =>
      simp only [List.cons_append, List.cons.injEq] at h
      obtain ⟨hb, hx⟩ := ih (fun hm => h1 (List.mem_cons_of_mem _ hm))
        (fun hm => h2 (List.mem_cons_of_mem _ hm)) h.2
      exact ⟨by rw [h.1, hb], hx⟩

theorem strings.ToLower_ascii (toLowerCase : Char → Char) (x : String)
    (h : ∀ r ∈ x.data, r.toNat ≤ 0x7F) :
    strings.ToLower toLowerCase x = strings.ToLower (fun r => r) x := by
  unfold strings.ToLower
  congr 1
  apply List.map_congr_left
  intro r hr
  unfold unicode.ToLower
  rw [if_pos (h r hr), if_pos (h r hr)]

theorem Route53RecordSupplier.recordId_data (toLowerCase : Char → Char) (zoneId : String)
    (raw : ResourceRecordSet) :
    (Route53RecordSupplier.recordId toLowerCase zoneId raw).data =
      zoneId.data ++ '_' ::
        ((strings.ToLower toLowerCase (strings.TrimSuffix raw.Name ".")).data ++ '_' ::
          (raw.Type_.data ++
            match raw.SetIdentifier with
            | none => []
            | some setIdentifier => '_' :: setIdentifier.data)) := by
  rcases h : raw.SetIdentifier with _ | setIdentifier <;>
    simp [Route53RecordSupplier.recordId, h, strings.Join, String.intercalate,
      String.intercalate.go, String.data_append]

/-- C30: the record identifier is injective on separator-free components, and not
without that condition, whatever the lower-case lookup of the Go library is. For
two records whose zone id, normalised name (`ToLower(TrimSuffix(Name, "."))`) and
type hold no `_`, equal identifiers force equal zone ids, equal normalised names,
equal types and equal `SetIdentifier`, a nil one being different from every
non-nil one, the empty string included. And there are two records with different
zone ids and different names that get the same identifier. -/
theorem Route53RecordSupplier.recordId_injective (toLowerCase : Char → Char) :
    (∀ (zoneId1 zoneId2 : String) (raw1 raw2 : ResourceRecordSet),
      '_' ∉ zoneId1.data → '_' ∉ zoneId2.data →
      '_' ∉ (strings.ToLower toLowerCase (strings.TrimSuffix raw1.Name ".")).data →
      '_' ∉ (strings.ToLower toLowerCase (strings.TrimSuffix raw2.Name ".")).data →
      '_' ∉ raw1.Type_.data → '_' ∉ raw2.Type_.data →
      Route53RecordSupplier.recordId toLowerCase zoneId1 raw1 =
        Route53RecordSupplier.recordId toLowerCase zoneId2 raw2 →
      zoneId1 = zoneId2 ∧
      strings.ToLower toLowerCase (strings.TrimSuffix raw1.Name ".") =
        strings.ToLower toLowerCase (strings.TrimSuffix raw2.Name ".") ∧
      raw1.Type_ = raw2.Type_ ∧
      raw1.SetIdentifier = raw2.SetIdentifier) ∧
    (∀ (zoneId : String) (raw : ResourceRecordSet),
      Route53RecordSupplier.recordId toLowerCase zoneId { raw with SetIdentifier := none } ≠
        Route53RecordSupplier.recordId toLowerCase zoneId { raw with SetIdentifier := some "" }) ∧
    (∃ (zoneId1 zoneId2 : String) (raw1 raw2 : ResourceRecordSet),
      zoneId1 ≠ zoneId2 ∧ raw1.Name ≠ raw2.Name ∧
      Route53RecordSupplier.recordId toLowerCase zoneId1 raw1 =
        Route53RecordSupplier.recordId toLowerCase zoneId2 raw2) := by
  refine ⟨?_, ?_, ?_⟩
  · intro zoneId1 zoneId2 raw1 raw2 hz1 hz2 hn1 hn2 ht1 ht2 h
    have hdata := congrArg String.data h
    rw [Route53RecordSupplier.recordId_data, Route53RecordSupplier.recordId_data] at hdata
    obtain ⟨hz, h1⟩ := append_cons_cancel_of_not_mem hz1 hz2 hdata
    obtain ⟨hn, h2⟩ := append_cons_cancel_of_not_mem hn1 hn2 h1
    refine ⟨String.ext hz, String.ext hn, ?_⟩
    rcases hs1 : raw1.SetIdentifier with _ | sid1 <;> rcases hs2 : raw2.SetIdentifier with _ | sid2 <;>
      simp only [hs1, hs2, List.append_nil] at h2
    · exact ⟨String.ext h2, rfl⟩
    · exact absurd (h2 ▸ (List.mem_append_right _ (List.mem_cons_self _ _))) ht1
    · exact absurd (h2 ▸ (List.mem_append_right _ (List.mem_cons_self _ _))) ht2
    · obtain ⟨ht, hs⟩ := append_cons_cancel_of_not_mem ht1 ht2 h2
      exact ⟨String.ext ht, by rw [String.ext hs]⟩
  · intro zoneId raw h
    have hdata := congrArg String.data h
    rw [Route53RecordSupplier.recordId_data, Route53RecordSupplier.recordId_data] at hdata
    simp at hdata
  · refine ⟨"Z1", "Z1_www", { Name := "www_a.example.com.", Type_ := "A", SetIdentifier := none },
      { Name := "a.example.com.", Type_ := "A", SetIdentifier := none },
      by decide, by decide, ?_⟩
    have hascii : ∀ (zoneId : String) (raw : ResourceRecordSet),
        (∀ r ∈ (strings.TrimSuffix raw.Name ".").data, r.toNat ≤ 0x7F) →
        Route53RecordSupplier.recordId toLowerCase zoneId raw =
          Route53RecordSupplier.recordId (fun r => r) zoneId raw := by
      intro zoneId raw h
      unfold Route53RecordSupplier.recordId
      simp only [strings.ToLower_ascii toLowerCase _ h]
    rw [hascii _ _ (by decide), hascii _ _ (by decide)]
    decide

theorem Route53RecordSupplier.recordId_injective_witness :
    "Z1" = "Z1" ∧
    strings.ToLower latin1LowerCase (strings.TrimSuffix "WWW.example.com." ".") =
      strings.ToLower latin1LowerCase (strings.TrimSuffix "www.Example.com" ".") ∧
    "A" = "A" ∧ (some "live" : Option String) = some "live" :=
  (Route53RecordSupplier.recordId_injective latin1LowerCase).1 "Z1" "Z1"
    { Name := "WWW.example.com.", Type_ := "A", SetIdentifier := some "live" }
    { Name := "www.Example.com", Type_ := "A", SetIdentifier := some "live" }
    (by decide) (by decide) (by decide) (by decide) (by decide) (by decide) (by decide)

/-! ### The notification supplier: tasks and a failing deserializer -/

theorem S3BucketNotificationSupplier.visitBuckets_ok (s : S3BucketNotificationSupplier)
    (buckets : List Bucket) (st : State)
    (h : ∀ bucket ∈ buckets, (s.factory.readBucketRegion bucket.Name).2 = none) :
    s.visitBuckets buckets st =
      (Flow.next (),
        { alerter := st.alerter,
          tasks := st.tasks ++
            (buckets.filter (fun bucket => (s.factory.readBucketRegion bucket.Name).1 != "")).map
              (fun bucket =>
                readTask s.reader
                  { Ty := s.AwsS3BucketNotificationResourceType, ID := bucket.Name,
                    Attributes := [("aws_region", (s.factory.readBucketRegion bucket.Name).1)] }),
          trace := st.trace ++
            buckets.map (fun bucket => Event.call (RemoteCall.GetBucketLocation bucket.Name) none) }) := by
  induction buckets generalizing st with
  | nil => simp [S3BucketNotificationSupplier.visitBuckets]
  | cons bucket buckets ih =>
    have hb := h bucket (List.mem_cons_self _ _)
    have hrest := ih (h := fun b hb => h b (List.mem_cons_of_mem _ hb))
    rcases hr : s.factory.readBucketRegion bucket.Name with ⟨region, err⟩
    rw [hr] at hb
    simp only at hb
    subst hb
    unfold S3BucketNotificationSupplier.visitBuckets
    simp only [hr, ne_eq, not_true_eq_false, if_false]
    by_cases hreg : region = ""
    · subst hreg
      simp only [if_true]
      rw [hrest]
      simp [State.call, List.filter_cons, hr]
    · simp only [hreg, if_false]
      rw [hrest]
      simp only [State.call, List.filter_cons, hr, bne_iff_ne, ne_eq, hreg, not_false_eq_true,
        decide_True, if_true, List.map_cons, List.append_assoc, List.singleton_append,
        S3BucketNotificationSupplier.listBucketNotificationConfiguration, State.Run]
      rfl

/-- C29: `S3BucketNotificationSupplier.Resources()` with a failing deserializer.
When the bucket listing and every region lookup succeed, the tasks submitted are
one per bucket with a non-empty region, in bucket order, each reading the
notification type with ID = the bucket name and the attribute `aws_region` = the
region of the bucket; and when `Wait()` answers them without error and the
deserializer answers with a list `l` and an error, `Resources()` returns `l`, as
it is (not filtered, not replaced by nil), together with that error. -/
theorem S3BucketNotificationSupplier.Resources_deserializer_error
    (s : S3BucketNotificationSupplier) (st : State) (buckets : List Bucket)
    (hb : s.factory.ListBuckets = (buckets, none))
    (hreg : ∀ bucket ∈ buckets, (s.factory.readBucketRegion bucket.Name).2 = none) :
    (s.Resources st).2.tasks =
      st.tasks ++
        (buckets.filter (fun bucket => (s.factory.readBucketRegion bucket.Name).1 != "")).map
          (fun bucket =>
            readTask s.reader
              { Ty := s.AwsS3BucketNotificationResourceType, ID := bucket.Name,
                Attributes := [("aws_region", (s.factory.readBucketRegion bucket.Name).1)] }) ∧
    (∀ (l : Option (List Resource)) (e : GoError),
      (s.runner.Wait (s.Resources st).2.tasks).2 = none →
      s.deserializer.Deserialize (s.runner.Wait (s.Resources st).2.tasks).1 = (l, some e) →
      (s.Resources st).1 = (l, some e)) := by
  have hres : ∀ tasks, tasks = st.tasks ++
        (buckets.filter (fun bucket => (s.factory.readBucketRegion bucket.Name).1 != "")).map
          (fun bucket =>
            readTask s.reader
              { Ty := s.AwsS3BucketNotificationResourceType, ID := bucket.Name,
                Attributes := [("aws_region", (s.factory.readBucketRegion bucket.Name).1)] }) →
      (s.Resources st).2.tasks = tasks ∧
      (s.Resources st).1 =
        if (s.runner.Wait tasks).2 ≠ none then (none, (s.runner.Wait tasks).2)
        else if (s.deserializer.Deserialize (s.runner.Wait tasks).1).2 ≠ none then
          s.deserializer.Deserialize (s.runner.Wait tasks).1
        else
          (some (S3BucketNotificationSupplier.keepConfigured
            ((s.deserializer.Deserialize (s.runner.Wait tasks).1).1.getD [])), none) := by
    intro tasks htasks
    unfold S3BucketNotificationSupplier.Resources
    simp only [hb, ne_eq, not_true_eq_false, if_false]
    rw [S3BucketNotificationSupplier.visitBuckets_ok s buckets _ hreg]
    simp only [State.call, State.Wait, State.Deserialize, ← htasks]
    by_cases hw : (s.runner.Wait tasks).2 = none
    · by_cases hd : (s.deserializer.Deserialize (s.runner.Wait tasks).1).2 = none
      · simp [hw, hd]
      · simp [hw, hd]
    · simp [hw]
  obtain ⟨h1, h2⟩ := hres _ rfl
  refine ⟨h1, ?_⟩
  intro l e hw hd
  rw [h2, ← h1]
  simp [hw, hd]

theorem S3BucketNotificationSupplier.Resources_deserializer_error_witness :
    (brokenNotifications.Resources State.fresh).2.tasks.map (fun task => task ()) =
      [(CtyValue.object [("type", "aws_s3_bucket_notification"), ("id", "logs"),
          ("aws_region", "eu-west-3")], none),
        (CtyValue.object [("type", "aws_s3_bucket_notification"), ("id", "backup"),
          ("aws_region", "eu-west-3")], none)] ∧
    (brokenNotifications.Resources State.fresh).1 =
      (some
        [Resource.s3BucketNotification
          { Id := "logs", LambdaFunction := some [{ Id := "onPut", Arn := "arn:aws:lambda:fn" }],
            Queue := none, Topic := none },
         Resource.s3BucketNotification
          { Id := "media", LambdaFunction := none, Queue := some [], Topic := some [] }],
        some (GoError.plain "unsupported attribute")) :=
  ⟨by decide,
    (S3BucketNotificationSupplier.Resources_deserializer_error brokenNotifications State.fresh
      [{ Name := "logs" }, { Name := "media" }, { Name := "backup" }] rfl (by decide)).2 _ _
      (by decide) (by decide)⟩

/-! ### The bucket-region lookup -/

theorem S3BucketNotificationSupplier.visitBuckets_notification_append
    (s : S3BucketNotificationSupplier) (before rest : List Bucket) :
    ∀ (st st1 : State) (u : Unit),
      s.visitBuckets before st = (Flow.next u, st1) →
      s.visitBuckets (before ++ rest) st = s.visitBuckets rest st1 := by
  induction before with
  | nil =>
    intro st st1 u h
    simp only [S3BucketNotificationSupplier.visitBuckets, Prod.mk.injEq] at h
    obtain ⟨-, h2⟩ := h
    subst h2
    rfl
  | cons bucket before ih =>
    intro st st1 u h
    rw [List.cons_append]
    unfold S3BucketNotificationSupplier.visitBuckets at h
    conv_lhs => unfold S3BucketNotificationSupplier.visitBuckets
    rcases hr : s.factory.readBucketRegion bucket.Name with ⟨region, err⟩
    simp only [hr] at h ⊢
    by_cases herr : err = none
    · subst herr
      simp only [ne_eq, not_true_eq_false, if_false] at h ⊢
      by_cases hreg : region = ""
      · simp only [hreg, if_true] at h ⊢
        exact ih _ _ u h
      · simp only [hreg, if_false] at h ⊢
        exact ih _ _ u h
    · simp [herr] at h

theorem S3BucketConfigSupplier.visitBuckets_next_alerter (k : S3ConfigKind)
    (s : S3BucketConfigSupplier) (fuel : Nat) (buckets : List Bucket) (st st1 : State) (u : Unit)
    (h : S3BucketConfigSupplier.visitBuckets k s fuel buckets st = some (Flow.next u, st1)) :
    st1.alerter = st.alerter := by
  obtain ⟨evs, he, hs⟩ := S3BucketConfigSupplier.visitBuckets_summary k s fuel buckets st _ _ h
  rw [he.alerter, Supplier.alertsOf_ongoing _ (S3ConfigKind.supplier_keepsGoing k s) evs hs]
  rfl

theorem S3BucketNotificationSupplier.visitBuckets_notification_next_alerter (s : S3BucketNotificationSupplier)
    (buckets : List Bucket) (st st1 : State) (u : Unit)
    (h : s.visitBuckets buckets st = (Flow.next u, st1)) : st1.alerter = st.alerter := by
  obtain ⟨evs, he, hs⟩ := s.visitBuckets_notification_summary buckets st
  rw [h] at he hs
  rw [he.alerter, Supplier.alertsOf_ongoing (Supplier.s3BucketNotification s) rfl evs hs]
  rfl

/-- C27: the bucket-region lookup of the four S3 suppliers (the three
configuration suppliers, by kind `k`, and the notification supplier). Take a bucket
list `before ++ bucket :: rest` whose buckets `before` are visited without leaving
the loop, reaching the state `st1`. If the region of `bucket` is the empty string,
the loop goes on with `rest` from `st1` with the lookup as the only new event: no
configuration listing and no task for `bucket`. If its lookup returns an error,
whatever error, `Resources()` returns the nil list with that error, the lookup is
the last event, the tasks are those of `before`, and the sink is the one the
invocation started with. -/
theorem S3_region_lookup (k : S3ConfigKind) (c : S3BucketConfigSupplier)
    (n : S3BucketNotificationSupplier) (fuel : Nat) (before rest : List Bucket) (bucket : Bucket)
    (st st1 : State) :
    (c.factory.ListBuckets = (before ++ bucket :: rest, none) →
      S3BucketConfigSupplier.visitBuckets k c fuel before (st.call RemoteCall.ListBuckets none) =
        some (Flow.next (), st1) →
      (c.factory.readBucketRegion bucket.Name = ("", none) →
        S3BucketConfigSupplier.visitBuckets k c fuel (before ++ bucket :: rest)
            (st.call RemoteCall.ListBuckets none) =
          S3BucketConfigSupplier.visitBuckets k c fuel rest
            (st1.call (RemoteCall.GetBucketLocation bucket.Name) none)) ∧
      (∀ (region : String) (err : GoError),
        c.factory.readBucketRegion bucket.Name = (region, some err) →
        S3BucketConfigSupplier.Resources k c fuel st =
          some ((none, some err),
            { alerter := st.alerter, tasks := st1.tasks,
              trace := st1.trace ++
                [Event.call (RemoteCall.GetBucketLocation bucket.Name) (some err)] }))) ∧
    (n.factory.ListBuckets = (before ++ bucket :: rest, none) →
      n.visitBuckets before (st.call RemoteCall.ListBuckets none) = (Flow.next (), st1) →
      (n.factory.readBucketRegion bucket.Name = ("", none) →
        n.visitBuckets (before ++ bucket :: rest) (st.call RemoteCall.ListBuckets none) =
          n.visitBuckets rest (st1.call (RemoteCall.GetBucketLocation bucket.Name) none)) ∧
      (∀ (region : String) (err : GoError),
        n.factory.readBucketRegion bucket.Name = (region, some err) →
        n.Resources st =
          ((none, some err),
            { alerter := st.alerter, tasks := st1.tasks,
              trace := st1.trace ++
                [Event.call (RemoteCall.GetBucketLocation bucket.Name) (some err)] }))) := by
  refine ⟨?_, ?_⟩
  · intro hb hv
    have ha : st1.alerter = st.alerter :=
      S3BucketConfigSupplier.visitBuckets_next_alerter k c fuel before
        (st.call RemoteCall.ListBuckets none) st1 () hv
    have happ := S3BucketConfigSupplier.visitBuckets_append k c fuel before (bucket :: rest) _ st1 () hv
    refine ⟨?_, ?_⟩
    · intro hr
      rw [happ]
      conv_lhs => unfold S3BucketConfigSupplier.visitBuckets
      simp [hr]
    · intro region err hr
      unfold S3BucketConfigSupplier.Resources
      simp only [hb, ne_eq, not_true_eq_false, if_false]
      rw [happ]
      unfold S3BucketConfigSupplier.visitBuckets
      simp [hr, State.call, ha]
  · intro hb hv
    have ha : st1.alerter = st.alerter :=
      S3BucketNotificationSupplier.visitBuckets_notification_next_alerter n before
        (st.call RemoteCall.ListBuckets none) st1 () hv
    have happ := S3BucketNotificationSupplier.visitBuckets_notification_append n before
      (bucket :: rest) _ st1 () hv
    refine ⟨?_, ?_⟩
    · intro hr
      rw [happ]
      conv_lhs => unfold S3BucketNotificationSupplier.visitBuckets
      simp [hr]
    · intro region err hr
      unfold S3BucketNotificationSupplier.Resources
      simp only [hb, ne_eq, not_true_eq_false, if_false]
      rw [happ]
      unfold S3BucketNotificationSupplier.visitBuckets
      simp [hr, State.call, ha]

theorem S3_region_lookup_witness :
    S3BucketConfigSupplier.Resources S3ConfigKind.analytic regionDeniedAfterSkip 1 State.fresh =
      some ((none, some forbidden403),
        { alerter := State.fresh.alerter, tasks := afterLogsSkipped.tasks,
          trace := afterLogsSkipped.trace ++
            [Event.call (RemoteCall.GetBucketLocation "media") (some forbidden403)] }) ∧
    notificationRegionDeniedAfterSkip.Resources State.fresh =
      ((none, some forbidden403),
        { alerter := State.fresh.alerter, tasks := afterLogsSkipped.tasks,
          trace := afterLogsSkipped.trace ++
            [Event.call (RemoteCall.GetBucketLocation "media") (some forbidden403)] }) :=
  ⟨((S3_region_lookup S3ConfigKind.analytic regionDeniedAfterSkip notificationRegionDeniedAfterSkip 1
      [{ Name := "logs" }] [{ Name := "backup" }] { Name := "media" } State.fresh
      afterLogsSkipped).1 rfl rfl).2 "" forbidden403 rfl,
    ((S3_region_lookup S3ConfigKind.analytic regionDeniedAfterSkip notificationRegionDeniedAfterSkip 1
      [{ Name := "logs" }] [{ Name := "backup" }] { Name := "media" } State.fresh
      afterLogsSkipped).2 rfl rfl).2 "" forbidden403 rfl⟩

/-! ### The two suppliers that keep going -/

theorem Alerter.sendAll_Retrieve (a : Alerter) (typ : String) (alerts : List Alert) :
    (a.sendAll typ alerts).Retrieve typ = a.Retrieve typ ++ alerts := by
  induction alerts generalizing a with
  | nil => simp [Alerter.sendAll]
  | cons alert alerts ih =>
    have h : a.sendAll typ (alert :: alerts) = (a.SendAlert typ alert).sendAll typ alerts := rfl
    rw [h, ih, SendAlert_Retrieve_self]
    simp

theorem Alerter.sendAll_replicate_succ (a : Alerter) (typ : String) (alert : Alert) (n : Nat) :
    (a.SendAlert typ alert).sendAll typ (List.replicate n alert) =
      a.sendAll typ (List.replicate (n + 1) alert) := rfl

theorem flatMap_filter_of_nil {α β : Type} (p : α → Bool) (f : α → List β) (l : List α)
    (h : ∀ x ∈ l, p x = false → f x = []) : l.flatMap f = (l.filter p).flatMap f := by
  induction l with
  | nil => rfl
  | cons x xs ih =>
    have ih2 := ih (fun y hy => h y (List.mem_cons_of_mem _ hy))
    by_cases hp : p x = true
    · simp [List.filter_cons, hp, List.flatMap_cons, ih2]
    · have hx := h x (List.mem_cons_self _ _) (by simpa using hp)
      simp [List.filter_cons, hp, List.flatMap_cons, ih2, hx]

theorem IamUserPolicyAttachmentSupplier.listAttachments_keeps_going
    (s : IamUserPolicyAttachmentSupplier) (users : List User)
    (attachedPolicies : List attachedUserPolicy) (st : State)
    (h : ∀ user ∈ users, (s.client.ListAttachedUserPoliciesPages user.UserName).err = none ∨
      isForbidden (s.client.ListAttachedUserPoliciesPages user.UserName).err = true) :
    s.listAttachments users attachedPolicies st =
      (Flow.next (attachedPolicies ++ users.flatMap (fun user =>
          (listIamUserPoliciesAttachment user.UserName s.client).1)),
        { alerter := st.alerter.sendAll AwsIamUserPolicyAttachmentResourceType
            (List.replicate
              (users.countP (fun user =>
                isForbidden (s.client.ListAttachedUserPoliciesPages user.UserName).err))
              (forbiddenAlert AwsIamUserPolicyAttachmentResourceType "")),
          tasks := st.tasks,
          trace := st.trace ++ users.map (fun user =>
            Event.call (RemoteCall.ListAttachedUserPoliciesPages user.UserName)
              (s.client.ListAttachedUserPoliciesPages user.UserName).err) }) := by
  induction users generalizing attachedPolicies st with
  | nil => simp [IamUserPolicyAttachmentSupplier.listAttachments, Alerter.sendAll]
  | cons user users ih =>
    have hu := h user (List.mem_cons_self _ _)
    have hrest := fun (acc : List attachedUserPolicy) (st : State) =>
      ih acc st (fun u hu => h u (List.mem_cons_of_mem _ hu))
    have hsnd := listIamUserPoliciesAttachment_snd user.UserName s.client
    rcases hl : listIamUserPoliciesAttachment user.UserName s.client with ⟨policyAttachmentList, err⟩
    rw [hl] at hsnd
    simp only at hsnd
    unfold IamUserPolicyAttachmentSupplier.listAttachments
    simp only [hl]
    by_cases herr : err = none
    · subst herr
      have hnf : isForbidden (s.client.ListAttachedUserPoliciesPages user.UserName).err = false := by
        rw [← hsnd]; rfl
      simp only [ne_eq, not_true_eq_false, if_false]
      rw [hrest]
      have hn : isForbidden none = false := rfl
      simp [State.call, List.flatMap_cons, hl, List.countP_cons, hn, ← hsnd]
    · have hf : isForbidden err = true := by
        rcases hu with hu | hu
        · exact absurd (hsnd.trans hu) herr
        · rw [hsnd]; exact hu
      simp only [ne_eq, herr, not_false_eq_true, if_true, State.handle_forbidden_eq, hf,
        Bool.not_true, Bool.false_eq_true, if_false]
      rw [hrest]
      simp only [State.call, List.flatMap_cons, hl, List.countP_cons, ← hsnd, hf, if_true,
        List.map_cons, List.append_assoc, List.singleton_append,
        Alerter.sendAll_replicate_succ]

theorem Route53RecordSupplier.listRecords_keeps_going (s : Route53RecordSupplier)
    (zones : List (String × String)) (st : State)
    (h : ∀ zone ∈ zones, (s.client.ListResourceRecordSetsPages zone.1).err = none ∨
      isForbidden (s.client.ListResourceRecordSetsPages zone.1).err = true) :
    s.listRecords zones st =
      (Flow.next (),
        { alerter := st.alerter.sendAll AwsRoute53RecordResourceType
            (List.replicate
              (zones.countP (fun zone =>
                isForbidden (s.client.ListResourceRecordSetsPages zone.1).err))
              (forbiddenAlert AwsRoute53RecordResourceType "")),
          tasks := st.tasks ++ zones.flatMap (fun zone =>
            (listAwsRoute53Records s.client zone.1).1.map (fun raw =>
              readTask s.reader
                { Ty := AwsRoute53RecordResourceType,
                  ID := Route53RecordSupplier.recordId s.toLowerCase zone.1 raw,
                  Attributes := [] })),
          trace := st.trace ++ zones.map (fun zone =>
            Event.call (RemoteCall.ListResourceRecordSetsPages zone.1)
              (s.client.ListResourceRecordSetsPages zone.1).err) }) := by
  induction zones generalizing st with
  | nil => simp [Route53RecordSupplier.listRecords, Alerter.sendAll]
  | cons zone zones ih =>
    have hz := h zone (List.mem_cons_self _ _)
    have hrest := fun (st : State) => ih st (fun z hz => h z (List.mem_cons_of_mem _ hz))
    have hsnd := listAwsRoute53Records_snd s.client zone.1
    rcases hl : listAwsRoute53Records s.client zone.1 with ⟨records, err⟩
    rw [hl] at hsnd
    simp only at hsnd
    unfold Route53RecordSupplier.listRecords Route53RecordSupplier.listRecordsForZone
    simp only [hl]
    by_cases herr : err = none
    · subst herr
      have hnf : isForbidden (s.client.ListResourceRecordSetsPages zone.1).err = false := by
        rw [← hsnd]; rfl
      simp only [ne_eq, not_true_eq_false, if_false]
      rw [hrest, State.foldl_Run]
      have hn : isForbidden none = false := rfl
      simp only [State.call, List.flatMap_cons, hl, List.countP_cons, hn, ← hsnd,
        Bool.false_eq_true, if_false, Nat.add_zero, List.map_cons, List.append_assoc,
        List.singleton_append]
      rfl
    · have hf : isForbidden err = true := by
        rcases hz with hz | hz
        · exact absurd (hsnd.trans hz) herr
        · rw [hsnd]; exact hz
      have hrec : records = [] := by
        have := hl
        have hp : (s.client.ListResourceRecordSetsPages zone.1).err ≠ none := hsnd ▸ herr
        simp only [listAwsRoute53Records, Pager.Pages, ne_eq, hp, not_false_eq_true, if_true,
          Prod.mk.injEq] at this
        exact this.1.symm
      simp only [ne_eq, herr, not_false_eq_true, if_true, State.handle_forbidden_eq, hf,
        Bool.not_true, Bool.false_eq_true, if_false]
      rw [hrest]
      simp only [State.call, List.flatMap_cons, hl, hrec, List.map_nil, List.nil_append,
        List.countP_cons, ← hsnd, hf, if_true, List.map_cons, List.append_assoc,
        List.singleton_append, Alerter.sendAll_replicate_succ]

theorem listAwsRoute53Records_failed (client : Route53API) (zoneId : String)
    (h : (client.ListResourceRecordSetsPages zoneId).err ≠ none) :
    (listAwsRoute53Records client zoneId).1 = [] := by
  simp [listAwsRoute53Records, Pager.Pages, h]

theorem IamUserPolicyAttachmentSupplier.readRes_task (s : IamUserPolicyAttachmentSupplier)
    (users : List User) :
    (users.flatMap (fun user => (listIamUserPoliciesAttachment user.UserName s.client).1)).map
        (fun attached => fun _ => s.readRes attached) =
      users.flatMap (fun user =>
        (listIamUserPoliciesAttachment user.UserName s.client).1.map (fun attached =>
          readTask s.reader
            { Ty := "aws_iam_user_policy_attachment",
              ID := attached.PolicyName,
              Attributes := [("user", user.UserName), ("policy_arn", attached.PolicyArn)] })) := by
  rw [List.map_flatMap]
  congr 1
  funext user
  apply List.map_congr_left
  intro attached hmem
  have hname := listIamUserPoliciesAttachment_username user.UserName s.client attached hmem
  funext u
  simp only [readTask, IamUserPolicyAttachmentSupplier.readRes, hname]
  rfl

theorem wait_deserialize_frame (st1 : State) (d : CTYDeserializer) (runner : ParallelResourceReader) :
    (match st1.Wait runner with
      | ((values, err), st2) =>
        if err ≠ none then ((none, err), st2) else st2.Deserialize d values).2.alerter = st1.alerter ∧
    (match st1.Wait runner with
      | ((values, err), st2) =>
        if err ≠ none then ((none, err), st2) else st2.Deserialize d values).2.tasks = st1.tasks ∧
    ∃ tail,
      (match st1.Wait runner with
        | ((values, err), st2) =>
          if err ≠ none then ((none, err), st2) else st2.Deserialize d values).2.trace =
        st1.trace ++ tail ∧
      ∀ c e, Event.call c e ∉ tail := by
  have hout : (match st1.Wait runner with
      | ((values, err), st2) =>
        if err ≠ none then ((none, err), st2) else st2.Deserialize d values) =
      if (runner.Wait st1.tasks).2 ≠ none then
        ((none, (runner.Wait st1.tasks).2), (st1.Wait runner).2)
      else (st1.Wait runner).2.Deserialize d (runner.Wait st1.tasks).1 := rfl
  rw [hout]
  by_cases h : (runner.Wait st1.tasks).2 = none
  · refine ⟨by simp [h, State.Wait, State.Deserialize], by simp [h, State.Wait, State.Deserialize],
      [Event.wait (runner.Wait st1.tasks).1 (runner.Wait st1.tasks).2,
        Event.deserialize (runner.Wait st1.tasks).1 (d.Deserialize (runner.Wait st1.tasks).1)],
      by simp [h, State.Wait, State.Deserialize], by simp⟩
  · refine ⟨by simp [h, State.Wait], by simp [h, State.Wait],
      [Event.wait (runner.Wait st1.tasks).1 (runner.Wait st1.tasks).2],
      by simp [h, State.Wait], by simp⟩

/-- C26: `IamUserPolicyAttachmentSupplier` and `Route53RecordSupplier` keep going
after a denied per-user or per-zone listing. When the top-level listing succeeds
and every per-parent listing succeeds or is denied with 403, one `Resources()` call
appends to the sink, under the supplier's type, exactly one alert per parent whose
listing was denied; its remote calls are the top-level listing followed by the
listing of every parent, in order; and its tasks are the reads of the items of the
parents whose listing succeeded. -/
theorem Resources_keep_going (a : IamUserPolicyAttachmentSupplier) (r : Route53RecordSupplier)
    (st : State) (users : List User) (zones : List HostedZone)
    (husers : listIamUsers a.client = (users, none))
    (hattached : ∀ user ∈ users,
      (a.client.ListAttachedUserPoliciesPages user.UserName).err = none ∨
      isForbidden (a.client.ListAttachedUserPoliciesPages user.UserName).err = true)
    (hzones : r.client.ListHostedZones = (zones, none))
    (hrecords : ∀ hostedZone ∈ zones,
      (r.client.ListResourceRecordSetsPages
        (strings.TrimPrefix hostedZone.Id "/hostedzone/")).err = none ∨
      isForbidden (r.client.ListResourceRecordSetsPages
        (strings.TrimPrefix hostedZone.Id "/hostedzone/")).err = true) :
    ((a.Resources st).2.alerter =
        st.alerter.sendAll "aws_iam_user_policy_attachment"
          (List.replicate
            (users.countP (fun user =>
              isForbidden (a.client.ListAttachedUserPoliciesPages user.UserName).err))
            (forbiddenAlert "aws_iam_user_policy_attachment" "")) ∧
      ((a.Resources st).2.alerter.Retrieve "aws_iam_user_policy_attachment").length =
        (st.alerter.Retrieve "aws_iam_user_policy_attachment").length +
          users.countP (fun user =>
            isForbidden (a.client.ListAttachedUserPoliciesPages user.UserName).err) ∧
      (∃ tail,
        (a.Resources st).2.trace =
          st.trace ++ Event.call RemoteCall.ListUsersPages none ::
            users.map (fun user =>
              Event.call (RemoteCall.ListAttachedUserPoliciesPages user.UserName)
                (a.client.ListAttachedUserPoliciesPages user.UserName).err) ++ tail ∧
        ∀ c e, Event.call c e ∉ tail) ∧
      (a.Resources st).2.tasks =
        st.tasks ++
          (users.filter (fun user =>
            (a.client.ListAttachedUserPoliciesPages user.UserName).err.isNone)).flatMap
            (fun user =>
              (listIamUserPoliciesAttachment user.UserName a.client).1.map (fun attached =>
                readTask a.reader
                  { Ty := "aws_iam_user_policy_attachment",
                    ID := attached.PolicyName,
                    Attributes := [("user", user.UserName), ("policy_arn", attached.PolicyArn)] }))) ∧
    ((r.Resources st).2.alerter =
        st.alerter.sendAll "aws_route53_record"
          (List.replicate
            (zones.countP (fun hostedZone =>
              isForbidden (r.client.ListResourceRecordSetsPages
                (strings.TrimPrefix hostedZone.Id "/hostedzone/")).err))
            (forbiddenAlert "aws_route53_record" "")) ∧
      ((r.Resources st).2.alerter.Retrieve "aws_route53_record").length =
        (st.alerter.Retrieve "aws_route53_record").length +
          zones.countP (fun hostedZone =>
            isForbidden (r.client.ListResourceRecordSetsPages
              (strings.TrimPrefix hostedZone.Id "/hostedzone/")).err) ∧
      (∃ tail,
        (r.Resources st).2.trace =
          st.trace ++ Event.call RemoteCall.ListHostedZones none ::
            zones.map (fun hostedZone =>
              Event.call
                (RemoteCall.ListResourceRecordSetsPages (strings.TrimPrefix hostedZone.Id "/hostedzone/"))
                (r.client.ListResourceRecordSetsPages
                  (strings.TrimPrefix hostedZone.Id "/hostedzone/")).err) ++ tail ∧
        ∀ c e, Event.call c e ∉ tail) ∧
      (r.Resources st).2.tasks =
        st.tasks ++
          (zones.filter (fun hostedZone =>
            (r.client.ListResourceRecordSetsPages
              (strings.TrimPrefix hostedZone.Id "/hostedzone/")).err.isNone)).flatMap
            (fun hostedZone =>
              (listAwsRoute53Records r.client (strings.TrimPrefix hostedZone.Id "/hostedzone/")).1.map
                (fun raw =>
                  readTask r.reader
                    { Ty := "aws_route53_record",
                      ID := Route53RecordSupplier.recordId r.toLowerCase
                        (strings.TrimPrefix hostedZone.Id "/hostedzone/") raw,
                      Attributes := [] }))) := by
  refine ⟨?_, ?_⟩
  · have hfilter := flatMap_filter_of_nil
      (fun user : User => (a.client.ListAttachedUserPoliciesPages user.UserName).err.isNone)
      (fun user =>
        (listIamUserPoliciesAttachment user.UserName a.client).1.map (fun attached =>
          readTask a.reader
            { Ty := "aws_iam_user_policy_attachment",
              ID := attached.PolicyName,
              Attributes := [("user", user.UserName), ("policy_arn", attached.PolicyArn)] }))
      users
      (fun user _ hp => by
        have hp2 : (a.client.ListAttachedUserPoliciesPages user.UserName).err.isNone = false := hp
        have hne : (a.client.ListAttachedUserPoliciesPages user.UserName).err ≠ none := by
          intro hn
          rw [hn] at hp2
          simp at hp2
        show List.map _ (listIamUserPoliciesAttachment user.UserName a.client).1 = []
        rw [listIamUserPoliciesAttachment_failed user.UserName a.client hne]
        rfl)
    rw [← hfilter, ← a.readRes_task users]
    have hall : (a.Resources st).2.alerter =
          st.alerter.sendAll "aws_iam_user_policy_attachment"
            (List.replicate
              (users.countP (fun user =>
                isForbidden (a.client.ListAttachedUserPoliciesPages user.UserName).err))
              (forbiddenAlert "aws_iam_user_policy_attachment" "")) ∧
        (∃ tail,
          (a.Resources st).2.trace =
            st.trace ++ Event.call RemoteCall.ListUsersPages none ::
              users.map (fun user =>
                Event.call (RemoteCall.ListAttachedUserPoliciesPages user.UserName)
                  (a.client.ListAttachedUserPoliciesPages user.UserName).err) ++ tail ∧
          ∀ c e, Event.call c e ∉ tail) ∧
        (a.Resources st).2.tasks =
          st.tasks ++
            (users.flatMap (fun user =>
              (listIamUserPoliciesAttachment user.UserName a.client).1)).map
              (fun attached => fun _ => a.readRes attached) := by
      unfold IamUserPolicyAttachmentSupplier.Resources
      simp only [husers, ne_eq, not_true_eq_false, if_false]
      by_cases hlen : users.length > 0
      · simp only [hlen, if_true]
        rw [a.listAttachments_keeps_going users [] _ hattached]
        simp only [List.nil_append, State.foldl_Run]
        obtain ⟨h1, h2, tail, h3, h4⟩ := wait_deserialize_frame
          { alerter := (st.call RemoteCall.ListUsersPages none).alerter.sendAll
              AwsIamUserPolicyAttachmentResourceType
              (List.replicate
                (users.countP (fun user =>
                  isForbidden (a.client.ListAttachedUserPoliciesPages user.UserName).err))
                (forbiddenAlert AwsIamUserPolicyAttachmentResourceType "")),
            tasks := (st.call RemoteCall.ListUsersPages none).tasks ++
              (users.flatMap (fun user =>
                (listIamUserPoliciesAttachment user.UserName a.client).1)).map
                (fun attached => fun _ => a.readRes attached),
            trace := (st.call RemoteCall.ListUsersPages none).trace ++
              users.map (fun user =>
                Event.call (RemoteCall.ListAttachedUserPoliciesPages user.UserName)
                  (a.client.ListAttachedUserPoliciesPages user.UserName).err) }
          a.deserializer a.runner
        refine ⟨h1, ⟨tail, ?_, h4⟩, h2⟩
        rw [h3]
        simp [State.call]
      · have hnil : users = [] := by
          cases users with
          | nil => rfl
          | cons u us => simp at hlen
        subst hnil
        refine ⟨by simp [State.Deserialize, State.call, Alerter.sendAll],
          ⟨[Event.deserialize [] (a.deserializer.Deserialize [])],
            by simp [State.Deserialize, State.call], by simp⟩,
          by simp [State.Deserialize, State.call]⟩
    obtain ⟨h1, h2, h3⟩ := hall
    refine ⟨h1, ?_, h2, h3⟩
    rw [h1, Alerter.sendAll_Retrieve, List.length_append, List.length_replicate]
  · have hfilter := flatMap_filter_of_nil
      (fun hostedZone : HostedZone =>
        (r.client.ListResourceRecordSetsPages
          (strings.TrimPrefix hostedZone.Id "/hostedzone/")).err.isNone)
      (fun hostedZone =>
        (listAwsRoute53Records r.client (strings.TrimPrefix hostedZone.Id "/hostedzone/")).1.map
          (fun raw =>
            readTask r.reader
              { Ty := "aws_route53_record",
                ID := Route53RecordSupplier.recordId r.toLowerCase
                  (strings.TrimPrefix hostedZone.Id "/hostedzone/") raw,
                Attributes := [] }))
      zones
      (fun hostedZone _ hp => by
        have hp2 : (r.client.ListResourceRecordSetsPages
            (strings.TrimPrefix hostedZone.Id "/hostedzone/")).err.isNone = false := hp
        have hne : (r.client.ListResourceRecordSetsPages
            (strings.TrimPrefix hostedZone.Id "/hostedzone/")).err ≠ none := by
          intro hn
          rw [hn] at hp2
          simp at hp2
        show List.map _
          (listAwsRoute53Records r.client (strings.TrimPrefix hostedZone.Id "/hostedzone/")).1 = []
        rw [listAwsRoute53Records_failed r.client _ hne]
        rfl)
    rw [← hfilter]
    have hrec2 : ∀ zone ∈ zones.map
        (fun hostedZone => (strings.TrimPrefix hostedZone.Id "/hostedzone/", hostedZone.Name)),
        (r.client.ListResourceRecordSetsPages zone.1).err = none ∨
          isForbidden (r.client.ListResourceRecordSetsPages zone.1).err = true := by
      intro zone hzone
      obtain ⟨hostedZone, hmem, rfl⟩ := List.mem_map.1 hzone
      exact hrecords hostedZone hmem
    have hall : (r.Resources st).2.alerter =
          st.alerter.sendAll "aws_route53_record"
            (List.replicate
              (zones.countP (fun hostedZone =>
                isForbidden (r.client.ListResourceRecordSetsPages
                  (strings.TrimPrefix hostedZone.Id "/hostedzone/")).err))
              (forbiddenAlert "aws_route53_record" "")) ∧
        (∃ tail,
          (r.Resources st).2.trace =
            st.trace ++ Event.call RemoteCall.ListHostedZones none ::
              zones.map (fun hostedZone =>
                Event.call
                  (RemoteCall.ListResourceRecordSetsPages
                    (strings.TrimPrefix hostedZone.Id "/hostedzone/"))
                  (r.client.ListResourceRecordSetsPages
                    (strings.TrimPrefix hostedZone.Id "/hostedzone/")).err) ++ tail ∧
          ∀ c e, Event.call c e ∉ tail) ∧
        (r.Resources st).2.tasks =
          st.tasks ++
            zones.flatMap (fun hostedZone =>
              (listAwsRoute53Records r.client (strings.TrimPrefix hostedZone.Id "/hostedzone/")).1.map
                (fun raw =>
                  readTask r.reader
                    { Ty := "aws_route53_record",
                      ID := Route53RecordSupplier.recordId r.toLowerCase
                        (strings.TrimPrefix hostedZone.Id "/hostedzone/") raw,
                      Attributes := [] })) := by
      unfold Route53RecordSupplier.Resources
      simp only [r.listZones_ok zones hzones, ne_eq, not_true_eq_false, if_false]
      rw [r.listRecords_keeps_going _ _ hrec2]
      simp only []
      obtain ⟨h1, h2, tail, h3, h4⟩ := wait_deserialize_frame
        { alerter := (st.call RemoteCall.ListHostedZones none).alerter.sendAll
            AwsRoute53RecordResourceType
            (List.replicate
              ((zones.map (fun hostedZone =>
                  (strings.TrimPrefix hostedZone.Id "/hostedzone/", hostedZone.Name))).countP
                (fun zone => isForbidden (r.client.ListResourceRecordSetsPages zone.1).err))
              (forbiddenAlert AwsRoute53RecordResourceType "")),
          tasks := (st.call RemoteCall.ListHostedZones none).tasks ++
            (zones.map (fun hostedZone =>
                (strings.TrimPrefix hostedZone.Id "/hostedzone/", hostedZone.Name))).flatMap
              (fun zone =>
                (listAwsRoute53Records r.client zone.1).1.map (fun raw =>
                  readTask r.reader
                    { Ty := AwsRoute53RecordResourceType,
                      ID := Route53RecordSupplier.recordId r.toLowerCase zone.1 raw,
                      Attributes := [] })),
          trace := (st.call RemoteCall.ListHostedZones none).trace ++
            (zones.map (fun hostedZone =>
                (strings.TrimPrefix hostedZone.Id "/hostedzone/", hostedZone.Name))).map
              (fun zone =>
                Event.call (RemoteCall.ListResourceRecordSetsPages zone.1)
                  (r.client.ListResourceRecordSetsPages zone.1).err) }
        r.deserializer r.runner
      refine ⟨?_, ⟨tail, ?_, h4⟩, ?_⟩
      · rw [h1]
        simp only [State.call, List.countP_map]
        rfl
      · rw [h3]
        simp [State.call, List.map_map, Function.comp_def]
      · rw [h2]
        simp only [State.call, List.flatMap_map]
        rfl
    obtain ⟨h1, h2, h3⟩ := hall
    refine ⟨h1, ?_, h2, h3⟩
    rw [h1, Alerter.sendAll_Retrieve, List.length_append, List.length_replicate]

theorem Resources_keep_going_witness :
    ((attachmentsDeniedForAlice.Resources State.fresh).2.alerter.Retrieve
        "aws_iam_user_policy_attachment").length = 1 ∧
    (attachmentsDeniedForAlice.Resources State.fresh).1 =
      (some [Resource.other "aws_iam_user_policy_attachment" "ReadOnly"], none) ∧
    ((recordsDeniedForFirstZone.Resources State.fresh).2.alerter.Retrieve
        "aws_route53_record").length = 1 ∧
    (recordsDeniedForFirstZone.Resources State.fresh).1 =
      (some [Resource.other "aws_route53_record" "Z2_www.two.example_A"], none) :=
  ⟨(Resources_keep_going attachmentsDeniedForAlice recordsDeniedForFirstZone State.fresh
      [{ UserName := "alice" }, { UserName := "bob" }]
      [{ Id := "/hostedzone/Z1", Name := "one.example." },
        { Id := "/hostedzone/Z2", Name := "two.example." }]
      (by decide) (by decide) rfl (by decide)).1.2.1,
    by decide,
    (Resources_keep_going attachmentsDeniedForAlice recordsDeniedForFirstZone State.fresh
      [{ UserName := "alice" }, { UserName := "bob" }]
      [{ Id := "/hostedzone/Z1", Name := "one.example." },
        { Id := "/hostedzone/Z2", Name := "two.example." }]
      (by decide) (by decide) rfl (by decide)).2.2.1,
    by decide⟩

/-! ### No retries -/

theorem Visit.of_call (start : RemoteCall) (err : error) : Visit start [Event.call start err] :=
  ⟨err, [], rfl, by simp⟩

theorem Visited.stay (reader : ResourceReader) (plan : List RemoteCall) (st : State) :
    Visited reader plan st st :=
  ⟨[], [], by simp, List.nil_prefix, by simp, by simp, by simp⟩

theorem Visited.step {reader : ResourceReader} {start : RemoteCall} {plan : List RemoteCall}
    {st st1 st2 : State} {w : List Event} (new1 : List Task)
    (hw : Visit start w) (h1 : st1.trace = st.trace ++ w) (ht1 : st1.tasks = st.tasks ++ new1)
    (hn : ∀ task ∈ new1, ∃ args, task = readTask reader args)
    (hrest : Visited reader plan st1 st2) : Visited reader (start :: plan) st st2 := by
  obtain ⟨visits, new, h2, hp, hv, ht2, hn2⟩ := hrest
  refine ⟨(start, w) :: visits, new1 ++ new, ?_, ?_, ?_, ?_, ?_⟩
  · rw [h2, h1]
    simp [List.flatMap_cons]
  · simpa [List.cons_prefix_cons] using hp
  · intro v hv2
    rcases List.mem_cons.mp hv2 with rfl | hv2
    · exact hw
    · exact hv v hv2
  · rw [ht2, ht1, List.append_assoc]
  · intro task htask
    rcases List.mem_append.mp htask with h | h
    · exact hn task h
    · exact hn2 task h

theorem Visited.of_same {reader : ResourceReader} {plan : List RemoteCall} {st st1 st2 : State}
    (h : Visited reader plan st st1) (htr : st2.trace = st1.trace) (htk : st2.tasks = st1.tasks) :
    Visited reader plan st st2 := by
  obtain ⟨visits, new, h2, hp, hv, ht2, hn2⟩ := h
  exact ⟨visits, new, by rw [htr, h2], hp, hv, by rw [htk, ht2], hn2⟩

theorem State.handleWithMessage_trace (st : State) (err : error) (typ ft : String) :
    (st.handleWithMessage err typ ft).2.trace = st.trace := by
  rw [State.handleWithMessage_eq]
  by_cases h : isForbidden err = true <;> simp [h]

theorem Supplier.Plan.intro {s : Supplier} {st st0 st1 st2 : State} (tail : List Event)
    (new2 : List Task)
    (h0 : st0.trace = st.trace ++ [Event.call s.listCall s.listError])
    (h0t : st0.tasks = st.tasks)
    (hv : Visited s.reader s.visits st0 st1)
    (htr : st2.trace = st1.trace ++ tail) (hnc : ∀ c e, Event.call c e ∉ tail)
    (htk : st2.tasks = st1.tasks ++ new2)
    (hn : ∀ task ∈ new2, ∃ args, task = readTask s.reader args) : s.Plan st st2 := by
  obtain ⟨visits, new, h2, hp, hvis, ht2, hn2⟩ := hv
  refine ⟨visits, tail, new ++ new2, ?_, hp, hvis, hnc, ?_, ?_⟩
  · rw [htr, h2, h0]
    simp
  · rw [htk, ht2, h0t, List.append_assoc]
  · intro task htask
    rcases List.mem_append.mp htask with h | h
    · exact hn2 task h
    · exact hn task h

theorem Supplier.Plan.list_failed {s : Supplier} {st st2 : State}
    (htr : st2.trace = st.trace ++ [Event.call s.listCall s.listError])
    (htk : st2.tasks = st.tasks) : s.Plan st st2 :=
  Supplier.Plan.intro [] [] htr htk
    (Visited.stay _ _ _) (by simp) (by simp) (by simp) (by simp)

theorem Supplier.Plan.wait_deserialize {s : Supplier} {st st0 st1 : State}
    (h0 : st0.trace = st.trace ++ [Event.call s.listCall s.listError])
    (h0t : st0.tasks = st.tasks)
    (hv : Visited s.reader s.visits st0 st1)
    (d : CTYDeserializer) (runner : ParallelResourceReader) :
    s.Plan st
      (match st1.Wait runner with
        | ((values, err), st2) =>
          if err ≠ none then ((none, err), st2) else st2.Deserialize d values).2 := by
  obtain ⟨-, h2, tail, h3, h4⟩ := wait_deserialize_frame st1 d runner
  exact Supplier.Plan.intro _ [] h0 h0t hv h3 h4 (by rw [h2]; simp) (by simp)

theorem Visited.run_after {reader : ResourceReader} {plan : List RemoteCall} {st st1 : State}
    (h : Visited reader plan st st1) (new1 : List Task)
    (hn : ∀ task ∈ new1, ∃ args, task = readTask reader args) :
    Visited reader plan st { st1 with tasks := st1.tasks ++ new1 } := by
  obtain ⟨visits, new, h2, hp, hv, ht2, hn2⟩ := h
  refine ⟨visits, new ++ new1, h2, hp, hv, by simp [ht2], ?_⟩
  intro task htask
  rcases List.mem_append.mp htask with h | h
  · exact hn2 task h
  · exact hn task h

theorem handled_snd {α : Type} (st : State) (err : error) (typ ft : String) (x y : α) :
    (match st.handleWithMessage err typ ft with
      | (handled, st) => if !handled then (x, st) else (y, st)).2 =
      (st.handleWithMessage err typ ft).2 := by
  have h : st.handleWithMessage err typ ft =
      ((st.handleWithMessage err typ ft).1, (st.handleWithMessage err typ ft).2) := rfl
  rw [h]
  simp only []
  split <;> rfl

theorem Supplier.Plan.handled {s : Supplier} {st : State} {err : error} (typ ft : String)
    (x y : Result) (he : err = s.listError) :
    s.Plan st
      (match (st.call s.listCall err).handleWithMessage err typ ft with
        | (handled, st) => if !handled then (x, st) else (y, st)).2 := by
  rw [handled_snd]
  subst he
  exact Supplier.Plan.list_failed (by rw [State.handleWithMessage_trace]; rfl)
    (by rw [State.handleWithMessage_tasks]; rfl)

theorem Supplier.Plan.run_wait_deserialize {s : Supplier} (st st0 st1 : State) {st2 : State}
    {new1 : List Task}
    (h0 : st0.trace = st.trace ++ [Event.call s.listCall s.listError])
    (h0t : st0.tasks = st.tasks)
    (hv : Visited s.reader s.visits st0 st1)
    (htr : st2.trace = st1.trace) (htk : st2.tasks = st1.tasks ++ new1)
    (hn : ∀ task ∈ new1, ∃ args, task = readTask s.reader args)
    (d : CTYDeserializer) (runner : ParallelResourceReader) :
    s.Plan st
      (match st2.Wait runner with
        | ((values, err), st3) =>
          if err ≠ none then ((none, err), st3) else st3.Deserialize d values).2 :=
  Supplier.Plan.wait_deserialize h0 h0t
    ((hv.run_after new1 hn).of_same htr htk) d runner

theorem Supplier.Plan.deserialize_empty {s : Supplier} {st st0 : State}
    (h0 : st0.trace = st.trace ++ [Event.call s.listCall s.listError])
    (h0t : st0.tasks = st.tasks) (d : CTYDeserializer) :
    s.Plan st (st0.Deserialize d []).2 :=
  Supplier.Plan.intro [Event.deserialize [] (d.Deserialize [])] [] h0 h0t
    (Visited.stay _ _ _) (by simp [State.Deserialize]) (by simp) (by simp [State.Deserialize])
    (by simp)

theorem DBSubnetGroupSupplier.dbSubnetGroup_plan (s : DBSubnetGroupSupplier) (st : State) :
    (Supplier.dbSubnetGroup s).Plan st (s.Resources st).2 := by
  unfold DBSubnetGroupSupplier.Resources
  simp only [Pager.Pages]
  by_cases herr : s.client.DescribeDBSubnetGroupsPages.err = none
  · simp only [herr, ne_eq, not_true_eq_false, if_false, State.foldl_Run]
    apply Supplier.Plan.run_wait_deserialize (s := Supplier.dbSubnetGroup s) st
      (st.call RemoteCall.DescribeDBSubnetGroupsPages none)
      (st.call RemoteCall.DescribeDBSubnetGroupsPages none)
    · simp [State.call, Supplier.listCall, Supplier.listError, herr]
    · rfl
    · exact Visited.stay _ _ _
    · rfl
    · rfl
    · intro task htask
      obtain ⟨sub, -, rfl⟩ := List.mem_map.mp htask
      exact ⟨_, rfl⟩
  · simp only [herr, ne_eq, not_false_eq_true, if_true, State.handle_eq_handleWithMessage]
    exact Supplier.Plan.handled (s := Supplier.dbSubnetGroup s) _ _ _ _ rfl

theorem IamUserSupplier.iamUser_plan (s : IamUserSupplier) (st : State) :
    (Supplier.iamUser s).Plan st (s.Resources st).2 := by
  unfold IamUserSupplier.Resources
  have hsnd := listIamUsers_snd s.client
  rcases h : listIamUsers s.client with ⟨users, err⟩
  rw [h] at hsnd
  simp only at hsnd
  simp only []
  by_cases herr : err = none
  · subst herr
    have h0 : (st.call RemoteCall.ListUsersPages none).trace =
        st.trace ++ [Event.call (Supplier.iamUser s).listCall (Supplier.iamUser s).listError] := by
      simp [State.call, Supplier.listCall, Supplier.listError, ← hsnd]
    simp only [ne_eq, not_true_eq_false, if_false]
    by_cases hlen : users.length > 0
    · simp only [hlen, if_true, State.foldl_Run]
      apply Supplier.Plan.run_wait_deserialize (s := Supplier.iamUser s) st
        (st.call RemoteCall.ListUsersPages none) (st.call RemoteCall.ListUsersPages none)
      · exact h0
      · rfl
      · exact Visited.stay _ _ _
      · rfl
      · rfl
      · intro task htask
        obtain ⟨u, -, rfl⟩ := List.mem_map.mp htask
        exact ⟨_, rfl⟩
    · simp only [hlen, if_false]
      exact Supplier.Plan.deserialize_empty h0 rfl _
  · simp only [herr, ne_eq, not_false_eq_true, if_true, State.handle_eq_handleWithMessage]
    exact Supplier.Plan.handled (s := Supplier.iamUser s) _ _ _ _ hsnd

theorem LambdaFunctionSupplier.lambdaFunction_plan (s : LambdaFunctionSupplier) (st : State) :
    (Supplier.lambdaFunction s).Plan st (s.Resources st).2 := by
  unfold LambdaFunctionSupplier.Resources
  have hsnd := listLambdaFunctions_snd s.client
  rcases h : listLambdaFunctions s.client with ⟨functions, err⟩
  rw [h] at hsnd
  simp only at hsnd
  simp only []
  by_cases herr : err = none
  · subst herr
    have h0 : (st.call RemoteCall.ListFunctionsPages none).trace =
        st.trace ++
          [Event.call (Supplier.lambdaFunction s).listCall (Supplier.lambdaFunction s).listError] := by
      simp [State.call, Supplier.listCall, Supplier.listError, ← hsnd]
    simp only [ne_eq, not_true_eq_false, if_false]
    by_cases hlen : functions.length > 0
    · simp only [hlen, if_true, State.foldl_Run]
      apply Supplier.Plan.run_wait_deserialize (s := Supplier.lambdaFunction s) st
        (st.call RemoteCall.ListFunctionsPages none) (st.call RemoteCall.ListFunctionsPages none)
      · exact h0
      · rfl
      · exact Visited.stay _ _ _
      · rfl
      · rfl
      · intro task htask
        obtain ⟨u, -, rfl⟩ := List.mem_map.mp htask
        exact ⟨_, rfl⟩
    · simp only [hlen, if_false]
      exact Supplier.Plan.deserialize_empty h0 rfl _
  · simp only [herr, ne_eq, not_false_eq_true, if_true, State.handle_eq_handleWithMessage]
    exact Supplier.Plan.handled (s := Supplier.lambdaFunction s) _ _ _ _ hsnd

theorem State.handleWithMessage_snd_visited {reader : ResourceReader} {plan : List RemoteCall}
    {st st1 : State} (h : Visited reader plan st st1) (err : error) (typ ft : String) :
    Visited reader plan st (st1.handleWithMessage err typ ft).2 :=
  h.of_same (State.handleWithMessage_trace _ _ _ _) (State.handleWithMessage_tasks _ _ _ _)

theorem Visited.call_stop (reader : ResourceReader) (start : RemoteCall) (plan : List RemoteCall)
    (st : State) (err : error) : Visited reader (start :: plan) st (st.call start err) :=
  Visited.step [] (Visit.of_call start err) rfl (by simp [State.call]) (by simp)
    (Visited.stay _ _ _)

theorem IamUserPolicySupplier.listPolicies_visited (s : IamUserPolicySupplier) (users : List User)
    (policies : List String) (st : State) :
    Visited s.reader (users.map (fun user => RemoteCall.ListUserPoliciesPages user.UserName)) st
      (s.listPolicies users policies st).2 := by
  induction users generalizing policies st with
  | nil => exact Visited.stay _ _ _
  | cons user users ih =>
    unfold IamUserPolicySupplier.listPolicies
    rcases h : listIamUserPolicies user.UserName s.client with ⟨policyList, err⟩
    simp only [h, List.map_cons]
    by_cases herr : err = none
    · subst herr
      simp only [ne_eq, not_true_eq_false, if_false]
      exact Visited.step [] (Visit.of_call _ none) rfl (by simp [State.call]) (by simp)
        (ih _ _)
    · simp only [herr, ne_eq, not_false_eq_true, if_true, State.handle_eq_handleWithMessage]
      rw [handled_snd]
      exact State.handleWithMessage_snd_visited (Visited.call_stop _ _ _ _ _) _ _ _

theorem IamUserPolicyAttachmentSupplier.listAttachments_visited
    (s : IamUserPolicyAttachmentSupplier) (users : List User)
    (attachedPolicies : List attachedUserPolicy) (st : State) :
    Visited s.reader
      (users.map (fun user => RemoteCall.ListAttachedUserPoliciesPages user.UserName)) st
      (s.listAttachments users attachedPolicies st).2 := by
  induction users generalizing attachedPolicies st with
  | nil => exact Visited.stay _ _ _
  | cons user users ih =>
    unfold IamUserPolicyAttachmentSupplier.listAttachments
    rcases h : listIamUserPoliciesAttachment user.UserName s.client with ⟨policyAttachmentList, err⟩
    simp only [h, List.map_cons]
    by_cases herr : err = none
    · subst herr
      simp only [ne_eq, not_true_eq_false, if_false]
      exact Visited.step [] (Visit.of_call _ none) rfl (by simp [State.call]) (by simp)
        (ih _ _)
    · simp only [herr, ne_eq, not_false_eq_true, if_true, State.handle_forbidden_eq]
      by_cases hf : isForbidden err = true
      · simp only [hf, if_true, Bool.not_true, Bool.false_eq_true, if_false]
        exact Visited.step [] (Visit.of_call _ err) rfl (by simp [State.call]) (by simp)
          (ih _ _)
      · simp only [hf, Bool.false_eq_true, if_false, Bool.not_false, if_true]
        exact Visited.call_stop _ _ _ _ _

theorem Route53RecordSupplier.listRecords_visited (s : Route53RecordSupplier)
    (zones : List (String × String)) (st : State) :
    Visited s.reader (zones.map (fun zone => RemoteCall.ListResourceRecordSetsPages zone.1)) st
      (s.listRecords zones st).2 := by
  induction zones generalizing st with
  | nil => exact Visited.stay _ _ _
  | cons zone zones ih =>
    unfold Route53RecordSupplier.listRecords Route53RecordSupplier.listRecordsForZone
    rcases h : listAwsRoute53Records s.client zone.1 with ⟨records, err⟩
    simp only [h, List.map_cons]
    by_cases herr : err = none
    · subst herr
      simp only [ne_eq, not_true_eq_false, if_false, State.foldl_Run]
      refine Visited.step
        (records.map (fun raw => fun _ => s.readRecord zone.1 raw))
        (Visit.of_call _ none) rfl rfl ?_ (ih _)
      intro task htask
      obtain ⟨raw, -, rfl⟩ := List.mem_map.mp htask
      exact ⟨_, rfl⟩
    · simp only [herr, ne_eq, not_false_eq_true, if_true, State.handle_forbidden_eq]
      by_cases hf : isForbidden err = true
      · simp only [hf, if_true, Bool.not_true, Bool.false_eq_true, if_false]
        exact Visited.step [] (Visit.of_call _ err) rfl (by simp [State.call]) (by simp)
          (ih _)
      · simp only [hf, Bool.false_eq_true, if_false, Bool.not_false, if_true]
        exact Visited.call_stop _ _ _ _ _

theorem S3BucketConfigSupplier.listBucketConfiguration_tasks (k : S3ConfigKind)
    (s : S3BucketConfigSupplier) (fuel : Nat) (name region : String) (st : State) (err : error)
    (st2 : State)
    (h : S3BucketConfigSupplier.listBucketConfiguration k s fuel name region st = some (err, st2)) :
    ∃ new, st2.tasks = st.tasks ++ new ∧ ∀ task ∈ new, ∃ args, task = readTask s.reader args := by
  unfold S3BucketConfigSupplier.listBucketConfiguration at h
  rcases hf : S3BucketConfigSupplier.fetch k s region fuel { Bucket := name, ContinuationToken := none }
    [] st with _ | ⟨out, st1⟩
  · simp [hf] at h
  · obtain ⟨-, htk, -⟩ := S3BucketConfigSupplier.fetch_trace k s region fuel _ _ _ _ _ hf
    cases out with
    | error e =>
      simp only [hf, Option.some.injEq, Prod.mk.injEq] at h
      obtain ⟨-, h2⟩ := h
      subst h2
      exact ⟨[], by simp [htk], by simp⟩
    | ok configurationList =>
      simp only [hf, Option.some.injEq, Prod.mk.injEq] at h
      obtain ⟨-, h2⟩ := h
      subst h2
      refine ⟨configurationList.map (fun config =>
        fun _ => S3BucketConfigSupplier.readConfiguration k s (name ++ ":" ++ config.Id) region),
        ?_, ?_⟩
      · rw [State.foldl_Run
          (fun config : Configuration =>
            fun _ => S3BucketConfigSupplier.readConfiguration k s (name ++ ":" ++ config.Id) region)]
        simp [htk]
      · intro task htask
        obtain ⟨config, -, rfl⟩ := List.mem_map.mp htask
        exact ⟨_, rfl⟩

theorem handled_some {α : Type} (st : State) (err : error) (typ ft : String) (x y : α)
    (out : α × State)
    (h : (match st.handleWithMessage err typ ft with
      | (handled, st) => if !handled then some (x, st) else some (y, st)) = some out) :
    out.2 = (st.handleWithMessage err typ ft).2 := by
  have hp : st.handleWithMessage err typ ft =
      ((st.handleWithMessage err typ ft).1, (st.handleWithMessage err typ ft).2) := rfl
  rw [hp] at h
  simp only [] at h
  split at h <;> simp only [Option.some.injEq] at h <;> rw [← h]

theorem S3BucketConfigSupplier.visitBuckets_visited (k : S3ConfigKind) (s : S3BucketConfigSupplier)
    (fuel : Nat) (buckets : List Bucket) :
    ∀ (st : State) (flow : Flow Unit) (st2 : State),
      S3BucketConfigSupplier.visitBuckets k s fuel buckets st = some (flow, st2) →
      Visited s.reader (buckets.map (fun bucket => RemoteCall.GetBucketLocation bucket.Name))
        st st2 := by
  induction buckets with
  | nil =>
    intro st flow st2 h
    simp only [S3BucketConfigSupplier.visitBuckets, Option.some.injEq, Prod.mk.injEq] at h
    obtain ⟨-, h2⟩ := h
    subst h2
    exact Visited.stay _ _ _
  | cons bucket buckets ih =>
    intro st flow st2 h
    unfold S3BucketConfigSupplier.visitBuckets at h
    rcases hr : s.factory.readBucketRegion bucket.Name with ⟨region, err⟩
    simp only [hr] at h
    rw [List.map_cons]
    by_cases herr : err = none
    · subst herr
      simp only [ne_eq, not_true_eq_false, if_false] at h
      by_cases hreg : region = ""
      · simp only [hreg, if_true] at h
        exact Visited.step [] (Visit.of_call _ none) rfl (by simp [State.call]) (by simp)
          (ih _ _ _ h)
      · simp only [hreg, if_false] at h
        rcases hl : S3BucketConfigSupplier.listBucketConfiguration k s fuel bucket.Name region
          (st.call (RemoteCall.GetBucketLocation bucket.Name) none) with _ | ⟨err2, st3⟩
        · simp [hl] at h
        · simp only [hl] at h
          obtain ⟨evs, htr, hev⟩ :=
            S3BucketConfigSupplier.listBucketConfiguration_calls k s fuel _ _ _ _ _ hl
          obtain ⟨new, htk, hnew⟩ :=
            S3BucketConfigSupplier.listBucketConfiguration_tasks k s fuel _ _ _ _ _ hl
          have hvisit : Visit (RemoteCall.GetBucketLocation bucket.Name)
              (Event.call (RemoteCall.GetBucketLocation bucket.Name) none :: evs) := by
            refine ⟨none, evs, rfl, ?_⟩
            intro ev hm
            obtain ⟨r, e, h1, h2⟩ := hev ev hm
            exact ⟨k, region, r, e, h1, by rw [h2]⟩
          have htr3 : st3.trace =
              st.trace ++ (Event.call (RemoteCall.GetBucketLocation bucket.Name) none :: evs) := by
            rw [htr]
            simp [State.call]
          have htk3 : st3.tasks = st.tasks ++ new := by
            rw [htk]
            rfl
          by_cases herr2 : err2 = none
          · subst herr2
            simp only [ne_eq, not_true_eq_false, if_false] at h
            exact Visited.step _ hvisit htr3 htk3 hnew (ih _ _ _ h)
          · simp only [herr2, ne_eq, not_false_eq_true, if_true,
              State.handle_eq_handleWithMessage] at h
            have h2 := handled_some _ _ _ _ _ _ _ h
            simp only at h2
            exact (Visited.step _ hvisit htr3 htk3 hnew (Visited.stay _ _ _)).of_same
              (by rw [h2, State.handleWithMessage_trace])
              (by rw [h2, State.handleWithMessage_tasks])
    · simp only [ne_eq, herr, not_false_eq_true, if_true, Option.some.injEq, Prod.mk.injEq] at h
      obtain ⟨-, h2⟩ := h
      subst h2
      exact Visited.call_stop _ _ _ _ _

theorem S3BucketNotificationSupplier.visitBuckets_notification_visited (s : S3BucketNotificationSupplier)
    (buckets : List Bucket) (st : State) :
    Visited s.reader (buckets.map (fun bucket => RemoteCall.GetBucketLocation bucket.Name)) st
      (s.visitBuckets buckets st).2 := by
  induction buckets generalizing st with
  | nil => exact Visited.stay _ _ _
  | cons bucket buckets ih =>
    unfold S3BucketNotificationSupplier.visitBuckets
    rcases hr : s.factory.readBucketRegion bucket.Name with ⟨region, err⟩
    simp only [hr, List.map_cons]
    by_cases herr : err = none
    · subst herr
      simp only [ne_eq, not_true_eq_false, if_false]
      by_cases hreg : region = ""
      · simp only [hreg, if_true]
        exact Visited.step [] (Visit.of_call _ none) rfl (by simp [State.call]) (by simp)
          (ih _)
      · simp only [hreg, if_false]
        refine Visited.step [fun _ => s.readNotification bucket.Name region]
          (Visit.of_call _ none) rfl rfl ?_ (ih _)
        intro task htask
        simp only [List.mem_singleton] at htask
        subst htask
        exact ⟨_, rfl⟩
    · simp only [ne_eq, herr, not_false_eq_true, if_true]
      exact Visited.call_stop _ _ _ _ _

theorem IamUserPolicySupplier.iamUserPolicy_plan (s : IamUserPolicySupplier) (st : State) :
    (Supplier.iamUserPolicy s).Plan st (s.Resources st).2 := by
  unfold IamUserPolicySupplier.Resources
  have hsnd := listIamUsers_snd s.client
  have hvis : (Supplier.iamUserPolicy s).visits =
      (listIamUsers s.client).1.map (fun user => RemoteCall.ListUserPoliciesPages user.UserName) := rfl
  rcases h : listIamUsers s.client with ⟨users, err⟩
  rw [h] at hsnd hvis
  simp only at hsnd hvis
  simp only []
  by_cases herr : err = none
  · subst herr
    have h0 : (st.call RemoteCall.ListUsersPages none).trace =
        st.trace ++
          [Event.call (Supplier.iamUserPolicy s).listCall (Supplier.iamUserPolicy s).listError] := by
      simp [State.call, Supplier.listCall, Supplier.listError, ← hsnd]
    simp only [ne_eq, not_true_eq_false, if_false]
    by_cases hlen : users.length > 0
    · simp only [hlen, if_true]
      have hv := s.listPolicies_visited users [] (st.call RemoteCall.ListUsersPages none)
      rw [← hvis] at hv
      rcases hl : s.listPolicies users [] (st.call RemoteCall.ListUsersPages none) with ⟨flow, st1⟩
      rw [hl] at hv
      cases flow with
      | done r =>
        exact Supplier.Plan.intro (s := Supplier.iamUserPolicy s) [] [] h0 rfl hv
          (by simp) (by simp) (by simp) (by simp)
      | next policies =>
        simp only [State.foldl_Run]
        apply Supplier.Plan.run_wait_deserialize (s := Supplier.iamUserPolicy s) st
          (st.call RemoteCall.ListUsersPages none) st1
        · exact h0
        · rfl
        · exact hv
        · rfl
        · rfl
        · intro task htask
          obtain ⟨u, -, rfl⟩ := List.mem_map.mp htask
          exact ⟨_, rfl⟩
    · simp only [hlen, if_false]
      exact Supplier.Plan.deserialize_empty h0 rfl _
  · simp only [herr, ne_eq, not_false_eq_true, if_true]
    exact Supplier.Plan.handled (s := Supplier.iamUserPolicy s) _ _ _ _ hsnd

theorem IamUserPolicyAttachmentSupplier.iamUserPolicyAttachment_plan
    (s : IamUserPolicyAttachmentSupplier) (st : State) :
    (Supplier.iamUserPolicyAttachment s).Plan st (s.Resources st).2 := by
  unfold IamUserPolicyAttachmentSupplier.Resources
  have hsnd := listIamUsers_snd s.client
  have hvis : (Supplier.iamUserPolicyAttachment s).visits =
      (listIamUsers s.client).1.map
        (fun user => RemoteCall.ListAttachedUserPoliciesPages user.UserName) := rfl
  rcases h : listIamUsers s.client with ⟨users, err⟩
  rw [h] at hsnd hvis
  simp only at hsnd hvis
  simp only []
  by_cases herr : err = none
  · subst herr
    have h0 : (st.call RemoteCall.ListUsersPages none).trace =
        st.trace ++
          [Event.call (Supplier.iamUserPolicyAttachment s).listCall
            (Supplier.iamUserPolicyAttachment s).listError] := by
      simp [State.call, Supplier.listCall, Supplier.listError, ← hsnd]
    simp only [ne_eq, not_true_eq_false, if_false]
    by_cases hlen : users.length > 0
    · simp only [hlen, if_true]
      have hv := s.listAttachments_visited users [] (st.call RemoteCall.ListUsersPages none)
      rw [← hvis] at hv
      rcases hl : s.listAttachments users [] (st.call RemoteCall.ListUsersPages none) with ⟨flow, st1⟩
      rw [hl] at hv
      cases flow with
      | done r =>
        exact Supplier.Plan.intro (s := Supplier.iamUserPolicyAttachment s) [] []
          h0 rfl hv (by simp) (by simp) (by simp) (by simp)
      | next attachedPolicies =>
        simp only [State.foldl_Run]
        apply Supplier.Plan.run_wait_deserialize (s := Supplier.iamUserPolicyAttachment s) st
          (st.call RemoteCall.ListUsersPages none) st1
        · exact h0
        · rfl
        · exact hv
        · rfl
        · rfl
        · intro task htask
          obtain ⟨u, -, rfl⟩ := List.mem_map.mp htask
          exact ⟨_, rfl⟩
    · simp only [hlen, if_false]
      exact Supplier.Plan.deserialize_empty h0 rfl _
  · simp only [herr, ne_eq, not_false_eq_true, if_true]
    exact Supplier.Plan.handled (s := Supplier.iamUserPolicyAttachment s) _ _ _ _ hsnd

theorem Route53RecordSupplier.route53Record_plan (s : Route53RecordSupplier) (st : State) :
    (Supplier.route53Record s).Plan st (s.Resources st).2 := by
  unfold Route53RecordSupplier.Resources
  have hsnd := s.listZones_snd
  have hvis : (Supplier.route53Record s).visits =
      s.listZones.1.map (fun zone => RemoteCall.ListResourceRecordSetsPages zone.1) := rfl
  rcases h : s.listZones with ⟨zones, err⟩
  rw [h] at hsnd hvis
  simp only at hsnd hvis
  simp only []
  by_cases herr : err = none
  · subst herr
    have h0 : (st.call RemoteCall.ListHostedZones none).trace =
        st.trace ++
          [Event.call (Supplier.route53Record s).listCall (Supplier.route53Record s).listError] := by
      simp [State.call, Supplier.listCall, Supplier.listError, ← hsnd]
    simp only [ne_eq, not_true_eq_false, if_false]
    have hv := s.listRecords_visited zones (st.call RemoteCall.ListHostedZones none)
    rw [← hvis] at hv
    rcases hl : s.listRecords zones (st.call RemoteCall.ListHostedZones none) with ⟨flow, st1⟩
    rw [hl] at hv
    cases flow with
    | done r =>
      exact Supplier.Plan.intro (s := Supplier.route53Record s) [] [] h0 rfl hv
        (by simp) (by simp) (by simp) (by simp)
    | next u =>
      exact Supplier.Plan.wait_deserialize (s := Supplier.route53Record s) h0 rfl hv _ _
  · simp only [herr, ne_eq, not_false_eq_true, if_true]
    exact Supplier.Plan.handled (s := Supplier.route53Record s) _ _ _ _ hsnd

theorem S3BucketNotificationSupplier.s3BucketNotification_plan (s : S3BucketNotificationSupplier)
    (st : State) : (Supplier.s3BucketNotification s).Plan st (s.Resources st).2 := by
  unfold S3BucketNotificationSupplier.Resources
  have hvis : (Supplier.s3BucketNotification s).visits =
      s.factory.ListBuckets.1.map (fun bucket => RemoteCall.GetBucketLocation bucket.Name) := rfl
  have hle : (Supplier.s3BucketNotification s).listError = s.factory.ListBuckets.2 := rfl
  rcases h : s.factory.ListBuckets with ⟨buckets, err⟩
  rw [h] at hvis hle
  simp only at hvis hle
  simp only []
  by_cases herr : err = none
  · subst herr
    have h0 : (st.call RemoteCall.ListBuckets none).trace =
        st.trace ++
          [Event.call (Supplier.s3BucketNotification s).listCall
            (Supplier.s3BucketNotification s).listError] := by
      simp [State.call, Supplier.listCall, hle]
    simp only [ne_eq, not_true_eq_false, if_false]
    have hv := s.visitBuckets_notification_visited buckets (st.call RemoteCall.ListBuckets none)
    rw [← hvis] at hv
    rcases hl : s.visitBuckets buckets (st.call RemoteCall.ListBuckets none) with ⟨flow, st1⟩
    rw [hl] at hv
    cases flow with
    | done r =>
      exact Supplier.Plan.intro (s := Supplier.s3BucketNotification s) [] []
        h0 rfl hv (by simp) (by simp) (by simp) (by simp)
    | next u =>
      simp only []
      simp only [] at hv
      split
      · exact Supplier.Plan.intro (s := Supplier.s3BucketNotification s)
          [Event.wait (s.runner.Wait st1.tasks).1 (s.runner.Wait st1.tasks).2] []
          h0 rfl hv (by simp [State.Wait]) (by simp) (by simp [State.Wait]) (by simp)
      · split <;>
          exact Supplier.Plan.intro (s := Supplier.s3BucketNotification s)
            [Event.wait (s.runner.Wait st1.tasks).1 (s.runner.Wait st1.tasks).2,
              Event.deserialize (s.runner.Wait st1.tasks).1
                (s.deserializer.Deserialize (s.runner.Wait st1.tasks).1)] []
            h0 rfl hv (by simp [State.Wait, State.Deserialize]) (by simp)
            (by simp [State.Wait, State.Deserialize]) (by simp)
  · simp only [herr, ne_eq, not_false_eq_true, if_true]
    exact Supplier.Plan.handled (s := Supplier.s3BucketNotification s) _ _ _ _ hle.symm

theorem S3BucketConfigSupplier.s3BucketConfig_plan (k : S3ConfigKind) (s : S3BucketConfigSupplier)
    (fuel : Nat) (st : State) (res : Result) (st2 : State)
    (h : S3BucketConfigSupplier.Resources k s fuel st = some (res, st2)) :
    (k.supplier s).Plan st st2 := by
  unfold S3BucketConfigSupplier.Resources at h
  have hvis : (k.supplier s).visits =
      s.factory.ListBuckets.1.map (fun bucket => RemoteCall.GetBucketLocation bucket.Name) := by
    cases k <;> rfl
  have hle : (k.supplier s).listError = s.factory.ListBuckets.2 := by
    cases k <;> rfl
  have hrd : (k.supplier s).reader = s.reader := by
    cases k <;> rfl
  rcases hb : s.factory.ListBuckets with ⟨buckets, err⟩
  rw [hb] at hvis hle
  simp only at hvis hle
  simp only [hb] at h
  by_cases herr : err = none
  · subst herr
    have h0 : (st.call RemoteCall.ListBuckets none).trace =
        st.trace ++ [Event.call (k.supplier s).listCall (k.supplier s).listError] := by
      simp [State.call, k.supplier_listCall, hle]
    simp only [ne_eq, not_true_eq_false, if_false] at h
    rcases hl : S3BucketConfigSupplier.visitBuckets k s fuel buckets
        (st.call RemoteCall.ListBuckets none) with _ | ⟨flow, st1⟩
    · simp [hl] at h
    · have hv := S3BucketConfigSupplier.visitBuckets_visited k s fuel buckets _ _ _ hl
      rw [← hvis, ← hrd] at hv
      simp only [hl] at h
      cases flow with
      | done r =>
        simp only [Option.some.injEq, Prod.mk.injEq] at h
        obtain ⟨-, h2⟩ := h
        subst h2
        exact Supplier.Plan.intro [] [] h0 rfl hv
          (by simp) (by simp) (by simp) (by simp)
      | next u =>
        have hp := Supplier.Plan.wait_deserialize (s := k.supplier s) h0 rfl hv s.deserializer
          s.runner
        by_cases hw : (s.runner.Wait st1.tasks).2 = none
        · simp only [State.Wait, hw, ne_eq, not_true_eq_false, if_false, Option.some.injEq] at h hp
          rw [h] at hp
          exact hp
        · simp only [State.Wait, hw, ne_eq, not_false_eq_true, if_true, Option.some.injEq,
            Prod.mk.injEq] at h hp
          obtain ⟨-, rfl⟩ := h
          exact hp
  · simp only [ne_eq, herr, not_false_eq_true, if_true] at h
    have h2 := handled_some _ _ _ _ _ _ _ h
    simp only at h2
    rw [h2]
    exact Supplier.Plan.list_failed
      (by rw [State.handleWithMessage_trace]; simp [State.call, k.supplier_listCall, hle])
      (by rw [State.handleWithMessage_tasks]; rfl)

theorem Supplier.Resources_plan (s : Supplier) (fuel : Nat) (st : State) (res : Result)
    (st2 : State) (h : s.Resources fuel st = some (res, st2)) : s.Plan st st2 := by
  cases s with
  | dbSubnetGroup s =>
    simp only [Supplier.Resources, Option.some.injEq] at h
    have := s.dbSubnetGroup_plan st
    rwa [h] at this
  | iamUser s =>
    simp only [Supplier.Resources, Option.some.injEq] at h
    have := s.iamUser_plan st
    rwa [h] at this
  | iamUserPolicy s =>
    simp only [Supplier.Resources, Option.some.injEq] at h
    have := s.iamUserPolicy_plan st
    rwa [h] at this
  | iamUserPolicyAttachment s =>
    simp only [Supplier.Resources, Option.some.injEq] at h
    have := s.iamUserPolicyAttachment_plan st
    rwa [h] at this
  | lambdaFunction s =>
    simp only [Supplier.Resources, Option.some.injEq] at h
    have := s.lambdaFunction_plan st
    rwa [h] at this
  | route53Record s =>
    simp only [Supplier.Resources, Option.some.injEq] at h
    have := s.route53Record_plan st
    rwa [h] at this
  | s3BucketAnalytic s =>
    exact S3BucketConfigSupplier.s3BucketConfig_plan S3ConfigKind.analytic s fuel st res st2 h
  | s3BucketInventory s =>
    exact S3BucketConfigSupplier.s3BucketConfig_plan S3ConfigKind.inventory s fuel st res st2 h
  | s3BucketMetric s =>
    exact S3BucketConfigSupplier.s3BucketConfig_plan S3ConfigKind.metric s fuel st res st2 h
  | s3BucketNotification s =>
    simp only [Supplier.Resources, Option.some.injEq] at h
    have := s.s3BucketNotification_plan st
    rwa [h] at this

theorem Supplier.getBucketLocation_mem_visits (s : Supplier) (bucket : String)
    (h : RemoteCall.GetBucketLocation bucket ∈ s.visits) :
    s.listCall = RemoteCall.ListBuckets ∧ s.keepsGoing = false := by
  cases s <;> simp [Supplier.visits] at h <;> exact ⟨rfl, rfl⟩

theorem Supplier.listCall_not_mem_visits (s : Supplier) : s.listCall ∉ s.visits := by
  cases s <;> simp [Supplier.visits, Supplier.listCall]

theorem Visit.no_listCall {s : Supplier} {start : RemoteCall} {w : List Event}
    (hs : start ∈ s.visits) (hw : Visit start w) (e : error) : Event.call s.listCall e ∉ w := by
  obtain ⟨err, rest, rfl, hrest⟩ := hw
  intro hm
  rcases List.mem_cons.mp hm with hm | hm
  · simp only [Event.call.injEq] at hm
    exact s.listCall_not_mem_visits (hm.1 ▸ hs)
  · obtain ⟨k, region, request, e2, h1, h2⟩ := hrest _ hm
    simp only [Event.call.injEq] at h1
    have hl := (s.getBucketLocation_mem_visits request.Bucket (h2 ▸ hs)).1
    rw [hl] at h1
    exact k.remoteCall_ne region request h1.1.symm

theorem Visit.one_call_of_keepsGoing {s : Supplier} (hk : s.keepsGoing = true) {start : RemoteCall}
    {w : List Event} (hs : start ∈ s.visits) (hw : Visit start w) :
    w.filterMap Event.remoteCall = [start] := by
  obtain ⟨err, rest, rfl, hrest⟩ := hw
  cases rest with
  | nil => rfl
  | cons ev rest =>
    obtain ⟨k, region, request, e2, -, h2⟩ := hrest ev (List.mem_cons_self _ _)
    have := (s.getBucketLocation_mem_visits request.Bucket (h2 ▸ hs)).2
    rw [hk] at this
    exact absurd this (by simp)

theorem visits_remoteCalls {s : Supplier} (hk : s.keepsGoing = true)
    (visits : List (RemoteCall × List Event))
    (hsub : ∀ v ∈ visits, v.1 ∈ s.visits) (hv : ∀ v ∈ visits, Visit v.1 v.2) :
    (visits.flatMap (fun v => v.2)).filterMap Event.remoteCall = visits.map (fun v => v.1) := by
  induction visits with
  | nil => rfl
  | cons v vs ih =>
    rw [List.flatMap_cons, List.filterMap_append, List.map_cons,
      Visit.one_call_of_keepsGoing hk (hsub v (List.mem_cons_self _ _)) (hv v (List.mem_cons_self _ _)),
      ih (fun x hx => hsub x (List.mem_cons_of_mem _ hx)) (fun x hx => hv x (List.mem_cons_of_mem _ hx))]
    rfl

theorem filterMap_remoteCall_eq_nil (tail : List Event) (h : ∀ c e, Event.call c e ∉ tail) :
    tail.filterMap Event.remoteCall = [] := by
  rw [List.filterMap_eq_nil_iff]
  intro ev hev
  cases ev with
  | call c e => exact absurd hev (h c e)
  | wait values err => rfl
  | deserialize values r => rfl

theorem Finished.failed_then_call {s : Supplier} {evs : List Event} {res : Result}
    (hfin : Finished s evs res) {a b : List Event} {c : RemoteCall} {e : GoError}
    (h : evs = a ++ Event.call c (some e) :: b) (hb : ∃ c2 e2, Event.call c2 e2 ∈ b) :
    isForbidden (some e) = true ∧ s.keepsGoing = true ∧ c.isListing = true ∧ c ≠ s.listCall := by
  obtain ⟨c2, e2, hb⟩ := hb
  have key : ∀ (pre t : List Event), Ongoing s pre → pre ++ t = a ++ Event.call c (some e) :: b →
      (∀ (a2 b2 : List Event), t = a2 ++ Event.call c (some e) :: b2 →
        ∀ c3 e3, Event.call c3 e3 ∉ b2) →
      Event.call c (some e) ∈ pre := by
    intro pre t ho heq ht
    rcases List.append_eq_append_iff.mp heq with ⟨a2, h1, h2⟩ | ⟨c3, h1, h2⟩
    · exact absurd hb (ht a2 b h2 c2 e2)
    · cases c3 with
      | nil =>
        simp only [List.nil_append] at h2
        exact absurd hb (ht [] b h2.symm c2 e2)
      | cons x xs =>
        simp only [List.cons_append, List.cons.injEq] at h2
        rw [h1, ← h2.1]
        simp
  have hpre : ∀ pre, Ongoing s pre → Event.call c (some e) ∈ pre →
      isForbidden (some e) = true ∧ s.keepsGoing = true ∧ c.isListing = true ∧ c ≠ s.listCall :=
    fun pre ho hm => ho.call_mem hm
  have hone : ∀ (x : Event) (a2 b2 : List Event), [x] = a2 ++ Event.call c (some e) :: b2 →
      ∀ c3 e3, Event.call c3 e3 ∉ b2 := by
    intro x a2 b2 h2 c3 e3
    have hl := congrArg List.length h2
    simp only [List.length_append, List.length_cons, List.length_nil] at hl
    have hb2 : b2 = [] := List.length_eq_zero.mp (by omega)
    simp [hb2]
  cases hfin with
  | denied pre c4 e4 ho hd hp => exact hpre pre ho (key pre _ ho h (hone _))
  | failed pre c4 e4 ho hne hd => exact hpre pre ho (key pre _ ho h (hone _))
  | waitFailed pre values e4 ho hne => exact hpre pre ho (key pre _ ho h (hone _))
  | empty pre r ho hr => exact hpre pre ho (key pre _ ho h (hone _))
  | deserialized pre values r ho hr =>
    refine hpre pre ho (key pre _ ho h ?_)
    intro a2 b2 h2 c3 e3 hm
    cases a2 with
    | nil => simp at h2
    | cons x xs =>
      cases xs with
      | nil => simp at h2
      | cons y ys =>
        have hl := congrArg List.length h2
        simp only [List.length_cons, List.length_nil, List.length_append] at hl
        have hb2 : b2 = [] := List.length_eq_zero.mp (by omega)
        rw [hb2] at hm
        simp at hm

/-- C22: no retries. Take an invocation of any supplier that returned, with events
`evs`. The events are the top-level listing, once, then for a prefix of the listed
parents (users, hosted zones, buckets), in listing order and each at most once, the
events of its visit (its listing, or its region lookup followed by the requests of
its configuration listing), then events that are no remote call. A remote call that
failed is the last remote call of the invocation, unless it is a per-parent listing
denied with 403 in one of the two suppliers that keep going; and when the listed
parents are pairwise different, no remote call that failed is issued again. Every
task submitted is a closure that calls `ReadResource` of the supplier's reader
once. -/
theorem Supplier.Resources_no_retry (s : Supplier) (fuel : Nat) (st st2 : State) (res : Result)
    (evs : List Event)
    (h : s.Resources fuel st = some (res, st2))
    (ht : st2.trace = st.trace ++ evs) :
    (∃ (visits : List (RemoteCall × List Event)) (tail : List Event),
      evs = Event.call s.listCall s.listError :: (visits.flatMap (fun v => v.2) ++ tail) ∧
      visits.map (fun v => v.1) <+: s.visits ∧
      (∀ v ∈ visits, Visit v.1 v.2) ∧
      (∀ c e, Event.call c e ∉ tail)) ∧
    (∃ rest, evs = Event.call s.listCall s.listError :: rest ∧
      ∀ e, Event.call s.listCall e ∉ rest) ∧
    (∀ (a b : List Event) (c : RemoteCall) (e : GoError),
      evs = a ++ Event.call c (some e) :: b → (∃ c2 e2, Event.call c2 e2 ∈ b) →
      s.keepsGoing = true ∧ isForbidden (some e) = true ∧ c ≠ s.listCall) ∧
    (s.visits.Nodup → ∀ (a b : List Event) (c : RemoteCall) (e : GoError),
      evs = a ++ Event.call c (some e) :: b → ∀ e2, Event.call c e2 ∉ b) ∧
    (∃ new, st2.tasks = st.tasks ++ new ∧ ∀ task ∈ new, ∃ args, task = readTask s.reader args) := by
  obtain ⟨visits, tail, new, htr, hp, hv, hnc, htk, hnew⟩ := Supplier.Resources_plan s fuel st res st2 h
  obtain ⟨evs1, he, hfin⟩ := Supplier.Resources_summary s fuel st res st2 h
  have hevs1 : evs1 = evs := List.append_cancel_left (he.trace.symm.trans ht)
  subst hevs1
  have hevs : evs1 = Event.call s.listCall s.listError :: (visits.flatMap (fun v => v.2) ++ tail) :=
    List.append_cancel_left (ht.symm.trans htr)
  have hsub : ∀ v ∈ visits, v.1 ∈ s.visits :=
    fun v hm => hp.subset (List.mem_map.mpr ⟨v, hm, rfl⟩)
  have hfail : ∀ (a b : List Event) (c : RemoteCall) (e : GoError),
      evs1 = a ++ Event.call c (some e) :: b → (∃ c2 e2, Event.call c2 e2 ∈ b) →
      s.keepsGoing = true ∧ isForbidden (some e) = true ∧ c ≠ s.listCall := by
    intro a b c e hab hb
    obtain ⟨h1, h2, -, h4⟩ := hfin.failed_then_call hab hb
    exact ⟨h2, h1, h4⟩
  refine ⟨⟨visits, tail, hevs, hp, hv, hnc⟩, ⟨_, hevs, ?_⟩, hfail, ?_, ⟨new, htk, hnew⟩⟩
  · intro e hm
    rcases List.mem_append.mp hm with hm | hm
    · obtain ⟨v, hvm, hm2⟩ := List.mem_flatMap.mp hm
      exact Visit.no_listCall (hsub v hvm) (hv v hvm) e hm2
    · exact hnc _ _ hm
  · intro hnd a b c e hab e2 hm
    obtain ⟨hk, -, hc⟩ := hfail a b c e hab ⟨c, e2, hm⟩
    have hcalls : evs1.filterMap Event.remoteCall = s.listCall :: visits.map (fun v => v.1) := by
      rw [hevs, List.filterMap_cons, List.filterMap_append, visits_remoteCalls hk visits hsub hv,
        filterMap_remoteCall_eq_nil tail hnc]
      simp [Event.remoteCall]
    have hnd2 : (s.listCall :: visits.map (fun v => v.1)).Nodup :=
      List.nodup_cons.mpr
        ⟨fun hm2 => s.listCall_not_mem_visits (hp.subset hm2), hnd.sublist hp.sublist⟩
    rw [← hcalls, hab, List.filterMap_append, List.filterMap_cons] at hnd2
    simp only [Event.remoteCall] at hnd2
    have hcb : c ∈ b.filterMap Event.remoteCall :=
      List.mem_filterMap.mpr ⟨_, hm, rfl⟩
    have := (List.nodup_cons.mp (List.nodup_append.mp hnd2).2.1).1
    exact this hcb

theorem Supplier.Resources_no_retry_witness :
    Event.call (RemoteCall.ListAttachedUserPoliciesPages "alice") none ∉
      [Event.call (RemoteCall.ListAttachedUserPoliciesPages "bob") none,
        Event.wait [CtyValue.object [("type", "aws_iam_user_policy_attachment"), ("id", "ReadOnly")]]
          none,
        Event.deserialize
          [CtyValue.object [("type", "aws_iam_user_policy_attachment"), ("id", "ReadOnly")]]
          (some [Resource.other "aws_iam_user_policy_attachment" "ReadOnly"], none)] :=
  (Supplier.Resources_no_retry (Supplier.iamUserPolicyAttachment attachmentsDeniedForAlice) 0
    State.fresh (attachmentsDeniedForAlice.Resources State.fresh).2
    (attachmentsDeniedForAlice.Resources State.fresh).1
    [Event.call RemoteCall.ListUsersPages none,
      Event.call (RemoteCall.ListAttachedUserPoliciesPages "alice") (some forbidden403),
      Event.call (RemoteCall.ListAttachedUserPoliciesPages "bob") none,
      Event.wait [CtyValue.object [("type", "aws_iam_user_policy_attachment"), ("id", "ReadOnly")]]
        none,
      Event.deserialize
        [CtyValue.object [("type", "aws_iam_user_policy_attachment"), ("id", "ReadOnly")]]
        (some [Resource.other "aws_iam_user_policy_attachment" "ReadOnly"], none)]
    rfl (by decide)).2.2.2.1 (by decide)
    [Event.call RemoteCall.ListUsersPages none]
    [Event.call (RemoteCall.ListAttachedUserPoliciesPages "bob") none,
      Event.wait [CtyValue.object [("type", "aws_iam_user_policy_attachment"), ("id", "ReadOnly")]]
        none,
      Event.deserialize
        [CtyValue.object [("type", "aws_iam_user_policy_attachment"), ("id", "ReadOnly")]]
        (some [Resource.other "aws_iam_user_policy_attachment" "ReadOnly"], none)]
    (RemoteCall.ListAttachedUserPoliciesPages "alice") forbidden403 rfl none

/-! ### Enough fuel -/

theorem S3BucketConfigSupplier.visitBuckets_returns (k : S3ConfigKind) (s : S3BucketConfigSupplier)
    (fuel : Nat) (buckets : List Bucket) (st : State)
    (h : ∀ bucket ∈ buckets, (s.factory.readBucketRegion bucket.Name).1 ≠ "" →
      ∃ (truncated : List ListConfigurationsOutput)
        (final : Except GoError ListConfigurationsOutput),
        S3BucketConfigSupplier.Answers k s (s.factory.readBucketRegion bucket.Name).1 bucket.Name
          none truncated final ∧
        truncated.length + 1 ≤ fuel) :
    ∃ r, S3BucketConfigSupplier.visitBuckets k s fuel buckets st = some r := by
  induction buckets generalizing st with
  | nil => exact ⟨_, rfl⟩
  | cons bucket buckets ih =>
    have hb := h bucket (List.mem_cons_self _ _)
    have hrest := fun st => ih st (fun b hb => h b (List.mem_cons_of_mem _ hb))
    unfold S3BucketConfigSupplier.visitBuckets
    rcases hr : s.factory.readBucketRegion bucket.Name with ⟨region, err⟩
    rw [hr] at hb
    simp only [hr]
    by_cases herr : err = none
    · subst herr
      simp only [ne_eq, not_true_eq_false, if_false]
      by_cases hreg : region = ""
      · simp only [hreg, if_true]
        exact hrest _
      · simp only [hreg, if_false]
        obtain ⟨truncated, final, ha, hf⟩ := hb hreg
        unfold S3BucketConfigSupplier.listBucketConfiguration
        rw [S3BucketConfigSupplier.fetch_answers k s region bucket.Name truncated final fuel none []
          _ ha hf]
        cases final with
        | error e =>
          simp only [ne_eq, reduceCtorEq, not_false_eq_true, if_true]
          split <;> exact ⟨_, rfl⟩
        | ok last =>
          simp only [ne_eq, not_true_eq_false, if_false]
          exact hrest _
    · simp only [ne_eq, herr, not_false_eq_true, if_true]
      exact ⟨_, rfl⟩

theorem Supplier.Resources_returns (s : Supplier) (fuel : Nat) (st : State)
    (h : s.WalksEnd fuel) : ∃ r, s.Resources fuel st = some r := by
  have key : ∀ (k : S3ConfigKind) (c : S3BucketConfigSupplier),
      S3BucketConfigSupplier.WalksEnd k c fuel →
      ∃ r, S3BucketConfigSupplier.Resources k c fuel st = some r := by
    intro k c hw
    unfold S3BucketConfigSupplier.Resources
    rcases hb : c.factory.ListBuckets with ⟨buckets, err⟩
    simp only
    by_cases herr : err = none
    · subst herr
      simp only [ne_eq, not_true_eq_false, if_false]
      obtain ⟨r, hr⟩ := S3BucketConfigSupplier.visitBuckets_returns k c fuel buckets
        (st.call RemoteCall.ListBuckets none) (by
          intro bucket hm
          exact hw bucket (by rw [hb]; exact hm))
      rw [hr]
      rcases r with ⟨flow, st1⟩
      cases flow with
      | done r => exact ⟨_, rfl⟩
      | next a =>
        simp only
        split <;> exact ⟨_, rfl⟩
    · simp only [ne_eq, herr, not_false_eq_true, if_true]
      split <;> exact ⟨_, rfl⟩
  cases s with
  | s3BucketAnalytic c => exact key S3ConfigKind.analytic c h
  | s3BucketInventory c => exact key S3ConfigKind.inventory c h
  | s3BucketMetric c => exact key S3ConfigKind.metric c h
  | _ => exact ⟨_, rfl⟩

/-! ### Denied listings are not surfaced -/

/-- C8, for the listing calls. Take any supplier whose configuration listings end
within the fuel (a condition on the answers of the S3 client, void for the seven
suppliers without such a listing). Then `Resources()` returns, with a result `res`
and events `evs`, and a listing denied with 403 is not surfaced: when it is the
top-level listing, or any listing of one of the eight suppliers that return after a
denied listing, `Resources()` returns the empty list and a nil error; and whenever
the error `Resources()` returns is a 403 request failure, it is the error of the
bucket-region lookup, of `Wait()` or of the deserializer. Those are surfaced: an
error of the region lookup, and an error of `Wait()`, 403 or not, is returned with
the nil list. The result is the same with any larger fuel. -/
theorem Supplier.Resources_denied_listing_not_surfaced (s : Supplier) (fuel : Nat) (st : State)
    (hw : s.WalksEnd fuel) :
    ∃ (res : Result) (st2 : State) (evs : List Event),
      s.Resources fuel st = some (res, st2) ∧
      st2.trace = st.trace ++ evs ∧
      (∀ c err, Event.call c err ∈ evs → deniedListing c err = true →
        (s.keepsGoing = false ∨ c = s.listCall) → res = (some [], none)) ∧
      (∀ e, res.2 = some e → isForbidden (some e) = true →
        (∃ bucket, Event.call (RemoteCall.GetBucketLocation bucket) (some e) ∈ evs) ∨
        (∃ values, Event.wait values (some e) ∈ evs) ∨
        (∃ values r, Event.deserialize values (r, some e) ∈ evs)) ∧
      (∀ bucket e, Event.call (RemoteCall.GetBucketLocation bucket) (some e) ∈ evs →
        res = (none, some e)) ∧
      (∀ values e, Event.wait values (some e) ∈ evs → res = (none, some e)) ∧
      (∀ fuel2, fuel ≤ fuel2 → s.Resources fuel2 st = some (res, st2)) := by
  obtain ⟨⟨res, st2⟩, h⟩ := Supplier.Resources_returns s fuel st hw
  obtain ⟨evs, he, hfin⟩ := Supplier.Resources_summary s fuel st res st2 h
  refine ⟨res, st2, evs, h, he.trace, ?_, ?_, ?_, ?_,
    fun fuel2 hle => Supplier.Resources_mono s fuel fuel2 hle st _ h⟩
  · intro c err hm hd hs
    exact hfin.denied_result hm hd hs
  · intro e hr hf
    exact hfin.forbidden_error_source hr hf
  · intro bucket e hm
    exact hfin.failed_result hm (by simp [deniedListing, RemoteCall.isListing])
  · intro values e hm
    exact hfin.wait_failed_result hm

theorem Supplier.Resources_denied_listing_not_surfaced_witness :
    (Supplier.s3BucketAnalytic analyticsDeniedForMedia).WalksEnd 2 ∧
    ((Supplier.s3BucketAnalytic analyticsDeniedForMedia).Resources 2 State.fresh).map
        (fun r => (r.1, r.2.trace)) =
      some ((some [], none),
        [Event.call RemoteCall.ListBuckets none,
         Event.call (RemoteCall.GetBucketLocation "logs") none,
         Event.call (RemoteCall.ListBucketAnalyticsConfigurations "eu-west-1" "logs" none) none,
         Event.call (RemoteCall.ListBucketAnalyticsConfigurations "eu-west-1" "logs" (some "page2"))
           none,
         Event.call (RemoteCall.GetBucketLocation "media") none,
         Event.call (RemoteCall.ListBucketAnalyticsConfigurations "eu-west-3" "media" none)
           (some forbidden403)]) ∧
    deniedListing (RemoteCall.ListBucketAnalyticsConfigurations "eu-west-3" "media" none)
      (some forbidden403) = true ∧
    ((Supplier.s3BucketAnalytic analyticsDeniedForMedia).Resources 1 State.fresh).isNone = true := by
  have hw : (Supplier.s3BucketAnalytic analyticsDeniedForMedia).WalksEnd 2 := by
    intro bucket hm hreg
    change bucket ∈ [({ Name := "logs" } : Bucket), { Name := "media" }, { Name := "backup" }] at hm
    simp only [List.mem_cons, List.mem_singleton, List.not_mem_nil, or_false] at hm
    rcases hm with rfl | rfl | rfl
    · exact ⟨[logsFirstPage], .ok logsLastPage,
        ⟨rfl, rfl, rfl, fun r h => by
          injection h with h
          subst h
          decide⟩, by decide⟩
    · exact ⟨[], .error forbidden403, ⟨rfl, fun r h => by cases h⟩, by decide⟩
    · exact ⟨[], .ok { ConfigurationList := [], IsTruncated := none, NextContinuationToken := none },
        ⟨rfl, fun r h => by
          injection h with h
          subst h
          decide⟩, by decide⟩
  obtain ⟨res, st2, evs, h, ht, hdenied, -, -, -, -⟩ :=
    Supplier.Resources_denied_listing_not_surfaced
      (Supplier.s3BucketAnalytic analyticsDeniedForMedia) 2 State.fresh hw
  have htrace : ((Supplier.s3BucketAnalytic analyticsDeniedForMedia).Resources 2 State.fresh).map
      (fun r => r.2.trace) =
      some [Event.call RemoteCall.ListBuckets none,
         Event.call (RemoteCall.GetBucketLocation "logs") none,
         Event.call (RemoteCall.ListBucketAnalyticsConfigurations "eu-west-1" "logs" none) none,
         Event.call (RemoteCall.ListBucketAnalyticsConfigurations "eu-west-1" "logs" (some "page2"))
           none,
         Event.call (RemoteCall.GetBucketLocation "media") none,
         Event.call (RemoteCall.ListBucketAnalyticsConfigurations "eu-west-3" "media" none)
           (some forbidden403)] := by
    decide
  rw [h] at htrace
  simp only [Option.map_some', Option.some.injEq] at htrace
  have hevs : evs = st2.trace := by
    rw [ht]
    rfl
  have hres : res = (some [], none) :=
    hdenied (RemoteCall.ListBucketAnalyticsConfigurations "eu-west-3" "media" none)
      (some forbidden403) (by rw [hevs, htrace]; simp) (by decide) (Or.inl rfl)
  refine ⟨hw, ?_, by decide, by decide⟩
  rw [h]
  simp only [Option.map_some', hres, htrace]

/-! ### When every listing succeeds -/

theorem wait_deserialize_ok (st1 : State) (d : CTYDeserializer) (runner : ParallelResourceReader)
    (values : List CtyValue) (h : runner.Wait st1.tasks = (values, none)) :
    (match st1.Wait runner with
      | ((values, err), st2) =>
        if err ≠ none then ((none, err), st2) else st2.Deserialize d values) =
      (d.Deserialize values,
        { st1 with trace := st1.trace ++
            [Event.wait values none, Event.deserialize values (d.Deserialize values)] }) := by
  simp [State.Wait, State.Deserialize, h]

theorem wait_deserialize_failed (st1 : State) (d : CTYDeserializer)
    (runner : ParallelResourceReader) (values : List CtyValue) (err : GoError)
    (h : runner.Wait st1.tasks = (values, some err)) :
    (match st1.Wait runner with
      | ((values, err), st2) =>
        if err ≠ none then ((none, err), st2) else st2.Deserialize d values) =
      ((none, some err), { st1 with trace := st1.trace ++ [Event.wait values (some err)] }) := by
  simp [State.Wait, h]

theorem IamUserPolicySupplier.listPolicies_succeed (s : IamUserPolicySupplier) (users : List User)
    (policies : List String) (st : State)
    (h : ∀ user ∈ users, (s.client.ListUserPoliciesPages user.UserName).err = none) :
    s.listPolicies users policies st =
      (Flow.next (policies ++ users.flatMap (fun user =>
          (listIamUserPolicies user.UserName s.client).1.map
            (fun polName => user.UserName ++ ":" ++ polName))),
        { st with trace := st.trace ++ users.map (fun user =>
            Event.call (RemoteCall.ListUserPoliciesPages user.UserName) none) }) := by
  induction users generalizing policies st with
  | nil => simp [IamUserPolicySupplier.listPolicies]
  | cons user users ih =>
    have hu := h user (List.mem_cons_self _ _)
    have hsnd := listIamUserPolicies_snd user.UserName s.client
    rcases hl : listIamUserPolicies user.UserName s.client with ⟨policyList, err⟩
    rw [hl, hu] at hsnd
    simp only at hsnd
    subst hsnd
    unfold IamUserPolicySupplier.listPolicies
    simp only [hl, ne_eq, not_true_eq_false, if_false]
    rw [ih _ _ (fun u hu => h u (List.mem_cons_of_mem _ hu)), IamUserPolicySupplier.foldl_policies]
    simp [List.flatMap_cons, hl, State.call]

theorem countP_isForbidden_of_none {α : Type} (l : List α) (f : α → error)
    (h : ∀ x ∈ l, f x = none) : l.countP (fun x => isForbidden (f x)) = 0 := by
  rw [List.countP_eq_zero]
  intro x hx
  rw [h x hx]
  simp [isForbidden]

theorem map_call_of_none {α : Type} (l : List α) (c : α → RemoteCall) (f : α → error)
    (h : ∀ x ∈ l, f x = none) :
    l.map (fun x => Event.call (c x) (f x)) = l.map (fun x => Event.call (c x) none) := by
  apply List.map_congr_left
  intro x hx
  rw [h x hx]

theorem S3BucketConfigSupplier.visitBuckets_succeed (k : S3ConfigKind) (s : S3BucketConfigSupplier)
    (fuel : Nat) (buckets : List Bucket)
    (h : ∀ bucket ∈ buckets,
      (s.factory.readBucketRegion bucket.Name).2 = none ∧
      ((s.factory.readBucketRegion bucket.Name).1 ≠ "" →
        ∃ (truncated : List ListConfigurationsOutput) (last : ListConfigurationsOutput),
          S3BucketConfigSupplier.Answers k s (s.factory.readBucketRegion bucket.Name).1 bucket.Name
            none truncated (.ok last) ∧
          truncated.length + 1 ≤ fuel)) :
    ∃ (calls : List Event) (tasks : List Task),
      (∀ ev ∈ calls, ∃ c, ev = Event.call c none) ∧
      (∀ task ∈ tasks, ∃ args, task = readTask s.reader args) ∧
      ∀ st : State,
        S3BucketConfigSupplier.visitBuckets k s fuel buckets st =
          some (Flow.next (),
            { alerter := st.alerter, tasks := st.tasks ++ tasks, trace := st.trace ++ calls }) := by
  induction buckets with
  | nil => exact ⟨[], [], by simp, by simp, by simp [S3BucketConfigSupplier.visitBuckets]⟩
  | cons bucket buckets ih =>
    obtain ⟨hb1, hb2⟩ := h bucket (List.mem_cons_self _ _)
    obtain ⟨calls, tasks, hc, ht, he⟩ := ih (fun b hb => h b (List.mem_cons_of_mem _ hb))
    rcases hr : s.factory.readBucketRegion bucket.Name with ⟨region, err⟩
    rw [hr] at hb1 hb2
    simp only at hb1 hb2
    subst hb1
    by_cases hreg : region = ""
    · refine ⟨Event.call (RemoteCall.GetBucketLocation bucket.Name) none :: calls, tasks, ?_, ht, ?_⟩
      · intro ev hev
        rcases List.mem_cons.mp hev with rfl | hev
        · exact ⟨_, rfl⟩
        · exact hc ev hev
      · intro st
        unfold S3BucketConfigSupplier.visitBuckets
        simp only [hr, ne_eq, not_true_eq_false, if_false, hreg, if_true]
        rw [he]
        simp [State.call]
    · obtain ⟨truncated, last, ha, hf⟩ := hb2 hreg
      refine ⟨Event.call (RemoteCall.GetBucketLocation bucket.Name) none ::
          ((none :: truncated.map (fun r => r.NextContinuationToken)).map (fun token =>
            Event.call (k.remoteCall region { Bucket := bucket.Name, ContinuationToken := token })
              none) ++ calls),
        ((truncated.map (fun r => r.ConfigurationList)).flatten ++ last.ConfigurationList).map
            (fun config =>
              readTask s.reader
                { Ty := k.resourceType, ID := bucket.Name ++ ":" ++ config.Id,
                  Attributes := [("aws_region", region)] }) ++ tasks, ?_, ?_, ?_⟩
      · intro ev hev
        rcases List.mem_cons.mp hev with rfl | hev
        · exact ⟨_, rfl⟩
        · rcases List.mem_append.mp hev with hev | hev
          · obtain ⟨token, -, rfl⟩ := List.mem_map.mp hev
            exact ⟨_, rfl⟩
          · exact hc ev hev
      · intro task htask
        rcases List.mem_append.mp htask with htask | htask
        · obtain ⟨config, -, rfl⟩ := List.mem_map.mp htask
          exact ⟨_, rfl⟩
        · exact ht task htask
      · intro st
        unfold S3BucketConfigSupplier.visitBuckets
        simp only [hr, ne_eq, not_true_eq_false, if_false, hreg]
        unfold S3BucketConfigSupplier.listBucketConfiguration
        rw [S3BucketConfigSupplier.fetch_answers k s region bucket.Name truncated (.ok last) fuel
          none [] _ ha hf]
        simp only [ne_eq, not_true_eq_false, if_false, answerError, S3ConfigKind.walkEvents_ok,
          State.foldl_Run, S3BucketConfigSupplier.readConfiguration_task, List.nil_append]
        rw [he]
        simp [State.call]

theorem Supplier.Resources_after_listings (s : Supplier)
    (hs : ∀ n, s ≠ Supplier.s3BucketNotification n) (fuel : Nat) (st : State)
    (hl : s.ListingsSucceed fuel) :
    ∃ (calls : List Event) (tasks : List Task),
      (∀ ev ∈ calls, ∃ c, ev = Event.call c none) ∧
      (∀ task ∈ tasks, ∃ args, task = readTask s.reader args) ∧
      s.Resources fuel st = some
        (if s.guardsFanOut = true ∧ s.listed = 0 then
          State.Deserialize
            { alerter := st.alerter, tasks := st.tasks ++ tasks, trace := st.trace ++ calls }
            s.deserializer []
        else
          match State.Wait
              { alerter := st.alerter, tasks := st.tasks ++ tasks, trace := st.trace ++ calls }
              s.runner with
          | ((values, err), st2) =>
            if err ≠ none then ((none, err), st2) else st2.Deserialize s.deserializer values) := by
  have key : ∀ (k : S3ConfigKind) (c : S3BucketConfigSupplier),
      S3BucketConfigSupplier.ListingsSucceed k c fuel →
      ∃ (calls : List Event) (tasks : List Task),
        (∀ ev ∈ calls, ∃ c, ev = Event.call c none) ∧
        (∀ task ∈ tasks, ∃ args, task = readTask c.reader args) ∧
        S3BucketConfigSupplier.Resources k c fuel st = some
          (match State.Wait
              { alerter := st.alerter, tasks := st.tasks ++ tasks, trace := st.trace ++ calls }
              c.runner with
          | ((values, err), st2) =>
            if err ≠ none then ((none, err), st2) else st2.Deserialize c.deserializer values) := by
    intro k c hk
    obtain ⟨hk1, hk2⟩ := hk
    rcases hb : c.factory.ListBuckets with ⟨buckets, err⟩
    rw [hb] at hk1 hk2
    simp only at hk1 hk2
    subst hk1
    obtain ⟨calls, tasks, hc, ht, he⟩ :=
      S3BucketConfigSupplier.visitBuckets_succeed k c fuel buckets hk2
    refine ⟨Event.call RemoteCall.ListBuckets none :: calls, tasks, ?_, ht, ?_⟩
    · intro ev hev
      rcases List.mem_cons.mp hev with rfl | hev
      · exact ⟨_, rfl⟩
      · exact hc ev hev
    · unfold S3BucketConfigSupplier.Resources
      simp only [hb, ne_eq, not_true_eq_false, if_false, he, State.call, List.append_assoc,
        List.singleton_append]
      split <;> rfl
  cases s with
  | dbSubnetGroup c =>
    have hl2 : c.client.DescribeDBSubnetGroupsPages.err = none := hl
    refine ⟨[Event.call RemoteCall.DescribeDBSubnetGroupsPages none],
      (Pager.received c.client.DescribeDBSubnetGroupsPages.pages).flatten.map (fun subnetGroup =>
        readTask c.reader
          { ID := subnetGroup.DBSubnetGroupName, Ty := AwsDbSubnetGroupResourceType,
            Attributes := [] }),
      by simp, ?_, ?_⟩
    · intro task ht
      obtain ⟨x, -, rfl⟩ := List.mem_map.mp ht
      exact ⟨_, rfl⟩
    · simp only [Supplier.Resources, Supplier.guardsFanOut, Bool.false_eq_true, false_and,
        if_false, DBSubnetGroupSupplier.Resources, Pager.Pages, hl2, ne_eq, not_true_eq_false,
        State.foldl_Run, Pager.deliver_append, State.call, List.nil_append]
      rfl
  | iamUser c =>
    have hl2 : c.client.ListUsersPages.err = none := hl
    have hu := listIamUsers_ok c.client hl2
    refine ⟨[Event.call RemoteCall.ListUsersPages none],
      (listIamUsers c.client).1.map (fun user =>
        readTask c.reader { Ty := AwsIamUserResourceType, ID := user.UserName, Attributes := [] }),
      by simp, ?_, ?_⟩
    · intro task ht
      obtain ⟨x, -, rfl⟩ := List.mem_map.mp ht
      exact ⟨_, rfl⟩
    · rcases hlist : listIamUsers c.client with ⟨users, err⟩
      have herr : err = none := by
        have := congrArg Prod.snd hu
        rw [hlist] at this
        exact this
      subst herr
      simp only [Supplier.Resources, Supplier.guardsFanOut, Supplier.listed, true_and,
        IamUserSupplier.Resources, hlist, ne_eq, not_true_eq_false, if_false, State.foldl_Run,
        State.call]
      cases users with
      | nil =>
        simp
        rfl
      | cons u us =>
        simp only [List.length_cons, gt_iff_lt, Nat.zero_lt_succ, if_true, Nat.succ_ne_zero,
          Nat.add_one_ne_zero, if_false]
        rfl
  | lambdaFunction c =>
    have hl2 : c.client.ListFunctionsPages.err = none := hl
    have hu := listLambdaFunctions_ok c.client hl2
    refine ⟨[Event.call RemoteCall.ListFunctionsPages none],
      (listLambdaFunctions c.client).1.map (fun function =>
        readTask c.reader
          { Ty := AwsLambdaFunctionResourceType, ID := function.FunctionName,
            Attributes := [("function_name", function.FunctionName)] }),
      by simp, ?_, ?_⟩
    · intro task ht
      obtain ⟨x, -, rfl⟩ := List.mem_map.mp ht
      exact ⟨_, rfl⟩
    · rcases hlist : listLambdaFunctions c.client with ⟨functions, err⟩
      have herr : err = none := by
        have := congrArg Prod.snd hu
        rw [hlist] at this
        exact this
      subst herr
      simp only [Supplier.Resources, Supplier.guardsFanOut, Supplier.listed, true_and,
        LambdaFunctionSupplier.Resources, hlist, ne_eq, not_true_eq_false, if_false,
        State.foldl_Run, State.call]
      cases functions with
      | nil =>
        simp
        rfl
      | cons u us =>
        simp only [List.length_cons, gt_iff_lt, Nat.zero_lt_succ, if_true, Nat.succ_ne_zero,
          Nat.add_one_ne_zero, if_false]
        rfl
  | iamUserPolicy c =>
    obtain ⟨hl1, hl2⟩ := hl
    have hu := listIamUsers_ok c.client hl1
    rcases hlist : listIamUsers c.client with ⟨users, err⟩
    have herr : err = none := by
      have := congrArg Prod.snd hu
      rw [hlist] at this
      exact this
    subst herr
    rw [hlist] at hl2
    simp only at hl2
    refine ⟨Event.call RemoteCall.ListUsersPages none ::
        users.map (fun user => Event.call (RemoteCall.ListUserPoliciesPages user.UserName) none),
      (users.flatMap (fun user =>
        (listIamUserPolicies user.UserName c.client).1.map
          (fun polName => user.UserName ++ ":" ++ polName))).map (fun polName =>
        readTask c.reader { Ty := AwsIamUserPolicyResourceType, ID := polName, Attributes := [] }),
      ?_, ?_, ?_⟩
    · intro ev hev
      rcases List.mem_cons.mp hev with rfl | hev
      · exact ⟨_, rfl⟩
      · obtain ⟨x, -, rfl⟩ := List.mem_map.mp hev
        exact ⟨_, rfl⟩
    · intro task ht
      obtain ⟨x, -, rfl⟩ := List.mem_map.mp ht
      exact ⟨_, rfl⟩
    · simp only [Supplier.Resources, Supplier.guardsFanOut, Supplier.listed, true_and,
        IamUserPolicySupplier.Resources, hlist, ne_eq, not_true_eq_false, if_false]
      cases users with
      | nil =>
        simp [State.call]
        rfl
      | cons u us =>
        simp only [List.length_cons, gt_iff_lt, Nat.zero_lt_succ, if_true, Nat.succ_ne_zero,
          Nat.add_one_ne_zero, if_false]
        rw [IamUserPolicySupplier.listPolicies_succeed c _ _ _ hl2]
        simp only [State.foldl_Run, State.call, List.nil_append, List.append_assoc,
          List.singleton_append]
        rfl
  | iamUserPolicyAttachment c =>
    obtain ⟨hl1, hl2⟩ := hl
    have hu := listIamUsers_ok c.client hl1
    rcases hlist : listIamUsers c.client with ⟨users, err⟩
    have herr : err = none := by
      have := congrArg Prod.snd hu
      rw [hlist] at this
      exact this
    subst herr
    rw [hlist] at hl2
    simp only at hl2
    refine ⟨Event.call RemoteCall.ListUsersPages none ::
        users.map (fun user =>
          Event.call (RemoteCall.ListAttachedUserPoliciesPages user.UserName) none),
      (users.flatMap (fun user =>
        (listIamUserPoliciesAttachment user.UserName c.client).1)).map (fun attached =>
        readTask c.reader
          { Ty := AwsIamUserPolicyAttachmentResourceType,
            ID := attached.PolicyName,
            Attributes := [("user", attached.Username), ("policy_arn", attached.PolicyArn)] }),
      ?_, ?_, ?_⟩
    · intro ev hev
      rcases List.mem_cons.mp hev with rfl | hev
      · exact ⟨_, rfl⟩
      · obtain ⟨x, -, rfl⟩ := List.mem_map.mp hev
        exact ⟨_, rfl⟩
    · intro task ht
      obtain ⟨x, -, rfl⟩ := List.mem_map.mp ht
      exact ⟨_, rfl⟩
    · simp only [Supplier.Resources, Supplier.guardsFanOut, Supplier.listed, true_and,
        IamUserPolicyAttachmentSupplier.Resources, hlist, ne_eq, not_true_eq_false, if_false]
      cases users with
      | nil =>
        simp [State.call]
        rfl
      | cons u us =>
        simp only [List.length_cons, gt_iff_lt, Nat.zero_lt_succ, if_true, Nat.succ_ne_zero,
          Nat.add_one_ne_zero, if_false]
        rw [c.listAttachments_keeps_going _ _ _ (fun user hu => Or.inl (hl2 user hu)),
          countP_isForbidden_of_none (u :: us)
            (fun user => (c.client.ListAttachedUserPoliciesPages user.UserName).err) hl2,
          map_call_of_none (u :: us)
            (fun user => RemoteCall.ListAttachedUserPoliciesPages user.UserName)
            (fun user => (c.client.ListAttachedUserPoliciesPages user.UserName).err) hl2]
        simp only [List.replicate_zero, Alerter.sendAll, List.foldl_nil, State.foldl_Run,
          State.call, List.nil_append, List.append_assoc, List.singleton_append]
        rfl
  | route53Record c =>
    obtain ⟨hl1, hl2⟩ := hl
    rcases hz : c.client.ListHostedZones with ⟨hostedZones, err⟩
    rw [hz] at hl1 hl2
    simp only at hl1 hl2
    subst hl1
    have hzones := c.listZones_ok hostedZones hz
    have hrec : ∀ zone ∈ hostedZones.map
        (fun hostedZone => (strings.TrimPrefix hostedZone.Id "/hostedzone/", hostedZone.Name)),
        (c.client.ListResourceRecordSetsPages zone.1).err = none := by
      intro zone hzone
      obtain ⟨hostedZone, hmem, rfl⟩ := List.mem_map.1 hzone
      exact hl2 hostedZone hmem
    refine ⟨Event.call RemoteCall.ListHostedZones none ::
        (hostedZones.map
          (fun hostedZone => (strings.TrimPrefix hostedZone.Id "/hostedzone/", hostedZone.Name))).map
          (fun zone => Event.call (RemoteCall.ListResourceRecordSetsPages zone.1) none),
      (hostedZones.map
        (fun hostedZone => (strings.TrimPrefix hostedZone.Id "/hostedzone/", hostedZone.Name))).flatMap
        (fun zone =>
          (listAwsRoute53Records c.client zone.1).1.map (fun raw =>
            readTask c.reader
              { Ty := AwsRoute53RecordResourceType,
                ID := Route53RecordSupplier.recordId c.toLowerCase zone.1 raw,
                Attributes := [] })),
      ?_, ?_, ?_⟩
    · intro ev hev
      rcases List.mem_cons.mp hev with rfl | hev
      · exact ⟨_, rfl⟩
      · obtain ⟨x, -, rfl⟩ := List.mem_map.mp hev
        exact ⟨_, rfl⟩
    · intro task ht
      obtain ⟨zone, -, ht⟩ := List.mem_flatMap.mp ht
      obtain ⟨raw, -, rfl⟩ := List.mem_map.mp ht
      exact ⟨_, rfl⟩
    · simp only [Supplier.Resources, Supplier.guardsFanOut, Bool.false_eq_true, false_and,
        if_false, Route53RecordSupplier.Resources, hzones, ne_eq, not_true_eq_false]
      rw [c.listRecords_keeps_going _ _ (fun zone hzone => Or.inl (hrec zone hzone)),
        countP_isForbidden_of_none _
          (fun zone : String × String => (c.client.ListResourceRecordSetsPages zone.1).err) hrec,
        map_call_of_none _
          (fun zone : String × String => RemoteCall.ListResourceRecordSetsPages zone.1)
          (fun zone : String × String => (c.client.ListResourceRecordSetsPages zone.1).err) hrec]
      simp only [List.replicate_zero, Alerter.sendAll, List.foldl_nil, State.call,
        List.append_assoc, List.singleton_append]
      rfl
  | s3BucketAnalytic c =>
    obtain ⟨calls, tasks, h1, h2, h3⟩ := key S3ConfigKind.analytic c hl
    exact ⟨calls, tasks, h1, h2, by
      simp only [Supplier.guardsFanOut, Bool.false_eq_true, false_and, if_false]
      exact h3⟩
  | s3BucketInventory c =>
    obtain ⟨calls, tasks, h1, h2, h3⟩ := key S3ConfigKind.inventory c hl
    exact ⟨calls, tasks, h1, h2, by
      simp only [Supplier.guardsFanOut, Bool.false_eq_true, false_and, if_false]
      exact h3⟩
  | s3BucketMetric c =>
    obtain ⟨calls, tasks, h1, h2, h3⟩ := key S3ConfigKind.metric c hl
    exact ⟨calls, tasks, h1, h2, by
      simp only [Supplier.guardsFanOut, Bool.false_eq_true, false_and, if_false]
      exact h3⟩
  | s3BucketNotification n => exact absurd rfl (hs n)

/-- C15: for the nine suppliers other than the notification supplier. When every
listing succeeds (the top-level listing, the listing made for each listed user or
hosted zone, and for the S3 suppliers the region lookup and the configuration
listing of each bucket, which ends within the fuel), `Resources()` makes the remote
calls `calls`, all without error, and submits the tasks `tasks`, all reads with its
reader. Unless one of the four suppliers with the guard `len(...) > 0` has listed
nothing, it then calls `Wait()` on these tasks, and when `Wait()` answers the values
`values` with no error, `Resources()` returns, after one `Deserialize(values)`,
exactly the answer of the supplier's deserializer for `values`, list and error; so
an error of the deserializer is the error of `Resources()`; the same with any larger
fuel. When `Wait()` answers with an error, that error is returned and `Deserialize`
is not called. A guarded supplier that has listed nothing returns the answer of the
deserializer for the empty list. -/
theorem Supplier.Resources_returns_deserialized (s : Supplier)
    (hs : ∀ n, s ≠ Supplier.s3BucketNotification n) (fuel : Nat) (st : State)
    (hl : s.ListingsSucceed fuel) :
    ∃ (calls : List Event) (tasks : List Task),
      (∀ ev ∈ calls, ∃ c, ev = Event.call c none) ∧
      (∀ task ∈ tasks, ∃ args, task = readTask s.reader args) ∧
      (¬ (s.guardsFanOut = true ∧ s.listed = 0) →
        (∀ values, s.runner.Wait (st.tasks ++ tasks) = (values, none) →
          s.Resources fuel st =
            some (s.deserializer.Deserialize values,
              { alerter := st.alerter, tasks := st.tasks ++ tasks,
                trace := st.trace ++ calls ++
                  [Event.wait values none,
                    Event.deserialize values (s.deserializer.Deserialize values)] }) ∧
          (∀ e, (s.deserializer.Deserialize values).2 = some e →
            (s.Resources fuel st).map (fun r => r.1.2) = some (some e)) ∧
          (∀ fuel2, fuel ≤ fuel2 →
            (s.Resources fuel2 st).map (fun r => r.1) =
              some (s.deserializer.Deserialize values))) ∧
        (∀ values err, s.runner.Wait (st.tasks ++ tasks) = (values, some err) →
          s.Resources fuel st =
            some ((none, some err),
              { alerter := st.alerter, tasks := st.tasks ++ tasks,
                trace := st.trace ++ calls ++ [Event.wait values (some err)] }))) ∧
      (s.guardsFanOut = true ∧ s.listed = 0 →
        s.Resources fuel st =
          some (s.deserializer.Deserialize [],
            { alerter := st.alerter, tasks := st.tasks ++ tasks,
              trace := st.trace ++ calls ++
                [Event.deserialize [] (s.deserializer.Deserialize [])] })) := by
  obtain ⟨calls, tasks, hc, ht, h⟩ := Supplier.Resources_after_listings s hs fuel st hl
  refine ⟨calls, tasks, hc, ht, ?_, ?_⟩
  · intro hg
    rw [if_neg hg] at h
    refine ⟨?_, ?_⟩
    · intro values hw
      have hres : s.Resources fuel st =
          some (s.deserializer.Deserialize values,
            { alerter := st.alerter, tasks := st.tasks ++ tasks,
              trace := st.trace ++ calls ++
                [Event.wait values none,
                  Event.deserialize values (s.deserializer.Deserialize values)] }) := by
        rw [h, wait_deserialize_ok _ _ _ values hw]
      refine ⟨hres, ?_, ?_⟩
      · intro e he
        rw [hres]
        simp [he]
      · intro fuel2 hle
        rw [Supplier.Resources_mono s fuel fuel2 hle st _ hres]
        rfl
    · intro values err hw
      rw [h, wait_deserialize_failed _ _ _ values err hw]
  · intro hg
    rw [if_pos hg] at h
    rw [h]
    rfl

theorem Supplier.Resources_returns_deserialized_witness :
    (Supplier.s3BucketAnalytic analyticsOfLogsBroken).ListingsSucceed 2 ∧
    ((Supplier.s3BucketAnalytic analyticsOfLogsBroken).Resources 2 State.fresh).map
        (fun r => r.1) =
      some (failingDeserializer.Deserialize logsAnalyticsValues) ∧
    failingDeserializer.Deserialize logsAnalyticsValues =
      (none, some (GoError.plain "unsupported attribute")) ∧
    ((Supplier.s3BucketAnalytic analyticsOfLogs).Resources 2 State.fresh).map
        (fun r => (r.1, r.2.trace)) =
      some (echoDeserializer.Deserialize logsAnalyticsValues,
        [Event.call RemoteCall.ListBuckets none,
         Event.call (RemoteCall.GetBucketLocation "logs") none,
         Event.call (RemoteCall.ListBucketAnalyticsConfigurations "eu-west-1" "logs" none) none,
         Event.call (RemoteCall.ListBucketAnalyticsConfigurations "eu-west-1" "logs" (some "page2"))
           none,
         Event.call (RemoteCall.GetBucketLocation "global") none,
         Event.call (RemoteCall.GetBucketLocation "backup") none,
         Event.call (RemoteCall.ListBucketAnalyticsConfigurations "ap-northeast-1" "backup" none)
           none,
         Event.wait logsAnalyticsValues none,
         Event.deserialize logsAnalyticsValues (echoDeserializer.Deserialize logsAnalyticsValues)]) ∧
    echoDeserializer.Deserialize logsAnalyticsValues =
      (some [Resource.other "aws_s3_bucket_analytics_configuration" "logs:Analytics_Bucket1",
        Resource.other "aws_s3_bucket_analytics_configuration" "logs:Analytics2_Bucket1"], none) := by
  have hl : (Supplier.s3BucketAnalytic analyticsOfLogsBroken).ListingsSucceed 2 := by
    refine ⟨rfl, ?_⟩
    intro bucket hm
    change bucket ∈ [({ Name := "logs" } : Bucket), { Name := "global" }, { Name := "backup" }] at hm
    simp only [List.mem_cons, List.mem_singleton, List.not_mem_nil, or_false] at hm
    rcases hm with rfl | rfl | rfl
    · exact ⟨rfl, fun _ => ⟨[logsFirstPage], logsLastPage,
        ⟨rfl, rfl, rfl, fun r h => by
          injection h with h
          subst h
          decide⟩, by decide⟩⟩
    · exact ⟨rfl, fun h => absurd rfl h⟩
    · exact ⟨rfl, fun _ =>
        ⟨[], { ConfigurationList := [], IsTruncated := none, NextContinuationToken := none },
          ⟨rfl, fun r h => by
            injection h with h
            subst h
            decide⟩, by decide⟩⟩
  obtain ⟨calls, tasks, -, -, hwait, -⟩ :=
    Supplier.Resources_returns_deserialized (Supplier.s3BucketAnalytic analyticsOfLogsBroken)
      (fun n hn => by cases hn) 2 State.fresh hl
  obtain ⟨hok, hfail⟩ := hwait (by decide)
  have hlast : ((Supplier.s3BucketAnalytic analyticsOfLogsBroken).Resources 2 State.fresh).map
      (fun r => r.2.trace.getLast?) =
      some (some (Event.deserialize logsAnalyticsValues
        (failingDeserializer.Deserialize logsAnalyticsValues))) := by
    decide
  refine ⟨hl, ?_, by decide, by decide, by decide⟩
  rcases hW : (Supplier.s3BucketAnalytic analyticsOfLogsBroken).runner.Wait
      (State.fresh.tasks ++ tasks) with ⟨values, _ | err⟩
  · obtain ⟨hres, -, -⟩ := hok values hW
    rw [hres] at hlast
    simp only [Option.map_some', Option.some.injEq] at hlast
    rw [List.getLast?_append] at hlast
    simp only [List.getLast?_cons_cons, List.getLast?_singleton, Option.or, Option.some.injEq,
      Event.deserialize.injEq] at hlast
    rw [hres, ← hlast.1]
    rfl
  · have hres := hfail values err hW
    rw [hres] at hlast
    simp only [Option.map_some', Option.some.injEq] at hlast
    rw [List.getLast?_append] at hlast
    simp at hlast

end Driftctl
